import Mathlib

/-!
# ToyC compiler: optimisation passes and code generator

A shallow embedding of the ToyC middle- and back-end (`include/ast.hpp`,
`include/context.hpp`, `src/main.cpp`, `src/optimizations/*.cpp`) together with
machine-checked statements about it.

Conventions of the embedding

* A C++ `int` is a Lean `Int`; every arithmetic result is reduced with `wrap32`
  (two's complement, 32 bits).  `/` and `%` of C++ are `Int.tdiv` and `Int.tmod`.
  C++ leaves signed overflow undefined; the embedding takes the wrapped value.  For
  the one overflowing quotient, the least `int` divided by `-1`, the host's division
  traps and the C++ function does not return: `evaluate_constant`, `fold_constant` and
  `optimize_expr` give the wrapped value there, and their variants `_checked` are the
  same functions as runs that end with `Fatal.division_overflow` at that division.
  Statements that concern that division are made on the `_checked` variants.
* `std::unordered_map<std::string, T>` is an association list `List (String × T)`,
  `std::unordered_set<std::string>` a `List String`, a `std::vector` a list whose last
  element is `back()`.
* Operators stay strings, exactly as the `op` member of the AST nodes.
* A pass that rewrites a node in place and returns a replacement pointer
  (`std::unique_ptr<Expr>`, `nullptr` meaning "no replacement") is a function to
  `Option Expr × Expr`: the returned pointer and the node as it is after the call.
* `Expr::result_reg` is written by the parent immediately before the parent calls
  `generate_code`; it is an explicit argument of `generate_code` here.  Places
  that do not write it (call arguments, expression statements) pass the member's
  initial value `0`.
* `std::ostream& os` is the list of emitted lines; `exit(1)` is `Except.error`.
-/

namespace ToyC

/-! ## Machine integers -/

/-- Reduction of a mathematical integer to the 32-bit two's complement `int`. -/
def wrap32 (x : Int) : Int := (x + 2147483648) % 4294967296 - 2147483648

/-- The values an `int` can hold. -/
def Int32 (x : Int) : Prop := -2147483648 ≤ x ∧ x ≤ 2147483647

instance (x : Int) : Decidable (Int32 x) := by unfold Int32; infer_instance

/-- Conversion of a C++ `bool` to `int`. -/
def b2i (b : Bool) : Int := if b then 1 else 0

/-! ## Abstract syntax (`ast.hpp`) -/

inductive Expr where
  | IntegerExpr (value : Int)
  | IdExpr (id : String)
  | BinaryOpExpr (op : String) (lhs rhs : Expr)
  | UnaryOpExpr (op : String) (expr : Expr)
  | AssignExpr (id : String) (expr : Expr)
  | FunctionCallExpr (function_name : String) (arguments : List Expr)
  deriving Repr, Inhabited

inductive Stmt where
  | ExprStmt (expr : Expr)
  | ReturnStmt (expr : Option Expr)
  | BlockStmt (stmts : List Stmt)
  | IfStmt (condition : Expr) (then_stmt : Stmt) (else_stmt : Option Stmt)
  | WhileStmt (condition : Expr) (body : Stmt)
  | BreakStmt
  | ContinueStmt
  | DeclStmt (id : String) (expr : Option Expr)
  | EmptyStmt
  deriving Repr, Inhabited

structure Parameter where
  type : String
  name : String
  deriving Repr, DecidableEq

structure FunctionDecl where
  return_type : String
  name : String
  parameters : List Parameter
  body : Option Stmt
  deriving Repr

/-- The test `dynamic_cast<IntegerExpr*>(e)` followed by `get_value()`. -/
def as_integer : Expr → Option Int
  | .IntegerExpr value => some value
  | _ => none

/-- The test `dynamic_cast<IdExpr*>(e)` followed by `get_id()`. -/
def as_id : Expr → Option String
  | .IdExpr id => some id
  | _ => none

/-- The method `Expr::clone`: a deep copy, which is the same tree. -/
def clone (e : Expr) : Expr := e

/-! ## Compilation context (`context.hpp`) -/

/-- Lookup in a `std::unordered_map` (`find`). -/
def map_find {α : Type} (m : List (String × α)) (k : String) : Option α :=
  match m with
  | [] => none
  | (k', v) :: rest => if k' == k then some v else map_find rest k

/-- Assignment through `operator[]`: overwrite the entry or insert a new one. -/
def map_set {α : Type} (m : List (String × α)) (k : String) (v : α) : List (String × α) :=
  match m with
  | [] => [(k, v)]
  | (k', v') :: rest => if k' == k then (k, v) :: rest else (k', v') :: map_set rest k v

structure RegisterState where
  in_use : List Bool := [false, false, false, false, false, false, false, false]
  star : List Bool := [false, false, false, false, false, false, false, false]
  t_value : List String := ["", "", "", "", "", "", "", ""]
  last_used_temp : Int := 0
  deriving Repr, DecidableEq

structure Context where
  «variables» : List (String × Int) := []
  is_const : List (String × Bool) := []
  const_val : List (String × Int) := []
  used_variables : List String := []
  variables_stack : List (List (String × Int)) := []
  is_const_stack : List (List (String × Bool)) := []
  const_val_stack : List (List (String × Int)) := []
  used_variables_stack : List (List String) := []
  loop_labels : List (String × String) := []
  stack_offset : Int := -12
  current_function : String := "main"
  label_factory : String := "L"
  optimize_variable_cache : Bool := true
  deriving Repr, DecidableEq

def T_VAL_INTEGER : String := "0int"
def T_VAL_BOP_RES : String := "1bop"
def T_VAL_UNARY_RES : String := "2unary"
def T_VAL_ASSIGN : String := "3assign"
def T_VAL_DECL : String := "4decl"
def T_VAL_FUNC : String := "5func"

/-- The `static` variables of `context.hpp` (one instance for the whole run, shared by
every copy of a `Context`) and the output stream `os`, one line per element. -/
structure Globals where
  label_count : Nat := 0
  global_reg_state : RegisterState := {}
  reg_state : RegisterState := {}
  reg_state_stack : List RegisterState := []
  regs_used_in_func : List (String × List Bool) := []
  os : List String := []
  deriving Repr, DecidableEq

/-- The ways a compilation stops: the three `exit(1)` diagnostics of the code generator, the
exception of `std::unordered_map::at` on a missing key, a method call through a null
pointer, and the division of the least `int` by `-1`, whose behaviour is undefined and on which
the division instruction of the host traps. -/
inductive Fatal where
  | undeclared_variable (var : String)
  | redefinition (var : String)
  | break_not_in_loop
  | continue_not_in_loop
  | out_of_range (key : String)
  | null_dereference
  | division_overflow
  deriving Repr, DecidableEq

/-- Writing one line followed by `std::endl` to `os`. -/
def emit (line : String) (g : Globals) : Globals := { g with os := g.os ++ [line] }

/-- The method `LabelFactory::create` of the factory with prefix `p`. -/
def LabelFactory.create (p : String) (g : Globals) : String × Globals :=
  (p ++ toString g.label_count, { g with label_count := g.label_count + 1 })

namespace Context

def is_variable_used (c : Context) (var : String) : Bool := c.used_variables.contains var

def is_variable_in_current_scope (c : Context) (var : String) : Bool :=
  (map_find c.variables var).isSome

def is_variable_declared (c : Context) (var : String) : Bool :=
  (map_find c.variables var).isSome ||
    c.variables_stack.reverse.any (fun prev_vars => (map_find prev_vars var).isSome)

def find_variable_offset (c : Context) (var : String) : Except Fatal Int :=
  match map_find c.variables var with
  | some offset => .ok offset
  | none =>
    match c.variables_stack.reverse.findSome? (fun prev_vars => map_find prev_vars var) with
    | some offset => .ok offset
    | none => .error (.undeclared_variable var)

/-- The read `is_const[id]` through `operator[]`, which inserts `false` for a missing key. -/
def is_const_at (c : Context) (id : String) : Bool × Context :=
  match map_find c.is_const id with
  | some b => (b, c)
  | none => (false, { c with is_const := c.is_const ++ [(id, false)] })

def mark_register_used_inner (reg_id : Nat) (val : String) (state : RegisterState) :
    RegisterState :=
  { state with in_use := state.in_use.set reg_id true, star := state.star.set reg_id true,
               t_value := state.t_value.set reg_id val }

def mark_register_used (c : Context) (reg_id : Nat) (val : String) (g : Globals) : Globals :=
  let used := (map_find g.regs_used_in_func c.current_function).getD
    [false, false, false, false, false, false, false, false]
  { g with reg_state := mark_register_used_inner reg_id val g.reg_state,
           global_reg_state := mark_register_used_inner reg_id val g.global_reg_state,
           regs_used_in_func := map_set g.regs_used_in_func c.current_function
             (used.set reg_id true) }

/-- The scan `for (i = 0; i < 7; i++)`; `none` stands for the result `-1`. -/
def is_var_in_reg_inner (var : String) (state : RegisterState) : Option Nat :=
  (List.range 7).find? (fun i => state.in_use.getD i false && state.t_value.getD i "" == var)

def is_var_in_reg (var : String) (g : Globals) : Option Nat :=
  is_var_in_reg_inner var g.reg_state

def mark_register_free_inner (reg_id : Nat) (state : RegisterState) : RegisterState :=
  { state with in_use := state.in_use.set reg_id false, t_value := state.t_value.set reg_id "",
               star := state.star.set reg_id false }

def mark_register_free (reg_id : Nat) (g : Globals) : Globals :=
  { g with reg_state := mark_register_free_inner reg_id g.reg_state,
           reg_state_stack := g.reg_state_stack.map (mark_register_free_inner reg_id) }

def get_next_temp_register_id (g : Globals) : Nat × Globals :=
  match (List.range' 2 5).find? (fun i => !(g.global_reg_state.in_use.getD i false)) with
  | some i => (i, g)
  | none =>
    match (List.range' 2 5).find? (fun i => !(g.global_reg_state.star.getD i false)) with
    | some i => (i, g)
    | none =>
      let cleared := (List.range' 2 5).foldl (fun s i => s.set i false) g.global_reg_state.star
      (2, { g with global_reg_state := { g.global_reg_state with star := cleared } })

end Context

/-! ## Constant-ness and constant evaluation (`ast.hpp`) -/

/-- The method `Expr::is_constant` with its overrides. -/
def is_constant (context : Context) : Expr → Bool
  | .IntegerExpr _ => true
  | .IdExpr id => (map_find context.is_const id).getD false
  | .BinaryOpExpr _ lhs rhs => is_constant context lhs && is_constant context rhs
  | .UnaryOpExpr _ expr => is_constant context expr
  | .AssignExpr _ _ => false
  | .FunctionCallExpr _ _ => false

/-- The method `Expr::evaluate_constant` with its overrides: the value it returns.  At a
division of the least `int` by `-1`, where the C++ function is ended by the division trap, the
value here is the wrapped quotient or remainder; `evaluate_constant_checked` has the trap. -/
def evaluate_constant (context : Context) : Expr → Int
  | .IntegerExpr value => value
  | .IdExpr id => (map_find context.const_val id).getD 0
  | .BinaryOpExpr op lhs rhs =>
    if !(is_constant context lhs && is_constant context rhs) then 0 else
    let l := evaluate_constant context lhs
    let r := evaluate_constant context rhs
    if op = "+" then wrap32 (l + r)
    else if op = "-" then wrap32 (l - r)
    else if op = "*" then wrap32 (l * r)
    else if op = "/" ∧ r ≠ 0 then wrap32 (Int.tdiv l r)
    else if op = "%" ∧ r ≠ 0 then wrap32 (Int.tmod l r)
    else if op = "==" then (if l = r then 1 else 0)
    else if op = "!=" then (if l ≠ r then 1 else 0)
    else if op = "<" then (if l < r then 1 else 0)
    else if op = ">" then (if l > r then 1 else 0)
    else if op = "<=" then (if l ≤ r then 1 else 0)
    else if op = ">=" then (if l ≥ r then 1 else 0)
    else if op = "&&" then (if l ≠ 0 ∧ r ≠ 0 then 1 else 0)
    else if op = "||" then (if l ≠ 0 ∨ r ≠ 0 then 1 else 0)
    else 0
  | .UnaryOpExpr op expr =>
    if !(is_constant context expr) then 0 else
    let val := evaluate_constant context expr
    if op = "-" then wrap32 (-val)
    else if op = "+" then val
    else if op = "!" then b2i (val == 0)
    else val
  | .AssignExpr _ _ => 0
  | .FunctionCallExpr _ _ => 0

/-! ## Code generation for expressions (`main.cpp`) -/

/-- The name `t<reg>` of a temporary register. -/
def treg (reg : Nat) : String := "t" ++ toString reg

/-- The literal materialisation that `main.cpp` writes out at each of its uses: `mv` from
`zero`, `addi` for a 12-bit immediate, `lui` when the low 12 bits are clear, else `li`. -/
def load_immediate (reg : String) (value : Int) : String :=
  if value = 0 then "  mv " ++ reg ++ ", zero"
  else if value ≥ -2048 ∧ value ≤ 2047 then "  addi " ++ reg ++ ", zero, " ++ toString value
  else if value % 4096 = 0 then "  lui " ++ reg ++ ", " ++ toString (value >>> 12)
  else "  li " ++ reg ++ ", " ++ toString value

def IntegerExpr.generate_code (value : Int) (result_reg : Nat) (context : Context)
    (g : Globals) : Globals :=
  let g := emit (load_immediate (treg result_reg) value) g
  let g := Context.mark_register_free result_reg g
  context.mark_register_used result_reg T_VAL_INTEGER g

def IdExpr.generate_code (id : String) (result_reg : Nat) (context : Context) (g : Globals) :
    Except Fatal (Context × Globals) :=
  if context.optimize_variable_cache then
    match Context.is_var_in_reg id g with
    | some var_reg =>
      let g := emit ("# " ++ id ++ " already in t" ++ toString var_reg) g
      let g :=
        if result_reg ≠ var_reg then
          emit ("  mv t" ++ toString result_reg ++ ", t" ++ toString var_reg) g
        else emit ("# mv t" ++ toString result_reg ++ ", t" ++ toString var_reg) g
      let g := Context.mark_register_free result_reg g
      .ok (context, context.mark_register_used result_reg id g)
    | none =>
      let (c, context) := context.is_const_at id
      if c then
        match map_find context.const_val id with
        | none => .error (.out_of_range id)
        | some value =>
          let g := emit (load_immediate (treg result_reg) value) g
          let g := Context.mark_register_free result_reg g
          .ok (context, context.mark_register_used result_reg id g)
      else
        match context.find_variable_offset id with
        | .error e => .error e
        | .ok offset =>
          let (cached_reg, g) := Context.get_next_temp_register_id g
          let g := Context.mark_register_free cached_reg g
          let g := context.mark_register_used cached_reg id g
          let g := emit ("  # " ++ id ++ " saved to t" ++ toString cached_reg) g
          let g := emit ("  lw t" ++ toString cached_reg ++ ", " ++ toString offset ++ "(s0)") g
          .ok (context, emit ("  mv t" ++ toString result_reg ++ ", t" ++ toString cached_reg) g)
  else
    let (c, context) := context.is_const_at id
    if c then
      match map_find context.const_val id with
      | none => .error (.out_of_range id)
      | some value => .ok (context, emit (load_immediate (treg result_reg) value) g)
    else
      match context.find_variable_offset id with
      | .error e => .error e
      | .ok offset =>
        .ok (context, emit ("  lw t" ++ toString result_reg ++ ", " ++ toString offset ++ "(s0)") g)

namespace BinaryOpExpr

/-- The labels of a short-circuit operator: `false_label`, `true_label`, `end_label`. -/
structure Labels where
  false_label : String := ""
  true_label : String := ""
  end_label : String := ""
  deriving Repr, DecidableEq

/-- The entry of `&&` and `||` (the block after the left operand): two fresh labels and the
branch around the right operand. -/
def short_circuit_entry (op : String) (context : Context) (g : Globals) : Labels × Globals :=
  if op = "&&" then
    let (false_label, g) := LabelFactory.create context.label_factory g
    let (end_label, g) := LabelFactory.create context.label_factory g
    let g := emit ("  snez t" ++ toString 0 ++ ", t" ++ toString 0 ++ "") g
    let g := emit ("  beqz t" ++ toString 0 ++ ", " ++ false_label) g
    ({ false_label := false_label, end_label := end_label }, g)
  else if op = "||" then
    let (true_label, g) := LabelFactory.create context.label_factory g
    let (end_label, g) := LabelFactory.create context.label_factory g
    let g := emit ("  snez t" ++ toString 0 ++ ", t" ++ toString 0 ++ "") g
    let g := emit ("  bnez t" ++ toString 0 ++ ", " ++ true_label) g
    ({ true_label := true_label, end_label := end_label }, g)
  else ({}, g)

/-- The "operand avoids memory" path: a declared identifier or an integer literal on the
right is loaded straight into `t1`.  The result is `none` when `avoid_stack` stays false. -/
def load_simple_rhs (rhs : Expr) (context : Context) (g : Globals) :
    Option (Except Fatal Globals) :=
  match rhs with
  | .IdExpr id =>
    if context.is_variable_declared id then
      match Context.is_var_in_reg id g with
      | some cached_reg => some (.ok (emit ("  mv t" ++ toString 1 ++ ", t" ++ toString cached_reg) g))
      | none =>
        match context.find_variable_offset id with
        | .error e => some (.error e)
        | .ok offset =>
          some (.ok (emit ("  lw t" ++ toString 1 ++ ", " ++ toString offset ++ "(s0)") g))
    else none
  | .IntegerExpr value => some (.ok (emit (load_immediate (treg 1) value) g))
  | _ => none

/-- The zero check in front of `div` and `rem`: a fresh label, `bnez` over the jump to
`.L_div_error`, the label, then the instruction `mnemonic`. -/
def guarded (mnemonic : String) (context : Context) (g : Globals) : Globals :=
  let (not_div_err_label, g) := LabelFactory.create context.label_factory g
  let g := emit ("  bnez t" ++ toString 1 ++ ", " ++ not_div_err_label) g
  let g := emit "  j .L_div_error" g
  let g := emit (not_div_err_label ++ ":") g
  emit ("  " ++ mnemonic ++ " t" ++ toString 0 ++ ", t" ++ toString 0 ++ ", t" ++ toString 1) g

/-- The instruction selection by operator that ends `BinaryOpExpr::generate_code`
(result in `t0`, left operand in `t0`, right operand in `t1`). -/
def emit_operation (op : String) (rhs : Expr) (rhs_is_simple : Bool) (labels : Labels)
    (context : Context) (g : Globals) : Globals :=
  let t0 := "t" ++ toString 0
  let t1 := "t" ++ toString 1
  let int_rhs : Option Int := if rhs_is_simple then as_integer rhs else none
  if op = "+" then
    if int_rhs = some 0 then emit ("  mv " ++ t0 ++ ", " ++ t0) g
    else emit ("  add " ++ t0 ++ ", " ++ t0 ++ ", " ++ t1) g
  else if op = "-" then
    if int_rhs = some 0 then emit ("  mv " ++ t0 ++ ", " ++ t0) g
    else emit ("  sub " ++ t0 ++ ", " ++ t0 ++ ", " ++ t1) g
  else if op = "*" then
    match int_rhs with
    | some value =>
      if value = 0 then emit ("  mv " ++ t0 ++ ", zero") g
      else if value = 1 then emit ("  mv " ++ t0 ++ ", " ++ t0) g
      else if value = 2 then emit ("  slli " ++ t0 ++ ", " ++ t0 ++ ", 1") g
      else if value = 4 then emit ("  slli " ++ t0 ++ ", " ++ t0 ++ ", 2") g
      else if value = 8 then emit ("  slli " ++ t0 ++ ", " ++ t0 ++ ", 3") g
      else if value = 16 then emit ("  slli " ++ t0 ++ ", " ++ t0 ++ ", 4") g
      else if value = 32 then emit ("  slli " ++ t0 ++ ", " ++ t0 ++ ", 5") g
      else emit ("  mul " ++ t0 ++ ", " ++ t0 ++ ", " ++ t1) g
    | none => emit ("  mul " ++ t0 ++ ", " ++ t0 ++ ", " ++ t1) g
  else if op = "/" then
    match int_rhs with
    | some value =>
      if value = 1 then emit ("  mv " ++ t0 ++ ", " ++ t0) g
      else if value = 2 then emit ("  srai " ++ t0 ++ ", " ++ t0 ++ ", 1") g
      else if value = 4 then emit ("  srai " ++ t0 ++ ", " ++ t0 ++ ", 2") g
      else if value = 8 then emit ("  srai " ++ t0 ++ ", " ++ t0 ++ ", 3") g
      else if value = 16 then emit ("  srai " ++ t0 ++ ", " ++ t0 ++ ", 4") g
      else if value = 32 then emit ("  srai " ++ t0 ++ ", " ++ t0 ++ ", 5") g
      else guarded "div" context g
    | none => guarded "div" context g
  else if op = "%" then
    match int_rhs with
    | some value =>
      if value = 1 then emit ("  mv " ++ t0 ++ ", zero") g
      else if value = 2 then emit ("  andi " ++ t0 ++ ", " ++ t0 ++ ", 1") g
      else if value = 4 then emit ("  andi " ++ t0 ++ ", " ++ t0 ++ ", 3") g
      else if value = 8 then emit ("  andi " ++ t0 ++ ", " ++ t0 ++ ", 7") g
      else if value = 16 then emit ("  andi " ++ t0 ++ ", " ++ t0 ++ ", 15") g
      else if value = 32 then emit ("  andi " ++ t0 ++ ", " ++ t0 ++ ", 31") g
      else guarded "rem" context g
    | none => guarded "rem" context g
  else if op = "==" then
    let g := emit ("  sub " ++ t0 ++ ", " ++ t0 ++ ", " ++ t1) g
    emit ("  seqz " ++ t0 ++ ", " ++ t0 ++ "") g
  else if op = "!=" then
    let g := emit ("  sub " ++ t0 ++ ", " ++ t0 ++ ", " ++ t1) g
    emit ("  snez " ++ t0 ++ ", " ++ t0 ++ "") g
  else if op = ">" then emit ("  slt " ++ t0 ++ ", " ++ t1 ++ ", " ++ t0) g
  else if op = "<" then emit ("  slt " ++ t0 ++ ", " ++ t0 ++ ", " ++ t1) g
  else if op = "<=" then
    let g := emit ("  slt " ++ t0 ++ ", " ++ t1 ++ ", " ++ t0) g
    emit ("  xori " ++ t0 ++ ", " ++ t0 ++ ", 1") g
  else if op = ">=" then
    let g := emit ("  slt " ++ t0 ++ ", " ++ t0 ++ ", " ++ t1) g
    emit ("  xori " ++ t0 ++ ", " ++ t0 ++ ", 1") g
  else if op = "&&" then
    let g := emit ("  snez " ++ t0 ++ ", " ++ t1) g
    let g := emit ("  beqz " ++ t0 ++ ", " ++ labels.false_label) g
    let g := emit ("  li " ++ t0 ++ ", 1") g
    let g := emit ("  j " ++ labels.end_label) g
    let g := emit (labels.false_label ++ ":") g
    let g := emit ("  li " ++ t0 ++ ", 0") g
    emit (labels.end_label ++ ":") g
  else if op = "||" then
    let g := emit ("  snez " ++ t0 ++ ", " ++ t1) g
    let g := emit ("  bnez " ++ t0 ++ ", " ++ labels.true_label) g
    let g := emit ("  li " ++ t0 ++ ", 0") g
    let g := emit ("  j " ++ labels.end_label) g
    let g := emit (labels.true_label ++ ":") g
    let g := emit ("  li " ++ t0 ++ ", 1") g
    emit (labels.end_label ++ ":") g
  else g

/-- The closing `mark_register_free(result_reg); mark_register_used(result_reg, ...)`. -/
def finish (context : Context) (g : Globals) : Globals :=
  context.mark_register_used 0 T_VAL_BOP_RES (Context.mark_register_free 0 g)

end BinaryOpExpr

/-- The loop of `FunctionCallExpr::generate_code` that frees every temporary the callee is
recorded to use (`regs_used_in_func[function_name]`, created empty when missing). -/
def free_callee_registers (function_name : String) (g : Globals) : Globals :=
  let used := (map_find g.regs_used_in_func function_name).getD
    [false, false, false, false, false, false, false, false]
  let table :=
    match map_find g.regs_used_in_func function_name with
    | some _ => g.regs_used_in_func
    | none => g.regs_used_in_func ++ [(function_name, used)]
  let g := { g with regs_used_in_func := table }
  (List.range used.length).foldl
    (fun g temp => if used.getD temp false then Context.mark_register_free temp g else g) g

mutual
/-- The method `generate_code` of the expression classes; `result_reg` is the member the
caller has just written. -/
def generate_code : Expr → Nat → Context → Globals → Except Fatal (Context × Globals)
  | .IntegerExpr value, result_reg, context, g =>
    .ok (context, IntegerExpr.generate_code value result_reg context g)
  | .IdExpr id, result_reg, context, g => IdExpr.generate_code id result_reg context g
  | .BinaryOpExpr op lhs rhs, _, context, g =>
    if is_constant context (.BinaryOpExpr op lhs rhs) then
      let result := evaluate_constant context (.BinaryOpExpr op lhs rhs)
      let g := IntegerExpr.generate_code result 0 context g
      .ok (context, BinaryOpExpr.finish context g)
    else
      match generate_code lhs 0 context g with
      | .error e => .error e
      | .ok (context, g) =>
        let (labels, g) := BinaryOpExpr.short_circuit_entry op context g
        match BinaryOpExpr.load_simple_rhs rhs context g with
        | some (.error e) => .error e
        | some (.ok g) =>
          let g := BinaryOpExpr.emit_operation op rhs true labels context g
          .ok (context, BinaryOpExpr.finish context g)
        | none =>
          let g := emit "  addi sp, sp, -4" g
          let g := emit ("  sw t" ++ toString 0 ++ ", 0(sp)") g
          match generate_code rhs 1 context g with
          | .error e => .error e
          | .ok (context, g) =>
            let g := emit ("  mv t" ++ toString 1 ++ ", t0") g
            let g := emit ("  lw t" ++ toString 0 ++ ", 0(sp)") g
            let g := emit "  addi sp, sp, 4" g
            let g := BinaryOpExpr.emit_operation op rhs false labels context g
            .ok (context, BinaryOpExpr.finish context g)
  | .UnaryOpExpr op expr, result_reg, context, g =>
    let folded (value : Int) : Except Fatal (Context × Globals) :=
      let g := IntegerExpr.generate_code value result_reg context g
      let g := Context.mark_register_free result_reg g
      .ok (context, context.mark_register_used result_reg T_VAL_UNARY_RES g)
    if is_constant context expr ∧ op = "-" then
      folded (wrap32 (-(evaluate_constant context expr)))
    else if is_constant context expr ∧ op = "+" then
      folded (evaluate_constant context expr)
    else if is_constant context expr ∧ op = "!" then
      folded (b2i (evaluate_constant context expr == 0))
    else
      match generate_code expr result_reg context g with
      | .error e => .error e
      | .ok (context, g) =>
        let t := "t" ++ toString result_reg
        let g := if op = "-" then emit ("  neg " ++ t ++ ", " ++ t ++ "") g else g
        let g := if op = "!" then emit ("  seqz " ++ t ++ ", " ++ t ++ "") g else g
        let g := Context.mark_register_free result_reg g
        .ok (context, context.mark_register_used result_reg T_VAL_UNARY_RES g)
  | .AssignExpr var_id expr, result_reg, context, g =>
    match generate_code expr result_reg context g with
    | .error e => .error e
    | .ok (context, g) =>
      match context.find_variable_offset var_id with
      | .error e => .error e
      | .ok offset =>
        let store := "  sw t" ++ toString result_reg ++ ", " ++ toString offset ++ "(s0)"
        if context.optimize_variable_cache then
          let g :=
            match Context.is_var_in_reg var_id g with
            | some var_reg => emit ("  mv t" ++ toString var_reg ++ ", t" ++ toString result_reg) g
            | none => g
          let g := emit store g
          .ok (context, context.mark_register_used result_reg var_id g)
        else .ok (context, emit store g)
  | .FunctionCallExpr function_name arguments, result_reg, context, g =>
    let n := arguments.length
    let g := if n > 8 then emit ("  addi sp, sp, -" ++ toString ((n - 8) * 4)) g else g
    match generate_arguments arguments 0 n context g with
    | .error e => .error e
    | .ok (context, g) =>
      let g := emit ("  call " ++ function_name) g
      let g := emit ("  mv t" ++ toString result_reg ++ ", a0") g
      let g := free_callee_registers function_name g
      let g := Context.mark_register_free result_reg g
      let g := context.mark_register_used result_reg T_VAL_FUNC g
      let g := if n > 8 then emit ("  addi sp, sp, " ++ toString ((n - 8) * 4)) g else g
      .ok (context, g)

/-- The argument loop of a call: argument `i` of `n` is evaluated (into `t0`) and moved to
`a<i>` or stored in the outgoing stack area. -/
def generate_arguments : List Expr → Nat → Nat → Context → Globals →
    Except Fatal (Context × Globals)
  | [], _, _, context, g => .ok (context, g)
  | argument :: rest, i, n, context, g =>
    match generate_code argument 0 context g with
    | .error e => .error e
    | .ok (context, g) =>
      let g :=
        if i < 8 then emit ("  mv a" ++ toString i ++ ", t0") g
        else emit ("  sw t0, " ++ toString ((n - 8) * 4 - ((i - 8) * 4 + 4)) ++ "(sp)") g
      generate_arguments rest (i + 1) n context g
end

/-! ## Algebraic simplification (`optimizations/algebraic.cpp`) -/

namespace AlgebraicPass

def is_constant_foldable (expr : Expr) (context : Context) : Bool :=
  match expr with
  | .BinaryOpExpr _ lhs rhs => is_constant context lhs && is_constant context rhs
  | .UnaryOpExpr _ e => is_constant context e
  | _ => false

/-- The function `fold_constant`: the value it returns; `fold_constant_checked` is the same
function with the trap of the division of the least `int` by `-1`. -/
def fold_constant (expr : Expr) (context : Context) : Int :=
  match expr with
  | .BinaryOpExpr op lhs rhs =>
    let lhs_val := evaluate_constant context lhs
    let rhs_val := evaluate_constant context rhs
    if op = "+" then wrap32 (lhs_val + rhs_val)
    else if op = "-" then wrap32 (lhs_val - rhs_val)
    else if op = "*" then wrap32 (lhs_val * rhs_val)
    else if op = "/" then (if rhs_val ≠ 0 then wrap32 (Int.tdiv lhs_val rhs_val) else 0)
    else if op = "%" then (if rhs_val ≠ 0 then wrap32 (Int.tmod lhs_val rhs_val) else 0)
    else if op = "==" then b2i (lhs_val == rhs_val)
    else if op = "!=" then b2i (lhs_val != rhs_val)
    else if op = "<" then b2i (decide (lhs_val < rhs_val))
    else if op = ">" then b2i (decide (lhs_val > rhs_val))
    else if op = "<=" then b2i (decide (lhs_val ≤ rhs_val))
    else if op = ">=" then b2i (decide (lhs_val ≥ rhs_val))
    else if op = "&&" then b2i (lhs_val != 0 && rhs_val != 0)
    else if op = "||" then b2i (lhs_val != 0 || rhs_val != 0)
    else 0
  | .UnaryOpExpr op e =>
    let val := evaluate_constant context e
    if op = "-" then wrap32 (-val)
    else if op = "!" then b2i (val == 0)
    else 0
  | _ => 0

/-- The body of `optimize_binary_op` on the node `op lhs rhs`.  The two recursive calls
`optimize_expr(lhs)` and `optimize_expr(rhs)` that close the C++ function are made by the
caller and handed in as `optimized_lhs` and `optimized_rhs`; they are used only when no
identity returned earlier. -/
def optimize_binary_op_body (op : String) (lhs rhs : Expr)
    (optimized_lhs optimized_rhs : Option Expr × Expr) : Option Expr × Expr :=
  let here := Expr.BinaryOpExpr op lhs rhs
  let recurse : Option Expr × Expr :=
    (none, .BinaryOpExpr op (optimized_lhs.1.getD optimized_lhs.2)
      (optimized_rhs.1.getD optimized_rhs.2))
  if op = "+" then
    if as_integer lhs = some 0 then (some (clone rhs), here)
    else if as_integer rhs = some 0 then (some (clone lhs), here)
    else recurse
  else if op = "-" then
    if as_integer rhs = some 0 then (some (clone lhs), here)
    else
      match as_id lhs, as_id rhs with
      | some id_lhs, some id_rhs =>
        if id_lhs = id_rhs then (some (.IntegerExpr 0), here) else recurse
      | _, _ => recurse
  else if op = "*" then
    if as_integer lhs = some 0 then (some (.IntegerExpr 0), here)
    else if as_integer lhs = some 1 then (some (clone rhs), here)
    else if as_integer rhs = some 0 then (some (.IntegerExpr 0), here)
    else if as_integer rhs = some 1 then (some (clone lhs), here)
    else recurse
  else if op = "/" then
    if as_integer lhs = some 0 then (some (.IntegerExpr 0), here)
    else if as_integer rhs = some 1 then (some (clone lhs), here)
    else recurse
  else if op = "%" then
    if as_integer rhs = some 1 then (some (.IntegerExpr 0), here)
    else recurse
  else recurse

/-- The pass entry for one expression: the replacement (if any) and the node after the call. -/
def optimize_expr (context : Context) : Expr → Option Expr × Expr
  | .BinaryOpExpr op lhs rhs =>
    if is_constant_foldable (.BinaryOpExpr op lhs rhs) context then
      (some (.IntegerExpr (fold_constant (.BinaryOpExpr op lhs rhs) context)),
        .BinaryOpExpr op lhs rhs)
    else
      optimize_binary_op_body op lhs rhs (optimize_expr context lhs) (optimize_expr context rhs)
  | .UnaryOpExpr op e =>
    if is_constant_foldable (.UnaryOpExpr op e) context then
      (some (.IntegerExpr (fold_constant (.UnaryOpExpr op e) context)), .UnaryOpExpr op e)
    else
      let r := optimize_expr context e
      (none, .UnaryOpExpr op (r.1.getD r.2))
  | e => (none, e)

def optimize_binary_op (expr : Expr) (context : Context) : Option Expr × Expr :=
  match expr with
  | .BinaryOpExpr op lhs rhs =>
    optimize_binary_op_body op lhs rhs (optimize_expr context lhs) (optimize_expr context rhs)
  | e => (none, e)

/-- The expression a statement holds after `optimize_expr` ran on it: the replacement when
one was returned (`set_expr`), else the node as rewritten in place. -/
def updated (r : Option Expr × Expr) : Expr := r.1.getD r.2

mutual
/-- The statement walk of the pass, returning the statement as it is afterwards.  The last
branch of the C++ function, `dynamic_cast<AssignExpr*>(stmt)`, can never succeed (an
`AssignExpr` is an expression, not a statement), so every other statement is left as it is. -/
def optimize_stmt (context : Context) : Stmt → Stmt
  | .BlockStmt stmts => .BlockStmt (optimize_stmts context stmts)
  | .IfStmt condition then_stmt (some else_stmt) =>
    .IfStmt condition (optimize_stmt context then_stmt) (some (optimize_stmt context else_stmt))
  | .IfStmt condition then_stmt none => .IfStmt condition (optimize_stmt context then_stmt) none
  | .WhileStmt condition body => .WhileStmt condition (optimize_stmt context body)
  | .ExprStmt expr => .ExprStmt (updated (optimize_expr context expr))
  | .ReturnStmt (some expr) => .ReturnStmt (some (updated (optimize_expr context expr)))
  | .ReturnStmt none => .ReturnStmt none
  | .BreakStmt => .BreakStmt
  | .ContinueStmt => .ContinueStmt
  | .DeclStmt id expr => .DeclStmt id expr
  | .EmptyStmt => .EmptyStmt

/-- The loop `for (auto& s : block->get_stmts()) optimize_stmt(s.get(), context)`. -/
def optimize_stmts (context : Context) : List Stmt → List Stmt
  | [] => []
  | s :: rest => optimize_stmt context s :: optimize_stmts context rest
end

end AlgebraicPass

/-! ## Strength reduction (`optimizations/strength_reduction.cpp`) -/

namespace StrengthReductionPass

/-- The test `value > 0 && (value & (value - 1)) == 0`; both operands of `&` are
non-negative where it is evaluated. -/
def is_power_of_two (value : Int) : Bool :=
  decide (value > 0) && (value.toNat &&& (value - 1).toNat) == 0

/-- The loop `while (value > 1) { value >>= 1; power++; }`, at most `fuel` iterations. -/
def get_power_of_two_loop : Nat → Int → Int → Int
  | 0, _, power => power
  | fuel + 1, value, power =>
    if value > 1 then get_power_of_two_loop fuel (value >>> 1) (power + 1) else power

/-- The exponent of a power of two; the loop halves `value`, so `value` iterations are
more than it can make. -/
def get_power_of_two (value : Int) : Int :=
  if !is_power_of_two value then 0 else get_power_of_two_loop value.toNat value 0

/-- The body of `optimize_binary_op` on the node `op lhs rhs`; the closing recursive calls
are handed in as `optimized_lhs` and `optimized_rhs`. -/
def optimize_binary_op_body (op : String) (lhs rhs : Expr)
    (optimized_lhs optimized_rhs : Option Expr × Expr) : Option Expr × Expr :=
  let here := Expr.BinaryOpExpr op lhs rhs
  let recurse : Option Expr × Expr :=
    (none, .BinaryOpExpr op (optimized_lhs.1.getD optimized_lhs.2)
      (optimized_rhs.1.getD optimized_rhs.2))
  let shift_of (operand : Expr) (value : Int) : Option Expr × Expr :=
    (some (.BinaryOpExpr "<<" (clone operand) (.IntegerExpr (get_power_of_two value))), here)
  let try_rhs_mul : Option Expr × Expr :=
    match as_integer rhs with
    | some value =>
      if value = 0 then (some (.IntegerExpr 0), here)
      else if value = 1 then (some (clone lhs), here)
      else if is_power_of_two value then shift_of lhs value
      else recurse
    | none => recurse
  if op = "*" then
    match as_integer lhs with
    | some value =>
      if value = 0 then (some (.IntegerExpr 0), here)
      else if value = 1 then (some (clone rhs), here)
      else if is_power_of_two value then shift_of rhs value
      else try_rhs_mul
    | none => try_rhs_mul
  else if op = "/" then
    match as_integer rhs with
    | some value =>
      if value = 1 then (some (clone lhs), here)
      else if is_power_of_two value then
        (some (.BinaryOpExpr ">>" (clone lhs) (.IntegerExpr (get_power_of_two value))), here)
      else recurse
    | none => recurse
  else if op = "%" then
    match as_integer rhs with
    | some value =>
      if value = 1 then (some (.IntegerExpr 0), here)
      else if is_power_of_two value then
        (some (.BinaryOpExpr "&" (clone lhs) (.IntegerExpr (wrap32 (value - 1)))), here)
      else recurse
    | none => recurse
  else if op = "+" then
    if as_integer lhs = some 0 then (some (clone rhs), here)
    else if as_integer rhs = some 0 then (some (clone lhs), here)
    else recurse
  else if op = "-" then
    if as_integer rhs = some 0 then (some (clone lhs), here)
    else recurse
  else recurse

def optimize_expr (context : Context) : Expr → Option Expr × Expr
  | .BinaryOpExpr op lhs rhs =>
    optimize_binary_op_body op lhs rhs (optimize_expr context lhs) (optimize_expr context rhs)
  | .UnaryOpExpr op e =>
    let r := optimize_expr context e
    (none, .UnaryOpExpr op (r.1.getD r.2))
  | e => (none, e)

def optimize_binary_op (expr : Expr) (context : Context) : Option Expr × Expr :=
  match expr with
  | .BinaryOpExpr op lhs rhs =>
    optimize_binary_op_body op lhs rhs (optimize_expr context lhs) (optimize_expr context rhs)
  | e => (none, e)

/-- The expression a statement holds after `optimize_expr` ran on it: the replacement when
one was returned (`set_expr`), else the node as rewritten in place. -/
def updated (r : Option Expr × Expr) : Expr := r.1.getD r.2

mutual
/-- The statement walk of the pass, returning the statement as it is afterwards.  As in the
algebraic pass, the last branch `dynamic_cast<AssignExpr*>(stmt)` can never succeed. -/
def optimize_stmt (context : Context) : Stmt → Stmt
  | .BlockStmt stmts => .BlockStmt (optimize_stmts context stmts)
  | .IfStmt condition then_stmt (some else_stmt) =>
    .IfStmt condition (optimize_stmt context then_stmt) (some (optimize_stmt context else_stmt))
  | .IfStmt condition then_stmt none => .IfStmt condition (optimize_stmt context then_stmt) none
  | .WhileStmt condition body => .WhileStmt condition (optimize_stmt context body)
  | .ExprStmt expr => .ExprStmt (updated (optimize_expr context expr))
  | .ReturnStmt (some expr) => .ReturnStmt (some (updated (optimize_expr context expr)))
  | .ReturnStmt none => .ReturnStmt none
  | .BreakStmt => .BreakStmt
  | .ContinueStmt => .ContinueStmt
  | .DeclStmt id expr => .DeclStmt id expr
  | .EmptyStmt => .EmptyStmt

/-- The loop over the statements of a block. -/
def optimize_stmts (context : Context) : List Stmt → List Stmt
  | [] => []
  | s :: rest => optimize_stmt context s :: optimize_stmts context rest
end

end StrengthReductionPass

/-! ## Reference semantics of the source language

Direct evaluation of `a op b` on 32-bit signed integers, written from the language
description and independently of the compiler's own folding code: division truncates
toward zero, the remainder takes the sign of the dividend, comparisons and logical
operators yield `0` or `1`, and division by zero has no value. -/

/-- The thirteen binary operators of the language. -/
def binary_ops : List String :=
  ["+", "-", "*", "/", "%", "==", "!=", "<", ">", "<=", ">=", "&&", "||"]

/-- Quotient rounded toward zero: the quotient of the magnitudes with the product sign. -/
def trunc_div (a b : Int) : Int := Int.sign a * Int.sign b * ((a.natAbs / b.natAbs : Nat) : Int)

/-- Remainder with the sign of the dividend. -/
def c_rem (a b : Int) : Int := Int.sign a * ((a.natAbs % b.natAbs : Nat) : Int)

/-- Direct evaluation of `a op b`; `none` for a division by zero or an unknown operator. -/
def direct_eval (op : String) (a b : Int) : Option Int :=
  if op = "+" then some (wrap32 (a + b))
  else if op = "-" then some (wrap32 (a - b))
  else if op = "*" then some (wrap32 (a * b))
  else if op = "/" then (if b = 0 then none else some (wrap32 (trunc_div a b)))
  else if op = "%" then (if b = 0 then none else some (wrap32 (c_rem a b)))
  else if op = "==" then some (if a = b then 1 else 0)
  else if op = "!=" then some (if a = b then 0 else 1)
  else if op = "<" then some (if a < b then 1 else 0)
  else if op = ">" then some (if b < a then 1 else 0)
  else if op = "<=" then some (if a ≤ b then 1 else 0)
  else if op = ">=" then some (if b ≤ a then 1 else 0)
  else if op = "&&" then some (if a = 0 then 0 else if b = 0 then 0 else 1)
  else if op = "||" then some (if a = 0 then (if b = 0 then 0 else 1) else 1)
  else none

/-! ## Shapes of expressions named by the statements -/

mutual
/-- Some binary subexpression of the expression has an integer literal as each operand. -/
def has_literal_binary : Expr → Bool
  | .IntegerExpr _ => false
  | .IdExpr _ => false
  | .BinaryOpExpr _ lhs rhs =>
    ((as_integer lhs).isSome && (as_integer rhs).isSome) ||
      has_literal_binary lhs || has_literal_binary rhs
  | .UnaryOpExpr _ e => has_literal_binary e
  | .AssignExpr _ e => has_literal_binary e
  | .FunctionCallExpr _ arguments => any_has_literal_binary arguments

def any_has_literal_binary : List Expr → Bool
  | [] => false
  | e :: rest => has_literal_binary e || any_has_literal_binary rest
end

/-- The node itself has one of the forms `x+0`, `0+x`, `x-0`, `x*1`, `x*0`. -/
def is_identity_form : Expr → Bool
  | .BinaryOpExpr op lhs rhs =>
    (op = "+" && (as_integer rhs = some 0 || as_integer lhs = some 0)) ||
    (op = "-" && as_integer rhs = some 0) ||
    (op = "*" && (as_integer rhs = some 1 || as_integer rhs = some 0))
  | _ => false

mutual
/-- Some subexpression of the expression has one of the forms `x+0`, `0+x`, `x-0`, `x*1`,
`x*0`. -/
def has_identity_form : Expr → Bool
  | .IntegerExpr _ => false
  | .IdExpr _ => false
  | .BinaryOpExpr op lhs rhs =>
    is_identity_form (.BinaryOpExpr op lhs rhs) || has_identity_form lhs || has_identity_form rhs
  | .UnaryOpExpr _ e => has_identity_form e
  | .AssignExpr _ e => has_identity_form e
  | .FunctionCallExpr _ arguments => any_has_identity_form arguments

def any_has_identity_form : List Expr → Bool
  | [] => false
  | e :: rest => has_identity_form e || any_has_identity_form rest
end

/-! ## Target instructions named by the statements

The two RV32 instructions the code generator selects for a division and a remainder by a
small power of two, on 32-bit two's complement register values. -/

/-- The unsigned reading of a 32-bit register value. -/
def to_u32 (x : Int) : Nat := (x % 4294967296).toNat

/-- The instruction `srai rd, rs, shamt`: arithmetic shift right, which rounds toward minus
infinity. -/
def srai (rs : Int) (shamt : Nat) : Int := rs >>> shamt

/-- The instruction `andi rd, rs, imm`: bitwise and of the two bit patterns. -/
def andi (rs imm : Int) : Int := wrap32 ((to_u32 rs &&& to_u32 imm : Nat) : Int)

/-! ## A sample scope -/

/-- The scope used by the concrete statements: one declared, non-constant variable `x` at
offset `-12`, everything else as a fresh `Context`. -/
def sample_context : Context := { «variables» := [("x", -12)] }

/-! ## Well-scoped expressions -/

/-- The test of `Context::is_variable_declared` on the scope maps themselves. -/
def declared_in (scope : List (String × Int)) (outer : List (List (String × Int)))
    (var : String) : Bool :=
  (map_find scope var).isSome ||
    outer.reverse.any (fun prev_vars => (map_find prev_vars var).isSome)

mutual
/-- Every identifier the expression reads or assigns is bound in `scope` or in one of the
enclosing scopes `outer`. -/
def all_declared_in (scope : List (String × Int)) (outer : List (List (String × Int))) :
    Expr → Bool
  | .IntegerExpr _ => true
  | .IdExpr id => declared_in scope outer id
  | .BinaryOpExpr _ lhs rhs => all_declared_in scope outer lhs && all_declared_in scope outer rhs
  | .UnaryOpExpr _ e => all_declared_in scope outer e
  | .AssignExpr id e => declared_in scope outer id && all_declared_in scope outer e
  | .FunctionCallExpr _ arguments => all_declared_in_list scope outer arguments

def all_declared_in_list (scope : List (String × Int)) (outer : List (List (String × Int))) :
    List Expr → Bool
  | [] => true
  | e :: rest => all_declared_in scope outer e && all_declared_in_list scope outer rest
end

/-- Every identifier the expression reads or assigns is declared under the Context. -/
def all_declared (c : Context) (e : Expr) : Bool :=
  all_declared_in c.variables c.variables_stack e

/-- Every variable flagged constant has a cached value. -/
def constants_cached (c : Context) : Prop :=
  ∀ id, map_find c.is_const id = some true → (map_find c.const_val id).isSome = true

/-- The Context `c'` differs from `c` at most by entries `false` added to `is_const`. -/
def same_scope (c c' : Context) : Prop :=
  c' = { c with is_const := c'.is_const } ∧
  ∀ id, map_find c'.is_const id = some true → map_find c.is_const id = some true

/-! ## Progress of the output stream -/

/-- The state `g'` continues the state `g`: the output of `g` is a prefix of the output of
`g'` and the label counter has not gone back. -/
def grows_to (g g' : Globals) : Prop :=
  (∃ added, g'.os = g.os ++ added) ∧ g.label_count ≤ g'.label_count

/-! ## Tail-recursion elimination (`optimizations/tail_recursion.cpp`) -/

namespace TailRecursionPass

mutual
def is_tail_call (func_name : String) : Stmt → Bool
  | .ReturnStmt (some (.FunctionCallExpr function_name _)) => function_name == func_name
  | .ReturnStmt _ => false
  | .BlockStmt stmts => is_tail_call_back func_name stmts
  | .IfStmt _ then_stmt (some else_stmt) =>
    is_tail_call func_name then_stmt && is_tail_call func_name else_stmt
  | .IfStmt _ _ none => false
  | _ => false

/-- The block case: `is_tail_call(stmts.back())` when the block is not empty, else `false`. -/
def is_tail_call_back (func_name : String) : List Stmt → Bool
  | [] => false
  | s :: [] => is_tail_call func_name s
  | _ :: s :: rest => is_tail_call_back func_name (s :: rest)
end

def is_tail_recursive (func : FunctionDecl) : Bool :=
  match func.body with
  | none => false
  | some body => is_tail_call func.name body

/-- The fixed loop built for the parameters named `p` and `q`:
`{ while (p > 0) { q = q + p; p = p - 1; } return q; }`. -/
def loop_for (p q : String) : Stmt :=
  .BlockStmt [
    .WhileStmt (.BinaryOpExpr ">" (.IdExpr p) (.IntegerExpr 0))
      (.BlockStmt [
        .ExprStmt (.AssignExpr q (.BinaryOpExpr "+" (.IdExpr q) (.IdExpr p))),
        .ExprStmt (.AssignExpr p (.BinaryOpExpr "-" (.IdExpr p) (.IntegerExpr 1)))]),
    .ReturnStmt (some (.IdExpr q))]

/-- The result is `none` for the `nullptr` returned when the function does not have exactly
two parameters. -/
def convert_to_loop (func : FunctionDecl) : Option Stmt :=
  match func.parameters with
  | [p, q] => some (loop_for p.name q.name)
  | _ => none

/-- The body of the loop of `run` for one function; `cout` holds the lines written to
`std::cout` so far. -/
def run_function (func : FunctionDecl) (cout : List String) : FunctionDecl × List String :=
  if func.body.isSome && is_tail_recursive func then
    let cout := cout ++ ["# Tail recursion detected in function: " ++ func.name]
    match convert_to_loop func with
    | some loop_body =>
      let decls := func.parameters.map
        (fun param => Stmt.DeclStmt param.name (some (.IdExpr param.name)))
      ({ func with body := some (.BlockStmt (decls ++ [loop_body])) },
       cout ++ ["# Tail recursion converted to loop in function: " ++ func.name])
    | none => (func, cout)
  else (func, cout)

def run : List FunctionDecl → List String → List FunctionDecl × List String
  | [], cout => ([], cout)
  | func :: rest, cout =>
    let r := run_function func cout
    let rs := run rest r.2
    (r.1 :: rs.1, rs.2)

end TailRecursionPass

/-! ## Positions of statements in a function body -/

mutual
/-- Every return statement occurring anywhere in the statement returns a direct call of the
function named `f`. -/
def every_return_calls (f : String) : Stmt → Bool
  | .ReturnStmt (some (.FunctionCallExpr function_name _)) => function_name == f
  | .ReturnStmt _ => false
  | .BlockStmt stmts => every_return_calls_list f stmts
  | .IfStmt _ then_stmt (some else_stmt) =>
    every_return_calls f then_stmt && every_return_calls f else_stmt
  | .IfStmt _ then_stmt none => every_return_calls f then_stmt
  | .WhileStmt _ body => every_return_calls f body
  | _ => true

def every_return_calls_list (f : String) : List Stmt → Bool
  | [] => true
  | s :: rest => every_return_calls f s && every_return_calls_list f rest
end

mutual
/-- The statements in terminal position: the statement itself, or, followed into a block's
last statement and into both branches of an `if` that has an `else`, the statements found
there.  An empty block and an `if` without `else` are their own terminal statement. -/
def terminal_stmts : Stmt → List Stmt
  | .BlockStmt stmts => terminal_stmts_back stmts
  | .IfStmt _ then_stmt (some else_stmt) => terminal_stmts then_stmt ++ terminal_stmts else_stmt
  | s => [s]

def terminal_stmts_back : List Stmt → List Stmt
  | [] => [.BlockStmt []]
  | s :: [] => terminal_stmts s
  | _ :: s :: rest => terminal_stmts_back (s :: rest)
end

/-- The statement is `return f(...)`. -/
def is_return_of_call (f : String) : Stmt → Bool
  | .ReturnStmt (some (.FunctionCallExpr function_name _)) => function_name == f
  | _ => false

/-! ## Sample functions for the tail-recursion pass -/

/-- The accumulating sum `int sum(int n, int acc) { if (n <= 0) return acc; return sum(n - 1,
acc + n); }`. -/
def sum_function : FunctionDecl :=
  { return_type := "int", name := "sum",
    parameters := [{ type := "int", name := "n" }, { type := "int", name := "acc" }],
    body := some (.BlockStmt [
      .IfStmt (.BinaryOpExpr "<=" (.IdExpr "n") (.IntegerExpr 0))
        (.ReturnStmt (some (.IdExpr "acc"))) none,
      .ReturnStmt (some (.FunctionCallExpr "sum"
        [.BinaryOpExpr "-" (.IdExpr "n") (.IntegerExpr 1),
         .BinaryOpExpr "+" (.IdExpr "acc") (.IdExpr "n")]))]) }

/-- A function with a self-call outside return position:
`int twice(int n, int acc) { twice(n, acc); return twice(n, acc); }`. -/
def twice_function : FunctionDecl :=
  { return_type := "int", name := "twice",
    parameters := [{ type := "int", name := "n" }, { type := "int", name := "acc" }],
    body := some (.BlockStmt [
      .ExprStmt (.FunctionCallExpr "twice" [.IdExpr "n", .IdExpr "acc"]),
      .ReturnStmt (some (.FunctionCallExpr "twice" [.IdExpr "n", .IdExpr "acc"]))]) }

/-- A function whose last statement returns a plain expression:
`int last(int n, int acc) { return acc; }`. -/
def plain_return_function : FunctionDecl :=
  { return_type := "int", name := "last",
    parameters := [{ type := "int", name := "n" }, { type := "int", name := "acc" }],
    body := some (.BlockStmt [.ReturnStmt (some (.IdExpr "acc"))]) }

/-! ## Loop-invariant code motion (`optimizations/loop_invariant.cpp`)

An `unordered_set<string>` is the list of its members in insertion order.  The functions that
take the loop as `WhileStmt*` use nothing of it but its body, which is what they take here;
`optimize_loop` takes the condition too and returns the loop after the call. -/

/-- Insertion into a set of names. -/
def set_insert (vars : List String) (id : String) : List String :=
  if vars.contains id then vars else vars ++ [id]

namespace LoopInvariantPass

mutual
/-- The branch `dynamic_cast<AssignExpr*>(stmt)` of the source tests a statement for being an
expression node, which no statement is, so it contributes no case. -/
def collect_assigned_vars : Stmt → List String → List String
  | .BlockStmt stmts, vars => collect_assigned_vars_list stmts vars
  | .IfStmt _ then_stmt (some else_stmt), vars =>
    collect_assigned_vars else_stmt (collect_assigned_vars then_stmt vars)
  | .IfStmt _ then_stmt none, vars => collect_assigned_vars then_stmt vars
  | .WhileStmt _ body, vars => collect_assigned_vars body vars
  | .DeclStmt id _, vars => set_insert vars id
  | _, vars => vars

def collect_assigned_vars_list : List Stmt → List String → List String
  | [], vars => vars
  | s :: rest, vars => collect_assigned_vars_list rest (collect_assigned_vars s vars)
end

def collect_loop_variables (body : Stmt) : List String := collect_assigned_vars body []

/-- The overload `is_invariant(Expr*, const unordered_set<string>&)`. -/
def is_invariant (loop_vars : List String) : Expr → Bool
  | .IntegerExpr _ => true
  | .IdExpr id => !loop_vars.contains id
  | .BinaryOpExpr _ lhs rhs => is_invariant loop_vars lhs && is_invariant loop_vars rhs
  | .UnaryOpExpr _ expr => is_invariant loop_vars expr
  | .FunctionCallExpr _ _ => false
  | .AssignExpr _ _ => false

/-- The overload `is_invariant(Expr*, WhileStmt*)`. -/
def is_invariant_in_loop (expr : Expr) (body : Stmt) : Bool :=
  is_invariant (collect_loop_variables body) expr

/-- As in `collect_assigned_vars`, the branch `dynamic_cast<AssignExpr*>(stmt)` is never
taken and contributes no case. -/
def is_invariant_stmt (stmt : Stmt) (body : Stmt) : Bool :=
  match stmt with
  | .ExprStmt expr => is_invariant_in_loop expr body
  | .DeclStmt _ (some expr) => is_invariant_in_loop expr body
  | .DeclStmt _ none => true
  | _ => false

/-- The result is the returned vector of invariant statements and the loop body the call leaves
behind. -/
def extract_invariants (body : Stmt) : List Stmt × Stmt :=
  let stmts := match body with
    | .BlockStmt stmts => stmts
    | s => [s]
  let loop_body := Stmt.BlockStmt stmts
  let invariant_stmts := stmts.filter (fun stmt => is_invariant_stmt stmt loop_body)
  let non_invariant_stmts := stmts.filter (fun stmt => !is_invariant_stmt stmt loop_body)
  (invariant_stmts, .BlockStmt non_invariant_stmts)

def create_optimized_loop_body (body : Stmt) (invariant_stmts : List Stmt) : Stmt :=
  .BlockStmt (invariant_stmts ++ [body])

def optimize_loop (condition : Expr) (body : Stmt) : Stmt :=
  let extracted := extract_invariants body
  if !extracted.1.isEmpty then
    .WhileStmt condition (create_optimized_loop_body extracted.2 extracted.1)
  else .WhileStmt condition extracted.2

end LoopInvariantPass

/-! ## Identifiers read and written by statements -/

mutual
/-- The identifiers read by an expression. -/
def ids_read : Expr → List String
  | .IntegerExpr _ => []
  | .IdExpr id => [id]
  | .BinaryOpExpr _ lhs rhs => ids_read lhs ++ ids_read rhs
  | .UnaryOpExpr _ expr => ids_read expr
  | .AssignExpr _ expr => ids_read expr
  | .FunctionCallExpr _ arguments => ids_read_list arguments

def ids_read_list : List Expr → List String
  | [] => []
  | e :: rest => ids_read e ++ ids_read_list rest
end

mutual
/-- The targets of the assignment expressions inside an expression. -/
def ids_assigned : Expr → List String
  | .IntegerExpr _ => []
  | .IdExpr _ => []
  | .BinaryOpExpr _ lhs rhs => ids_assigned lhs ++ ids_assigned rhs
  | .UnaryOpExpr _ expr => ids_assigned expr
  | .AssignExpr id expr => id :: ids_assigned expr
  | .FunctionCallExpr _ arguments => ids_assigned_list arguments

def ids_assigned_list : List Expr → List String
  | [] => []
  | e :: rest => ids_assigned e ++ ids_assigned_list rest
end

/-- Applies `f` to the expression if there is one. -/
def of_optional (f : Expr → List String) : Option Expr → List String
  | none => []
  | some e => f e

mutual
/-- The identifiers read anywhere in a statement. -/
def stmt_reads : Stmt → List String
  | .ExprStmt expr => ids_read expr
  | .ReturnStmt expr => of_optional ids_read expr
  | .BlockStmt stmts => stmts_read stmts
  | .IfStmt condition then_stmt (some else_stmt) =>
    ids_read condition ++ stmt_reads then_stmt ++ stmt_reads else_stmt
  | .IfStmt condition then_stmt none => ids_read condition ++ stmt_reads then_stmt
  | .WhileStmt condition body => ids_read condition ++ stmt_reads body
  | .DeclStmt _ expr => of_optional ids_read expr
  | .BreakStmt => []
  | .ContinueStmt => []
  | .EmptyStmt => []

def stmts_read : List Stmt → List String
  | [] => []
  | s :: rest => stmt_reads s ++ stmts_read rest
end

mutual
/-- The names declared by a declaration anywhere in a statement, nested blocks, branches and
loops included. -/
def stmt_declares : Stmt → List String
  | .BlockStmt stmts => stmts_declare stmts
  | .IfStmt _ then_stmt (some else_stmt) => stmt_declares then_stmt ++ stmt_declares else_stmt
  | .IfStmt _ then_stmt none => stmt_declares then_stmt
  | .WhileStmt _ body => stmt_declares body
  | .DeclStmt id _ => [id]
  | _ => []

def stmts_declare : List Stmt → List String
  | [] => []
  | s :: rest => stmt_declares s ++ stmts_declare rest
end

mutual
/-- The targets of the assignment expressions anywhere in a statement. -/
def stmt_assigns : Stmt → List String
  | .ExprStmt expr => ids_assigned expr
  | .ReturnStmt expr => of_optional ids_assigned expr
  | .BlockStmt stmts => stmts_assign stmts
  | .IfStmt condition then_stmt (some else_stmt) =>
    ids_assigned condition ++ stmt_assigns then_stmt ++ stmt_assigns else_stmt
  | .IfStmt condition then_stmt none => ids_assigned condition ++ stmt_assigns then_stmt
  | .WhileStmt condition body => ids_assigned condition ++ stmt_assigns body
  | .DeclStmt _ expr => of_optional ids_assigned expr
  | .BreakStmt => []
  | .ContinueStmt => []
  | .EmptyStmt => []

def stmts_assign : List Stmt → List String
  | [] => []
  | s :: rest => stmt_assigns s ++ stmts_assign rest
end

/-- The top-level statements of a loop body: those of the block, or the single statement. -/
def top_level : Stmt → List Stmt
  | .BlockStmt stmts => stmts
  | s => [s]

/-! ## Sample loops -/

/-- The body `{ int t = x * 2; x = x + 1; }`. -/
def counting_body : Stmt :=
  .BlockStmt [
    .DeclStmt "t" (some (.BinaryOpExpr "*" (.IdExpr "x") (.IntegerExpr 2))),
    .ExprStmt (.AssignExpr "x" (.BinaryOpExpr "+" (.IdExpr "x") (.IntegerExpr 1)))]

/-- The body `{ int k = a + 1; s = s + k; i = i + 1; }`. -/
def summing_body : Stmt :=
  .BlockStmt [
    .DeclStmt "k" (some (.BinaryOpExpr "+" (.IdExpr "a") (.IntegerExpr 1))),
    .ExprStmt (.AssignExpr "s" (.BinaryOpExpr "+" (.IdExpr "s") (.IdExpr "k"))),
    .ExprStmt (.AssignExpr "i" (.BinaryOpExpr "+" (.IdExpr "i") (.IntegerExpr 1)))]

/-! ## Scopes of the compilation context (`context.hpp`)

The top of the `std::stack` of loop labels is the last element of the list. -/

namespace Context

def push_loop_labels (c : Context) (start finish : String) : Context :=
  { c with loop_labels := c.loop_labels ++ [(start, finish)] }

def pop_loop_labels (c : Context) : Context :=
  { c with loop_labels := c.loop_labels.dropLast }

/-- The last statement of `push_scope` pushes the `static` record `reg_state`. -/
def push_scope (c : Context) (g : Globals) : Context × Globals :=
  ({ c with variables_stack := c.variables_stack ++ [c.variables],
            «variables» := [],
            is_const_stack := c.is_const_stack ++ [c.is_const],
            const_val_stack := c.const_val_stack ++ [c.const_val],
            used_variables_stack := c.used_variables_stack ++ [c.used_variables],
            used_variables := [] },
   { g with reg_state_stack := g.reg_state_stack ++ [g.reg_state] })

def pop_scope (c : Context) (g : Globals) : Context × Globals :=
  let c1 := match c.variables_stack.getLast? with
    | some back => { c with «variables» := back, variables_stack := c.variables_stack.dropLast }
    | none => c
  let c2 := match c1.is_const_stack.getLast? with
    | some back => { c1 with is_const := back, is_const_stack := c1.is_const_stack.dropLast }
    | none => c1
  let c3 := match c2.const_val_stack.getLast? with
    | some back => { c2 with const_val := back, const_val_stack := c2.const_val_stack.dropLast }
    | none => c2
  let c4 := match c3.used_variables_stack.getLast? with
    | some back =>
      { c3 with used_variables := back, used_variables_stack := c3.used_variables_stack.dropLast }
    | none => c3
  let g1 := match g.reg_state_stack.getLast? with
    | some back => { g with reg_state := back, reg_state_stack := g.reg_state_stack.dropLast }
    | none => g
  (c4, g1)

def add_used_variable (c : Context) (var : String) : Context :=
  { c with used_variables := set_insert c.used_variables var }

def add_variable_to_current_scope (c : Context) (var : String) (offset : Int) (init_val : Int) :
    Context :=
  { c with «variables» := map_set c.variables var offset,
           const_val := map_set c.const_val var init_val }

def clear_cache (g : Globals) : Globals :=
  { g with global_reg_state := {}, reg_state := {} }

end Context

/-- One operation on the scope tables of a `Context`: the two methods that add to the current
scope, a write `is_const[var] = b`, a write `const_val[var] = v`, and a read of `is_const[var]`
through `operator[]`. -/
inductive ScopeOp where
  | add_variable (var : String) (offset : Int) (init_val : Int)
  | add_used (var : String)
  | write_is_const (var : String) (b : Bool)
  | write_const_val (var : String) (v : Int)
  | read_is_const (var : String)
  deriving Repr, DecidableEq

def ScopeOp.apply (c : Context) : ScopeOp → Context
  | .add_variable var offset init_val => c.add_variable_to_current_scope var offset init_val
  | .add_used var => c.add_used_variable var
  | .write_is_const var b => { c with is_const := map_set c.is_const var b }
  | .write_const_val var v => { c with const_val := map_set c.const_val var v }
  | .read_is_const var => (c.is_const_at var).2

/-- The fields a scope operation does not touch. -/
def same_frame (c c' : Context) : Prop :=
  c'.variables_stack = c.variables_stack ∧ c'.is_const_stack = c.is_const_stack ∧
  c'.const_val_stack = c.const_val_stack ∧ c'.used_variables_stack = c.used_variables_stack ∧
  c'.loop_labels = c.loop_labels ∧ c'.stack_offset = c.stack_offset ∧
  c'.current_function = c.current_function ∧ c'.label_factory = c.label_factory ∧
  c'.optimize_variable_cache = c.optimize_variable_cache

/-- A scope: `push_scope`, the operations in order, `pop_scope`. -/
def in_scope (ops : List ScopeOp) (c : Context) (g : Globals) : Context × Globals :=
  let pushed := c.push_scope g
  Context.pop_scope (ops.foldl ScopeOp.apply pushed.1) pushed.2

/-- An outer scope that binds `x` at offset -12 and `y` at -16, with `x` a known constant. -/
def outer_context : Context :=
  { «variables» := [("x", -12), ("y", -16)], is_const := [("x", true)], const_val := [("x", 5)],
    used_variables := ["x", "y"], stack_offset := -20 }

/-! ## Common-subexpression elimination (`optimizations/common_subexpr.cpp`)

The state of the pass is the member `expr_cache`, the `static` counter `temp_counter`, and the
lines it writes to `std::cout`.  As for the other passes a call on an expression returns the
replacement pointer and the node as the call leaves it. -/

namespace CommonSubexprPass

structure ExprInfo where
  hash : String
  expr : Expr
  temp_var : String
  used : Bool := false

structure State where
  expr_cache : List (String × ExprInfo) := []
  temp_counter : Nat := 0
  cout : List String := []

mutual
/-- No case of the source matches an assignment, whose hash is therefore the empty string. -/
def generate_expr_hash : Expr → String
  | .IntegerExpr value => "INT:" ++ toString value
  | .IdExpr id => "ID:" ++ id
  | .BinaryOpExpr op lhs rhs =>
    "BIN:" ++ op ++ "(" ++ generate_expr_hash lhs ++ "," ++ generate_expr_hash rhs ++ ")"
  | .UnaryOpExpr op expr => "UNARY:" ++ op ++ "(" ++ generate_expr_hash expr ++ ")"
  | .FunctionCallExpr function_name arguments =>
    "CALL:" ++ function_name ++ "(" ++ ",".intercalate (generate_expr_hash_args arguments) ++ ")"
  | .AssignExpr _ _ => ""

def generate_expr_hash_args : List Expr → List String
  | [] => []
  | e :: rest => generate_expr_hash e :: generate_expr_hash_args rest
end

def should_cache_expr : Expr → Bool
  | .BinaryOpExpr op _ _ =>
    op == "+" || op == "-" || op == "*" || op == "/" || op == "%" ||
    op == "==" || op == "!=" || op == "<" || op == ">" || op == "<=" || op == ">=" ||
    op == "&&" || op == "||"
  | .UnaryOpExpr op _ => op == "-" || op == "!"
  | .FunctionCallExpr _ _ => true
  | _ => false

def replace_with_temp (temp_var : String) : Expr := .IdExpr temp_var

def generate_temp_var (st : State) : String × State :=
  ("_cse_" ++ toString (st.temp_counter + 1), { st with temp_counter := st.temp_counter + 1 })

/-- The branch of `optimize_expr` taken when the hash is in the cache. -/
def replace_duplicate (info : ExprInfo) (st : State) : Expr × State :=
  (replace_with_temp info.temp_var,
   { st with cout := st.cout ++ ["# CSE: Replacing duplicate expression with " ++ info.temp_var] })

/-- The first three statements of the branch of `optimize_expr` for an expression that
`should_cache_expr` accepts: a fresh name, the new cache entry, the diagnostic line. -/
def cache_expr (hash : String) (expr : Expr) (st : State) : String × State :=
  let fresh := generate_temp_var st
  let temp_var := fresh.1
  let st := fresh.2
  (temp_var,
   { st with expr_cache := map_set st.expr_cache hash
               { hash := hash, expr := clone expr, temp_var := temp_var, used := true },
             cout := st.cout ++ ["# CSE: Caching expression as " ++ temp_var] })

def updated (r : Option Expr × Expr) : Expr := r.1.getD r.2

/-- The body of `optimize_expr` at one node.  The source writes the recursive optimisation of
the operands twice, once for a node it caches and once for a node it does not; `children` is
that part: it yields the node with its operands updated, and the state afterwards. -/
def optimize_node (expr : Expr) (st : State) (children : State → Expr × State) :
    (Option Expr × Expr) × State :=
  match map_find st.expr_cache (generate_expr_hash expr) with
  | some info =>
    let replaced := replace_duplicate info st
    ((some replaced.1, expr), replaced.2)
  | none =>
    if should_cache_expr expr then
      let cached := cache_expr (generate_expr_hash expr) expr st
      let after := children cached.2
      ((some (replace_with_temp cached.1), after.1), after.2)
    else
      let after := children st
      ((none, after.1), after.2)

def optimize_expr : Expr → State → (Option Expr × Expr) × State
  | .BinaryOpExpr op lhs rhs, st =>
    optimize_node (.BinaryOpExpr op lhs rhs) st (fun st =>
      let optimized_lhs := optimize_expr lhs st
      let optimized_rhs := optimize_expr rhs optimized_lhs.2
      (.BinaryOpExpr op (updated optimized_lhs.1) (updated optimized_rhs.1), optimized_rhs.2))
  | .UnaryOpExpr op expr, st =>
    optimize_node (.UnaryOpExpr op expr) st (fun st =>
      let optimized_subexpr := optimize_expr expr st
      (.UnaryOpExpr op (updated optimized_subexpr.1), optimized_subexpr.2))
  | .IntegerExpr value, st =>
    optimize_node (.IntegerExpr value) st (fun st => (.IntegerExpr value, st))
  | .IdExpr id, st => optimize_node (.IdExpr id) st (fun st => (.IdExpr id, st))
  | .AssignExpr id expr, st =>
    optimize_node (.AssignExpr id expr) st (fun st => (.AssignExpr id expr, st))
  | .FunctionCallExpr function_name arguments, st =>
    optimize_node (.FunctionCallExpr function_name arguments) st
      (fun st => (.FunctionCallExpr function_name arguments, st))

mutual
/-- The second `ExprStmt` branch of the source stands behind the first and is never reached. -/
def optimize_stmt : Stmt → State → Stmt × State
  | .BlockStmt stmts, st =>
    let r := optimize_stmts stmts st
    (.BlockStmt r.1, r.2)
  | .IfStmt condition then_stmt (some else_stmt), st =>
    let t := optimize_stmt then_stmt st
    let e := optimize_stmt else_stmt t.2
    (.IfStmt condition t.1 (some e.1), e.2)
  | .IfStmt condition then_stmt none, st =>
    let t := optimize_stmt then_stmt st
    (.IfStmt condition t.1 none, t.2)
  | .WhileStmt condition body, st =>
    let b := optimize_stmt body st
    (.WhileStmt condition b.1, b.2)
  | .ExprStmt expr, st =>
    let r := optimize_expr expr st
    (.ExprStmt (updated r.1), r.2)
  | .ReturnStmt (some expr), st =>
    let r := optimize_expr expr st
    (.ReturnStmt (some (updated r.1)), r.2)
  | .ReturnStmt none, st => (.ReturnStmt none, st)
  | .BreakStmt, st => (.BreakStmt, st)
  | .ContinueStmt, st => (.ContinueStmt, st)
  | .DeclStmt id expr, st => (.DeclStmt id expr, st)
  | .EmptyStmt, st => (.EmptyStmt, st)

def optimize_stmts : List Stmt → State → List Stmt × State
  | [], st => ([], st)
  | s :: rest, st =>
    let r := optimize_stmt s st
    let rs := optimize_stmts rest r.2
    (r.1 :: rs.1, rs.2)
end

def optimize_function (func : FunctionDecl) (st : State) : FunctionDecl × State :=
  match func.body with
  | some body =>
    let r := optimize_stmt body { st with expr_cache := [] }
    ({ func with body := some r.1 }, r.2)
  | none => (func, st)

end CommonSubexprPass

/-! ## Sample inputs for common-subexpression elimination -/

/-- The function `int add(int a, int b) { return a + b; }`. -/
def add_function : FunctionDecl :=
  { return_type := "int", name := "add",
    parameters := [{ type := "int", name := "a" }, { type := "int", name := "b" }],
    body := some (.BlockStmt [.ReturnStmt (some (.BinaryOpExpr "+" (.IdExpr "a") (.IdExpr "b")))]) }

/-- The context in which the body of `add` is compiled: both parameters have a slot. -/
def add_context : Context :=
  { «variables» := [("a", -12), ("b", -16)], stack_offset := -20, current_function := "add" }

/-- The expression `(a = 1) + (b = 2)`. -/
def sum_of_assignments_ab : Expr :=
  .BinaryOpExpr "+" (.AssignExpr "a" (.IntegerExpr 1)) (.AssignExpr "b" (.IntegerExpr 2))

/-- The expression `(c = 3) + (d = 4)`. -/
def sum_of_assignments_cd : Expr :=
  .BinaryOpExpr "+" (.AssignExpr "c" (.IntegerExpr 3)) (.AssignExpr "d" (.IntegerExpr 4))

/-! ## Reading the passes statement by statement -/

/-- The number a list of decimal digit characters denotes when read after the prefix `a`. -/
def read_decimal (a : Nat) (ds : List Char) : Nat :=
  ds.foldl (fun acc c => acc * 10 + (c.toNat - 48)) a

mutual
/-- The expressions held by the expression statements and the return statements of a statement,
in program order, nested blocks, branches and loop bodies included. -/
def held_exprs : Stmt → List Expr
  | .ExprStmt expr => [expr]
  | .ReturnStmt (some expr) => [expr]
  | .ReturnStmt none => []
  | .BlockStmt stmts => held_exprs_list stmts
  | .IfStmt _ then_stmt (some else_stmt) => held_exprs then_stmt ++ held_exprs else_stmt
  | .IfStmt _ then_stmt none => held_exprs then_stmt
  | .WhileStmt _ body => held_exprs body
  | .BreakStmt => []
  | .ContinueStmt => []
  | .DeclStmt _ _ => []
  | .EmptyStmt => []

def held_exprs_list : List Stmt → List Expr
  | [] => []
  | s :: rest => held_exprs s ++ held_exprs_list rest
end

/-- The expressions held by the statements of a function body, none for a declaration without
body. -/
def held_by (func : FunctionDecl) : List Expr :=
  match func.body with
  | some body => held_exprs body
  | none => []

namespace CommonSubexprPass

/-- A run of `optimize_expr` over a sequence of expressions, each call starting in the state the
previous one left; the result holds each expression as its statement holds it afterwards. -/
def optimize_exprs : List Expr → State → List Expr × State
  | [], st => ([], st)
  | e :: rest, st =>
    let r := optimize_expr e st
    let rs := optimize_exprs rest r.2
    (updated r.1 :: rs.1, rs.2)

/-- The steps by which the pass changes its state: a diagnostic line, or a new cache entry under
a hash that has none. -/
inductive Reach : State → State → Prop where
  | refl (st : State) : Reach st st
  | line (st : State) (text : String) : Reach st { st with cout := st.cout ++ [text] }
  | cache (st : State) (hash : String) (expr : Expr)
      (h : map_find st.expr_cache hash = none) : Reach st (cache_expr hash expr st).2
  | trans {a b c : State} : Reach a b → Reach b c → Reach a c

/-- Every cached name is `_cse_n` for some `n` from 1 up to the counter, and no name is cached
for two hashes. -/
def cache_ok (st : State) : Prop :=
  (∀ h info, map_find st.expr_cache h = some info →
    ∃ n, 1 ≤ n ∧ n ≤ st.temp_counter ∧ info.temp_var = "_cse_" ++ toString n) ∧
  (∀ h1 h2 i1 i2, map_find st.expr_cache h1 = some i1 → map_find st.expr_cache h2 = some i2 →
    i1.temp_var = i2.temp_var → h1 = h2)

end CommonSubexprPass

/-- The function `int plus(int x) { +x; return +x; }`. -/
def plus_function : FunctionDecl :=
  { return_type := "int", name := "plus", parameters := [{ type := "int", name := "x" }],
    body := some (.BlockStmt [.ExprStmt (.UnaryOpExpr "+" (.IdExpr "x")),
      .ReturnStmt (some (.UnaryOpExpr "+" (.IdExpr "x")))]) }

/-- The function `int twin(int a, int b) { if (a) { a * b; } return a * b; }`. -/
def twin_function : FunctionDecl :=
  { return_type := "int", name := "twin",
    parameters := [{ type := "int", name := "a" }, { type := "int", name := "b" }],
    body := some (.BlockStmt [
      .IfStmt (.IdExpr "a") (.BlockStmt [.ExprStmt (.BinaryOpExpr "*" (.IdExpr "a") (.IdExpr "b"))])
        none,
      .ReturnStmt (some (.BinaryOpExpr "*" (.IdExpr "a") (.IdExpr "b")))]) }

/-! ## The analysis scans (`optimizations/scan_const.cpp`, `optimizations/scan_unused.cpp`)

A scan of a statement stops with `null_dereference` at a `return` without expression, where the
source calls a method through the null `expr`.  The line `DeclStmt::scan_const_variables` writes
to `std::cout` goes to the stream the code is written to. -/

def Expr.scan_const_variables : Expr → Context → Context
  | .BinaryOpExpr _ lhs rhs, context =>
    Expr.scan_const_variables rhs (Expr.scan_const_variables lhs context)
  | .UnaryOpExpr _ expr, context => Expr.scan_const_variables expr context
  | .AssignExpr id _, context => { context with is_const := map_set context.is_const id false }
  | .IntegerExpr _, context => context
  | .IdExpr _, context => context
  | .FunctionCallExpr _ _, context => context

mutual
def Stmt.scan_const_variables : Stmt → Context → Globals → Except Fatal (Context × Globals)
  | .ExprStmt expr, context, g => .ok (Expr.scan_const_variables expr context, g)
  | .ReturnStmt (some expr), context, g => .ok (Expr.scan_const_variables expr context, g)
  | .ReturnStmt none, _, _ => .error .null_dereference
  | .BlockStmt stmts, context, g => Stmt.scan_const_variables_each stmts context g
  | .IfStmt condition then_stmt (some else_stmt), context, g =>
    match Stmt.scan_const_variables then_stmt (Expr.scan_const_variables condition context) g with
    | .error e => .error e
    | .ok (context, g) => Stmt.scan_const_variables else_stmt context g
  | .IfStmt condition then_stmt none, context, g =>
    Stmt.scan_const_variables then_stmt (Expr.scan_const_variables condition context) g
  | .WhileStmt condition body, context, g =>
    match Stmt.scan_const_variables body context g with
    | .error e => .error e
    | .ok (context, g) => .ok (Expr.scan_const_variables condition context, g)
  | .DeclStmt id expr, context, g =>
    if (map_find context.variables id).isSome then
      let known := context.is_const_at id
      .ok (known.2, emit ("# " ++ id ++ (if known.1 then " is " else " is not ") ++ "constant") g)
    else
      match expr with
      | some expr =>
        .ok ({ context with is_const := map_set context.is_const id (is_constant context expr) }, g)
      | none => .ok ({ context with is_const := map_set context.is_const id false }, g)
  | .BreakStmt, context, g => .ok (context, g)
  | .ContinueStmt, context, g => .ok (context, g)
  | .EmptyStmt, context, g => .ok (context, g)

def Stmt.scan_const_variables_each : List Stmt → Context → Globals →
    Except Fatal (Context × Globals)
  | [], context, g => .ok (context, g)
  | stmt :: rest, context, g =>
    match Stmt.scan_const_variables stmt context g with
    | .error e => .error e
    | .ok (context, g) => Stmt.scan_const_variables_each rest context g
end

mutual
def Expr.scan_unused : Expr → Context → Context
  | .IdExpr id, context => context.add_used_variable id
  | .BinaryOpExpr _ lhs rhs, context => Expr.scan_unused rhs (Expr.scan_unused lhs context)
  | .UnaryOpExpr _ expr, context => Expr.scan_unused expr context
  | .AssignExpr id expr, context => Expr.scan_unused expr (context.add_used_variable id)
  | .FunctionCallExpr _ arguments, context => Expr.scan_unused_each arguments context
  | .IntegerExpr _, context => context

def Expr.scan_unused_each : List Expr → Context → Context
  | [], context => context
  | arg :: rest, context => Expr.scan_unused_each rest (Expr.scan_unused arg context)
end

mutual
def Stmt.scan_unused : Stmt → Context → Except Fatal Context
  | .ExprStmt expr, context => .ok (Expr.scan_unused expr context)
  | .ReturnStmt (some expr), context => .ok (Expr.scan_unused expr context)
  | .ReturnStmt none, _ => .error .null_dereference
  | .BlockStmt stmts, context => Stmt.scan_unused_each stmts context
  | .IfStmt condition then_stmt (some else_stmt), context =>
    match Stmt.scan_unused then_stmt (Expr.scan_unused condition context) with
    | .error e => .error e
    | .ok context => Stmt.scan_unused else_stmt context
  | .IfStmt condition then_stmt none, context =>
    Stmt.scan_unused then_stmt (Expr.scan_unused condition context)
  | .WhileStmt condition body, context =>
    match Stmt.scan_unused body context with
    | .error e => .error e
    | .ok context => .ok (Expr.scan_unused condition context)
  | .DeclStmt id (some expr), context =>
    if map_find context.is_const id = some true then .ok context
    else .ok (Expr.scan_unused expr context)
  | .DeclStmt _ none, context => .ok context
  | .BreakStmt, context => .ok context
  | .ContinueStmt, context => .ok context
  | .EmptyStmt, context => .ok context

def Stmt.scan_unused_each : List Stmt → Context → Except Fatal Context
  | [], context => .ok context
  | stmt :: rest, context =>
    match Stmt.scan_unused stmt context with
    | .error e => .error e
    | .ok context => Stmt.scan_unused_each rest context
end

/-! ## Code generation for statements (`main.cpp`) -/

/-- The store of a declaration whose initialiser has the known value `const_val`, written out
twice in `DeclStmt::generate_code`: `sw zero` for 0, else the literal into `t0` and `sw t0`;
nothing for an unused variable. -/
def DeclStmt.store_constant (unused : Bool) (offset : Int) (const_val : Int) (var_id : String)
    (context : Context) (g : Globals) : Globals :=
  if unused then g
  else if const_val = 0 then emit ("  sw zero, " ++ toString offset ++ "(s0)") g
  else
    let g := emit (load_immediate (treg 0) const_val) g
    let g := emit ("  sw t" ++ toString 0 ++ ", " ++ toString offset ++ "(s0)") g
    let g := Context.mark_register_free 0 g
    context.mark_register_used 0 var_id g

/-- The allocation step of `DeclStmt::generate_code`: a used variable is bound to the current
`stack_offset`, which then moves down by one word. -/
def DeclStmt.allocate (unused : Bool) (var_id : String) (context : Context) : Context :=
  if unused then context
  else { context.add_variable_to_current_scope var_id context.stack_offset 0 with
         stack_offset := context.stack_offset - 4 }

/-- The part of `DeclStmt::generate_code` under `if (expr != nullptr)`. -/
def DeclStmt.initialise (unused : Bool) (offset : Int) (var_id : String) (expr : Expr)
    (context : Context) (g : Globals) : Except Fatal (Context × Globals) :=
  if map_find context.is_const var_id = some true then
    let const_val := evaluate_constant context expr
    let context := { context with const_val := map_set context.const_val var_id const_val }
    .ok (context, DeclStmt.store_constant unused offset const_val var_id context g)
  else if is_constant context expr then
    let const_val := evaluate_constant context expr
    .ok (context, DeclStmt.store_constant unused offset const_val var_id context g)
  else if unused then .ok (context, g)
  else
    match generate_code expr 0 context g with
    | .error e => .error e
    | .ok (context, g) =>
      let g := emit ("  sw t" ++ toString 0 ++ ", " ++ toString offset ++ "(s0)") g
      let g := Context.mark_register_free 0 g
      .ok (context, context.mark_register_used 0 var_id g)

def DeclStmt.generate_code (var_id : String) (expr : Option Expr) (context : Context)
    (g : Globals) : Except Fatal (Context × Globals) :=
  if context.is_variable_in_current_scope var_id then .error (.redefinition var_id)
  else
    let unused := !context.is_variable_used var_id
    let offset := context.stack_offset
    let context := DeclStmt.allocate unused var_id context
    match expr with
    | none => .ok (context, g)
    | some expr => DeclStmt.initialise unused offset var_id expr context g

mutual
/-- The method `generate_code` of the statement classes.  The expression of an expression
statement is generated with the `result_reg` it was constructed with, which is 0. -/
def Stmt.generate_code : Stmt → Context → Globals → Except Fatal (Context × Globals)
  | .ExprStmt expr, context, g => ToyC.generate_code expr 0 context g
  | .ReturnStmt (some expr), context, g =>
    match ToyC.generate_code expr 0 context g with
    | .error e => .error e
    | .ok (context, g) =>
      let g := emit ("  mv a0, t" ++ toString 0) g
      .ok (context, emit ("  j .L_return_" ++ context.current_function) g)
  | .ReturnStmt none, context, g =>
    let g := emit "  mv a0, zero" g
    .ok (context, emit ("  j .L_return_" ++ context.current_function) g)
  | .BlockStmt stmts, context, g =>
    let saved_offset := context.stack_offset
    let pushed := context.push_scope g
    match Stmt.scan_const_variables (.BlockStmt stmts) pushed.1 pushed.2 with
    | .error e => .error e
    | .ok (context, g) =>
      match Stmt.scan_unused (.BlockStmt stmts) context with
      | .error e => .error e
      | .ok context =>
        match Stmt.generate_code_each stmts context g with
        | .error e => .error e
        | .ok (context, g) =>
          let popped := context.pop_scope g
          .ok ({ popped.1 with stack_offset := saved_offset }, popped.2)
  | .IfStmt condition then_stmt (some else_stmt), context, g =>
    if is_constant context condition then
      if evaluate_constant context condition ≠ 0 then Stmt.generate_code then_stmt context g
      else Stmt.generate_code else_stmt context g
    else
      let else_label := LabelFactory.create context.label_factory g
      let end_label := LabelFactory.create context.label_factory else_label.2
      match ToyC.generate_code condition 0 context end_label.2 with
      | .error e => .error e
      | .ok (context, g) =>
        let g := emit ("  beqz t" ++ toString 0 ++ ", " ++ else_label.1) g
        match Stmt.generate_code then_stmt context g with
        | .error e => .error e
        | .ok (_, g) =>
          let g := emit ("  j " ++ end_label.1) g
          let g := emit (else_label.1 ++ ":") g
          match Stmt.generate_code else_stmt context g with
          | .error e => .error e
          | .ok (_, g) => .ok (context, emit (end_label.1 ++ ":") g)
  | .IfStmt condition then_stmt none, context, g =>
    if is_constant context condition then
      if evaluate_constant context condition ≠ 0 then Stmt.generate_code then_stmt context g
      else .ok (context, g)
    else
      let else_label := LabelFactory.create context.label_factory g
      let end_label := LabelFactory.create context.label_factory else_label.2
      match ToyC.generate_code condition 0 context end_label.2 with
      | .error e => .error e
      | .ok (context, g) =>
        let g := emit ("  beqz t" ++ toString 0 ++ ", " ++ else_label.1) g
        match Stmt.generate_code then_stmt context g with
        | .error e => .error e
        | .ok (_, g) => .ok (context, emit (else_label.1 ++ ":") g)
  | .WhileStmt condition body, context, g =>
    if is_constant context condition ∧ evaluate_constant context condition = 0 then
      .ok (context, emit "  # Dead loop eliminated (condition always false)" g)
    else
      let start_label := LabelFactory.create context.label_factory g
      let end_label := LabelFactory.create context.label_factory start_label.2
      let context := context.push_loop_labels start_label.1 end_label.1
      let context := { context with optimize_variable_cache := true }
      let g := emit (start_label.1 ++ ":") end_label.2
      match ToyC.generate_code condition 0 context g with
      | .error e => .error e
      | .ok (context, g) =>
        let g := emit ("  beqz t" ++ toString 0 ++ ", " ++ end_label.1) g
        match Stmt.generate_code body context g with
        | .error e => .error e
        | .ok (context, g) =>
          let g := emit ("  j " ++ start_label.1) g
          let g := emit (end_label.1 ++ ":") g
          let g := Context.clear_cache g
          let context := { context with optimize_variable_cache := false }
          .ok (context.pop_loop_labels, g)
  | .BreakStmt, context, g =>
    match context.loop_labels.getLast? with
    | none => .error .break_not_in_loop
    | some top => .ok (context, emit ("  j " ++ top.2) g)
  | .ContinueStmt, context, g =>
    match context.loop_labels.getLast? with
    | none => .error .continue_not_in_loop
    | some top => .ok (context, emit ("  j " ++ top.1) g)
  | .DeclStmt var_id expr, context, g => DeclStmt.generate_code var_id expr context g
  | .EmptyStmt, context, g => .ok (context, g)

/-- The loop of `BlockStmt::generate_code` over the statements of the block. -/
def Stmt.generate_code_each : List Stmt → Context → Globals → Except Fatal (Context × Globals)
  | [], context, g => .ok (context, g)
  | s :: rest, context, g =>
    match Stmt.generate_code s context g with
    | .error e => .error e
    | .ok (context, g) => Stmt.generate_code_each rest context g
end

/-- The scope stacks and the loop-label stack of a context. -/
def Context.stacks (c : Context) :
    List (List (String × Int)) × List (List (String × Bool)) × List (List (String × Int)) ×
      List (List String) × List (String × String) :=
  (c.variables_stack, c.is_const_stack, c.const_val_stack, c.used_variables_stack, c.loop_labels)

/-- The block `{ int x = 1; int y = x + 2; while (y) { int x = y; y = y - x; } }`. -/
def shadowing_block : List Stmt :=
  [.DeclStmt "x" (some (.IntegerExpr 1)),
   .DeclStmt "y" (some (.BinaryOpExpr "+" (.IdExpr "x") (.IntegerExpr 2))),
   .WhileStmt (.IdExpr "y") (.BlockStmt [
     .DeclStmt "x" (some (.IdExpr "y")),
     .ExprStmt (.AssignExpr "y" (.BinaryOpExpr "-" (.IdExpr "y") (.IdExpr "x")))])]

/-- The state `g'` has as many saved register states as `g`. -/
def depth_to (g g' : Globals) : Prop :=
  g'.reg_state_stack.length = g.reg_state_stack.length

/-! ## Name resolution and labels, as the statements describe them -/

/-- The offset of the innermost binding of `var` in a list of scopes that starts with the
innermost one. -/
def innermost_binding : List (List (String × Int)) → String → Option Int
  | [], _ => none
  | scope :: outer, var =>
    match map_find scope var with
    | some offset => some offset
    | none => innermost_binding outer var

/-- The scopes of a context from the innermost outward: the current map, then the snapshots on
`variables_stack` from the most recent to the oldest. -/
def Context.scopes (c : Context) : List (List (String × Int)) :=
  c.variables :: c.variables_stack.reverse

/-- One call of `LabelFactory::create` as a compilation reaches it: what the compiler did to
the `static` state since the previous call, and the prefix of the factory the call is made on
(the factory of some `Context`, or of a copy of it). -/
structure LabelCall where
  between : Globals → Globals
  factory : String

/-- The labels a sequence of calls returns, in order. -/
def created_labels : List LabelCall → Globals → List String
  | [], _ => []
  | call :: rest, g =>
    let created := LabelFactory.create call.factory (call.between g)
    created.1 :: created_labels rest created.2

/-- Three calls on factories with the prefix `L`, with output written in between. -/
def sample_calls : List LabelCall :=
  [{ between := fun g => g, factory := "L" },
   { between := emit "  beqz t0, L0", factory := "L" },
   { between := fun g => Context.mark_register_free 0 (emit "L0:" g), factory := "L" }]

/-! ## Entering a block -/

/-- The statements of `BlockStmt::generate_code` in front of its loop: `push_scope`, then the
two scans of the block. -/
def BlockStmt.enter (stmts : List Stmt) (context : Context) (g : Globals) :
    Except Fatal (Context × Globals) :=
  let pushed := context.push_scope g
  match Stmt.scan_const_variables (.BlockStmt stmts) pushed.1 pushed.2 with
  | .error e => .error e
  | .ok (context, g) =>
    match Stmt.scan_unused (.BlockStmt stmts) context with
    | .error e => .error e
    | .ok context => .ok (context, g)

/-- The block is entered and its first `n` statements are generated. -/
def BlockStmt.generate_prefix (n : Nat) (stmts : List Stmt) (context : Context) (g : Globals) :
    Except Fatal (Context × Globals) :=
  match BlockStmt.enter stmts context g with
  | .error e => .error e
  | .ok (context, g) => Stmt.generate_code_each (stmts.take n) context g

/-! ## Values of expressions at run time -/

/-- The value of an expression without assignments and calls when each variable has the value
`env` gives it. -/
def value_in (env : List (String × Int)) : Expr → Option Int
  | .IntegerExpr value => some value
  | .IdExpr id => map_find env id
  | .BinaryOpExpr op lhs rhs =>
    match value_in env lhs, value_in env rhs with
    | some a, some b => direct_eval op a b
    | _, _ => none
  | .UnaryOpExpr op expr =>
    match value_in env expr with
    | some a =>
      if op = "-" then some (wrap32 (-a))
      else if op = "+" then some a
      else if op = "!" then some (b2i (a == 0))
      else none
    | none => none
  | .AssignExpr _ _ => none
  | .FunctionCallExpr _ _ => none

/-- The environment after a run of declarations, in which every declared variable has the value
of its own initializer. -/
def initial_values : List Stmt → List (String × Int) → List (String × Int)
  | [], env => env
  | .DeclStmt id (some expr) :: rest, env =>
    match value_in env expr with
    | some a => initial_values rest (map_set env id a)
    | none => initial_values rest env
  | _ :: rest, env => initial_values rest env

/-! ## Sample blocks with declarations -/

/-- The block `{ int a = 5; int b = a; a = 6; return b; }`. -/
def reassigned_block : List Stmt :=
  [.DeclStmt "a" (some (.IntegerExpr 5)),
   .DeclStmt "b" (some (.IdExpr "a")),
   .ExprStmt (.AssignExpr "a" (.IntegerExpr 6)),
   .ReturnStmt (some (.IdExpr "b"))]

/-- The block `{ int v = f(1); return 0; }`. -/
def dead_call_block : List Stmt :=
  [.DeclStmt "v" (some (.FunctionCallExpr "f" [.IntegerExpr 1])),
   .ReturnStmt (some (.IntegerExpr 0))]

/-- The block `{ int v = f(1); return v; }`. -/
def live_call_block : List Stmt :=
  [.DeclStmt "v" (some (.FunctionCallExpr "f" [.IntegerExpr 1])),
   .ReturnStmt (some (.IdExpr "v"))]

/-- The block `{ int x = 1; int x = 2; }`. -/
def unused_duplicate_block : List Stmt :=
  [.DeclStmt "x" (some (.IntegerExpr 1)), .DeclStmt "x" (some (.IntegerExpr 2))]

/-- The block `{ int x = 1; int x = 2; return x; }`. -/
def used_duplicate_block : List Stmt :=
  [.DeclStmt "x" (some (.IntegerExpr 1)), .DeclStmt "x" (some (.IntegerExpr 2)),
   .ReturnStmt (some (.IdExpr "x"))]

/-- The block `{ int x = 1; { int x = 2; return x; } return x; }`. -/
def shadowed_block : List Stmt :=
  [.DeclStmt "x" (some (.IntegerExpr 1)),
   .BlockStmt [.DeclStmt "x" (some (.IntegerExpr 2)), .ReturnStmt (some (.IdExpr "x"))],
   .ReturnStmt (some (.IdExpr "x"))]

/-- The errors that looking up a variable can raise. -/
def Fatal.is_lookup_failure : Fatal → Bool
  | .undeclared_variable _ => true
  | .out_of_range _ => true
  | _ => false

/-! ## Read positions -/

mutual
/-- Every return statement in the statement carries an expression. -/
def returns_carry_expr : Stmt → Bool
  | .ReturnStmt none => false
  | .ReturnStmt (some _) => true
  | .BlockStmt stmts => returns_carry_expr_each stmts
  | .IfStmt _ then_stmt (some else_stmt) =>
    returns_carry_expr then_stmt && returns_carry_expr else_stmt
  | .IfStmt _ then_stmt none => returns_carry_expr then_stmt
  | .WhileStmt _ body => returns_carry_expr body
  | .ExprStmt _ => true
  | .DeclStmt _ _ => true
  | .BreakStmt => true
  | .ContinueStmt => true
  | .EmptyStmt => true

def returns_carry_expr_each : List Stmt → Bool
  | [] => true
  | s :: rest => returns_carry_expr s && returns_carry_expr_each rest
end

mutual
/-- The identifiers in read position in a statement, leaving out the initializers of the
declarations whose variable `is_const` flags as constant. -/
def live_reads (is_const : List (String × Bool)) : Stmt → List String
  | .ExprStmt expr => ids_read expr
  | .ReturnStmt expr => of_optional ids_read expr
  | .BlockStmt stmts => live_reads_each is_const stmts
  | .IfStmt condition then_stmt (some else_stmt) =>
    ids_read condition ++ live_reads is_const then_stmt ++ live_reads is_const else_stmt
  | .IfStmt condition then_stmt none => ids_read condition ++ live_reads is_const then_stmt
  | .WhileStmt condition body => ids_read condition ++ live_reads is_const body
  | .DeclStmt id (some expr) => if map_find is_const id = some true then [] else ids_read expr
  | .DeclStmt _ none => []
  | .BreakStmt => []
  | .ContinueStmt => []
  | .EmptyStmt => []

def live_reads_each (is_const : List (String × Bool)) : List Stmt → List String
  | [] => []
  | s :: rest => live_reads is_const s ++ live_reads_each is_const rest
end

/-- The block `{ int a = 5; int b = a; return b; }`. -/
def constant_chain_block : List Stmt :=
  [.DeclStmt "a" (some (.IntegerExpr 5)),
   .DeclStmt "b" (some (.IdExpr "a")),
   .ReturnStmt (some (.IdExpr "b"))]

/-! ## Functions (`main.cpp`, `ast.hpp`)

The type `size_t` is 64 bits wide: arithmetic on it is arithmetic on `Nat` reduced modulo
`2^64`, and `~15` converted to it is `2^64 - 16`. -/

mutual
/-- The method `collect_variables` of the expression classes. -/
def Expr.collect_variables : Expr → List String → List String
  | .IdExpr id, vars => set_insert vars id
  | .BinaryOpExpr _ lhs rhs, vars =>
    Expr.collect_variables rhs (Expr.collect_variables lhs vars)
  | .UnaryOpExpr _ expr, vars => Expr.collect_variables expr vars
  | .AssignExpr id expr, vars => Expr.collect_variables expr (set_insert vars id)
  | .FunctionCallExpr _ arguments, vars => Expr.collect_variables_each arguments vars
  | .IntegerExpr _, vars => vars

def Expr.collect_variables_each : List Expr → List String → List String
  | [], vars => vars
  | arg :: rest, vars => Expr.collect_variables_each rest (Expr.collect_variables arg vars)
end

mutual
/-- The method `collect_variables` of the statement classes. -/
def Stmt.collect_variables : Stmt → List String → List String
  | .ExprStmt expr, vars => Expr.collect_variables expr vars
  | .ReturnStmt (some expr), vars => Expr.collect_variables expr vars
  | .ReturnStmt none, vars => vars
  | .BlockStmt stmts, vars => Stmt.collect_variables_each stmts vars
  | .IfStmt condition then_stmt (some else_stmt), vars =>
    Stmt.collect_variables else_stmt
      (Stmt.collect_variables then_stmt (Expr.collect_variables condition vars))
  | .IfStmt condition then_stmt none, vars =>
    Stmt.collect_variables then_stmt (Expr.collect_variables condition vars)
  | .WhileStmt condition body, vars =>
    Stmt.collect_variables body (Expr.collect_variables condition vars)
  | .DeclStmt id (some expr), vars => Expr.collect_variables expr (set_insert vars id)
  | .DeclStmt id none, vars => set_insert vars id
  | .BreakStmt, vars => vars
  | .ContinueStmt, vars => vars
  | .EmptyStmt, vars => vars

def Stmt.collect_variables_each : List Stmt → List String → List String
  | [], vars => vars
  | stmt :: rest, vars => Stmt.collect_variables_each rest (Stmt.collect_variables stmt vars)
end

namespace FunctionDecl

/-- The first loop of `FunctionDecl::generate_code`: every parameter is added to the set of
names and bound, in the caller's `Context`, to the next free offset. -/
def register_parameters : List Parameter → List String → Context → List String × Context
  | [], vars, context => (vars, context)
  | param :: rest, vars, context =>
    let vars := set_insert vars param.name
    let offset := context.stack_offset
    let context := context.add_variable_to_current_scope param.name offset 0
    let context := { context with stack_offset := context.stack_offset - 4 }
    register_parameters rest vars context

/-- The set `variables` of `FunctionDecl::generate_code` when it computes `variable_count`:
the names collected from the body, then the parameters. -/
def collected (func : FunctionDecl) (context : Context) : List String :=
  let vars :=
    match func.body with
    | some body => Stmt.collect_variables body []
    | none => []
  (register_parameters func.parameters vars { context with stack_offset := -12 }).1

/-- The computation of `frame_size` from `variable_count`. -/
def frame_size (variable_count : Nat) : Nat :=
  let frame_size :=
    ((variable_count * 4 + 16 + 15) % 18446744073709551616) &&& 18446744073709551600
  if variable_count = 0 then 16 else frame_size

/-- The lines from `.globl` to the empty line after `addi s0, sp, frame_size`. -/
def prologue (func : FunctionDecl) (frame_size : Nat) (g : Globals) : Globals :=
  let g := emit (".globl " ++ func.name) g
  let g := emit (func.name ++ ":") g
  let g := emit ("  # Function: " ++ func.return_type ++ " " ++ func.name ++ "(" ++
    ", ".intercalate (func.parameters.map (fun param => param.type ++ " " ++ param.name)) ++
    ")") g
  let g := emit ("  # Prologue - frame size: " ++ toString frame_size ++ " bytes") g
  let g := emit ("  addi sp, sp, -" ++ toString frame_size) g
  let g := emit ("  sw ra, " ++ toString (frame_size - 4) ++ "(sp)") g
  let g := emit ("  sw s0, " ++ toString (frame_size - 8) ++ "(sp)") g
  let g := emit ("  addi s0, sp, " ++ toString frame_size) g
  emit "" g

/-- The offset from `sp` at which the prologue finds parameter `i` of `n`, for `i` from 8 on:
the expression `-((i - 8) * 4 + 4) + frame_size + (parameters.size() - 8) * 4` in `size_t`. -/
def stack_parameter_offset (frame_size n i : Nat) : Nat :=
  ((18446744073709551616 - ((i - 8) * 4 + 4) % 18446744073709551616) + frame_size +
    (n - 8) * 4) % 18446744073709551616

/-- The second loop of `FunctionDecl::generate_code`: parameter `i` is bound to `param_offset`
in the copy of the context and saved to its slot, from `a<i>` or, from the ninth parameter on,
from the caller's stack through `t0`; the first six are recorded as cached in `t<i>`. -/
def save_parameters (frame_size n : Nat) :
    List Parameter → Nat → Int → Context → Globals → Context × Globals
  | [], _, _, func_context, g => (func_context, g)
  | param :: rest, i, param_offset, func_context, g =>
    let func_context :=
      { func_context with «variables» := map_set func_context.variables param.name param_offset }
    let g :=
      if i < 8 then
        let g := emit ("  sw a" ++ toString i ++ ", " ++ toString param_offset ++ "(s0)") g
        if i < 6 then
          let g := emit ("  mv t" ++ toString i ++ ", a" ++ toString i) g
          func_context.mark_register_used i param.name g
        else g
      else
        let g := emit ("  lw t0, " ++ toString (stack_parameter_offset frame_size n i) ++ "(sp)") g
        emit ("  sw t0, " ++ toString param_offset ++ "(s0)") g
    save_parameters frame_size n rest (i + 1) (param_offset - 4) func_context g

/-- The lines from the empty line in front of `.L_return_<name>` to `jr ra`. -/
def epilogue (func : FunctionDecl) (frame_size : Nat) (g : Globals) : Globals :=
  let g := emit "" g
  let g := emit (".L_return_" ++ func.name ++ ":") g
  let g := emit "  # Epilogue" g
  let g := emit ("  lw ra, " ++ toString (frame_size - 4) ++ "(sp)") g
  let g := emit ("  lw s0, " ++ toString (frame_size - 8) ++ "(sp)") g
  let g := emit ("  addi sp, sp, " ++ toString frame_size) g
  emit "  jr ra" g

/-- The method `FunctionDecl::generate_code`.  The context it returns is the caller's, which
the first loop has changed; the body is generated in a copy. -/
def generate_code (func : FunctionDecl) (context : Context) (g : Globals) :
    Except Fatal (Context × Globals) :=
  let vars :=
    match func.body with
    | some body => Stmt.collect_variables body []
    | none => []
  let registered := register_parameters func.parameters vars { context with stack_offset := -12 }
  let context := registered.2
  let variable_count := registered.1.length
  let frame_size := frame_size variable_count
  let g := prologue func frame_size g
  let func_context :=
    { context with current_function := func.name, optimize_variable_cache := true }
  let saved := save_parameters frame_size func.parameters.length func.parameters 0 (-12)
    func_context g
  let generated :=
    match func.body with
    | some body => Stmt.generate_code body saved.1 saved.2
    | none => .ok saved
  match generated with
  | .error e => .error e
  | .ok (_, g) => .ok (context, epilogue func frame_size g)

end FunctionDecl

/-- The method `ProgramWithFunctions::generate_code`: the functions in order, in one
`Context`, each followed by an empty line. -/
def ProgramWithFunctions.generate_code : List FunctionDecl → Context → Globals →
    Except Fatal (Context × Globals)
  | [], context, g => .ok (context, g)
  | func :: rest, context, g =>
    match func.generate_code context g with
    | .error e => .error e
    | .ok (context, g) => ProgramWithFunctions.generate_code rest context (emit "" g)

/-- The function `int first(int a, int b) { int c = a + b; return c; }`. -/
def three_names_function : FunctionDecl :=
  { return_type := "int", name := "first",
    parameters := [{ type := "int", name := "a" }, { type := "int", name := "b" }],
    body := some (.BlockStmt [
      .DeclStmt "c" (some (.BinaryOpExpr "+" (.IdExpr "a") (.IdExpr "b"))),
      .ReturnStmt (some (.IdExpr "c"))]) }

/-! ## Literal materialisation, instruction by instruction

`IntegerExpr::generate_code` chooses one of four instructions.  Their effect on the destination
register is taken from the RV32I description of the target: `mv` from `zero` gives 0, `addi`
from `zero` the sign-extended 12-bit immediate field, `lui` the 20-bit immediate field in bits
31..12 over twelve zero bits, and `li` the 32-bit constant. -/

/-- The four instructions `IntegerExpr::generate_code` chooses among, with their operand. -/
inductive Materialise where
  | mv_zero
  | addi_zero (imm : Int)
  | lui (imm : Int)
  | li (imm : Int)
  deriving Repr, DecidableEq

/-- The choice made by the `if` chain of `IntegerExpr::generate_code`: `value & 0xFFF` is the
remainder modulo 4096, `value >> 12` the arithmetic shift. -/
def IntegerExpr.select (value : Int) : Materialise :=
  if value = 0 then .mv_zero
  else if value ≥ -2048 ∧ value ≤ 2047 then .addi_zero value
  else if value % 4096 = 0 then .lui (value >>> 12)
  else .li value

/-- The line written for an instruction with destination `reg`. -/
def Materialise.line (reg : String) : Materialise → String
  | .mv_zero => "  mv " ++ reg ++ ", zero"
  | .addi_zero imm => "  addi " ++ reg ++ ", zero, " ++ toString imm
  | .lui imm => "  lui " ++ reg ++ ", " ++ toString imm
  | .li imm => "  li " ++ reg ++ ", " ++ toString imm

/-- The low `width` bits of `x` read as a two's complement number. -/
def sign_extend (width : Nat) (x : Int) : Int :=
  (x + 2 ^ (width - 1)) % 2 ^ width - 2 ^ (width - 1)

/-- The value the instruction leaves in its destination register. -/
def Materialise.loads : Materialise → Int
  | .mv_zero => 0
  | .addi_zero imm => wrap32 (0 + sign_extend 12 imm)
  | .lui imm => wrap32 (imm % 1048576 * 4096)
  | .li imm => wrap32 imm

/-! ## Sample functions and statements for the register cache and the frame -/

/-- An `int` parameter. -/
def int_param (name : String) : Parameter := { type := "int", name := name }

/-- A scope that binds `x` at offset -12 and `y` at -16, neither a known constant. -/
def xy_context : Context :=
  { «variables» := [("x", -12), ("y", -16)], used_variables := ["x", "y"], stack_offset := -20 }

/-- The statement `if (x) y = 1;`. -/
def if_single : Stmt :=
  .IfStmt (.IdExpr "x") (.ExprStmt (.AssignExpr "y" (.IntegerExpr 1))) none

/-- The statement `if (x) { y = 1; }`. -/
def if_block : Stmt :=
  .IfStmt (.IdExpr "x") (.BlockStmt [.ExprStmt (.AssignExpr "y" (.IntegerExpr 1))]) none

/-- The function `int flag(int x, int y) { if (x) y = 1; return y; }`. -/
def flag_function : FunctionDecl :=
  { return_type := "int", name := "flag",
    parameters := [int_param "x", int_param "y"],
    body := some (.BlockStmt [if_single, .ReturnStmt (some (.IdExpr "y"))]) }

/-- The function `int first(int a, int b, int c, int d, int e, int f, int g, int h, int i)
{ return a; }`. -/
def first_of_nine : FunctionDecl :=
  { return_type := "int", name := "first",
    parameters := ["a", "b", "c", "d", "e", "f", "g", "h", "i"].map int_param,
    body := some (.BlockStmt [.ReturnStmt (some (.IdExpr "a"))]) }

/-- The function `int first(int a, int b) { return a; }`. -/
def first_of_two : FunctionDecl :=
  { return_type := "int", name := "first",
    parameters := [int_param "a", int_param "b"],
    body := some (.BlockStmt [.ReturnStmt (some (.IdExpr "a"))]) }

/-- The last of `lines` that writes the register `reg`: a `mv` or a `lw` with `reg` as its
destination. -/
def last_write (reg : String) (lines : List String) : Option String :=
  (lines.filter (fun line =>
    List.isPrefixOf ("  mv " ++ reg ++ ",").data line.data ||
    List.isPrefixOf ("  lw " ++ reg ++ ",").data line.data)).getLast?

/-- The innermost block of `nested_function`: `{ int a = 7; return a + (b + c); }`. -/
def nested_inner : List Stmt :=
  [.DeclStmt "a" (some (.IntegerExpr 7)),
   .ReturnStmt (some (.BinaryOpExpr "+" (.IdExpr "a")
     (.BinaryOpExpr "+" (.IdExpr "b") (.IdExpr "c"))))]

/-- The middle block of `nested_function`. -/
def nested_middle : List Stmt :=
  [.DeclStmt "a" (some (.IntegerExpr 4)),
   .DeclStmt "b" (some (.IntegerExpr 5)),
   .DeclStmt "c" (some (.IntegerExpr 6)),
   .BlockStmt nested_inner]

/-- The body of `nested_function`. -/
def nested_outer : List Stmt :=
  [.DeclStmt "a" (some (.IntegerExpr 1)),
   .DeclStmt "b" (some (.IntegerExpr 2)),
   .DeclStmt "c" (some (.IntegerExpr 3)),
   .BlockStmt nested_middle]

/-- The function `int nested() { int a = 1; int b = 2; int c = 3; { int a = 4; int b = 5;
int c = 6; { int a = 7; return a + (b + c); } } }`. -/
def nested_function : FunctionDecl :=
  { return_type := "int", name := "nested", parameters := [],
    body := some (.BlockStmt nested_outer) }

/-! ## Constant evaluation with the division trap (`ast.hpp`, `optimizations/algebraic.cpp`)

The quotient of the least `int` by `-1` does not fit an `int`.  For this one pair of operands
the C++ expressions `l / r` and `l % r` have undefined behaviour, and the division instruction
of the host traps, which ends the compilation.  `evaluate_constant`, `fold_constant` and
`optimize_expr` above give the value the C++ functions return when they return; the functions
here are the same functions with that trap made explicit. -/

/-- The C++ expression `l / r` on two `int`s with `r != 0`. -/
def checked_div (l r : Int) : Except Fatal Int :=
  if l = -2147483648 ∧ r = -1 then .error .division_overflow else .ok (wrap32 (Int.tdiv l r))

/-- The C++ expression `l % r` on two `int`s with `r != 0`. -/
def checked_rem (l r : Int) : Except Fatal Int :=
  if l = -2147483648 ∧ r = -1 then .error .division_overflow else .ok (wrap32 (Int.tmod l r))

/-- The dispatch on `op` in `BinaryOpExpr::evaluate_constant`, on the values `l` and `r` of the
operands. -/
def BinaryOpExpr.evaluate_checked (op : String) (l r : Int) : Except Fatal Int :=
  if op = "+" then .ok (wrap32 (l + r))
  else if op = "-" then .ok (wrap32 (l - r))
  else if op = "*" then .ok (wrap32 (l * r))
  else if op = "/" ∧ r ≠ 0 then checked_div l r
  else if op = "%" ∧ r ≠ 0 then checked_rem l r
  else if op = "==" then .ok (if l = r then 1 else 0)
  else if op = "!=" then .ok (if l ≠ r then 1 else 0)
  else if op = "<" then .ok (if l < r then 1 else 0)
  else if op = ">" then .ok (if l > r then 1 else 0)
  else if op = "<=" then .ok (if l ≤ r then 1 else 0)
  else if op = ">=" then .ok (if l ≥ r then 1 else 0)
  else if op = "&&" then .ok (if l ≠ 0 ∧ r ≠ 0 then 1 else 0)
  else if op = "||" then .ok (if l ≠ 0 ∨ r ≠ 0 then 1 else 0)
  else .ok 0

/-- The dispatch on `op` in `UnaryOpExpr::evaluate_constant`, on the value of the operand. -/
def UnaryOpExpr.evaluate_value (op : String) (val : Int) : Int :=
  if op = "-" then wrap32 (-val)
  else if op = "+" then val
  else if op = "!" then b2i (val == 0)
  else val

/-- The method `Expr::evaluate_constant` with its overrides, as a run that can trap. -/
def evaluate_constant_checked (context : Context) : Expr → Except Fatal Int
  | .IntegerExpr value => .ok value
  | .IdExpr id => .ok ((map_find context.const_val id).getD 0)
  | .BinaryOpExpr op lhs rhs =>
    if !(is_constant context lhs && is_constant context rhs) then .ok 0 else
    match evaluate_constant_checked context lhs with
    | .error e => .error e
    | .ok l =>
      match evaluate_constant_checked context rhs with
      | .error e => .error e
      | .ok r => BinaryOpExpr.evaluate_checked op l r
  | .UnaryOpExpr op expr =>
    if !(is_constant context expr) then .ok 0 else
    match evaluate_constant_checked context expr with
    | .error e => .error e
    | .ok val => .ok (UnaryOpExpr.evaluate_value op val)
  | .AssignExpr _ _ => .ok 0
  | .FunctionCallExpr _ _ => .ok 0

namespace AlgebraicPass

/-- The dispatch on `op` in the binary branch of `fold_constant`, on the values of the
operands. -/
def fold_binary_checked (op : String) (lhs_val rhs_val : Int) : Except Fatal Int :=
  if op = "+" then .ok (wrap32 (lhs_val + rhs_val))
  else if op = "-" then .ok (wrap32 (lhs_val - rhs_val))
  else if op = "*" then .ok (wrap32 (lhs_val * rhs_val))
  else if op = "/" then (if rhs_val ≠ 0 then checked_div lhs_val rhs_val else .ok 0)
  else if op = "%" then (if rhs_val ≠ 0 then checked_rem lhs_val rhs_val else .ok 0)
  else if op = "==" then .ok (b2i (lhs_val == rhs_val))
  else if op = "!=" then .ok (b2i (lhs_val != rhs_val))
  else if op = "<" then .ok (b2i (decide (lhs_val < rhs_val)))
  else if op = ">" then .ok (b2i (decide (lhs_val > rhs_val)))
  else if op = "<=" then .ok (b2i (decide (lhs_val ≤ rhs_val)))
  else if op = ">=" then .ok (b2i (decide (lhs_val ≥ rhs_val)))
  else if op = "&&" then .ok (b2i (lhs_val != 0 && rhs_val != 0))
  else if op = "||" then .ok (b2i (lhs_val != 0 || rhs_val != 0))
  else .ok 0

/-- The dispatch on `op` in the unary branch of `fold_constant`. -/
def fold_unary_value (op : String) (val : Int) : Int :=
  if op = "-" then wrap32 (-val)
  else if op = "!" then b2i (val == 0)
  else 0

/-- The function `fold_constant` as a run that can trap. -/
def fold_constant_checked (expr : Expr) (context : Context) : Except Fatal Int :=
  match expr with
  | .BinaryOpExpr op lhs rhs =>
    match evaluate_constant_checked context lhs with
    | .error e => .error e
    | .ok lhs_val =>
      match evaluate_constant_checked context rhs with
      | .error e => .error e
      | .ok rhs_val => fold_binary_checked op lhs_val rhs_val
  | .UnaryOpExpr op e =>
    match evaluate_constant_checked context e with
    | .error e => .error e
    | .ok val => .ok (fold_unary_value op val)
  | _ => .ok 0

/-- The identities `optimize_binary_op` tests on the node before it visits an operand: the
replacement it returns at once, `none` when it goes on to the operands. -/
def identity (op : String) (lhs rhs : Expr) : Option Expr :=
  if op = "+" then
    if as_integer lhs = some 0 then some (clone rhs)
    else if as_integer rhs = some 0 then some (clone lhs)
    else none
  else if op = "-" then
    if as_integer rhs = some 0 then some (clone lhs)
    else
      match as_id lhs, as_id rhs with
      | some id_lhs, some id_rhs => if id_lhs = id_rhs then some (.IntegerExpr 0) else none
      | _, _ => none
  else if op = "*" then
    if as_integer lhs = some 0 then some (.IntegerExpr 0)
    else if as_integer lhs = some 1 then some (clone rhs)
    else if as_integer rhs = some 0 then some (.IntegerExpr 0)
    else if as_integer rhs = some 1 then some (clone lhs)
    else none
  else if op = "/" then
    if as_integer lhs = some 0 then some (.IntegerExpr 0)
    else if as_integer rhs = some 1 then some (clone lhs)
    else none
  else if op = "%" then
    if as_integer rhs = some 1 then some (.IntegerExpr 0)
    else none
  else none

/-- The function `optimize_expr` (with `optimize_binary_op`) as a run that can trap: a foldable
node is folded, else an identity on the node returns at once, else the operands are visited,
the left one first. -/
def optimize_expr_checked (context : Context) : Expr → Except Fatal (Option Expr × Expr)
  | .BinaryOpExpr op lhs rhs =>
    if is_constant_foldable (.BinaryOpExpr op lhs rhs) context then
      match fold_constant_checked (.BinaryOpExpr op lhs rhs) context with
      | .error e => .error e
      | .ok result => .ok (some (.IntegerExpr result), .BinaryOpExpr op lhs rhs)
    else
      match identity op lhs rhs with
      | some replacement => .ok (some replacement, .BinaryOpExpr op lhs rhs)
      | none =>
        match optimize_expr_checked context lhs with
        | .error e => .error e
        | .ok optimized_lhs =>
          match optimize_expr_checked context rhs with
          | .error e => .error e
          | .ok optimized_rhs =>
            .ok (none, .BinaryOpExpr op (updated optimized_lhs) (updated optimized_rhs))
  | .UnaryOpExpr op e =>
    if is_constant_foldable (.UnaryOpExpr op e) context then
      match fold_constant_checked (.UnaryOpExpr op e) context with
      | .error e => .error e
      | .ok result => .ok (some (.IntegerExpr result), .UnaryOpExpr op e)
    else
      match optimize_expr_checked context e with
      | .error e => .error e
      | .ok optimized => .ok (none, .UnaryOpExpr op (updated optimized))
  | e => .ok (none, e)

end AlgebraicPass

/-! ## The target machine

Modelled from the RV32IM description of the target, not from code of the repository: the
registers the generated code uses, the stack as a map from word addresses to words, and the
effect of the instructions the code generator emits for a function made of moves, additions,
comparisons, loads and stores of stack slots, and jumps.  All results are reduced to 32 bits;
`zero` reads as 0; a read of a register or a word that has not been written has no value. -/

/-- The registers named in the generated code. -/
inductive Reg where
  | zero
  | ra
  | sp
  | s0
  | a (index : Nat)
  | t (index : Nat)
  deriving Repr, DecidableEq

/-- The name of a register as the code generator writes it. -/
def Reg.name : Reg → String
  | .zero => "zero"
  | .ra => "ra"
  | .sp => "sp"
  | .s0 => "s0"
  | .a index => "a" ++ toString index
  | .t index => "t" ++ toString index

/-- One line of generated code: a directive, comment or empty line (`text`), a label, or an
instruction. -/
inductive Instr where
  | text (line : String)
  | label (name : String)
  | addi (rd rs : Reg) (imm : Int)
  | mv (rd rs : Reg)
  | add (rd rs1 rs2 : Reg)
  | sub (rd rs1 rs2 : Reg)
  | slt (rd rs1 rs2 : Reg)
  | lw (rd : Reg) (offset : Int) (base : Reg)
  | sw (rs : Reg) (offset : Int) (base : Reg)
  | beqz (rs : Reg) (target : String)
  | j (target : String)
  | jr (rs : Reg)
  deriving Repr, DecidableEq

/-- The line of assembly that stands for an instruction. -/
def Instr.line : Instr → String
  | .text line => line
  | .label name => name ++ ":"
  | .addi rd rs imm => "  addi " ++ rd.name ++ ", " ++ rs.name ++ ", " ++ toString imm
  | .mv rd rs => "  mv " ++ rd.name ++ ", " ++ rs.name
  | .add rd rs1 rs2 => "  add " ++ rd.name ++ ", " ++ rs1.name ++ ", " ++ rs2.name
  | .sub rd rs1 rs2 => "  sub " ++ rd.name ++ ", " ++ rs1.name ++ ", " ++ rs2.name
  | .slt rd rs1 rs2 => "  slt " ++ rd.name ++ ", " ++ rs1.name ++ ", " ++ rs2.name
  | .lw rd offset base => "  lw " ++ rd.name ++ ", " ++ toString offset ++ "(" ++ base.name ++ ")"
  | .sw rs offset base => "  sw " ++ rs.name ++ ", " ++ toString offset ++ "(" ++ base.name ++ ")"
  | .beqz rs target => "  beqz " ++ rs.name ++ ", " ++ target
  | .j target => "  j " ++ target
  | .jr rs => "  jr " ++ rs.name

/-- The state of the machine: the registers that have been written, the words that have been
stored, and the index of the next line. -/
structure Machine where
  registers : List (Reg × Int) := []
  memory : List (Int × Int) := []
  pc : Nat := 0
  deriving Repr, DecidableEq

namespace Machine

def read (m : Machine) (r : Reg) : Option Int :=
  if r = .zero then some 0 else (m.registers.find? (fun entry => entry.1 = r)).map (fun entry => entry.2)

/-- A write to `zero` is discarded. -/
def write (m : Machine) (r : Reg) (value : Int) : Machine :=
  if r = .zero then m
  else { m with registers := (r, wrap32 value) :: m.registers.filter (fun entry => entry.1 ≠ r) }

def load (m : Machine) (address : Int) : Option Int :=
  (m.memory.find? (fun entry => entry.1 = address)).map (fun entry => entry.2)

def store (m : Machine) (address value : Int) : Machine :=
  { m with memory := (address, value) :: m.memory.filter (fun entry => entry.1 ≠ address) }

def next (m : Machine) : Machine := { m with pc := m.pc + 1 }

/-- The index of the line that holds the label `target`. -/
def jump (program : List Instr) (target : String) (m : Machine) : Option Machine :=
  match program.indexOf? (.label target) with
  | some index => some { m with pc := index }
  | none => none

end Machine

/-- The effect of the line at `pc`: the next state, or the value of `a0` when the line is the
return `jr`. -/
def Machine.step (program : List Instr) (m : Machine) : Option (Machine ⊕ Int) :=
  match program[m.pc]? with
  | none => none
  | some (.text _) => some (.inl m.next)
  | some (.label _) => some (.inl m.next)
  | some (.addi rd rs imm) =>
    match m.read rs with
    | some x => some (.inl (m.write rd (x + imm)).next)
    | none => none
  | some (.mv rd rs) =>
    match m.read rs with
    | some x => some (.inl (m.write rd x).next)
    | none => none
  | some (.add rd rs1 rs2) =>
    match m.read rs1, m.read rs2 with
    | some x, some y => some (.inl (m.write rd (x + y)).next)
    | _, _ => none
  | some (.sub rd rs1 rs2) =>
    match m.read rs1, m.read rs2 with
    | some x, some y => some (.inl (m.write rd (x - y)).next)
    | _, _ => none
  | some (.slt rd rs1 rs2) =>
    match m.read rs1, m.read rs2 with
    | some x, some y => some (.inl (m.write rd (if x < y then 1 else 0)).next)
    | _, _ => none
  | some (.lw rd offset base) =>
    match m.read base with
    | some address =>
      match m.load (address + offset) with
      | some word => some (.inl (m.write rd word).next)
      | none => none
    | none => none
  | some (.sw rs offset base) =>
    match m.read rs, m.read base with
    | some x, some address => some (.inl (m.store (address + offset) x).next)
    | _, _ => none
  | some (.beqz rs target) =>
    match m.read rs with
    | some x => if x = 0 then (m.jump program target).map .inl else some (.inl m.next)
    | none => none
  | some (.j target) => (m.jump program target).map .inl
  | some (.jr _) => (m.read (.a 0)).map .inr

/-- The value a function returns, in at most `fuel` steps. -/
def Machine.run (program : List Instr) : Nat → Machine → Option Int
  | 0, _ => none
  | fuel + 1, m =>
    match m.step program with
    | none => none
    | some (.inl m) => Machine.run program fuel m
    | some (.inr value) => some value

/-- The machine at the call of a function with two arguments: `a0` and `a1` hold them, `sp` is
a word-aligned address, `ra` and `s0` hold the caller's values. -/
def Machine.call (x y : Int) : Machine :=
  { registers := [(.a 0, x), (.a 1, y), (.sp, 65536), (.ra, 0), (.s0, 65600)] }

/-- The function `sum` of `sum_function` as `TailRecursionPass::run` leaves it:
`int sum(int n, int acc) { int n = n; int acc = acc; { while (n > 0) { acc = acc + n;
n = n - 1; } return acc; } }`. -/
def sum_converted : FunctionDecl :=
  { sum_function with
    body := some (.BlockStmt [
      .DeclStmt "n" (some (.IdExpr "n")),
      .DeclStmt "acc" (some (.IdExpr "acc")),
      TailRecursionPass.loop_for "n" "acc"]) }

/-- The lines `FunctionDecl::generate_code` writes for `sum_converted`. -/
def sum_converted_code : List Instr :=
  [.text ".globl sum", .label "sum", .text "  # Function: int sum(int n, int acc)",
   .text "  # Prologue - frame size: 32 bytes",
   .addi .sp .sp (-32), .sw .ra 28 .sp, .sw .s0 24 .sp, .addi .s0 .sp 32, .text "",
   .sw (.a 0) (-12) .s0, .mv (.t 0) (.a 0), .sw (.a 1) (-16) .s0, .mv (.t 1) (.a 1),
   .text "# n already in t0", .text "# mv t0, t0", .sw (.t 0) (-20) .s0,
   .text "# acc already in t1", .mv (.t 0) (.t 1), .sw (.t 0) (-24) .s0,
   .label "L0", .text "  # n saved to t2", .lw (.t 2) (-20) .s0, .mv (.t 0) (.t 2),
   .mv (.t 1) .zero, .slt (.t 0) (.t 1) (.t 0), .beqz (.t 0) "L1",
   .text "# acc already in t1", .mv (.t 0) (.t 1), .mv (.t 1) (.t 2), .add (.t 0) (.t 0) (.t 1),
   .mv (.t 1) (.t 0), .sw (.t 0) (-24) .s0,
   .text "# n already in t2", .mv (.t 0) (.t 2), .addi (.t 1) .zero 1, .sub (.t 0) (.t 0) (.t 1),
   .mv (.t 2) (.t 0), .sw (.t 0) (-20) .s0, .j "L0",
   .label "L1", .lw (.t 0) (-24) .s0, .mv (.a 0) (.t 0), .j ".L_return_sum", .text "",
   .label ".L_return_sum", .text "  # Epilogue", .lw .ra 28 .sp, .lw .s0 24 .sp,
   .addi .sp .sp 32, .jr .ra]

/-! # Theorems -/

/-! ## Arithmetic facts used below -/

theorem tdiv_eq_trunc_div (a b : Int) : Int.tdiv a b = trunc_div a b := by
  unfold trunc_div
  rcases a with (_ | m) | m <;> rcases b with (_ | n) | n <;> simp [Int.tdiv, Int.sign]
  all_goals
    first
    | rw [abs_of_nonneg (by omega : (0 : Int) ≤ m + 1), abs_of_nonneg (by omega : (0 : Int) ≤ n + 1)]
    | rw [abs_of_nonneg (by omega : (0 : Int) ≤ m + 1)]
    | rw [abs_of_nonneg (by omega : (0 : Int) ≤ n + 1)]

theorem tmod_eq_c_rem (a b : Int) : Int.tmod a b = c_rem a b := by
  unfold c_rem
  rcases a with (_ | m) | m <;> rcases b with (_ | n) | n <;> simp [Int.tmod, Int.sign]
  all_goals rw [abs_of_nonneg (by omega : (0 : Int) ≤ m + 1)]

/-- C2: on `UnaryOp(op, Int v)` the pass returns the literal `-v` for `-` and `(v == 0)` for
`!`, the values `UnaryOpExpr::evaluate_constant` gives; for unary `+` it returns the literal
`0` whatever `v` is, while `evaluate_constant` gives `v`. -/
theorem C2_fold_unary_literal (context : Context) (v : Int) :
    (AlgebraicPass.optimize_expr context (.UnaryOpExpr "-" (.IntegerExpr v))).1
        = some (.IntegerExpr (evaluate_constant context (.UnaryOpExpr "-" (.IntegerExpr v)))) ∧
    (AlgebraicPass.optimize_expr context (.UnaryOpExpr "!" (.IntegerExpr v))).1
        = some (.IntegerExpr (evaluate_constant context (.UnaryOpExpr "!" (.IntegerExpr v)))) ∧
    (AlgebraicPass.optimize_expr context (.UnaryOpExpr "+" (.IntegerExpr v))).1
        = some (.IntegerExpr 0) ∧
    evaluate_constant context (.UnaryOpExpr "+" (.IntegerExpr v)) = v := by
  simp [AlgebraicPass.optimize_expr, AlgebraicPass.is_constant_foldable,
    AlgebraicPass.fold_constant, is_constant, evaluate_constant]

/-! ## Output only grows during code generation -/

theorem grows_refl (g : Globals) : grows_to g g := ⟨⟨[], by simp⟩, le_refl _⟩

theorem grows_trans {g1 g2 g3 : Globals} (h1 : grows_to g1 g2) (h2 : grows_to g2 g3) :
    grows_to g1 g3 := by
  obtain ⟨⟨a, ha⟩, la⟩ := h1
  obtain ⟨⟨b, hb⟩, lb⟩ := h2
  exact ⟨⟨a ++ b, by rw [hb, ha, List.append_assoc]⟩, le_trans la lb⟩

theorem grows_of_eq {g g1 g2 : Globals} (h : grows_to g g1) (hos : g2.os = g1.os)
    (hl : g2.label_count = g1.label_count) : grows_to g g2 := by
  obtain ⟨⟨a, ha⟩, la⟩ := h
  exact ⟨⟨a, by rw [hos, ha]⟩, by rw [hl]; exact la⟩

theorem grows_emit {g g1 : Globals} (line : String) (h : grows_to g g1) :
    grows_to g (emit line g1) :=
  grows_trans h ⟨⟨[line], rfl⟩, le_refl _⟩

theorem grows_free {g g1 : Globals} (r : Nat) (h : grows_to g g1) :
    grows_to g (Context.mark_register_free r g1) :=
  grows_of_eq h rfl rfl

theorem grows_used {g g1 : Globals} (c : Context) (r : Nat) (v : String) (h : grows_to g g1) :
    grows_to g (c.mark_register_used r v g1) :=
  grows_of_eq h rfl rfl

theorem grows_create {g g1 : Globals} (p : String) (h : grows_to g g1) :
    grows_to g (LabelFactory.create p g1).2 :=
  grows_trans h ⟨⟨[], by simp [LabelFactory.create]⟩, by simp [LabelFactory.create]⟩

theorem grows_next_temp {g g1 : Globals} (h : grows_to g g1) :
    grows_to g (Context.get_next_temp_register_id g1).2 := by
  unfold Context.get_next_temp_register_id
  split
  · exact h
  · split
    · exact h
    · exact grows_of_eq h rfl rfl

theorem grows_integer {g g1 : Globals} (v : Int) (r : Nat) (c : Context) (h : grows_to g g1) :
    grows_to g (IntegerExpr.generate_code v r c g1) :=
  grows_used _ _ _ (grows_free _ (grows_emit _ h))

theorem grows_finish {g g1 : Globals} (c : Context) (h : grows_to g g1) :
    grows_to g (BinaryOpExpr.finish c g1) :=
  grows_used _ _ _ (grows_free _ h)

theorem grows_guarded {g g1 : Globals} (m : String) (c : Context) (h : grows_to g g1) :
    grows_to g (BinaryOpExpr.guarded m c g1) :=
  grows_emit _ (grows_emit _ (grows_emit _ (grows_emit _ (grows_create c.label_factory h))))

theorem grows_id {g g1 g' : Globals} {c c' : Context} (id : String) (r : Nat)
    (h : grows_to g g1) (hgen : IdExpr.generate_code id r c g1 = .ok (c', g')) :
    grows_to g g' := by
  unfold IdExpr.generate_code at hgen
  split at hgen
  · split at hgen
    · simp only [Except.ok.injEq, Prod.mk.injEq] at hgen
      obtain ⟨-, rfl⟩ := hgen
      refine grows_used _ _ _ (grows_free _ ?_)
      split
      · exact grows_emit _ (grows_emit _ h)
      · exact grows_emit _ (grows_emit _ h)
    · simp only at hgen
      split at hgen
      · split at hgen
        · simp at hgen
        · simp only [Except.ok.injEq, Prod.mk.injEq] at hgen
          obtain ⟨-, rfl⟩ := hgen
          exact grows_used _ _ _ (grows_free _ (grows_emit _ h))
      · split at hgen
        · simp at hgen
        · simp only [Except.ok.injEq, Prod.mk.injEq] at hgen
          obtain ⟨-, rfl⟩ := hgen
          exact grows_emit _ (grows_emit _ (grows_emit _ (grows_used _ _ _ (grows_free _ (grows_next_temp h)))))
  · simp only at hgen
    split at hgen
    · split at hgen
      · simp at hgen
      · simp only [Except.ok.injEq, Prod.mk.injEq] at hgen
        obtain ⟨-, rfl⟩ := hgen
        exact grows_emit _ h
    · split at hgen
      · simp at hgen
      · simp only [Except.ok.injEq, Prod.mk.injEq] at hgen
        obtain ⟨-, rfl⟩ := hgen
        exact grows_emit _ h


theorem grows_short_circuit {g g1 : Globals} (op : String) (c : Context) (h : grows_to g g1) :
    grows_to g (BinaryOpExpr.short_circuit_entry op c g1).2 := by
  unfold BinaryOpExpr.short_circuit_entry
  split
  · exact grows_emit _ (grows_emit _ (grows_create c.label_factory (grows_create c.label_factory h)))
  · split
    · exact grows_emit _ (grows_emit _ (grows_create c.label_factory (grows_create c.label_factory h)))
    · exact h

theorem grows_simple_rhs {g g1 g2 : Globals} (rhs : Expr) (c : Context) (h : grows_to g g1)
    (hs : BinaryOpExpr.load_simple_rhs rhs c g1 = some (.ok g2)) : grows_to g g2 := by
  unfold BinaryOpExpr.load_simple_rhs at hs
  split at hs
  · split at hs
    · split at hs
      · simp only [Option.some.injEq, Except.ok.injEq] at hs
        subst hs
        exact grows_emit _ h
      · split at hs
        · simp at hs
        · simp only [Option.some.injEq, Except.ok.injEq] at hs
          subst hs
          exact grows_emit _ h
    · simp at hs
  · simp only [Option.some.injEq, Except.ok.injEq] at hs
    subst hs
    exact grows_emit _ h
  · simp at hs

theorem grows_ite {g : Globals} {p : Prop} [Decidable p] {a b : Globals}
    (ha : grows_to g a) (hb : grows_to g b) : grows_to g (if p then a else b) := by
  split
  · exact ha
  · exact hb

theorem grows_operation {g g1 : Globals} (op : String) (rhs : Expr) (simple : Bool)
    (labels : BinaryOpExpr.Labels) (c : Context) (h : grows_to g g1) :
    grows_to g (BinaryOpExpr.emit_operation op rhs simple labels c g1) := by
  unfold BinaryOpExpr.emit_operation
  dsimp only
  generalize (if simple = true then as_integer rhs else none) = int_rhs
  cases int_rhs <;> dsimp only <;>
    repeat (with_reducible (first | exact h | apply grows_ite | apply grows_guarded | apply grows_emit))

theorem grows_foldl_free {g g1 : Globals} (used : List Bool) (l : List Nat) (h : grows_to g g1) :
    grows_to g (l.foldl
      (fun g temp => if used.getD temp false then Context.mark_register_free temp g else g) g1) := by
  induction l generalizing g1 with
  | nil => exact h
  | cons a l ih =>
    simp only [List.foldl_cons]
    apply ih
    split
    · exact grows_free _ h
    · exact h

theorem grows_free_callee {g g1 : Globals} (f : String) (h : grows_to g g1) :
    grows_to g (free_callee_registers f g1) := by
  unfold free_callee_registers
  exact grows_foldl_free _ _ (grows_of_eq h rfl rfl)

mutual
theorem generate_code_grows : ∀ (e : Expr) (rr : Nat) (c : Context) (g0 g : Globals) (c' : Context)
    (g' : Globals), grows_to g0 g → generate_code e rr c g = .ok (c', g') → grows_to g0 g'
  | .IntegerExpr v, rr, c, g0, g, c', g', h0, h => by
    simp only [generate_code, Except.ok.injEq, Prod.mk.injEq] at h
    obtain ⟨-, rfl⟩ := h
    exact grows_integer _ _ _ h0
  | .IdExpr id, rr, c, g0, g, c', g', h0, h => by
    simp only [generate_code] at h
    exact grows_id id rr h0 h
  | .BinaryOpExpr op lhs rhs, rr, c, g0, g, c', g', h0, h => by
    rw [generate_code] at h
    split at h
    · simp only [Except.ok.injEq, Prod.mk.injEq] at h
      obtain ⟨-, rfl⟩ := h
      exact grows_finish _ (grows_integer _ _ _ h0)
    · split at h
      · simp at h
      · rename_i c1 g1 hl
        have h1 := generate_code_grows lhs 0 c g0 g c1 g1 h0 hl
        have h2 := grows_short_circuit op c1 h1
        split at h
        rename_i labels gs hsc
        rw [hsc] at h2
        simp only at h2
        split at h
        · simp at h
        · rename_i g2 hs
          simp only [Except.ok.injEq, Prod.mk.injEq] at h
          obtain ⟨-, rfl⟩ := h
          exact grows_finish _ (grows_operation _ _ _ _ _ (grows_simple_rhs rhs c1 h2 hs))
        · dsimp only at h
          split at h
          · simp at h
          · rename_i c2 g2 hr
            simp only [Except.ok.injEq, Prod.mk.injEq] at h
            obtain ⟨-, rfl⟩ := h
            have h3 := generate_code_grows rhs 1 c1 g0 _ c2 g2 (grows_emit _ (grows_emit _ h2)) hr
            exact grows_finish _ (grows_operation _ _ _ _ _
              (grows_emit _ (grows_emit _ (grows_emit _ h3))))
  | .UnaryOpExpr op e, rr, c, g0, g, c', g', h0, h => by
    rw [generate_code] at h
    simp only at h
    split at h
    · simp only [Except.ok.injEq, Prod.mk.injEq] at h
      obtain ⟨-, rfl⟩ := h
      exact grows_used _ _ _ (grows_free _ (grows_integer _ _ _ h0))
    · split at h
      · simp only [Except.ok.injEq, Prod.mk.injEq] at h
        obtain ⟨-, rfl⟩ := h
        exact grows_used _ _ _ (grows_free _ (grows_integer _ _ _ h0))
      · split at h
        · simp only [Except.ok.injEq, Prod.mk.injEq] at h
          obtain ⟨-, rfl⟩ := h
          exact grows_used _ _ _ (grows_free _ (grows_integer _ _ _ h0))
        · split at h
          · simp at h
          · rename_i c1 g1 he
            have h1 := generate_code_grows e rr c g0 g c1 g1 h0 he
            simp only [Except.ok.injEq, Prod.mk.injEq] at h
            obtain ⟨-, rfl⟩ := h
            refine grows_used _ _ _ (grows_free _ ?_)
            split <;> split <;>
              first
              | exact h1
              | exact grows_emit _ h1
              | exact grows_emit _ (grows_emit _ h1)
  | .AssignExpr id e, rr, c, g0, g, c', g', h0, h => by
    rw [generate_code] at h
    split at h
    · simp at h
    · rename_i c1 g1 he
      have h1 := generate_code_grows e rr c g0 g c1 g1 h0 he
      split at h
      · simp at h
      · simp only at h
        split at h
        · simp only [Except.ok.injEq, Prod.mk.injEq] at h
          obtain ⟨-, rfl⟩ := h
          refine grows_used _ _ _ (grows_emit _ ?_)
          split
          · exact grows_emit _ h1
          · exact h1
        · simp only [Except.ok.injEq, Prod.mk.injEq] at h
          obtain ⟨-, rfl⟩ := h
          exact grows_emit _ h1
  | .FunctionCallExpr f args, rr, c, g0, g, c', g', h0, h => by
    rw [generate_code] at h
    simp only at h
    split at h
    · simp at h
    · rename_i c1 g1 ha
      have hpre : grows_to g0 (if args.length > 8 then
          emit ("  addi sp, sp, -" ++ toString ((args.length - 8) * 4)) g else g) := by
        split
        · exact grows_emit _ h0
        · exact h0
      have h1 := generate_arguments_grows args 0 args.length c g0 _ c1 g1 hpre ha
      simp only [Except.ok.injEq, Prod.mk.injEq] at h
      obtain ⟨-, rfl⟩ := h
      have h2 := grows_used c1 rr T_VAL_FUNC (grows_free rr (grows_free_callee f
        (grows_emit ("  mv t" ++ toString rr ++ ", a0") (grows_emit ("  call " ++ f) h1))))
      split
      · exact grows_emit _ h2
      · exact h2

theorem generate_arguments_grows : ∀ (args : List Expr) (i n : Nat) (c : Context) (g0 g : Globals)
    (c' : Context) (g' : Globals), grows_to g0 g →
    generate_arguments args i n c g = .ok (c', g') → grows_to g0 g'
  | [], i, n, c, g0, g, c', g', h0, h => by
    simp only [generate_arguments, Except.ok.injEq, Prod.mk.injEq] at h
    obtain ⟨-, rfl⟩ := h
    exact h0
  | a :: rest, i, n, c, g0, g, c', g', h0, h => by
    rw [generate_arguments] at h
    split at h
    · simp at h
    · rename_i c1 g1 ha
      have h1 := generate_code_grows a 0 c g0 g c1 g1 h0 ha
      refine generate_arguments_grows rest (i + 1) n c1 g0 _ c' g' ?_ h
      split
      · exact grows_emit _ h1
      · exact grows_emit _ h1
end

/-! ## Code generation completes on well-scoped expressions -/

theorem same_scope_refl (c : Context) : same_scope c c := ⟨rfl, fun _ h => h⟩

theorem same_scope_trans {c1 c2 c3 : Context} (h1 : same_scope c1 c2) (h2 : same_scope c2 c3) :
    same_scope c1 c3 := by
  obtain ⟨e1, i1⟩ := h1
  obtain ⟨e2, i2⟩ := h2
  refine ⟨?_, fun id h => i1 id (i2 id h)⟩
  rw [e2, e1]

theorem map_find_append {α : Type} (m : List (String × α)) (k id : String) (v : α) :
    map_find (m ++ [(id, v)]) k =
      match map_find m k with
      | some x => some x
      | none => if id == k then some v else none := by
  induction m with
  | nil => simp [map_find]
  | cons p rest ih =>
    obtain ⟨k', v'⟩ := p
    simp only [List.cons_append, map_find]
    split
    · rfl
    · exact ih

theorem same_scope_is_const_at (c : Context) (id : String) :
    same_scope c (c.is_const_at id).2 ∧
    ((c.is_const_at id).1 = true → map_find c.is_const id = some true) := by
  unfold Context.is_const_at
  cases h : map_find c.is_const id with
  | some b =>
    simp only
    exact ⟨same_scope_refl c, fun hb => by rw [hb]⟩
  | none =>
    simp only
    refine ⟨⟨rfl, ?_⟩, by simp⟩
    intro k hk
    rw [map_find_append] at hk
    cases h2 : map_find c.is_const k with
    | some x => rw [h2] at hk; exact hk
    | none =>
      rw [h2] at hk
      simp only at hk
      split at hk <;> simp at hk

theorem same_scope_declared {c c' : Context} (h : same_scope c c') (id : String) :
    c'.is_variable_declared id = c.is_variable_declared id := by
  obtain ⟨e, -⟩ := h
  rw [e]
  rfl

theorem same_scope_cached {c c' : Context} (h : same_scope c c') (hc : constants_cached c) :
    constants_cached c' := by
  intro id hid
  have := hc id (h.2 id hid)
  rw [h.1]
  exact this

theorem find_offset_of_declared (c : Context) (id : String)
    (h : c.is_variable_declared id = true) : ∃ offset, c.find_variable_offset id = .ok offset := by
  unfold Context.is_variable_declared at h
  unfold Context.find_variable_offset
  cases h1 : map_find c.variables id with
  | some o => exact ⟨o, rfl⟩
  | none =>
    simp only [h1, Option.isSome_none, Bool.false_or, List.any_eq_true] at h
    obtain ⟨m, hm, hs⟩ := h
    cases h2 : c.variables_stack.reverse.findSome? (fun prev_vars => map_find prev_vars id) with
    | some o => exact ⟨o, rfl⟩
    | none =>
      rw [List.findSome?_eq_none_iff] at h2
      have := h2 m hm
      rw [this] at hs
      simp at hs

theorem id_completes (id : String) (rr : Nat) (c : Context) (g : Globals)
    (hd : c.is_variable_declared id = true) (hc : constants_cached c) :
    ∃ c' g', IdExpr.generate_code id rr c g = .ok (c', g') ∧ same_scope c c' := by
  obtain ⟨hs, hb⟩ := same_scope_is_const_at c id
  have hd1 : (c.is_const_at id).2.is_variable_declared id = true := by
    rw [same_scope_declared hs]; exact hd
  obtain ⟨offset, ho⟩ := find_offset_of_declared _ id hd1
  have hcv : (c.is_const_at id).1 = true →
      ∃ value, map_find (c.is_const_at id).2.const_val id = some value := by
    intro h1
    have h2 := hc id (hb h1)
    have h3 : (c.is_const_at id).2.const_val = c.const_val := by rw [hs.1]
    rw [h3]
    exact Option.isSome_iff_exists.mp h2
  unfold IdExpr.generate_code
  cases hca : c.is_const_at id with
  | mk b c1 =>
    rw [hca] at hs ho hcv
    simp only at hs ho hcv
    by_cases hopt : c.optimize_variable_cache = true
    · simp only [hopt, ↓reduceIte]
      cases hreg : Context.is_var_in_reg id g with
      | some r => exact ⟨_, _, rfl, same_scope_refl c⟩
      | none =>
        simp only
        cases b with
        | true =>
          obtain ⟨value, hv⟩ := hcv rfl
          simp only [↓reduceIte, hv]
          exact ⟨_, _, rfl, hs⟩
        | false =>
          simp only [Bool.false_eq_true, ↓reduceIte, ho]
          exact ⟨_, _, rfl, hs⟩
    · simp only [hopt, Bool.false_eq_true, ↓reduceIte]
      cases b with
      | true =>
        obtain ⟨value, hv⟩ := hcv rfl
        simp only [↓reduceIte, hv]
        exact ⟨_, _, rfl, hs⟩
      | false =>
        simp only [Bool.false_eq_true, ↓reduceIte, ho]
        exact ⟨_, _, rfl, hs⟩

theorem is_variable_declared_eq (c : Context) (id : String) :
    c.is_variable_declared id = declared_in c.variables c.variables_stack id := rfl

theorem same_scope_all_declared {c c' : Context} (h : same_scope c c') (e : Expr) :
    all_declared c' e = all_declared c e := by
  obtain ⟨e1, -⟩ := h
  unfold all_declared
  rw [e1]

theorem simple_rhs_no_error (rhs : Expr) (c : Context) (g : Globals) (e : Fatal) :
    BinaryOpExpr.load_simple_rhs rhs c g ≠ some (.error e) := by
  unfold BinaryOpExpr.load_simple_rhs
  cases rhs with
  | IdExpr id =>
    simp only
    by_cases hd : c.is_variable_declared id = true
    · simp only [hd, ↓reduceIte]
      cases Context.is_var_in_reg id g with
      | some r => simp
      | none =>
        obtain ⟨o, ho⟩ := find_offset_of_declared c id hd
        simp [ho]
    · simp [hd]
  | _ => simp

mutual
theorem generate_code_completes : ∀ (e : Expr) (rr : Nat) (c : Context) (g : Globals),
    all_declared c e = true → constants_cached c →
    ∃ c' g', generate_code e rr c g = .ok (c', g') ∧ same_scope c c'
  | .IntegerExpr v, rr, c, g, _, _ => ⟨_, _, rfl, same_scope_refl c⟩
  | .IdExpr id, rr, c, g, hd, hc => by
    rw [generate_code]
    exact id_completes id rr c g hd hc
  | .BinaryOpExpr op lhs rhs, rr, c, g, hd, hc => by
    simp only [all_declared, all_declared_in, Bool.and_eq_true] at hd
    rw [generate_code]
    split
    · exact ⟨_, _, rfl, same_scope_refl c⟩
    · obtain ⟨c1, g1, h1, s1⟩ := generate_code_completes lhs 0 c g hd.1 hc
      rw [h1]
      simp only
      split
      · rename_i e he
        exact absurd he (simple_rhs_no_error _ _ _ _)
      · exact ⟨_, _, rfl, s1⟩
      · have hd2 : all_declared c1 rhs = true := by
          rw [same_scope_all_declared s1]; exact hd.2
        obtain ⟨c2, g2, h2, s2⟩ := generate_code_completes rhs 1 c1 _ hd2 (same_scope_cached s1 hc)
        rw [h2]
        exact ⟨_, _, rfl, same_scope_trans s1 s2⟩
  | .UnaryOpExpr op e, rr, c, g, hd, hc => by
    simp only [all_declared, all_declared_in] at hd
    rw [generate_code]
    simp only
    split
    · exact ⟨_, _, rfl, same_scope_refl c⟩
    · split
      · exact ⟨_, _, rfl, same_scope_refl c⟩
      · split
        · exact ⟨_, _, rfl, same_scope_refl c⟩
        · obtain ⟨c1, g1, h1, s1⟩ := generate_code_completes e rr c g hd hc
          rw [h1]
          exact ⟨_, _, rfl, s1⟩
  | .AssignExpr id e, rr, c, g, hd, hc => by
    simp only [all_declared, all_declared_in, Bool.and_eq_true] at hd
    rw [generate_code]
    obtain ⟨c1, g1, h1, s1⟩ := generate_code_completes e rr c g hd.2 hc
    rw [h1]
    simp only
    have hdid : c1.is_variable_declared id = true := by
      rw [same_scope_declared s1]; exact hd.1
    obtain ⟨o, ho⟩ := find_offset_of_declared c1 id hdid
    rw [ho]
    simp only
    split
    · exact ⟨_, _, rfl, s1⟩
    · exact ⟨_, _, rfl, s1⟩
  | .FunctionCallExpr f args, rr, c, g, hd, hc => by
    simp only [all_declared, all_declared_in] at hd
    rw [generate_code]
    simp only
    obtain ⟨c1, g1, h1, s1⟩ := generate_arguments_completes args 0 args.length c _ hd hc
    rw [h1]
    exact ⟨_, _, rfl, s1⟩

theorem generate_arguments_completes : ∀ (args : List Expr) (i n : Nat) (c : Context)
    (g : Globals), all_declared_in_list c.variables c.variables_stack args = true →
    constants_cached c →
    ∃ c' g', generate_arguments args i n c g = .ok (c', g') ∧ same_scope c c'
  | [], i, n, c, g, _, _ => ⟨_, _, rfl, same_scope_refl c⟩
  | a :: rest, i, n, c, g, hd, hc => by
    simp only [all_declared_in_list, Bool.and_eq_true] at hd
    rw [generate_arguments]
    obtain ⟨c1, g1, h1, s1⟩ := generate_code_completes a 0 c g hd.1 hc
    rw [h1]
    simp only
    have hd2 : all_declared_in_list c1.variables c1.variables_stack rest = true := by
      rw [s1.1]; exact hd.2
    obtain ⟨c2, g2, h2, s2⟩ := generate_arguments_completes rest (i + 1) n c1 _ hd2
      (same_scope_cached s1 hc)
    exact ⟨c2, g2, h2, same_scope_trans s1 s2⟩
end

/-! ## The division guard -/

theorem evaluate_constant_unknown_op (context : Context) (op : String) (lhs rhs : Expr)
    (hop : op = "<<" ∨ op = ">>" ∨ op = "&") :
    evaluate_constant context (.BinaryOpExpr op lhs rhs) = 0 := by
  rcases hop with h | h | h <;> subst h <;> simp [evaluate_constant]

theorem strength_reduced_literal_evaluates_to_zero (context : Context) (x k : Int)
    (hk : StrengthReductionPass.is_power_of_two k = true) (hk1 : k ≠ 1) :
    (∀ r, (StrengthReductionPass.optimize_binary_op
            (.BinaryOpExpr "/" (.IntegerExpr x) (.IntegerExpr k)) context).1 = some r →
          evaluate_constant context r = 0) ∧
    (∀ r, (StrengthReductionPass.optimize_binary_op
            (.BinaryOpExpr "%" (.IntegerExpr x) (.IntegerExpr k)) context).1 = some r →
          evaluate_constant context r = 0) ∧
    (x ≠ 0 → x ≠ 1 → ∀ r, (StrengthReductionPass.optimize_binary_op
            (.BinaryOpExpr "*" (.IntegerExpr x) (.IntegerExpr k)) context).1 = some r →
          evaluate_constant context r = 0) := by
  have hk0 : k ≠ 0 := by
    rintro rfl
    simp [StrengthReductionPass.is_power_of_two] at hk
  refine ⟨?_, ?_, ?_⟩
  · intro r hr
    simp [StrengthReductionPass.optimize_binary_op, StrengthReductionPass.optimize_binary_op_body,
      as_integer, hk, hk1, clone] at hr
    subst hr
    simp [evaluate_constant]
  · intro r hr
    simp [StrengthReductionPass.optimize_binary_op, StrengthReductionPass.optimize_binary_op_body,
      as_integer, hk, hk1, clone] at hr
    subst hr
    simp [evaluate_constant]
  · intro hx0 hx1 r hr
    simp [StrengthReductionPass.optimize_binary_op, StrengthReductionPass.optimize_binary_op_body,
      as_integer, hk, hk1, hk0, hx0, hx1, clone] at hr
    split_ifs at hr <;> simp at hr <;> subst hr <;> simp [evaluate_constant]


theorem as_integer_of_not_constant (context : Context) (x : Expr)
    (hx : is_constant context x = false) : as_integer x = none := by
  cases x <;> simp_all [is_constant, as_integer]

theorem as_integer_literal (v : Int) : as_integer (.IntegerExpr v) = some v := rfl

theorem as_id_eq_some (x : Expr) (name : String) : as_id x = some name ↔ x = .IdExpr name := by
  cases x <;> simp [as_id]

/-- C5: at `x = 3`, `k = 2` the expressions `StrengthReductionPass::optimize_binary_op` returns
for `3*2`, `3/2` and `3%2` are `3 << 1`, `3 >> 1` and `3 & 1`; `evaluate_constant` has no case
for these operators and gives `0` for each, while the originals evaluate to `6`, `1`, `1`.
The input is reached in the pipeline: the algebraic pass turns `(x + 3*2) + 0` into
`x + 3*2` without visiting the product, strength reduction makes it `x + (3 << 1)`, and the
code generator materialises the right operand as `mv t0, zero`. -/
theorem C5_strength_reduced_literals_evaluate_to_zero :
    (StrengthReductionPass.optimize_binary_op
        (.BinaryOpExpr "*" (.IntegerExpr 3) (.IntegerExpr 2)) {}).1
      = some (.BinaryOpExpr "<<" (.IntegerExpr 3) (.IntegerExpr 1)) ∧
    evaluate_constant {} (.BinaryOpExpr "<<" (.IntegerExpr 3) (.IntegerExpr 1)) = 0 ∧
    evaluate_constant {} (.BinaryOpExpr "*" (.IntegerExpr 3) (.IntegerExpr 2)) = 6 ∧
    (StrengthReductionPass.optimize_binary_op
        (.BinaryOpExpr "/" (.IntegerExpr 3) (.IntegerExpr 2)) {}).1
      = some (.BinaryOpExpr ">>" (.IntegerExpr 3) (.IntegerExpr 1)) ∧
    evaluate_constant {} (.BinaryOpExpr ">>" (.IntegerExpr 3) (.IntegerExpr 1)) = 0 ∧
    evaluate_constant {} (.BinaryOpExpr "/" (.IntegerExpr 3) (.IntegerExpr 2)) = 1 ∧
    (StrengthReductionPass.optimize_binary_op
        (.BinaryOpExpr "%" (.IntegerExpr 3) (.IntegerExpr 2)) {}).1
      = some (.BinaryOpExpr "&" (.IntegerExpr 3) (.IntegerExpr 1)) ∧
    evaluate_constant {} (.BinaryOpExpr "&" (.IntegerExpr 3) (.IntegerExpr 1)) = 0 ∧
    evaluate_constant {} (.BinaryOpExpr "%" (.IntegerExpr 3) (.IntegerExpr 2)) = 1 ∧
    AlgebraicPass.updated (StrengthReductionPass.optimize_expr {}
        (AlgebraicPass.updated (AlgebraicPass.optimize_expr {}
          (.BinaryOpExpr "+"
            (.BinaryOpExpr "+" (.IdExpr "x")
              (.BinaryOpExpr "*" (.IntegerExpr 3) (.IntegerExpr 2)))
            (.IntegerExpr 0)))))
      = .BinaryOpExpr "+" (.IdExpr "x")
          (.BinaryOpExpr "<<" (.IntegerExpr 3) (.IntegerExpr 1)) ∧
    (generate_code (.BinaryOpExpr "+" (.IdExpr "x")
        (.BinaryOpExpr "<<" (.IntegerExpr 3) (.IntegerExpr 1))) 0 sample_context
        {}).toOption.map (fun r => r.2.os)
      = some ["  # x saved to t2", "  lw t2, -12(s0)", "  mv t0, t2", "  addi sp, sp, -4",
          "  sw t0, 0(sp)", "  mv t0, zero", "  mv t1, t0", "  lw t0, 0(sp)",
          "  addi sp, sp, 4", "  add t0, t0, t1"] := by
  refine ⟨rfl, ?_, ?_, rfl, ?_, ?_, rfl, ?_, ?_, rfl, ?_⟩ <;> decide

theorem emit_operation_unknown_op (op : String) (rhs : Expr) (simple : Bool)
    (labels : BinaryOpExpr.Labels) (context : Context) (g : Globals)
    (hop : op = "<<" ∨ op = ">>" ∨ op = "&") :
    BinaryOpExpr.emit_operation op rhs simple labels context g = g := by
  rcases hop with h | h | h <;> subst h <;> simp [BinaryOpExpr.emit_operation]

/-- C6: strength reduction turns `x * 2`, `x / 2`, `x % 2` (with `x` a declared, non-constant
variable) into `x << 1`, `x >> 1`, `x & 1`, and for each of these nodes
`BinaryOpExpr::generate_code` emits the two operand loads and nothing else: no shift, no
`and`, so `t0` still holds `x`. -/
theorem C6_shift_nodes_emit_no_instruction :
    (StrengthReductionPass.optimize_binary_op
        (.BinaryOpExpr "*" (.IdExpr "x") (.IntegerExpr 2)) sample_context).1
      = some (.BinaryOpExpr "<<" (.IdExpr "x") (.IntegerExpr 1)) ∧
    (StrengthReductionPass.optimize_binary_op
        (.BinaryOpExpr "/" (.IdExpr "x") (.IntegerExpr 2)) sample_context).1
      = some (.BinaryOpExpr ">>" (.IdExpr "x") (.IntegerExpr 1)) ∧
    (StrengthReductionPass.optimize_binary_op
        (.BinaryOpExpr "%" (.IdExpr "x") (.IntegerExpr 2)) sample_context).1
      = some (.BinaryOpExpr "&" (.IdExpr "x") (.IntegerExpr 1)) ∧
    (generate_code (.BinaryOpExpr "<<" (.IdExpr "x") (.IntegerExpr 1)) 0 sample_context
        {}).toOption.map (fun r => r.2.os)
      = some ["  # x saved to t2", "  lw t2, -12(s0)", "  mv t0, t2", "  addi t1, zero, 1"] ∧
    (generate_code (.BinaryOpExpr ">>" (.IdExpr "x") (.IntegerExpr 1)) 0 sample_context
        {}).toOption.map (fun r => r.2.os)
      = some ["  # x saved to t2", "  lw t2, -12(s0)", "  mv t0, t2", "  addi t1, zero, 1"] ∧
    (generate_code (.BinaryOpExpr "&" (.IdExpr "x") (.IntegerExpr 1)) 0 sample_context
        {}).toOption.map (fun r => r.2.os)
      = some ["  # x saved to t2", "  lw t2, -12(s0)", "  mv t0, t2", "  addi t1, zero, 1"] := by
  refine ⟨rfl, rfl, rfl, ?_, ?_, ?_⟩ <;> decide

/-- C7: for `x / 2` and `x % 2` the code generator selects `srai t0, t0, 1` and
`andi t0, t0, 1`; on the dividend `-3` these compute `-2` and `1`, while truncating division
and the C remainder give `-1` and `-1`. -/
theorem C7_shift_and_mask_differ_on_negative :
    (generate_code (.BinaryOpExpr "/" (.IdExpr "x") (.IntegerExpr 2)) 0 sample_context
        {}).toOption.map (fun r => r.2.os)
      = some ["  # x saved to t2", "  lw t2, -12(s0)", "  mv t0, t2", "  addi t1, zero, 2",
          "  srai t0, t0, 1"] ∧
    srai (-3) 1 = -2 ∧ Int.tdiv (-3) 2 = -1 ∧
    (generate_code (.BinaryOpExpr "%" (.IdExpr "x") (.IntegerExpr 2)) 0 sample_context
        {}).toOption.map (fun r => r.2.os)
      = some ["  # x saved to t2", "  lw t2, -12(s0)", "  mv t0, t2", "  addi t1, zero, 2",
          "  andi t0, t0, 1"] ∧
    andi (-3) 1 = 1 ∧ Int.tmod (-3) 2 = -1 := by
  refine ⟨?_, ?_, ?_, ?_, ?_, ?_⟩ <;> decide

theorem wrap32_of_range (y : Int) (h0 : -2147483648 ≤ y) (h1 : y ≤ 2147483647) : wrap32 y = y := by
  unfold wrap32
  rw [Int.emod_eq_of_lt (by omega) (by omega)]
  omega

theorem shift_and_mask_agree_on_nonnegative (x : Int) (n : Nat) (hx : 0 ≤ x)
    (hx2 : x ≤ 2147483647) (hn : n ≤ 30) :
    srai x n = Int.tdiv x (2 ^ n) ∧ andi x (2 ^ n - 1) = Int.tmod x (2 ^ n) := by
  obtain ⟨m, rfl⟩ := Int.eq_ofNat_of_zero_le hx
  have hpow : (2 : Nat) ^ n ≤ 2 ^ 30 := Nat.pow_le_pow_right (by decide) hn
  have hpos : 0 < (2 : Nat) ^ n := Nat.pow_pos (by decide)
  have hpowi : ((2 : Int) ^ n) = (((2 : Nat) ^ n : Nat) : Int) := by push_cast; rfl
  constructor
  · unfold srai
    rw [Int.shiftRight_eq_div_pow, Int.tdiv_eq_ediv hx (by positivity)]
    push_cast
    rfl
  · unfold andi to_u32
    have h1 : ((m : Int) % 4294967296).toNat = m := by
      rw [Int.emod_eq_of_lt (by omega) (by omega)]; simp
    have h2 : (((2 : Int) ^ n - 1) % 4294967296).toNat = 2 ^ n - 1 := by
      rw [hpowi, Int.emod_eq_of_lt (by omega) (by omega)]
      omega
    rw [h1, h2, Nat.and_pow_two_sub_one_eq_mod, Int.tmod_eq_emod hx (by positivity), hpowi]
    have h3 : m % 2 ^ n < 2 ^ n := Nat.mod_lt _ hpos
    rw [wrap32_of_range _ (by omega) (by omega)]
    push_cast
    rfl

/-- C10 (counterexample): `return (x*0)*2;` becomes `return 0*2;`, a binary node on two
integer literals (and of the form `0*…`), and `return (x+0)+0;` becomes `return x+0;`. -/
theorem C10_counterexample :
    AlgebraicPass.optimize_stmt {} (.ReturnStmt (some
        (.BinaryOpExpr "*" (.BinaryOpExpr "*" (.IdExpr "x") (.IntegerExpr 0)) (.IntegerExpr 2))))
      = .ReturnStmt (some (.BinaryOpExpr "*" (.IntegerExpr 0) (.IntegerExpr 2))) ∧
    has_literal_binary (.BinaryOpExpr "*" (.IntegerExpr 0) (.IntegerExpr 2)) = true ∧
    AlgebraicPass.optimize_stmt {} (.ReturnStmt (some
        (.BinaryOpExpr "+" (.BinaryOpExpr "+" (.IdExpr "x") (.IntegerExpr 0)) (.IntegerExpr 0))))
      = .ReturnStmt (some (.BinaryOpExpr "+" (.IdExpr "x") (.IntegerExpr 0))) ∧
    has_identity_form (.BinaryOpExpr "+" (.IdExpr "x") (.IntegerExpr 0)) = true :=
  ⟨rfl, by decide, rfl, by decide⟩

/-! ## Assignments are not visited by the expression passes -/

/-- C11: an expression statement holding an assignment `v = e` is left exactly as it is by
`AlgebraicPass::optimize_stmt` and by `StrengthReductionPass::optimize_stmt`, whatever `e`
is; `v = 2 + 3` stays `v = 2 + 3` and `v = y + 0` stays `v = y + 0`, although the same
expressions held by a return statement become `5` and `y`. -/
theorem C11_assignment_rhs_not_simplified (context : Context) (v : String) (e : Expr) :
    AlgebraicPass.optimize_stmt context (.ExprStmt (.AssignExpr v e))
      = .ExprStmt (.AssignExpr v e) ∧
    StrengthReductionPass.optimize_stmt context (.ExprStmt (.AssignExpr v e))
      = .ExprStmt (.AssignExpr v e) ∧
    AlgebraicPass.optimize_stmt {}
        (.ExprStmt (.AssignExpr "v" (.BinaryOpExpr "+" (.IntegerExpr 2) (.IntegerExpr 3))))
      = .ExprStmt (.AssignExpr "v" (.BinaryOpExpr "+" (.IntegerExpr 2) (.IntegerExpr 3))) ∧
    AlgebraicPass.optimize_stmt {}
        (.ExprStmt (.AssignExpr "v" (.BinaryOpExpr "+" (.IdExpr "y") (.IntegerExpr 0))))
      = .ExprStmt (.AssignExpr "v" (.BinaryOpExpr "+" (.IdExpr "y") (.IntegerExpr 0))) ∧
    AlgebraicPass.optimize_stmt {}
        (.ReturnStmt (some (.BinaryOpExpr "+" (.IntegerExpr 2) (.IntegerExpr 3))))
      = .ReturnStmt (some (.IntegerExpr 5)) ∧
    AlgebraicPass.optimize_stmt {}
        (.ReturnStmt (some (.BinaryOpExpr "+" (.IdExpr "y") (.IntegerExpr 0))))
      = .ReturnStmt (some (.IdExpr "y")) :=
  ⟨rfl, rfl, rfl, rfl, rfl, rfl⟩

/-! ## Tail-recursion elimination -/

theorem is_return_of_call_iff (f : String) (t : Stmt) :
    is_return_of_call f t = true ↔ ∃ args, t = .ReturnStmt (some (.FunctionCallExpr f args)) := by
  constructor
  · intro h
    cases t with
    | ReturnStmt e =>
      cases e with
      | none => simp [is_return_of_call] at h
      | some e =>
        cases e <;> simp [is_return_of_call] at h
        subst h; exact ⟨_, rfl⟩
    | _ => simp [is_return_of_call] at h
  · rintro ⟨args, rfl⟩
    simp [is_return_of_call]

mutual
theorem tail_call_iff_terminal (f : String) : ∀ s : Stmt,
    TailRecursionPass.is_tail_call f s = true ↔ ∀ t ∈ terminal_stmts s, is_return_of_call f t = true
  | .BlockStmt stmts => by
    simpa [TailRecursionPass.is_tail_call, terminal_stmts] using tail_call_back_iff_terminal f stmts
  | .IfStmt c t (some e) => by
    have h1 := tail_call_iff_terminal f t
    have h2 := tail_call_iff_terminal f e
    simp only [TailRecursionPass.is_tail_call, terminal_stmts, Bool.and_eq_true, List.mem_append, h1, h2]
    constructor
    · rintro ⟨a, b⟩ x (hx | hx)
      · exact a x hx
      · exact b x hx
    · intro h
      exact ⟨fun x hx => h x (Or.inl hx), fun x hx => h x (Or.inr hx)⟩
  | .IfStmt c t none => by
    simp [TailRecursionPass.is_tail_call, terminal_stmts, is_return_of_call]
  | .ReturnStmt none => by
    simp [TailRecursionPass.is_tail_call, terminal_stmts, is_return_of_call]
  | .ReturnStmt (some e) => by
    cases e <;> simp [TailRecursionPass.is_tail_call, terminal_stmts, is_return_of_call]
  | .ExprStmt _ => by simp [TailRecursionPass.is_tail_call, terminal_stmts, is_return_of_call]
  | .WhileStmt _ _ => by simp [TailRecursionPass.is_tail_call, terminal_stmts, is_return_of_call]
  | .BreakStmt => by simp [TailRecursionPass.is_tail_call, terminal_stmts, is_return_of_call]
  | .ContinueStmt => by simp [TailRecursionPass.is_tail_call, terminal_stmts, is_return_of_call]
  | .DeclStmt _ _ => by simp [TailRecursionPass.is_tail_call, terminal_stmts, is_return_of_call]
  | .EmptyStmt => by simp [TailRecursionPass.is_tail_call, terminal_stmts, is_return_of_call]

theorem tail_call_back_iff_terminal (f : String) : ∀ stmts : List Stmt,
    TailRecursionPass.is_tail_call_back f stmts = true ↔
      ∀ t ∈ terminal_stmts_back stmts, is_return_of_call f t = true
  | [] => by simp [TailRecursionPass.is_tail_call_back, terminal_stmts_back, is_return_of_call]
  | s :: [] => by
    simpa [TailRecursionPass.is_tail_call_back, terminal_stmts_back] using tail_call_iff_terminal f s
  | _ :: s :: rest => by
    simpa [TailRecursionPass.is_tail_call_back, terminal_stmts_back] using
      tail_call_back_iff_terminal f (s :: rest)
end

theorem run_function_of_not_tail_recursive (func : FunctionDecl)
    (h : TailRecursionPass.is_tail_recursive func = false) (cout : List String) :
    TailRecursionPass.run_function func cout = (func, cout) := by
  simp [TailRecursionPass.run_function, h]

/-- C17 (as stated, refuted): `sum` has the early `return acc;`, so not every return statement
of its body returns a call of `sum`, and `twice` calls itself outside return position; both are
reported tail-recursive and `run` replaces their bodies. -/
theorem C17_counterexample :
    (sum_function.body.map (every_return_calls "sum") = some false ∧
      TailRecursionPass.is_tail_recursive sum_function = true ∧
      (TailRecursionPass.run [sum_function] []).1.map (fun f => f.body) =
        [some (.BlockStmt [.DeclStmt "n" (some (.IdExpr "n")), .DeclStmt "acc" (some (.IdExpr "acc")),
          TailRecursionPass.loop_for "n" "acc"])]) ∧
    (TailRecursionPass.is_tail_recursive twice_function = true ∧
      (TailRecursionPass.run [twice_function] []).1.map (fun f => f.body) =
        [some (.BlockStmt [.DeclStmt "n" (some (.IdExpr "n")), .DeclStmt "acc" (some (.IdExpr "acc")),
          TailRecursionPass.loop_for "n" "acc"])]) :=
  ⟨⟨by decide, by decide, rfl⟩, by decide, rfl⟩

/-- C17 (amended): `is_tail_recursive` looks at the statements in terminal position only.  It
returns true exactly when the function has a body and every statement in terminal position of
the body (followed into the last statement of a block and into both branches of an `if` with
`else`) is `return f(...)` with `f` the function's own name; an empty block or an `if` without
`else` in terminal position is refused.  For a function that is refused the pass changes
nothing and writes nothing. -/
theorem C17_terminal_returns_call_self (func : FunctionDecl) :
    (TailRecursionPass.is_tail_recursive func = true ↔
      ∃ body, func.body = some body ∧
        ∀ t ∈ terminal_stmts body, ∃ args, t = .ReturnStmt (some (.FunctionCallExpr func.name args))) ∧
    (TailRecursionPass.is_tail_recursive func = false →
      ∀ cout, TailRecursionPass.run_function func cout = (func, cout)) := by
  refine ⟨?_, run_function_of_not_tail_recursive func⟩
  unfold TailRecursionPass.is_tail_recursive
  cases hb : func.body with
  | none => simp
  | some body =>
    simp only [Option.some.injEq, exists_eq_left']
    rw [tail_call_iff_terminal]
    simp only [is_return_of_call_iff]

theorem C17_terminal_returns_call_self_witness :
    TailRecursionPass.is_tail_recursive plain_return_function = false ∧
    TailRecursionPass.run_function plain_return_function [] = (plain_return_function, []) :=
  ⟨by decide, (C17_terminal_returns_call_self plain_return_function).2 (by decide) []⟩

/-! ## Loop-invariant code motion -/

theorem mem_set_insert (vars : List String) (id x : String) :
    x ∈ set_insert vars id ↔ x ∈ vars ∨ x = id := by
  unfold set_insert
  split
  · rename_i h
    constructor
    · exact Or.inl
    · rintro (h1 | rfl)
      · exact h1
      · simpa using h
  · simp

mutual
theorem mem_collect_assigned_vars : ∀ (s : Stmt) (vars : List String) (x : String),
    x ∈ LoopInvariantPass.collect_assigned_vars s vars ↔ x ∈ vars ∨ x ∈ stmt_declares s
  | .BlockStmt stmts, vars, x => by
    simpa [LoopInvariantPass.collect_assigned_vars, stmt_declares] using
      mem_collect_assigned_vars_list stmts vars x
  | .IfStmt _ t (some e), vars, x => by
    simp only [LoopInvariantPass.collect_assigned_vars, stmt_declares, List.mem_append,
      mem_collect_assigned_vars e, mem_collect_assigned_vars t, or_assoc]
  | .IfStmt _ t none, vars, x => by
    simp only [LoopInvariantPass.collect_assigned_vars, stmt_declares, mem_collect_assigned_vars t]
  | .WhileStmt _ body, vars, x => by
    simp only [LoopInvariantPass.collect_assigned_vars, stmt_declares, mem_collect_assigned_vars body]
  | .DeclStmt id _, vars, x => by
    simp [LoopInvariantPass.collect_assigned_vars, stmt_declares, mem_set_insert]
  | .ExprStmt _, vars, x => by simp [LoopInvariantPass.collect_assigned_vars, stmt_declares]
  | .ReturnStmt _, vars, x => by simp [LoopInvariantPass.collect_assigned_vars, stmt_declares]
  | .BreakStmt, vars, x => by simp [LoopInvariantPass.collect_assigned_vars, stmt_declares]
  | .ContinueStmt, vars, x => by simp [LoopInvariantPass.collect_assigned_vars, stmt_declares]
  | .EmptyStmt, vars, x => by simp [LoopInvariantPass.collect_assigned_vars, stmt_declares]

theorem mem_collect_assigned_vars_list : ∀ (stmts : List Stmt) (vars : List String) (x : String),
    x ∈ LoopInvariantPass.collect_assigned_vars_list stmts vars ↔ x ∈ vars ∨ x ∈ stmts_declare stmts
  | [], vars, x => by simp [LoopInvariantPass.collect_assigned_vars_list, stmts_declare]
  | s :: rest, vars, x => by
    simp only [LoopInvariantPass.collect_assigned_vars_list, stmts_declare, List.mem_append,
      mem_collect_assigned_vars_list rest, mem_collect_assigned_vars s, or_assoc]
end

theorem mem_collect_loop_variables (body : Stmt) (x : String) :
    x ∈ LoopInvariantPass.collect_loop_variables body ↔ x ∈ stmt_declares body := by
  simp [LoopInvariantPass.collect_loop_variables, mem_collect_assigned_vars]

theorem is_invariant_reads (loop_vars : List String) : ∀ e : Expr,
    LoopInvariantPass.is_invariant loop_vars e = true → ∀ x ∈ ids_read e, x ∉ loop_vars
  | .IntegerExpr _, _, x, hx => by simp [ids_read] at hx
  | .IdExpr id, h, x, hx => by
    simp [ids_read] at hx
    subst hx
    simpa [LoopInvariantPass.is_invariant] using h
  | .BinaryOpExpr _ lhs rhs, h, x, hx => by
    simp only [LoopInvariantPass.is_invariant, Bool.and_eq_true] at h
    simp only [ids_read, List.mem_append] at hx
    rcases hx with hx | hx
    · exact is_invariant_reads loop_vars lhs h.1 x hx
    · exact is_invariant_reads loop_vars rhs h.2 x hx
  | .UnaryOpExpr _ e, h, x, hx => by
    simp only [LoopInvariantPass.is_invariant] at h
    simp only [ids_read] at hx
    exact is_invariant_reads loop_vars e h x hx
  | .AssignExpr _ _, h, _, _ => by simp [LoopInvariantPass.is_invariant] at h
  | .FunctionCallExpr _ _, h, _, _ => by simp [LoopInvariantPass.is_invariant] at h

/-- What the classification does guarantee: a statement classified as invariant reads no name
that a declaration anywhere in the loop body declares. -/
theorem invariant_stmt_reads_nothing_declared (s body : Stmt)
    (h : LoopInvariantPass.is_invariant_stmt s body = true) :
    ∀ x ∈ stmt_reads s, x ∉ stmt_declares body := by
  intro x hx hd
  have hmem := (mem_collect_loop_variables body x).2 hd
  cases s with
  | ExprStmt e =>
    simp only [LoopInvariantPass.is_invariant_stmt, LoopInvariantPass.is_invariant_in_loop] at h
    exact is_invariant_reads _ e h x (by simpa [stmt_reads] using hx) hmem
  | DeclStmt id e =>
    cases e with
    | none => simp [stmt_reads, of_optional] at hx
    | some e =>
      simp only [LoopInvariantPass.is_invariant_stmt, LoopInvariantPass.is_invariant_in_loop] at h
      exact is_invariant_reads _ e h x (by simpa [stmt_reads, of_optional] using hx) hmem
  | _ => simp [LoopInvariantPass.is_invariant_stmt] at h

/-- C15: in the loop body `{ int t = x * 2; x = x + 1; }` the top-level statement
`int t = x * 2;` is classified as invariant by `is_invariant_stmt` and extracted by
`extract_invariants`, although it reads `x` and `x` is the target of an assignment in the same
body: `collect_loop_variables` yields the declared names only (here `t`). -/
theorem C15_assigned_variable_counts_as_invariant :
    LoopInvariantPass.is_invariant_stmt
      (.DeclStmt "t" (some (.BinaryOpExpr "*" (.IdExpr "x") (.IntegerExpr 2)))) counting_body = true ∧
    "x" ∈ stmt_reads (.DeclStmt "t" (some (.BinaryOpExpr "*" (.IdExpr "x") (.IntegerExpr 2)))) ∧
    "x" ∈ stmt_assigns counting_body ∧
    LoopInvariantPass.collect_loop_variables counting_body = ["t"] ∧
    (LoopInvariantPass.extract_invariants counting_body).1 =
      [.DeclStmt "t" (some (.BinaryOpExpr "*" (.IdExpr "x") (.IntegerExpr 2)))] :=
  ⟨by decide, by decide, by decide, by decide, rfl⟩

theorem collect_loop_variables_top_level (body : Stmt) :
    LoopInvariantPass.collect_loop_variables (.BlockStmt (top_level body)) =
      LoopInvariantPass.collect_loop_variables body := by
  cases body <;>
    simp only [top_level, LoopInvariantPass.collect_loop_variables,
      LoopInvariantPass.collect_assigned_vars, LoopInvariantPass.collect_assigned_vars_list]

theorem is_invariant_stmt_top_level (s body : Stmt) :
    LoopInvariantPass.is_invariant_stmt s (.BlockStmt (top_level body)) =
      LoopInvariantPass.is_invariant_stmt s body := by
  cases s with
  | DeclStmt id e =>
    cases e <;> simp only [LoopInvariantPass.is_invariant_stmt,
      LoopInvariantPass.is_invariant_in_loop, collect_loop_variables_top_level]
  | _ => simp only [LoopInvariantPass.is_invariant_stmt,
      LoopInvariantPass.is_invariant_in_loop, collect_loop_variables_top_level]

theorem extract_invariants_eq (body : Stmt) :
    LoopInvariantPass.extract_invariants body =
      ((top_level body).filter (fun s => LoopInvariantPass.is_invariant_stmt s body),
       .BlockStmt ((top_level body).filter (fun s => !LoopInvariantPass.is_invariant_stmt s body))) := by
  have h : LoopInvariantPass.extract_invariants body =
      ((top_level body).filter
          (fun s => LoopInvariantPass.is_invariant_stmt s (.BlockStmt (top_level body))),
       .BlockStmt ((top_level body).filter
          (fun s => !LoopInvariantPass.is_invariant_stmt s (.BlockStmt (top_level body))))) := by
    cases body <;> rfl
  rw [h]
  simp only [is_invariant_stmt_top_level]

/-! ## Scopes -/

theorem same_frame_apply (c : Context) (op : ScopeOp) : same_frame c (op.apply c) := by
  cases op <;> simp only [ScopeOp.apply, Context.add_variable_to_current_scope,
    Context.add_used_variable, same_frame, and_self]
  unfold Context.is_const_at
  split <;> simp

theorem same_frame_foldl (ops : List ScopeOp) : ∀ c : Context,
    same_frame c (ops.foldl ScopeOp.apply c) := by
  induction ops with
  | nil => intro c; simp [same_frame]
  | cons op rest ih =>
    intro c
    have h1 := same_frame_apply c op
    have h2 := ih (op.apply c)
    simp only [same_frame, List.foldl_cons] at *
    refine ⟨?_, ?_, ?_, ?_, ?_, ?_, ?_, ?_, ?_⟩ <;> simp [*]

theorem pop_scope_of_pushed (c : Context) (g : Globals)
    (vs : List (List (String × Int))) (v : List (String × Int))
    (ks : List (List (String × Bool))) (k : List (String × Bool))
    (ws : List (List (String × Int))) (w : List (String × Int))
    (us : List (List String)) (u : List String)
    (hv : c.variables_stack = vs ++ [v]) (hk : c.is_const_stack = ks ++ [k])
    (hw : c.const_val_stack = ws ++ [w]) (hu : c.used_variables_stack = us ++ [u]) :
    (c.pop_scope g).1 =
      { c with «variables» := v, variables_stack := vs, is_const := k, is_const_stack := ks,
               const_val := w, const_val_stack := ws, used_variables := u,
               used_variables_stack := us } := by
  simp [Context.pop_scope, hv, hk, hw, hu]

theorem scope_restores (ops : List ScopeOp) (c : Context) (g g' : Globals) :
    (Context.pop_scope (ops.foldl ScopeOp.apply (c.push_scope g).1) g').1 = c := by
  have h := same_frame_foldl ops (c.push_scope g).1
  obtain ⟨h1, h2, h3, h4, h5, h6, h7, h8, h9⟩ := h
  rw [pop_scope_of_pushed _ _ _ _ _ _ _ _ _ _ h1 h2 h3 h4]
  generalize List.foldl ScopeOp.apply (c.push_scope g).1 ops = c' at *
  cases c
  cases c'
  simp only [Context.push_scope] at h5 h6 h7 h8 h9
  simp [h5, h6, h7, h8, h9]

theorem map_find_map_set {α : Type} (m : List (String × α)) (k : String) (v : α) :
    map_find (map_set m k v) k = some v := by
  induction m with
  | nil => simp [map_set, map_find]
  | cons p rest ih =>
    obtain ⟨k', v'⟩ := p
    by_cases h : (k' == k) = true
    · simp [map_set, map_find, h]
    · simp [map_set, map_find, h, ih]

/-- C19: take any context, call `push_scope`, then any sequence of
`add_variable_to_current_scope`, `add_used_variable`, writes to `is_const` and `const_val` and
reads of `is_const`, then `pop_scope`.  The maps `variables`, `is_const`, `const_val` and the set
`used_variables` are again what they were before the push, and so are the four snapshot stacks
(hence their depths) and with them every answer of `find_variable_offset`; inside the scope a
name added to it resolves to its inner offset, so a shadowed name resolves to the outer offset
again after the pop. -/
theorem C19_scope_push_pop_restores (ops : List ScopeOp) (c : Context) (g g' : Globals) :
    (Context.pop_scope (ops.foldl ScopeOp.apply (c.push_scope g).1) g').1.variables = c.variables ∧
    (Context.pop_scope (ops.foldl ScopeOp.apply (c.push_scope g).1) g').1.is_const = c.is_const ∧
    (Context.pop_scope (ops.foldl ScopeOp.apply (c.push_scope g).1) g').1.const_val = c.const_val ∧
    (Context.pop_scope (ops.foldl ScopeOp.apply (c.push_scope g).1) g').1.used_variables =
      c.used_variables ∧
    (Context.pop_scope (ops.foldl ScopeOp.apply (c.push_scope g).1) g').1.variables_stack =
      c.variables_stack ∧
    (Context.pop_scope (ops.foldl ScopeOp.apply (c.push_scope g).1) g').1.is_const_stack =
      c.is_const_stack ∧
    (Context.pop_scope (ops.foldl ScopeOp.apply (c.push_scope g).1) g').1.const_val_stack =
      c.const_val_stack ∧
    (Context.pop_scope (ops.foldl ScopeOp.apply (c.push_scope g).1) g').1.used_variables_stack =
      c.used_variables_stack ∧
    (∀ var, (Context.pop_scope (ops.foldl ScopeOp.apply (c.push_scope g).1) g').1.find_variable_offset
      var = c.find_variable_offset var) ∧
    (∀ var offset init_val,
      (ScopeOp.apply (c.push_scope g).1 (.add_variable var offset init_val)).find_variable_offset var =
        .ok offset) ∧
    in_scope
      [.add_variable "x" (-20) 0, .write_is_const "x" false, .add_used "x", .write_const_val "y" 7]
      outer_context {} = (outer_context, {}) := by
  rw [scope_restores]
  refine ⟨rfl, rfl, rfl, rfl, rfl, rfl, rfl, rfl, fun _ => rfl, ?_, by decide⟩
  intro var offset init_val
  simp [ScopeOp.apply, Context.add_variable_to_current_scope, Context.find_variable_offset,
    map_find_map_set]

/-! ## Common-subexpression elimination -/

/-- C12: `generate_expr_hash` has no case for assignments, so every assignment hashes to the
empty string: `a = 1` and `b = 2` get the same hash, and so do the different expressions
`(a = 1) + (b = 2)` and `(c = 3) + (d = 4)`, both `BIN:+(,)`.  The pass then merges them: in
`{ (a = 1) + (b = 2); return (c = 3) + (d = 4); }` both expressions become `_cse_1`. -/
theorem C12_assignments_hash_alike :
    Expr.AssignExpr "a" (.IntegerExpr 1) ≠ Expr.AssignExpr "b" (.IntegerExpr 2) ∧
    CommonSubexprPass.generate_expr_hash (.AssignExpr "a" (.IntegerExpr 1)) =
      CommonSubexprPass.generate_expr_hash (.AssignExpr "b" (.IntegerExpr 2)) ∧
    sum_of_assignments_ab ≠ sum_of_assignments_cd ∧
    CommonSubexprPass.generate_expr_hash sum_of_assignments_ab = "BIN:+(,)" ∧
    CommonSubexprPass.generate_expr_hash sum_of_assignments_cd = "BIN:+(,)" ∧
    (CommonSubexprPass.optimize_stmt
        (.BlockStmt [.ExprStmt sum_of_assignments_ab, .ReturnStmt (some sum_of_assignments_cd)])
        {}).1 =
      .BlockStmt [.ExprStmt (.IdExpr "_cse_1"), .ReturnStmt (some (.IdExpr "_cse_1"))] := by
  refine ⟨?_, by decide, ?_, by decide, by decide, ?_⟩
  · intro h
    injection h with h1 _
    exact absurd h1 (by decide)
  · intro h
    simp only [sum_of_assignments_ab, sum_of_assignments_cd] at h
    injection h with _ h1 _
    injection h1 with h2 _
    exact absurd h2 (by decide)
  · rfl

/-- C13: the body of `int add(int a, int b) { return a + b; }` reads parameters only.  After
`optimize_function` it is `{ return _cse_1; }`: the first occurrence of `a + b` is itself
replaced, the body reads `_cse_1`, which is no parameter and which no statement of the rewritten
body declares or assigns, and code generation for that identifier stops with the fatal error for
an undeclared variable. -/
theorem C13_first_occurrence_lost :
    (∀ x ∈ (add_function.body.map stmt_reads).getD [],
      x ∈ add_function.parameters.map (fun p => p.name)) ∧
    (CommonSubexprPass.optimize_function add_function {}).1.body =
      some (.BlockStmt [.ReturnStmt (some (.IdExpr "_cse_1"))]) ∧
    "_cse_1" ∈ stmt_reads (.BlockStmt [.ReturnStmt (some (.IdExpr "_cse_1"))]) ∧
    "_cse_1" ∉ add_function.parameters.map (fun p => p.name) ∧
    "_cse_1" ∉ stmt_declares (.BlockStmt [.ReturnStmt (some (.IdExpr "_cse_1"))]) ∧
    "_cse_1" ∉ stmt_assigns (.BlockStmt [.ReturnStmt (some (.IdExpr "_cse_1"))]) ∧
    generate_code (.IdExpr "_cse_1") 0 add_context {} = .error (.undeclared_variable "_cse_1") := by
  refine ⟨by decide, rfl, by decide, by decide, by decide, by decide, rfl⟩

/-! ## Decimal numerals are injective -/

theorem digitChar_value (k : Nat) (h : k < 10) : (Nat.digitChar k).toNat - 48 = k := by
  interval_cases k <;> rfl

theorem read_toDigitsCore : ∀ (fuel n : Nat) (ds : List Char), n < fuel →
    read_decimal 0 (Nat.toDigitsCore 10 fuel n ds) = read_decimal n ds
  | 0, n, ds, h => by omega
  | fuel + 1, n, ds, h => by
    unfold Nat.toDigitsCore
    dsimp only
    split
    · rename_i h0
      have hlt : n < 10 := by
        by_contra hge
        have : 1 ≤ n / 10 := Nat.div_pos (by omega) (by decide)
        omega
      have hd := digitChar_value (n % 10) (Nat.mod_lt _ (by decide))
      rw [Nat.mod_eq_of_lt hlt] at hd
      simp [read_decimal, Nat.mod_eq_of_lt hlt, hd]
    · rename_i h0
      have hlt : n / 10 < fuel := by
        have : n / 10 < n := Nat.div_lt_self (by
          by_contra hn
          have : n = 0 := by omega
          subst this
          simp at h0) (by decide)
        omega
      rw [read_toDigitsCore fuel (n / 10) _ hlt]
      simp only [read_decimal, List.foldl_cons, digitChar_value (n % 10) (Nat.mod_lt _ (by decide))]
      congr 1
      omega

theorem read_toString (n : Nat) : read_decimal 0 (toString n).data = n := by
  show read_decimal 0 (Nat.repr n).data = n
  simp only [Nat.repr, Nat.toDigits, List.asString]
  rw [read_toDigitsCore _ _ _ (Nat.lt_succ_self n)]
  rfl

theorem toString_nat_injective {m n : Nat} (h : toString m = toString n) : m = n := by
  rw [← read_toString m, ← read_toString n, h]

theorem string_append_left_cancel {p a b : String} (h : p ++ a = p ++ b) : a = b := by
  have h1 := congrArg String.data h
  simp only [String.data_append] at h1
  exact String.ext (List.append_cancel_left h1)


/-! ## Common subexpressions: what the cache guarantees -/

theorem map_find_map_set_ne {α : Type} (m : List (String × α)) (k k' : String) (v : α)
    (h : k ≠ k') : map_find (map_set m k v) k' = map_find m k' := by
  induction m with
  | nil =>
    simp [map_set, map_find, h]
  | cons p rest ih =>
    obtain ⟨k0, v0⟩ := p
    by_cases h0 : k0 = k
    · subst h0
      simp [map_set, map_find, h]
    · by_cases h1 : k0 = k'
      · subst h1
        simp [map_set, map_find, h0]
      · simp [map_set, map_find, h0, h1, ih]

namespace CommonSubexprPass

theorem reach_cache_kept {a b : State} (h : Reach a b) :
    ∀ k info, map_find a.expr_cache k = some info → map_find b.expr_cache k = some info := by
  induction h with
  | refl st => exact fun _ _ h => h
  | line st text => exact fun _ _ h => h
  | cache st hash expr hnone =>
    intro k info hk
    have hne : hash ≠ k := by
      rintro rfl
      rw [hnone] at hk
      exact absurd hk (by simp)
    simpa [cache_expr, generate_temp_var, map_find_map_set_ne _ _ _ _ hne] using hk
  | trans _ _ ih1 ih2 => exact fun k info hk => ih2 k info (ih1 k info hk)

theorem reach_cache_ok {a b : State} (h : Reach a b) : cache_ok a → cache_ok b := by
  induction h with
  | refl st => exact id
  | line st text => exact id
  | cache st hash expr hnone =>
    rintro ⟨hname, hinj⟩
    have hfind : ∀ k info, map_find (cache_expr hash expr st).2.expr_cache k = some info →
        (k = hash ∧ info.temp_var = "_cse_" ++ toString (st.temp_counter + 1)) ∨
        (k ≠ hash ∧ map_find st.expr_cache k = some info) := by
      intro k info hk
      by_cases hkh : hash = k
      · subst hkh
        left
        simp only [cache_expr, generate_temp_var, map_find_map_set, Option.some.injEq] at hk
        exact ⟨rfl, by rw [← hk]⟩
      · right
        simp only [cache_expr, generate_temp_var, map_find_map_set_ne _ _ _ _ hkh] at hk
        exact ⟨fun h => hkh h.symm, hk⟩
    have hfresh : ∀ k info, map_find st.expr_cache k = some info →
        info.temp_var ≠ "_cse_" ++ toString (st.temp_counter + 1) := by
      intro k info hk heq
      obtain ⟨n, _, hle, hn⟩ := hname k info hk
      rw [hn] at heq
      have := toString_nat_injective (string_append_left_cancel heq)
      omega
    constructor
    · intro k info hk
      rcases hfind k info hk with ⟨_, ht⟩ | ⟨_, hold⟩
      · exact ⟨st.temp_counter + 1, by omega, by simp [cache_expr, generate_temp_var], ht⟩
      · obtain ⟨n, h1, hle, hn⟩ := hname k info hold
        exact ⟨n, h1, by simp only [cache_expr, generate_temp_var]; omega, hn⟩
    · intro h1 h2 i1 i2 hf1 hf2 heq
      rcases hfind h1 i1 hf1 with ⟨e1, t1⟩ | ⟨_, o1⟩ <;>
        rcases hfind h2 i2 hf2 with ⟨e2, t2⟩ | ⟨_, o2⟩
      · rw [e1, e2]
      · exact absurd (heq ▸ t1) (hfresh h2 i2 o2)
      · exact absurd (heq ▸ t2) (hfresh h1 i1 o1)
      · exact hinj h1 h2 i1 i2 o1 o2 heq
  | trans _ _ ih1 ih2 => exact fun h => ih2 (ih1 h)

theorem optimize_node_reach (expr : Expr) (st : State) (children : State → Expr × State)
    (hch : ∀ st1, Reach st1 (children st1).2) : Reach st (optimize_node expr st children).2 := by
  unfold optimize_node
  split
  · exact Reach.line _ _
  · rename_i hnone
    split
    · exact Reach.trans (Reach.cache st _ _ hnone) (hch _)
    · exact hch _

theorem optimize_expr_reach : ∀ (e : Expr) (st : State), Reach st (optimize_expr e st).2
  | .BinaryOpExpr op lhs rhs, st => by
    rw [optimize_expr]
    exact optimize_node_reach _ _ _ (fun st1 =>
      Reach.trans (optimize_expr_reach lhs st1) (optimize_expr_reach rhs _))
  | .UnaryOpExpr op e, st => by
    rw [optimize_expr]
    exact optimize_node_reach _ _ _ (fun st1 => optimize_expr_reach e st1)
  | .IntegerExpr v, st => by
    rw [optimize_expr]
    exact optimize_node_reach _ _ _ (fun st1 => Reach.refl _)
  | .IdExpr v, st => by
    rw [optimize_expr]
    exact optimize_node_reach _ _ _ (fun st1 => Reach.refl _)
  | .AssignExpr v e, st => by
    rw [optimize_expr]
    exact optimize_node_reach _ _ _ (fun st1 => Reach.refl _)
  | .FunctionCallExpr f args, st => by
    rw [optimize_expr]
    exact optimize_node_reach _ _ _ (fun st1 => Reach.refl _)

theorem optimize_node_cacheable (expr : Expr) (st : State) (children : State → Expr × State)
    (hch : ∀ st1, Reach st1 (children st1).2) (hc : should_cache_expr expr = true) :
    ∃ info, map_find (optimize_node expr st children).2.expr_cache (generate_expr_hash expr) =
        some info ∧
      (optimize_node expr st children).1.1 = some (.IdExpr info.temp_var) := by
  unfold optimize_node
  split
  · rename_i info hfound
    exact ⟨info, hfound, rfl⟩
  · rename_i hnone
    rw [if_pos hc]
    refine ⟨{ hash := generate_expr_hash expr, expr := clone expr,
              temp_var := (cache_expr (generate_expr_hash expr) expr st).1, used := true },
      reach_cache_kept (hch _) _ _ ?_, rfl⟩
    simp only [cache_expr, generate_temp_var, map_find_map_set]

theorem optimize_expr_cacheable (e : Expr) (st : State) (hc : should_cache_expr e = true) :
    ∃ info, map_find (optimize_expr e st).2.expr_cache (generate_expr_hash e) = some info ∧
      (optimize_expr e st).1.1 = some (.IdExpr info.temp_var) := by
  cases e with
  | BinaryOpExpr op lhs rhs =>
    rw [optimize_expr]
    exact optimize_node_cacheable _ _ _ (fun st1 =>
      Reach.trans (optimize_expr_reach lhs st1) (optimize_expr_reach rhs _)) hc
  | UnaryOpExpr op e =>
    rw [optimize_expr]
    exact optimize_node_cacheable _ _ _ (fun st1 => optimize_expr_reach e st1) hc
  | FunctionCallExpr f args =>
    rw [optimize_expr]
    exact optimize_node_cacheable _ _ _ (fun st1 => Reach.refl _) hc
  | _ => simp [should_cache_expr] at hc

theorem optimize_exprs_reach : ∀ (l : List Expr) (st : State), Reach st (optimize_exprs l st).2
  | [], st => Reach.refl _
  | e :: rest, st => by
    rw [optimize_exprs]
    exact Reach.trans (optimize_expr_reach e st) (optimize_exprs_reach rest _)

theorem optimize_exprs_cacheable : ∀ (l : List Expr) (st : State) (i : Nat) (e : Expr),
    l[i]? = some e → should_cache_expr e = true →
    ∃ info, map_find (optimize_exprs l st).2.expr_cache (generate_expr_hash e) = some info ∧
      (optimize_exprs l st).1[i]? = some (.IdExpr info.temp_var)
  | [], st, i, e, hi, _ => by simp at hi
  | e0 :: rest, st, 0, e, hi, hc => by
    simp only [List.getElem?_cons_zero, Option.some.injEq] at hi
    subst hi
    obtain ⟨info, hfind, hres⟩ := optimize_expr_cacheable e0 st hc
    refine ⟨info, ?_, ?_⟩
    · rw [optimize_exprs]
      exact reach_cache_kept (optimize_exprs_reach rest _) _ _ hfind
    · rw [optimize_exprs]
      simp [updated, hres]
  | e0 :: rest, st, i + 1, e, hi, hc => by
    simp only [List.getElem?_cons_succ] at hi
    obtain ⟨info, hfind, hres⟩ := optimize_exprs_cacheable rest (optimize_expr e0 st).2 i e hi hc
    refine ⟨info, ?_, ?_⟩
    · rw [optimize_exprs]
      exact hfind
    · rw [optimize_exprs]
      simpa using hres

theorem optimize_exprs_append (l1 l2 : List Expr) (st : State) :
    optimize_exprs (l1 ++ l2) st =
      ((optimize_exprs l1 st).1 ++ (optimize_exprs l2 (optimize_exprs l1 st).2).1,
       (optimize_exprs l2 (optimize_exprs l1 st).2).2) := by
  induction l1 generalizing st with
  | nil => simp [optimize_exprs]
  | cons e rest ih => simp [optimize_exprs, ih]

end CommonSubexprPass

mutual
/-- The pass visits the held expressions in program order and nothing else. -/
theorem optimize_stmt_held : ∀ (s : Stmt) (st : CommonSubexprPass.State),
    (held_exprs (CommonSubexprPass.optimize_stmt s st).1, (CommonSubexprPass.optimize_stmt s st).2) =
      CommonSubexprPass.optimize_exprs (held_exprs s) st
  | .BlockStmt stmts, st => by
    have h := optimize_stmts_held stmts st
    simpa [CommonSubexprPass.optimize_stmt, held_exprs] using h
  | .IfStmt c t (some e), st => by
    have h1 := optimize_stmt_held t st
    have h2 := optimize_stmt_held e (CommonSubexprPass.optimize_stmt t st).2
    rw [Prod.ext_iff] at h1 h2
    simp only [CommonSubexprPass.optimize_stmt, held_exprs, CommonSubexprPass.optimize_exprs_append]
    rw [← h1.1, ← h1.2, ← h2.1, ← h2.2]
  | .IfStmt c t none, st => by
    have h1 := optimize_stmt_held t st
    simpa [CommonSubexprPass.optimize_stmt, held_exprs] using h1
  | .WhileStmt c b, st => by
    have h1 := optimize_stmt_held b st
    simpa [CommonSubexprPass.optimize_stmt, held_exprs] using h1
  | .ExprStmt e, st => by
    simp [CommonSubexprPass.optimize_stmt, held_exprs, CommonSubexprPass.optimize_exprs]
  | .ReturnStmt (some e), st => by
    simp [CommonSubexprPass.optimize_stmt, held_exprs, CommonSubexprPass.optimize_exprs]
  | .ReturnStmt none, st => by
    simp [CommonSubexprPass.optimize_stmt, held_exprs, CommonSubexprPass.optimize_exprs]
  | .BreakStmt, st => by
    simp [CommonSubexprPass.optimize_stmt, held_exprs, CommonSubexprPass.optimize_exprs]
  | .ContinueStmt, st => by
    simp [CommonSubexprPass.optimize_stmt, held_exprs, CommonSubexprPass.optimize_exprs]
  | .DeclStmt _ _, st => by
    simp [CommonSubexprPass.optimize_stmt, held_exprs, CommonSubexprPass.optimize_exprs]
  | .EmptyStmt, st => by
    simp [CommonSubexprPass.optimize_stmt, held_exprs, CommonSubexprPass.optimize_exprs]

theorem optimize_stmts_held : ∀ (stmts : List Stmt) (st : CommonSubexprPass.State),
    (held_exprs_list (CommonSubexprPass.optimize_stmts stmts st).1,
      (CommonSubexprPass.optimize_stmts stmts st).2) =
      CommonSubexprPass.optimize_exprs (held_exprs_list stmts) st
  | [], st => by
    simp [CommonSubexprPass.optimize_stmts, held_exprs_list, CommonSubexprPass.optimize_exprs]
  | s :: rest, st => by
    have h1 := optimize_stmt_held s st
    have h2 := optimize_stmts_held rest (CommonSubexprPass.optimize_stmt s st).2
    rw [Prod.ext_iff] at h1 h2
    simp only [CommonSubexprPass.optimize_stmts, held_exprs_list, CommonSubexprPass.optimize_exprs_append]
    rw [← h1.1, ← h1.2, ← h2.1, ← h2.2]
end

namespace CommonSubexprPass

theorem held_by_optimize_function (func : FunctionDecl) (st : State) :
    held_by (optimize_function func st).1 =
      (optimize_exprs (held_by func) { st with expr_cache := [] }).1 := by
  unfold optimize_function held_by
  cases hb : func.body with
  | none => simp [hb, optimize_exprs]
  | some body =>
    have h := optimize_stmt_held body { st with expr_cache := [] }
    rw [Prod.ext_iff] at h
    simpa using h.1

theorem cache_ok_cleared (st : State) : cache_ok { st with expr_cache := [] } :=
  ⟨fun h info hf => by simp [map_find] at hf, fun h1 h2 i1 i2 hf => by simp [map_find] at hf⟩

end CommonSubexprPass

/-- C14 (as stated, refuted): `int plus(int x) { +x; return +x; }` holds two structurally equal
unary expressions, and after `optimize_function` the body is unchanged: the later occurrence is
still `+x`, not an identifier. -/
theorem C14_counterexample :
    held_by plus_function = [.UnaryOpExpr "+" (.IdExpr "x"), .UnaryOpExpr "+" (.IdExpr "x")] ∧
    CommonSubexprPass.should_cache_expr (.UnaryOpExpr "+" (.IdExpr "x")) = false ∧
    held_by (CommonSubexprPass.optimize_function plus_function {}).1 =
      [.UnaryOpExpr "+" (.IdExpr "x"), .UnaryOpExpr "+" (.IdExpr "x")] :=
  ⟨rfl, by decide, rfl⟩

/-- C14 (amended): take a function and two of its return/expression statements, wherever they
stand in the body, whose expressions are structurally equal and accepted by `should_cache_expr`
(a binary operation with one of the thirteen operators, a unary `-` or `!`, or a call).  After
`optimize_function` both statements hold the same identifier `_cse_n`, the temporary recorded in
the cache for the hash of the expression.  Two such statements whose expressions are accepted
and have different hashes hold identifiers with different names. -/
theorem C14_cached_expressions_share_temporary (func : FunctionDecl)
    (st : CommonSubexprPass.State) :
    (∀ (i j : Nat) (e : Expr), i < j → (held_by func)[i]? = some e → (held_by func)[j]? = some e →
      CommonSubexprPass.should_cache_expr e = true →
      ∃ n, 1 ≤ n ∧
        (held_by (CommonSubexprPass.optimize_function func st).1)[i]? =
          some (Expr.IdExpr ("_cse_" ++ toString n)) ∧
        (held_by (CommonSubexprPass.optimize_function func st).1)[j]? =
          some (Expr.IdExpr ("_cse_" ++ toString n))) ∧
    (∀ (i j : Nat) (e1 e2 : Expr), (held_by func)[i]? = some e1 → (held_by func)[j]? = some e2 →
      CommonSubexprPass.should_cache_expr e1 = true →
      CommonSubexprPass.should_cache_expr e2 = true →
      CommonSubexprPass.generate_expr_hash e1 ≠ CommonSubexprPass.generate_expr_hash e2 →
      ∃ t1 t2 : String,
        (held_by (CommonSubexprPass.optimize_function func st).1)[i]? = some (Expr.IdExpr t1) ∧
        (held_by (CommonSubexprPass.optimize_function func st).1)[j]? = some (Expr.IdExpr t2) ∧
        t1 ≠ t2) := by
  have hok := CommonSubexprPass.reach_cache_ok
    (CommonSubexprPass.optimize_exprs_reach (held_by func) { st with expr_cache := [] }) (CommonSubexprPass.cache_ok_cleared st)
  rw [CommonSubexprPass.held_by_optimize_function]
  constructor
  · intro i j e _ hi hj hc
    obtain ⟨info1, hf1, hr1⟩ := CommonSubexprPass.optimize_exprs_cacheable _ { st with expr_cache := [] } i e hi hc
    obtain ⟨info2, hf2, hr2⟩ := CommonSubexprPass.optimize_exprs_cacheable _ { st with expr_cache := [] } j e hj hc
    rw [hf1] at hf2
    injection hf2 with hf2
    subst hf2
    obtain ⟨n, h1, _, hn⟩ := hok.1 _ _ hf1
    exact ⟨n, h1, by rw [← hn]; exact hr1, by rw [← hn]; exact hr2⟩
  · intro i j e1 e2 hi hj hc1 hc2 hne
    obtain ⟨info1, hf1, hr1⟩ := CommonSubexprPass.optimize_exprs_cacheable _ { st with expr_cache := [] } i e1 hi hc1
    obtain ⟨info2, hf2, hr2⟩ := CommonSubexprPass.optimize_exprs_cacheable _ { st with expr_cache := [] } j e2 hj hc2
    exact ⟨_, _, hr1, hr2, fun heq => hne (hok.2 _ _ _ _ hf1 hf2 heq)⟩

theorem C14_cached_expressions_share_temporary_witness :
    ∃ n, 1 ≤ n ∧
      (held_by (CommonSubexprPass.optimize_function twin_function {}).1)[0]? =
        some (Expr.IdExpr ("_cse_" ++ toString n)) ∧
      (held_by (CommonSubexprPass.optimize_function twin_function {}).1)[1]? =
        some (Expr.IdExpr ("_cse_" ++ toString n)) :=
  (C14_cached_expressions_share_temporary twin_function {}).1 0 1
    (.BinaryOpExpr "*" (.IdExpr "a") (.IdExpr "b")) (by decide) rfl rfl (by decide)

/-! ## Expression code leaves the scope tables alone -/

theorem id_same_scope (id : String) (rr : Nat) (c c' : Context) (g g' : Globals)
    (h : IdExpr.generate_code id rr c g = .ok (c', g')) : same_scope c c' := by
  have hs := (same_scope_is_const_at c id).1
  unfold IdExpr.generate_code at h
  split at h
  · split at h
    · simp only [Except.ok.injEq, Prod.mk.injEq] at h
      obtain ⟨rfl, -⟩ := h
      exact same_scope_refl _
    · simp only at h
      split at h
      · split at h
        · simp at h
        · simp only [Except.ok.injEq, Prod.mk.injEq] at h
          obtain ⟨rfl, -⟩ := h
          exact hs
      · split at h
        · simp at h
        · simp only [Except.ok.injEq, Prod.mk.injEq] at h
          obtain ⟨rfl, -⟩ := h
          exact hs
  · simp only at h
    split at h
    · split at h
      · simp at h
      · simp only [Except.ok.injEq, Prod.mk.injEq] at h
        obtain ⟨rfl, -⟩ := h
        exact hs
    · split at h
      · simp at h
      · simp only [Except.ok.injEq, Prod.mk.injEq] at h
        obtain ⟨rfl, -⟩ := h
        exact hs

mutual
theorem generate_code_same_scope : ∀ (e : Expr) (rr : Nat) (c : Context) (g : Globals)
    (c' : Context) (g' : Globals), generate_code e rr c g = .ok (c', g') → same_scope c c'
  | .IntegerExpr v, rr, c, g, c', g', h => by
    simp only [generate_code, Except.ok.injEq, Prod.mk.injEq] at h
    obtain ⟨rfl, -⟩ := h
    exact same_scope_refl _
  | .IdExpr id, rr, c, g, c', g', h => by
    simp only [generate_code] at h
    exact id_same_scope id rr c c' g g' h
  | .BinaryOpExpr op lhs rhs, rr, c, g, c', g', h => by
    rw [generate_code] at h
    split at h
    · simp only [Except.ok.injEq, Prod.mk.injEq] at h
      obtain ⟨rfl, -⟩ := h
      exact same_scope_refl _
    · split at h
      · simp at h
      · rename_i c1 g1 hl
        have h1 := generate_code_same_scope lhs 0 c g c1 g1 hl
        split at h
        split at h
        · simp at h
        · simp only [Except.ok.injEq, Prod.mk.injEq] at h
          obtain ⟨rfl, -⟩ := h
          exact h1
        · dsimp only at h
          split at h
          · simp at h
          · rename_i c2 g2 hr
            simp only [Except.ok.injEq, Prod.mk.injEq] at h
            obtain ⟨rfl, -⟩ := h
            exact same_scope_trans h1 (generate_code_same_scope rhs 1 c1 _ _ g2 hr)
  | .UnaryOpExpr op e, rr, c, g, c', g', h => by
    rw [generate_code] at h
    simp only at h
    split at h
    · simp only [Except.ok.injEq, Prod.mk.injEq] at h
      obtain ⟨rfl, -⟩ := h
      exact same_scope_refl _
    · split at h
      · simp only [Except.ok.injEq, Prod.mk.injEq] at h
        obtain ⟨rfl, -⟩ := h
        exact same_scope_refl _
      · split at h
        · simp only [Except.ok.injEq, Prod.mk.injEq] at h
          obtain ⟨rfl, -⟩ := h
          exact same_scope_refl _
        · split at h
          · simp at h
          · rename_i c1 g1 he
            simp only [Except.ok.injEq, Prod.mk.injEq] at h
            obtain ⟨rfl, -⟩ := h
            exact generate_code_same_scope e rr c g _ g1 he
  | .AssignExpr id e, rr, c, g, c', g', h => by
    rw [generate_code] at h
    split at h
    · simp at h
    · rename_i c1 g1 he
      have h1 := generate_code_same_scope e rr c g c1 g1 he
      split at h
      · simp at h
      · simp only at h
        split at h
        · simp only [Except.ok.injEq, Prod.mk.injEq] at h
          obtain ⟨rfl, -⟩ := h
          exact h1
        · simp only [Except.ok.injEq, Prod.mk.injEq] at h
          obtain ⟨rfl, -⟩ := h
          exact h1
  | .FunctionCallExpr f args, rr, c, g, c', g', h => by
    rw [generate_code] at h
    simp only at h
    split at h
    · simp at h
    · rename_i c1 g1 ha
      simp only [Except.ok.injEq, Prod.mk.injEq] at h
      obtain ⟨rfl, -⟩ := h
      exact generate_arguments_same_scope args 0 args.length c _ _ g1 ha

theorem generate_arguments_same_scope : ∀ (args : List Expr) (i n : Nat) (c : Context)
    (g : Globals) (c' : Context) (g' : Globals),
    generate_arguments args i n c g = .ok (c', g') → same_scope c c'
  | [], i, n, c, g, c', g', h => by
    simp only [generate_arguments, Except.ok.injEq, Prod.mk.injEq] at h
    obtain ⟨rfl, -⟩ := h
    exact same_scope_refl _
  | a :: rest, i, n, c, g, c', g', h => by
    rw [generate_arguments] at h
    split at h
    · simp at h
    · rename_i c1 g1 ha
      exact same_scope_trans (generate_code_same_scope a 0 c g c1 g1 ha)
        (generate_arguments_same_scope rest (i + 1) n c1 _ c' g' h)
end

theorem same_scope_stacks {c c' : Context} (h : same_scope c c') : c'.stacks = c.stacks := by
  have := congrArg Context.stacks h.1
  simpa [Context.stacks] using this

/-! ## Scans and statements keep the scope stacks -/

theorem scan_const_expr_stacks : ∀ (e : Expr) (c : Context),
    (Expr.scan_const_variables e c).stacks = c.stacks
  | .BinaryOpExpr _ lhs rhs, c => by
    rw [Expr.scan_const_variables, scan_const_expr_stacks rhs, scan_const_expr_stacks lhs]
  | .UnaryOpExpr _ e, c => by
    rw [Expr.scan_const_variables, scan_const_expr_stacks e]
  | .AssignExpr _ _, c => rfl
  | .IntegerExpr _, c => rfl
  | .IdExpr _, c => rfl
  | .FunctionCallExpr _ _, c => rfl

theorem is_const_at_stacks (c : Context) (id : String) : (c.is_const_at id).2.stacks = c.stacks :=
  same_scope_stacks (same_scope_is_const_at c id).1

mutual
theorem scan_const_stmt_stacks : ∀ (s : Stmt) (c : Context) (g : Globals) (c' : Context)
    (g' : Globals), Stmt.scan_const_variables s c g = .ok (c', g') → c'.stacks = c.stacks
  | .ExprStmt e, c, g, c', g', h => by
    simp only [Stmt.scan_const_variables, Except.ok.injEq, Prod.mk.injEq] at h
    rw [← h.1, scan_const_expr_stacks]
  | .ReturnStmt (some e), c, g, c', g', h => by
    simp only [Stmt.scan_const_variables, Except.ok.injEq, Prod.mk.injEq] at h
    rw [← h.1, scan_const_expr_stacks]
  | .ReturnStmt none, c, g, c', g', h => by
    simp [Stmt.scan_const_variables] at h
  | .BlockStmt stmts, c, g, c', g', h => by
    rw [Stmt.scan_const_variables] at h
    exact scan_const_each_stacks stmts c g c' g' h
  | .IfStmt cond t (some e), c, g, c', g', h => by
    rw [Stmt.scan_const_variables] at h
    split at h
    · simp at h
    · rename_i c1 g1 h1
      rw [scan_const_stmt_stacks e c1 g1 c' g' h, scan_const_stmt_stacks t _ g c1 g1 h1,
        scan_const_expr_stacks]
  | .IfStmt cond t none, c, g, c', g', h => by
    rw [Stmt.scan_const_variables] at h
    rw [scan_const_stmt_stacks t _ g c' g' h, scan_const_expr_stacks]
  | .WhileStmt cond b, c, g, c', g', h => by
    rw [Stmt.scan_const_variables] at h
    split at h
    · simp at h
    · rename_i c1 g1 h1
      simp only [Except.ok.injEq, Prod.mk.injEq] at h
      rw [← h.1, scan_const_expr_stacks, scan_const_stmt_stacks b c g c1 g1 h1]
  | .DeclStmt id e, c, g, c', g', h => by
    unfold Stmt.scan_const_variables at h
    split at h
    · simp only [Except.ok.injEq, Prod.mk.injEq] at h
      rw [← h.1, is_const_at_stacks]
    · split at h <;>
      · simp only [Except.ok.injEq, Prod.mk.injEq] at h
        rw [← h.1]
        rfl
  | .BreakStmt, c, g, c', g', h => by
    simp only [Stmt.scan_const_variables, Except.ok.injEq, Prod.mk.injEq] at h
    rw [← h.1]
  | .ContinueStmt, c, g, c', g', h => by
    simp only [Stmt.scan_const_variables, Except.ok.injEq, Prod.mk.injEq] at h
    rw [← h.1]
  | .EmptyStmt, c, g, c', g', h => by
    simp only [Stmt.scan_const_variables, Except.ok.injEq, Prod.mk.injEq] at h
    rw [← h.1]

theorem scan_const_each_stacks : ∀ (l : List Stmt) (c : Context) (g : Globals) (c' : Context)
    (g' : Globals), Stmt.scan_const_variables_each l c g = .ok (c', g') → c'.stacks = c.stacks
  | [], c, g, c', g', h => by
    simp only [Stmt.scan_const_variables_each, Except.ok.injEq, Prod.mk.injEq] at h
    rw [← h.1]
  | s :: rest, c, g, c', g', h => by
    rw [Stmt.scan_const_variables_each] at h
    split at h
    · simp at h
    · rename_i c1 g1 h1
      rw [scan_const_each_stacks rest c1 g1 c' g' h, scan_const_stmt_stacks s c g c1 g1 h1]
end

mutual
theorem scan_unused_expr_stacks : ∀ (e : Expr) (c : Context),
    (Expr.scan_unused e c).stacks = c.stacks
  | .IdExpr _, c => rfl
  | .BinaryOpExpr _ lhs rhs, c => by
    rw [Expr.scan_unused, scan_unused_expr_stacks rhs, scan_unused_expr_stacks lhs]
  | .UnaryOpExpr _ e, c => by
    rw [Expr.scan_unused, scan_unused_expr_stacks e]
  | .AssignExpr _ e, c => by
    rw [Expr.scan_unused, scan_unused_expr_stacks e]
    rfl
  | .FunctionCallExpr _ args, c => by
    rw [Expr.scan_unused, scan_unused_args_stacks args]
  | .IntegerExpr _, c => rfl

theorem scan_unused_args_stacks : ∀ (l : List Expr) (c : Context),
    (Expr.scan_unused_each l c).stacks = c.stacks
  | [], c => rfl
  | a :: rest, c => by
    rw [Expr.scan_unused_each, scan_unused_args_stacks rest, scan_unused_expr_stacks a]
end

mutual
theorem scan_unused_stmt_stacks : ∀ (s : Stmt) (c c' : Context),
    Stmt.scan_unused s c = .ok c' → c'.stacks = c.stacks
  | .ExprStmt e, c, c', h => by
    simp only [Stmt.scan_unused, Except.ok.injEq] at h
    rw [← h, scan_unused_expr_stacks]
  | .ReturnStmt (some e), c, c', h => by
    simp only [Stmt.scan_unused, Except.ok.injEq] at h
    rw [← h, scan_unused_expr_stacks]
  | .ReturnStmt none, c, c', h => by
    simp [Stmt.scan_unused] at h
  | .BlockStmt stmts, c, c', h => by
    rw [Stmt.scan_unused] at h
    exact scan_unused_each_stacks stmts c c' h
  | .IfStmt cond t (some e), c, c', h => by
    rw [Stmt.scan_unused] at h
    split at h
    · simp at h
    · rename_i c1 h1
      rw [scan_unused_stmt_stacks e c1 c' h, scan_unused_stmt_stacks t _ c1 h1,
        scan_unused_expr_stacks]
  | .IfStmt cond t none, c, c', h => by
    rw [Stmt.scan_unused] at h
    rw [scan_unused_stmt_stacks t _ c' h, scan_unused_expr_stacks]
  | .WhileStmt cond b, c, c', h => by
    rw [Stmt.scan_unused] at h
    split at h
    · simp at h
    · rename_i c1 h1
      simp only [Except.ok.injEq] at h
      rw [← h, scan_unused_expr_stacks, scan_unused_stmt_stacks b c c1 h1]
  | .DeclStmt id (some e), c, c', h => by
    rw [Stmt.scan_unused] at h
    split at h
    · simp only [Except.ok.injEq] at h
      rw [← h]
    · simp only [Except.ok.injEq] at h
      rw [← h, scan_unused_expr_stacks]
  | .DeclStmt id none, c, c', h => by
    simp only [Stmt.scan_unused, Except.ok.injEq] at h
    rw [← h]
  | .BreakStmt, c, c', h => by
    simp only [Stmt.scan_unused, Except.ok.injEq] at h
    rw [← h]
  | .ContinueStmt, c, c', h => by
    simp only [Stmt.scan_unused, Except.ok.injEq] at h
    rw [← h]
  | .EmptyStmt, c, c', h => by
    simp only [Stmt.scan_unused, Except.ok.injEq] at h
    rw [← h]

theorem scan_unused_each_stacks : ∀ (l : List Stmt) (c c' : Context),
    Stmt.scan_unused_each l c = .ok c' → c'.stacks = c.stacks
  | [], c, c', h => by
    simp only [Stmt.scan_unused_each, Except.ok.injEq] at h
    rw [← h]
  | s :: rest, c, c', h => by
    rw [Stmt.scan_unused_each] at h
    split at h
    · simp at h
    · rename_i c1 h1
      rw [scan_unused_each_stacks rest c1 c' h, scan_unused_stmt_stacks s c c1 h1]
end


theorem block_restores (stmts : List Stmt) (c c' : Context) (g g' : Globals)
    (heach : ∀ (c1 : Context) (g1 : Globals) (c2 : Context) (g2 : Globals),
      Stmt.generate_code_each stmts c1 g1 = .ok (c2, g2) → c2.stacks = c1.stacks)
    (h : Stmt.generate_code (.BlockStmt stmts) c g = .ok (c', g')) :
    c'.stack_offset = c.stack_offset ∧ c'.variables = c.variables ∧ c'.is_const = c.is_const ∧
    c'.const_val = c.const_val ∧ c'.used_variables = c.used_variables ∧ c'.stacks = c.stacks := by
  rw [Stmt.generate_code] at h
  dsimp only at h
  split at h
  · simp at h
  · rename_i c1 g1 h1
    split at h
    · simp at h
    · rename_i c2 h2
      split at h
      · simp at h
      · rename_i c3 g3 h3
        have hs : c3.stacks = (c.push_scope g).1.stacks := by
          rw [heach c2 g1 c3 g3 h3, scan_unused_stmt_stacks _ c1 c2 h2,
            scan_const_stmt_stacks _ _ _ c1 g1 h1]
        simp only [Context.stacks, Context.push_scope, Prod.mk.injEq] at hs
        obtain ⟨hv, hk, hw, hu, hl⟩ := hs
        simp only [Except.ok.injEq, Prod.mk.injEq] at h
        obtain ⟨rfl, -⟩ := h
        rw [pop_scope_of_pushed c3 g3 _ _ _ _ _ _ _ _ hv hk hw hu]
        simp [Context.stacks, hl]

theorem allocate_stacks (unused : Bool) (id : String) (c : Context) :
    (DeclStmt.allocate unused id c).stacks = c.stacks := by
  unfold DeclStmt.allocate
  split <;> rfl

theorem initialise_stacks (unused : Bool) (offset : Int) (id : String) (e : Expr)
    (c c' : Context) (g g' : Globals)
    (h : DeclStmt.initialise unused offset id e c g = .ok (c', g')) : c'.stacks = c.stacks := by
  unfold DeclStmt.initialise at h
  split at h
  · simp only [Except.ok.injEq, Prod.mk.injEq] at h
    rw [← h.1]
    rfl
  · split at h
    · simp only [Except.ok.injEq, Prod.mk.injEq] at h
      rw [← h.1]
    · split at h
      · simp only [Except.ok.injEq, Prod.mk.injEq] at h
        rw [← h.1]
      · split at h
        · simp at h
        · rename_i c1 g1 h1
          simp only [Except.ok.injEq, Prod.mk.injEq] at h
          obtain ⟨rfl, -⟩ := h
          exact same_scope_stacks (generate_code_same_scope _ 0 _ _ _ g1 h1)

theorem decl_stacks (id : String) (e : Option Expr) (c c' : Context) (g g' : Globals)
    (h : DeclStmt.generate_code id e c g = .ok (c', g')) : c'.stacks = c.stacks := by
  unfold DeclStmt.generate_code at h
  split at h
  · simp at h
  · dsimp only at h
    split at h
    · simp only [Except.ok.injEq, Prod.mk.injEq] at h
      rw [← h.1, allocate_stacks]
    · rw [initialise_stacks _ _ _ _ _ _ _ _ h, allocate_stacks]

mutual
theorem generate_code_stmt_stacks : ∀ (s : Stmt) (c : Context) (g : Globals) (c' : Context)
    (g' : Globals), Stmt.generate_code s c g = .ok (c', g') → c'.stacks = c.stacks
  | .ExprStmt e, c, g, c', g', h => by
    rw [Stmt.generate_code] at h
    exact same_scope_stacks (generate_code_same_scope e 0 c g c' g' h)
  | .ReturnStmt (some e), c, g, c', g', h => by
    rw [Stmt.generate_code] at h
    split at h
    · simp at h
    · rename_i c1 g1 h1
      simp only [Except.ok.injEq, Prod.mk.injEq] at h
      obtain ⟨rfl, -⟩ := h
      exact same_scope_stacks (generate_code_same_scope e 0 c g _ g1 h1)
  | .ReturnStmt none, c, g, c', g', h => by
    simp only [Stmt.generate_code, Except.ok.injEq, Prod.mk.injEq] at h
    rw [← h.1]
  | .BlockStmt stmts, c, g, c', g', h =>
    (block_restores stmts c c' g g'
      (fun c1 g1 c2 g2 h1 => generate_code_each_stacks stmts c1 g1 c2 g2 h1) h).2.2.2.2.2
  | .IfStmt cond t (some e), c, g, c', g', h => by
    rw [Stmt.generate_code] at h
    split at h
    · split at h
      · exact generate_code_stmt_stacks t c g c' g' h
      · exact generate_code_stmt_stacks e c g c' g' h
    · dsimp only at h
      split at h
      · simp at h
      · rename_i c1 g1 h1
        split at h
        · simp at h
        · split at h
          · simp at h
          · simp only [Except.ok.injEq, Prod.mk.injEq] at h
            obtain ⟨rfl, -⟩ := h
            exact same_scope_stacks (generate_code_same_scope cond 0 c _ _ g1 h1)
  | .IfStmt cond t none, c, g, c', g', h => by
    rw [Stmt.generate_code] at h
    split at h
    · split at h
      · exact generate_code_stmt_stacks t c g c' g' h
      · simp only [Except.ok.injEq, Prod.mk.injEq] at h
        rw [← h.1]
    · dsimp only at h
      split at h
      · simp at h
      · rename_i c1 g1 h1
        split at h
        · simp at h
        · simp only [Except.ok.injEq, Prod.mk.injEq] at h
          obtain ⟨rfl, -⟩ := h
          exact same_scope_stacks (generate_code_same_scope cond 0 c _ _ g1 h1)
  | .WhileStmt cond b, c, g, c', g', h => by
    rw [Stmt.generate_code] at h
    split at h
    · simp only [Except.ok.injEq, Prod.mk.injEq] at h
      rw [← h.1]
    · dsimp only at h
      split at h
      · simp at h
      · rename_i c1 g1 h1
        split at h
        · simp at h
        · rename_i c2 g2 h2
          have e1 := same_scope_stacks (generate_code_same_scope cond 0 _ _ c1 g1 h1)
          have e2 := generate_code_stmt_stacks b c1 _ c2 g2 h2
          rw [e1] at e2
          simp only [Context.stacks, Context.push_loop_labels, Prod.mk.injEq] at e2
          obtain ⟨hv, hk, hw, hu, hl⟩ := e2
          simp only [Except.ok.injEq, Prod.mk.injEq] at h
          obtain ⟨rfl, -⟩ := h
          simp [Context.stacks, Context.pop_loop_labels, hv, hk, hw, hu, hl]
  | .BreakStmt, c, g, c', g', h => by
    rw [Stmt.generate_code] at h
    split at h
    · simp at h
    · simp only [Except.ok.injEq, Prod.mk.injEq] at h
      rw [← h.1]
  | .ContinueStmt, c, g, c', g', h => by
    rw [Stmt.generate_code] at h
    split at h
    · simp at h
    · simp only [Except.ok.injEq, Prod.mk.injEq] at h
      rw [← h.1]
  | .DeclStmt id e, c, g, c', g', h => by
    rw [Stmt.generate_code] at h
    exact decl_stacks id e c c' g g' h
  | .EmptyStmt, c, g, c', g', h => by
    simp only [Stmt.generate_code, Except.ok.injEq, Prod.mk.injEq] at h
    rw [← h.1]

theorem generate_code_each_stacks : ∀ (l : List Stmt) (c : Context) (g : Globals) (c' : Context)
    (g' : Globals), Stmt.generate_code_each l c g = .ok (c', g') → c'.stacks = c.stacks
  | [], c, g, c', g', h => by
    simp only [Stmt.generate_code_each, Except.ok.injEq, Prod.mk.injEq] at h
    rw [← h.1]
  | s :: rest, c, g, c', g', h => by
    rw [Stmt.generate_code_each] at h
    split at h
    · simp at h
    · rename_i c1 g1 h1
      rw [generate_code_each_stacks rest c1 g1 c' g' h, generate_code_stmt_stacks s c g c1 g1 h1]
end


/-! ## Code generation keeps the height of the register-state stack -/

theorem depth_refl (g : Globals) : depth_to g g := rfl

theorem depth_trans {g1 g2 g3 : Globals} (h1 : depth_to g1 g2) (h2 : depth_to g2 g3) :
    depth_to g1 g3 := Eq.trans h2 h1

theorem depth_of_eq {g g1 g2 : Globals} (h : depth_to g g1)
    (hs : g2.reg_state_stack.length = g1.reg_state_stack.length) : depth_to g g2 :=
  Eq.trans hs h

theorem depth_emit {g g1 : Globals} (line : String) (h : depth_to g g1) :
    depth_to g (emit line g1) :=
  depth_of_eq h rfl

theorem depth_free {g g1 : Globals} (r : Nat) (h : depth_to g g1) :
    depth_to g (Context.mark_register_free r g1) :=
  depth_of_eq h (by simp [Context.mark_register_free])

theorem depth_used {g g1 : Globals} (c : Context) (r : Nat) (v : String) (h : depth_to g g1) :
    depth_to g (c.mark_register_used r v g1) :=
  depth_of_eq h rfl

theorem depth_create {g g1 : Globals} (p : String) (h : depth_to g g1) :
    depth_to g (LabelFactory.create p g1).2 :=
  depth_of_eq h rfl

theorem depth_next_temp {g g1 : Globals} (h : depth_to g g1) :
    depth_to g (Context.get_next_temp_register_id g1).2 := by
  unfold Context.get_next_temp_register_id
  split
  · exact h
  · split
    · exact h
    · exact depth_of_eq h rfl

theorem depth_integer {g g1 : Globals} (v : Int) (r : Nat) (c : Context) (h : depth_to g g1) :
    depth_to g (IntegerExpr.generate_code v r c g1) :=
  depth_used _ _ _ (depth_free _ (depth_emit _ h))

theorem depth_finish {g g1 : Globals} (c : Context) (h : depth_to g g1) :
    depth_to g (BinaryOpExpr.finish c g1) :=
  depth_used _ _ _ (depth_free _ h)

theorem depth_guarded {g g1 : Globals} (m : String) (c : Context) (h : depth_to g g1) :
    depth_to g (BinaryOpExpr.guarded m c g1) :=
  depth_emit _ (depth_emit _ (depth_emit _ (depth_emit _ (depth_create c.label_factory h))))

theorem depth_id {g g1 g' : Globals} {c c' : Context} (id : String) (r : Nat)
    (h : depth_to g g1) (hgen : IdExpr.generate_code id r c g1 = .ok (c', g')) :
    depth_to g g' := by
  unfold IdExpr.generate_code at hgen
  split at hgen
  · split at hgen
    · simp only [Except.ok.injEq, Prod.mk.injEq] at hgen
      obtain ⟨-, rfl⟩ := hgen
      refine depth_used _ _ _ (depth_free _ ?_)
      split
      · exact depth_emit _ (depth_emit _ h)
      · exact depth_emit _ (depth_emit _ h)
    · simp only at hgen
      split at hgen
      · split at hgen
        · simp at hgen
        · simp only [Except.ok.injEq, Prod.mk.injEq] at hgen
          obtain ⟨-, rfl⟩ := hgen
          exact depth_used _ _ _ (depth_free _ (depth_emit _ h))
      · split at hgen
        · simp at hgen
        · simp only [Except.ok.injEq, Prod.mk.injEq] at hgen
          obtain ⟨-, rfl⟩ := hgen
          exact depth_emit _ (depth_emit _ (depth_emit _ (depth_used _ _ _ (depth_free _ (depth_next_temp h)))))
  · simp only at hgen
    split at hgen
    · split at hgen
      · simp at hgen
      · simp only [Except.ok.injEq, Prod.mk.injEq] at hgen
        obtain ⟨-, rfl⟩ := hgen
        exact depth_emit _ h
    · split at hgen
      · simp at hgen
      · simp only [Except.ok.injEq, Prod.mk.injEq] at hgen
        obtain ⟨-, rfl⟩ := hgen
        exact depth_emit _ h


theorem depth_short_circuit {g g1 : Globals} (op : String) (c : Context) (h : depth_to g g1) :
    depth_to g (BinaryOpExpr.short_circuit_entry op c g1).2 := by
  unfold BinaryOpExpr.short_circuit_entry
  split
  · exact depth_emit _ (depth_emit _ (depth_create c.label_factory (depth_create c.label_factory h)))
  · split
    · exact depth_emit _ (depth_emit _ (depth_create c.label_factory (depth_create c.label_factory h)))
    · exact h

theorem depth_simple_rhs {g g1 g2 : Globals} (rhs : Expr) (c : Context) (h : depth_to g g1)
    (hs : BinaryOpExpr.load_simple_rhs rhs c g1 = some (.ok g2)) : depth_to g g2 := by
  unfold BinaryOpExpr.load_simple_rhs at hs
  split at hs
  · split at hs
    · split at hs
      · simp only [Option.some.injEq, Except.ok.injEq] at hs
        subst hs
        exact depth_emit _ h
      · split at hs
        · simp at hs
        · simp only [Option.some.injEq, Except.ok.injEq] at hs
          subst hs
          exact depth_emit _ h
    · simp at hs
  · simp only [Option.some.injEq, Except.ok.injEq] at hs
    subst hs
    exact depth_emit _ h
  · simp at hs

theorem depth_ite {g : Globals} {p : Prop} [Decidable p] {a b : Globals}
    (ha : depth_to g a) (hb : depth_to g b) : depth_to g (if p then a else b) := by
  split
  · exact ha
  · exact hb

theorem depth_operation {g g1 : Globals} (op : String) (rhs : Expr) (simple : Bool)
    (labels : BinaryOpExpr.Labels) (c : Context) (h : depth_to g g1) :
    depth_to g (BinaryOpExpr.emit_operation op rhs simple labels c g1) := by
  unfold BinaryOpExpr.emit_operation
  dsimp only
  generalize (if simple = true then as_integer rhs else none) = int_rhs
  cases int_rhs <;> dsimp only <;>
    repeat (with_reducible (first | exact h | apply depth_ite | apply depth_guarded | apply depth_emit))

theorem depth_foldl_free {g g1 : Globals} (used : List Bool) (l : List Nat) (h : depth_to g g1) :
    depth_to g (l.foldl
      (fun g temp => if used.getD temp false then Context.mark_register_free temp g else g) g1) := by
  induction l generalizing g1 with
  | nil => exact h
  | cons a l ih =>
    simp only [List.foldl_cons]
    apply ih
    split
    · exact depth_free _ h
    · exact h

theorem depth_free_callee {g g1 : Globals} (f : String) (h : depth_to g g1) :
    depth_to g (free_callee_registers f g1) := by
  unfold free_callee_registers
  exact depth_foldl_free _ _ (depth_of_eq h rfl)

mutual
theorem generate_code_depth : ∀ (e : Expr) (rr : Nat) (c : Context) (g0 g : Globals) (c' : Context)
    (g' : Globals), depth_to g0 g → generate_code e rr c g = .ok (c', g') → depth_to g0 g'
  | .IntegerExpr v, rr, c, g0, g, c', g', h0, h => by
    simp only [generate_code, Except.ok.injEq, Prod.mk.injEq] at h
    obtain ⟨-, rfl⟩ := h
    exact depth_integer _ _ _ h0
  | .IdExpr id, rr, c, g0, g, c', g', h0, h => by
    simp only [generate_code] at h
    exact depth_id id rr h0 h
  | .BinaryOpExpr op lhs rhs, rr, c, g0, g, c', g', h0, h => by
    rw [generate_code] at h
    split at h
    · simp only [Except.ok.injEq, Prod.mk.injEq] at h
      obtain ⟨-, rfl⟩ := h
      exact depth_finish _ (depth_integer _ _ _ h0)
    · split at h
      · simp at h
      · rename_i c1 g1 hl
        have h1 := generate_code_depth lhs 0 c g0 g c1 g1 h0 hl
        have h2 := depth_short_circuit op c1 h1
        split at h
        rename_i labels gs hsc
        rw [hsc] at h2
        simp only at h2
        split at h
        · simp at h
        · rename_i g2 hs
          simp only [Except.ok.injEq, Prod.mk.injEq] at h
          obtain ⟨-, rfl⟩ := h
          exact depth_finish _ (depth_operation _ _ _ _ _ (depth_simple_rhs rhs c1 h2 hs))
        · dsimp only at h
          split at h
          · simp at h
          · rename_i c2 g2 hr
            simp only [Except.ok.injEq, Prod.mk.injEq] at h
            obtain ⟨-, rfl⟩ := h
            have h3 := generate_code_depth rhs 1 c1 g0 _ c2 g2 (depth_emit _ (depth_emit _ h2)) hr
            exact depth_finish _ (depth_operation _ _ _ _ _
              (depth_emit _ (depth_emit _ (depth_emit _ h3))))
  | .UnaryOpExpr op e, rr, c, g0, g, c', g', h0, h => by
    rw [generate_code] at h
    simp only at h
    split at h
    · simp only [Except.ok.injEq, Prod.mk.injEq] at h
      obtain ⟨-, rfl⟩ := h
      exact depth_used _ _ _ (depth_free _ (depth_integer _ _ _ h0))
    · split at h
      · simp only [Except.ok.injEq, Prod.mk.injEq] at h
        obtain ⟨-, rfl⟩ := h
        exact depth_used _ _ _ (depth_free _ (depth_integer _ _ _ h0))
      · split at h
        · simp only [Except.ok.injEq, Prod.mk.injEq] at h
          obtain ⟨-, rfl⟩ := h
          exact depth_used _ _ _ (depth_free _ (depth_integer _ _ _ h0))
        · split at h
          · simp at h
          · rename_i c1 g1 he
            have h1 := generate_code_depth e rr c g0 g c1 g1 h0 he
            simp only [Except.ok.injEq, Prod.mk.injEq] at h
            obtain ⟨-, rfl⟩ := h
            refine depth_used _ _ _ (depth_free _ ?_)
            split <;> split <;> exact h1
  | .AssignExpr id e, rr, c, g0, g, c', g', h0, h => by
    rw [generate_code] at h
    split at h
    · simp at h
    · rename_i c1 g1 he
      have h1 := generate_code_depth e rr c g0 g c1 g1 h0 he
      split at h
      · simp at h
      · simp only at h
        split at h
        · simp only [Except.ok.injEq, Prod.mk.injEq] at h
          obtain ⟨-, rfl⟩ := h
          refine depth_used _ _ _ (depth_emit _ ?_)
          split
          · exact depth_emit _ h1
          · exact h1
        · simp only [Except.ok.injEq, Prod.mk.injEq] at h
          obtain ⟨-, rfl⟩ := h
          exact depth_emit _ h1
  | .FunctionCallExpr f args, rr, c, g0, g, c', g', h0, h => by
    rw [generate_code] at h
    simp only at h
    split at h
    · simp at h
    · rename_i c1 g1 ha
      have hpre : depth_to g0 (if args.length > 8 then
          emit ("  addi sp, sp, -" ++ toString ((args.length - 8) * 4)) g else g) := by
        split
        · exact depth_emit _ h0
        · exact h0
      have h1 := generate_arguments_depth args 0 args.length c g0 _ c1 g1 hpre ha
      simp only [Except.ok.injEq, Prod.mk.injEq] at h
      obtain ⟨-, rfl⟩ := h
      have h2 := depth_used c1 rr T_VAL_FUNC (depth_free rr (depth_free_callee f
        (depth_emit ("  mv t" ++ toString rr ++ ", a0") (depth_emit ("  call " ++ f) h1))))
      split
      · exact depth_emit _ h2
      · exact h2

theorem generate_arguments_depth : ∀ (args : List Expr) (i n : Nat) (c : Context) (g0 g : Globals)
    (c' : Context) (g' : Globals), depth_to g0 g →
    generate_arguments args i n c g = .ok (c', g') → depth_to g0 g'
  | [], i, n, c, g0, g, c', g', h0, h => by
    simp only [generate_arguments, Except.ok.injEq, Prod.mk.injEq] at h
    obtain ⟨-, rfl⟩ := h
    exact h0
  | a :: rest, i, n, c, g0, g, c', g', h0, h => by
    rw [generate_arguments] at h
    split at h
    · simp at h
    · rename_i c1 g1 ha
      have h1 := generate_code_depth a 0 c g0 g c1 g1 h0 ha
      refine generate_arguments_depth rest (i + 1) n c1 g0 _ c' g' ?_ h
      split
      · exact depth_emit _ h1
      · exact depth_emit _ h1
end


mutual
theorem scan_const_stmt_depth : ∀ (s : Stmt) (c : Context) (g : Globals) (c' : Context)
    (g' : Globals), Stmt.scan_const_variables s c g = .ok (c', g') → depth_to g g'
  | .ExprStmt e, c, g, c', g', h => by
    simp only [Stmt.scan_const_variables, Except.ok.injEq, Prod.mk.injEq] at h
    rw [← h.2]
    exact depth_refl g
  | .ReturnStmt (some e), c, g, c', g', h => by
    simp only [Stmt.scan_const_variables, Except.ok.injEq, Prod.mk.injEq] at h
    rw [← h.2]
    exact depth_refl g
  | .ReturnStmt none, c, g, c', g', h => by
    simp [Stmt.scan_const_variables] at h
  | .BlockStmt stmts, c, g, c', g', h => by
    rw [Stmt.scan_const_variables] at h
    exact scan_const_each_depth stmts c g c' g' h
  | .IfStmt cond t (some e), c, g, c', g', h => by
    rw [Stmt.scan_const_variables] at h
    split at h
    · simp at h
    · rename_i c1 g1 h1
      exact depth_trans (scan_const_stmt_depth t _ g c1 g1 h1) (scan_const_stmt_depth e c1 g1 c' g' h)
  | .IfStmt cond t none, c, g, c', g', h => by
    rw [Stmt.scan_const_variables] at h
    exact scan_const_stmt_depth t _ g c' g' h
  | .WhileStmt cond b, c, g, c', g', h => by
    rw [Stmt.scan_const_variables] at h
    split at h
    · simp at h
    · rename_i c1 g1 h1
      simp only [Except.ok.injEq, Prod.mk.injEq] at h
      rw [← h.2]
      exact scan_const_stmt_depth b c g c1 g1 h1
  | .DeclStmt id e, c, g, c', g', h => by
    unfold Stmt.scan_const_variables at h
    split at h
    · simp only [Except.ok.injEq, Prod.mk.injEq] at h
      rw [← h.2]
      exact depth_emit _ (depth_refl g)
    · split at h <;>
      · simp only [Except.ok.injEq, Prod.mk.injEq] at h
        rw [← h.2]
        exact depth_refl g
  | .BreakStmt, c, g, c', g', h => by
    simp only [Stmt.scan_const_variables, Except.ok.injEq, Prod.mk.injEq] at h
    rw [← h.2]
    exact depth_refl g
  | .ContinueStmt, c, g, c', g', h => by
    simp only [Stmt.scan_const_variables, Except.ok.injEq, Prod.mk.injEq] at h
    rw [← h.2]
    exact depth_refl g
  | .EmptyStmt, c, g, c', g', h => by
    simp only [Stmt.scan_const_variables, Except.ok.injEq, Prod.mk.injEq] at h
    rw [← h.2]
    exact depth_refl g

theorem scan_const_each_depth : ∀ (l : List Stmt) (c : Context) (g : Globals) (c' : Context)
    (g' : Globals), Stmt.scan_const_variables_each l c g = .ok (c', g') → depth_to g g'
  | [], c, g, c', g', h => by
    simp only [Stmt.scan_const_variables_each, Except.ok.injEq, Prod.mk.injEq] at h
    rw [← h.2]
    exact depth_refl g
  | s :: rest, c, g, c', g', h => by
    rw [Stmt.scan_const_variables_each] at h
    split at h
    · simp at h
    · rename_i c1 g1 h1
      exact depth_trans (scan_const_stmt_depth s c g c1 g1 h1)
        (scan_const_each_depth rest c1 g1 c' g' h)
end

theorem store_constant_depth (unused : Bool) (offset const_val : Int) (id : String) (c : Context)
    (g : Globals) : depth_to g (DeclStmt.store_constant unused offset const_val id c g) := by
  unfold DeclStmt.store_constant
  split
  · exact depth_refl g
  · split
    · exact depth_emit _ (depth_refl g)
    · exact depth_used _ _ _ (depth_free _ (depth_emit _ (depth_emit _ (depth_refl g))))

theorem initialise_depth (unused : Bool) (offset : Int) (id : String) (e : Expr)
    (c c' : Context) (g g' : Globals)
    (h : DeclStmt.initialise unused offset id e c g = .ok (c', g')) : depth_to g g' := by
  unfold DeclStmt.initialise at h
  split at h
  · simp only [Except.ok.injEq, Prod.mk.injEq] at h
    rw [← h.2]
    exact store_constant_depth _ _ _ _ _ _
  · split at h
    · simp only [Except.ok.injEq, Prod.mk.injEq] at h
      rw [← h.2]
      exact store_constant_depth _ _ _ _ _ _
    · split at h
      · simp only [Except.ok.injEq, Prod.mk.injEq] at h
        rw [← h.2]
        exact depth_refl g
      · split at h
        · simp at h
        · rename_i c1 g1 h1
          simp only [Except.ok.injEq, Prod.mk.injEq] at h
          obtain ⟨-, rfl⟩ := h
          exact depth_used _ _ _ (depth_free _ (depth_emit _
            (generate_code_depth e 0 c g g c1 g1 (depth_refl g) h1)))

theorem decl_depth (id : String) (e : Option Expr) (c c' : Context) (g g' : Globals)
    (h : DeclStmt.generate_code id e c g = .ok (c', g')) : depth_to g g' := by
  unfold DeclStmt.generate_code at h
  split at h
  · simp at h
  · dsimp only at h
    split at h
    · simp only [Except.ok.injEq, Prod.mk.injEq] at h
      rw [← h.2]
      exact depth_refl g
    · exact initialise_depth _ _ _ _ _ _ _ _ h

theorem depth_clear_cache {g g1 : Globals} (h : depth_to g g1) :
    depth_to g (Context.clear_cache g1) :=
  depth_of_eq h rfl

theorem pop_scope_depth (c : Context) (g : Globals) :
    (c.pop_scope g).2.reg_state_stack.length = g.reg_state_stack.length - 1 := by
  unfold Context.pop_scope
  dsimp only
  split
  · simp
  · rename_i hnone
    rw [List.getLast?_eq_none_iff] at hnone
    simp [hnone]

theorem block_depth (stmts : List Stmt) (c c' : Context) (g g' : Globals)
    (heach : ∀ (c1 : Context) (g1 : Globals) (c2 : Context) (g2 : Globals),
      Stmt.generate_code_each stmts c1 g1 = .ok (c2, g2) → depth_to g1 g2)
    (h : Stmt.generate_code (.BlockStmt stmts) c g = .ok (c', g')) : depth_to g g' := by
  rw [Stmt.generate_code] at h
  dsimp only at h
  split at h
  · simp at h
  · rename_i c1 g1 h1
    split at h
    · simp at h
    · rename_i c2 h2
      split at h
      · simp at h
      · rename_i c3 g3 h3
        have hd : depth_to (c.push_scope g).2 g3 :=
          depth_trans (scan_const_stmt_depth _ _ _ c1 g1 h1) (heach c2 g1 c3 g3 h3)
        simp only [Except.ok.injEq, Prod.mk.injEq] at h
        obtain ⟨-, rfl⟩ := h
        unfold depth_to at hd ⊢
        rw [pop_scope_depth, hd]
        simp [Context.push_scope]

mutual
theorem generate_code_stmt_depth : ∀ (s : Stmt) (c : Context) (g : Globals) (c' : Context)
    (g' : Globals), Stmt.generate_code s c g = .ok (c', g') → depth_to g g'
  | .ExprStmt e, c, g, c', g', h => by
    rw [Stmt.generate_code] at h
    exact generate_code_depth e 0 c g g c' g' (depth_refl g) h
  | .ReturnStmt (some e), c, g, c', g', h => by
    rw [Stmt.generate_code] at h
    split at h
    · simp at h
    · rename_i c1 g1 h1
      simp only [Except.ok.injEq, Prod.mk.injEq] at h
      obtain ⟨-, rfl⟩ := h
      exact depth_emit _ (depth_emit _ (generate_code_depth e 0 c g g c1 g1 (depth_refl g) h1))
  | .ReturnStmt none, c, g, c', g', h => by
    simp only [Stmt.generate_code, Except.ok.injEq, Prod.mk.injEq] at h
    rw [← h.2]
    exact depth_emit _ (depth_emit _ (depth_refl g))
  | .BlockStmt stmts, c, g, c', g', h =>
    block_depth stmts c c' g g'
      (fun c1 g1 c2 g2 h1 => generate_code_each_depth stmts c1 g1 c2 g2 h1) h
  | .IfStmt cond t (some e), c, g, c', g', h => by
    rw [Stmt.generate_code] at h
    split at h
    · split at h
      · exact generate_code_stmt_depth t c g c' g' h
      · exact generate_code_stmt_depth e c g c' g' h
    · dsimp only at h
      split at h
      · simp at h
      · rename_i c1 g1 h1
        have d1 := generate_code_depth cond 0 c g _ c1 g1
          (depth_create _ (depth_create _ (depth_refl g))) h1
        split at h
        · simp at h
        · rename_i c2 g2 h2
          have d2 := depth_trans (depth_emit _ d1) (generate_code_stmt_depth t _ _ c2 g2 h2)
          split at h
          · simp at h
          · rename_i c3 g3 h3
            simp only [Except.ok.injEq, Prod.mk.injEq] at h
            obtain ⟨-, rfl⟩ := h
            exact depth_emit _ (depth_trans (depth_emit _ (depth_emit _ d2))
              (generate_code_stmt_depth e _ _ c3 g3 h3))
  | .IfStmt cond t none, c, g, c', g', h => by
    rw [Stmt.generate_code] at h
    split at h
    · split at h
      · exact generate_code_stmt_depth t c g c' g' h
      · simp only [Except.ok.injEq, Prod.mk.injEq] at h
        rw [← h.2]
        exact depth_refl g
    · dsimp only at h
      split at h
      · simp at h
      · rename_i c1 g1 h1
        have d1 := generate_code_depth cond 0 c g _ c1 g1
          (depth_create _ (depth_create _ (depth_refl g))) h1
        split at h
        · simp at h
        · rename_i c2 g2 h2
          simp only [Except.ok.injEq, Prod.mk.injEq] at h
          obtain ⟨-, rfl⟩ := h
          exact depth_emit _ (depth_trans (depth_emit _ d1)
            (generate_code_stmt_depth t _ _ c2 g2 h2))
  | .WhileStmt cond b, c, g, c', g', h => by
    rw [Stmt.generate_code] at h
    split at h
    · simp only [Except.ok.injEq, Prod.mk.injEq] at h
      rw [← h.2]
      exact depth_emit _ (depth_refl g)
    · dsimp only at h
      split at h
      · simp at h
      · rename_i c1 g1 h1
        have d1 := generate_code_depth cond 0 _ g _ c1 g1
          (depth_emit _ (depth_create _ (depth_create _ (depth_refl g)))) h1
        split at h
        · simp at h
        · rename_i c2 g2 h2
          have d2 := depth_trans (depth_emit _ d1) (generate_code_stmt_depth b _ _ c2 g2 h2)
          simp only [Except.ok.injEq, Prod.mk.injEq] at h
          obtain ⟨-, rfl⟩ := h
          exact depth_clear_cache (depth_emit _ (depth_emit _ d2))
  | .BreakStmt, c, g, c', g', h => by
    rw [Stmt.generate_code] at h
    split at h
    · simp at h
    · simp only [Except.ok.injEq, Prod.mk.injEq] at h
      rw [← h.2]
      exact depth_emit _ (depth_refl g)
  | .ContinueStmt, c, g, c', g', h => by
    rw [Stmt.generate_code] at h
    split at h
    · simp at h
    · simp only [Except.ok.injEq, Prod.mk.injEq] at h
      rw [← h.2]
      exact depth_emit _ (depth_refl g)
  | .DeclStmt id e, c, g, c', g', h => by
    rw [Stmt.generate_code] at h
    exact decl_depth id e c c' g g' h
  | .EmptyStmt, c, g, c', g', h => by
    simp only [Stmt.generate_code, Except.ok.injEq, Prod.mk.injEq] at h
    rw [← h.2]
    exact depth_refl g

theorem generate_code_each_depth : ∀ (l : List Stmt) (c : Context) (g : Globals) (c' : Context)
    (g' : Globals), Stmt.generate_code_each l c g = .ok (c', g') → depth_to g g'
  | [], c, g, c', g', h => by
    simp only [Stmt.generate_code_each, Except.ok.injEq, Prod.mk.injEq] at h
    rw [← h.2]
    exact depth_refl g
  | s :: rest, c, g, c', g', h => by
    rw [Stmt.generate_code_each] at h
    split at h
    · simp at h
    · rename_i c1 g1 h1
      exact depth_trans (generate_code_stmt_depth s c g c1 g1 h1)
        (generate_code_each_depth rest c1 g1 c' g' h)
end

/-- C20: whenever code generation for a block statement completes, the context it leaves has
the `stack_offset` and the map `variables` it was entered with, the four scope stacks and the
loop-label stack are the ones it was entered with, so their heights are unchanged, and the stack
of saved register states that `push_scope` and `pop_scope` maintain beside them has its height
back as well. -/
theorem C20_block_restores_context (stmts : List Stmt) (c c' : Context) (g g' : Globals)
    (h : Stmt.generate_code (.BlockStmt stmts) c g = .ok (c', g')) :
    c'.stack_offset = c.stack_offset ∧ c'.variables = c.variables ∧
    c'.variables_stack.length = c.variables_stack.length ∧
    c'.is_const_stack.length = c.is_const_stack.length ∧
    c'.const_val_stack.length = c.const_val_stack.length ∧
    c'.used_variables_stack.length = c.used_variables_stack.length ∧
    c'.loop_labels.length = c.loop_labels.length ∧
    c'.stacks = c.stacks ∧
    g'.reg_state_stack.length = g.reg_state_stack.length := by
  obtain ⟨h1, h2, -, -, -, h6⟩ := block_restores stmts c c' g g'
    (fun c1 g1 c2 g2 h1 => generate_code_each_stacks stmts c1 g1 c2 g2 h1) h
  have h7 := h6
  simp only [Context.stacks, Prod.mk.injEq] at h7
  obtain ⟨hv, hk, hw, hu, hl⟩ := h7
  exact ⟨h1, h2, by rw [hv], by rw [hk], by rw [hw], by rw [hu], by rw [hl], h6,
    generate_code_stmt_depth _ c g c' g' h⟩

theorem C20_block_restores_context_witness :
    ∃ c' g', Stmt.generate_code (.BlockStmt shadowing_block) outer_context {} = .ok (c', g') ∧
      c'.stack_offset = -20 ∧ c'.variables = [("x", -12), ("y", -16)] ∧
      c'.loop_labels.length = 0 ∧ g'.reg_state_stack.length = 0 := by
  have hok : (Stmt.generate_code (.BlockStmt shadowing_block) outer_context {}).toBool = true := by
    decide
  cases h : Stmt.generate_code (.BlockStmt shadowing_block) outer_context {} with
  | error e =>
    rw [h] at hok
    exact absurd hok (by simp [Except.toBool])
  | ok r =>
    obtain ⟨c', g'⟩ := r
    have hc := C20_block_restores_context shadowing_block outer_context c' {} g' h
    exact ⟨c', g', rfl, hc.1, hc.2.1, hc.2.2.2.2.2.2.1, hc.2.2.2.2.2.2.2.2⟩

/-! ## Resolving a variable -/

theorem findSome_eq_innermost (scopes : List (List (String × Int))) (var : String) :
    scopes.findSome? (fun prev_vars => map_find prev_vars var) = innermost_binding scopes var := by
  induction scopes with
  | nil => rfl
  | cons scope outer ih =>
    simp only [List.findSome?_cons, innermost_binding]
    cases map_find scope var with
    | some o => rfl
    | none => exact ih

theorem find_variable_offset_eq (c : Context) (var : String) :
    c.find_variable_offset var =
      match innermost_binding c.scopes var with
      | some offset => .ok offset
      | none => .error (.undeclared_variable var) := by
  unfold Context.find_variable_offset Context.scopes
  simp only [innermost_binding, findSome_eq_innermost]
  cases map_find c.variables var with
  | some o => rfl
  | none => rfl

theorem is_variable_declared_iff (c : Context) (var : String) :
    c.is_variable_declared var = false ↔
      ∀ scope ∈ c.variables :: c.variables_stack, map_find scope var = none := by
  unfold Context.is_variable_declared
  simp only [Bool.or_eq_false_iff, List.any_eq_false, List.mem_reverse, List.mem_cons,
    forall_eq_or_imp]
  constructor
  · rintro ⟨h1, h2⟩
    refine ⟨by simpa using h1, fun s hs => by simpa using h2 s hs⟩
  · rintro ⟨h1, h2⟩
    refine ⟨by simp [h1], fun s hs => by simp [h2 s hs]⟩

theorem innermost_none_iff (scopes : List (List (String × Int))) (var : String) :
    innermost_binding scopes var = none ↔ ∀ scope ∈ scopes, map_find scope var = none := by
  induction scopes with
  | nil => simp [innermost_binding]
  | cons scope outer ih =>
    simp only [innermost_binding, List.mem_cons, forall_eq_or_imp]
    cases h : map_find scope var with
    | some o => simp
    | none => simpa using ih

/-- C28: `find_variable_offset(v)` stops with the undeclared-variable error for `v` exactly when
`is_variable_declared(v)` is false, which is the case exactly when neither the current scope
map nor any snapshot on `variables_stack` binds `v`; no other error occurs.  When it succeeds
the offset is that of the innermost binding: the current scope first, then the snapshots from
the most recent to the oldest. -/
theorem C28_find_variable_offset (c : Context) (v : String) :
    (c.find_variable_offset v = .error (.undeclared_variable v) ↔
      c.is_variable_declared v = false) ∧
    (∀ e, c.find_variable_offset v = .error e → e = .undeclared_variable v) ∧
    (c.is_variable_declared v = false ↔
      ∀ scope ∈ c.variables :: c.variables_stack, map_find scope v = none) ∧
    (∀ offset, c.find_variable_offset v = .ok offset ↔
      innermost_binding (c.variables :: c.variables_stack.reverse) v = some offset) := by
  have hfind := find_variable_offset_eq c v
  have hdecl := is_variable_declared_iff c v
  have hnone := innermost_none_iff c.scopes v
  simp only [Context.scopes, List.mem_cons, List.mem_reverse] at hnone hfind
  simp only [List.mem_cons] at hdecl
  refine ⟨?_, ?_, ?_, ?_⟩
  · rw [hdecl, ← hnone, hfind]
    cases innermost_binding (c.variables :: c.variables_stack.reverse) v <;> simp
  · intro e he
    rw [hfind] at he
    cases h : innermost_binding (c.variables :: c.variables_stack.reverse) v with
    | some o => rw [h] at he; simp at he
    | none =>
      rw [h] at he
      simp only [Except.error.injEq] at he
      exact he.symm
  · simpa using hdecl
  · intro offset
    rw [hfind]
    cases innermost_binding (c.variables :: c.variables_stack.reverse) v <;> simp

theorem C28_find_variable_offset_witness :
    outer_context.find_variable_offset "y" = .ok (-16) ∧
    outer_context.find_variable_offset "z" = .error (.undeclared_variable "z") :=
  ⟨((C28_find_variable_offset outer_context "y").2.2.2 (-16)).2 (by decide),
   (C28_find_variable_offset outer_context "z").1.2 (by decide)⟩

/-! ## Break and continue -/

/-- C29: `break` and `continue` stop with their fatal error exactly when `loop_labels` is empty.
Otherwise, with `(start, end)` on top of the loop-label stack, `break` emits `j end` and
`continue` emits `j start` and nothing else, and the context (the stack included) is returned
unchanged.  Inside `while (x) { ... }` the pair on top is the one whose labels the loop emits:
in `while (x) break;` the jump goes to the label emitted after the loop, and in a nested loop
`continue` goes to the start label of the inner loop. -/
theorem C29_break_continue (c : Context) (g : Globals) :
    (c.loop_labels = [] →
      Stmt.generate_code .BreakStmt c g = .error .break_not_in_loop ∧
      Stmt.generate_code .ContinueStmt c g = .error .continue_not_in_loop) ∧
    (∀ rest start finish, c.loop_labels = rest ++ [(start, finish)] →
      Stmt.generate_code .BreakStmt c g = .ok (c, emit ("  j " ++ finish) g) ∧
      Stmt.generate_code .ContinueStmt c g = .ok (c, emit ("  j " ++ start) g)) ∧
    ((Stmt.generate_code .BreakStmt c g).toBool = !c.loop_labels.isEmpty) ∧
    ((Stmt.generate_code .ContinueStmt c g).toBool = !c.loop_labels.isEmpty) ∧
    (Stmt.generate_code (.WhileStmt (.IdExpr "x") .BreakStmt) sample_context {}).toOption.map
        (fun r => r.2.os) =
      some ["L0:", "  # x saved to t2", "  lw t2, -12(s0)", "  mv t0, t2", "  beqz t0, L1",
        "  j L1", "  j L0", "L1:"] ∧
    (Stmt.generate_code (.WhileStmt (.IdExpr "x") (.WhileStmt (.IdExpr "x") .ContinueStmt))
        sample_context {}).toOption.map (fun r => r.2.os) =
      some ["L0:", "  # x saved to t2", "  lw t2, -12(s0)", "  mv t0, t2", "  beqz t0, L1",
        "L2:", "# x already in t2", "  mv t0, t2", "  beqz t0, L3", "  j L2", "  j L2", "L3:",
        "  j L0", "L1:"] := by
  refine ⟨?_, ?_, ?_, ?_, by decide, by decide⟩
  · intro h
    simp [Stmt.generate_code, h]
  · intro rest start finish h
    simp [Stmt.generate_code, h]
  · rw [Stmt.generate_code]
    cases h : c.loop_labels.getLast? with
    | none =>
      rw [List.getLast?_eq_none_iff] at h
      simp [h, Except.toBool]
    | some top =>
      have : c.loop_labels ≠ [] := by
        intro h0
        rw [h0] at h
        simp at h
      simp [Except.toBool, this]
  · rw [Stmt.generate_code]
    cases h : c.loop_labels.getLast? with
    | none =>
      rw [List.getLast?_eq_none_iff] at h
      simp [h, Except.toBool]
    | some top =>
      have : c.loop_labels ≠ [] := by
        intro h0
        rw [h0] at h
        simp at h
      simp [Except.toBool, this]

theorem C29_break_continue_witness :
    Stmt.generate_code .BreakStmt { loop_labels := [("L0", "L1"), ("L2", "L3")] } {} =
      .ok ({ loop_labels := [("L0", "L1"), ("L2", "L3")] }, emit "  j L3" {}) ∧
    Stmt.generate_code .ContinueStmt { loop_labels := [("L0", "L1"), ("L2", "L3")] } {} =
      .ok ({ loop_labels := [("L0", "L1"), ("L2", "L3")] }, emit "  j L2" {}) :=
  (C29_break_continue { loop_labels := [("L0", "L1"), ("L2", "L3")] } {}).2.1
    [("L0", "L1")] "L2" "L3" rfl

/-! ## Labels -/

theorem created_labels_get : ∀ (calls : List LabelCall) (g : Globals),
    (∀ call ∈ calls, ∀ g, (call.between g).label_count = g.label_count) →
    ∀ (k : Nat) (call : LabelCall), calls[k]? = some call →
      (created_labels calls g)[k]? = some (call.factory ++ toString (g.label_count + k))
  | [], g, _, k, call, hk => by simp at hk
  | first :: rest, g, hkeep, 0, call, hk => by
    simp only [List.getElem?_cons_zero, Option.some.injEq] at hk
    subst hk
    simp [created_labels, LabelFactory.create, hkeep first (List.mem_cons_self _ _) g]
  | first :: rest, g, hkeep, k + 1, call, hk => by
    simp only [List.getElem?_cons_succ] at hk
    have ih := created_labels_get rest (LabelFactory.create first.factory (first.between g)).2
      (fun call hc => hkeep call (List.mem_cons_of_mem _ hc)) k call hk
    simp only [created_labels, List.getElem?_cons_succ, ih]
    simp only [LabelFactory.create, hkeep first (List.mem_cons_self _ _) g]
    congr 3
    omega

theorem created_labels_length : ∀ (calls : List LabelCall) (g : Globals),
    (created_labels calls g).length = calls.length
  | [], _ => rfl
  | first :: rest, g => by
    simp [created_labels, created_labels_length rest]

/-- C30: in a compilation that starts with the label counter at 0 and makes fewer than 2^31
calls (the counter is an `int`), whatever the compiler does to its static state between the
calls (as long as it leaves the counter alone, which only `create` changes), the call number
`k + 1` of `LabelFactory::create` returns the prefix of its factory followed by the decimal
numeral of `k`, for every factory, copies included; and when all the factories have the same
prefix, as in the compiler, where each one is `L`, no two calls return the same label. -/
theorem C30_labels_unique (calls : List LabelCall) (g : Globals)
    (hstart : g.label_count = 0) (hlen : calls.length ≤ 2147483648)
    (hkeep : ∀ call ∈ calls, ∀ g, (call.between g).label_count = g.label_count) :
    (∀ (k : Nat) (call : LabelCall), calls[k]? = some call →
      Int32 (k : Int) ∧
      (created_labels calls g)[k]? = some (call.factory ++ toString k)) ∧
    (∀ p, (∀ call ∈ calls, call.factory = p) → (created_labels calls g).Nodup) := by
  have hget : ∀ (k : Nat) (call : LabelCall), calls[k]? = some call →
      (created_labels calls g)[k]? = some (call.factory ++ toString k) := by
    intro k call hk
    have := created_labels_get calls g hkeep k call hk
    rwa [hstart, Nat.zero_add] at this
  refine ⟨fun k call hk => ⟨?_, hget k call hk⟩, ?_⟩
  · have hlt : k < calls.length := by
      by_contra hge
      rw [List.getElem?_eq_none (by omega)] at hk
      simp at hk
    unfold Int32
    omega
  intro p hp
  rw [List.nodup_iff_getElem?_ne_getElem?]
  intro i j hij hj
  rw [created_labels_length] at hj
  have hi : i < calls.length := by omega
  have e1 := hget i calls[i] (List.getElem?_eq_getElem hi)
  have e2 := hget j calls[j] (List.getElem?_eq_getElem hj)
  rw [e1, e2, hp _ (List.getElem_mem hi), hp _ (List.getElem_mem hj)]
  intro h
  simp only [Option.some.injEq] at h
  have := toString_nat_injective (string_append_left_cancel h)
  omega

theorem C30_labels_unique_witness :
    created_labels sample_calls {} = ["L0", "L1", "L2"] ∧ (created_labels sample_calls {}).Nodup :=
  ⟨by decide,
   (C30_labels_unique sample_calls {} rfl (by decide) (by
      intro call hc g
      simp only [sample_calls, List.mem_cons, List.mem_singleton, List.not_mem_nil, or_false] at hc
      rcases hc with rfl | rfl | rfl <;> rfl)).2 "L" (by
      intro call hc
      simp only [sample_calls, List.mem_cons, List.mem_singleton, List.not_mem_nil, or_false] at hc
      rcases hc with rfl | rfl | rfl <;> rfl)⟩

/-! ## Declarations -/

/-- C21: in `{ int a = 5; int b = a; a = 6; return b; }` the scan leaves `b` flagged constant
(`a` is not, because of the assignment), and `DeclStmt::generate_code` caches for `b` the value
0, stores it as the initial value of `b` (`sw zero, -16(s0)`) and substitutes it for the read of
`b` in the return statement (`mv t0, zero`); the value of the initializer `a` at that point,
with `a` holding the value of its own initializer, is 5. -/
theorem C21_cached_constant_is_stale :
    (BlockStmt.enter reassigned_block {} {}).toOption.map (fun r => r.1.is_const) =
      some [("a", false), ("b", true)] ∧
    (BlockStmt.generate_prefix 2 reassigned_block {} {}).toOption.map
        (fun r => (map_find r.1.const_val "b", r.2.os)) =
      some (some 0, ["  addi t0, zero, 5", "  sw t0, -12(s0)", "  sw zero, -16(s0)"]) ∧
    (Stmt.generate_code (.BlockStmt reassigned_block) {} {}).toOption.map (fun r => r.2.os) =
      some ["  addi t0, zero, 5", "  sw t0, -12(s0)", "  sw zero, -16(s0)", "  addi t0, zero, 6",
        "  sw t0, -12(s0)", "  mv t0, zero", "  mv a0, t0", "  j .L_return_main"] ∧
    value_in (initial_values (reassigned_block.take 1) []) (.IdExpr "a") = some 5 := by
  refine ⟨by decide, by decide, by decide, by decide⟩

/-- C23: in `{ int v = f(1); return 0; }` the variable `v` is never read and its initializer
is a call of `f`; the code generated for the block is `mv t0, zero`, `mv a0, t0`,
`j .L_return_main`, with no `call f`.  When `v` is read, as in `{ int v = f(1); return v; }`,
the call is emitted. -/
theorem C23_call_of_unused_declaration_dropped :
    "v" ∉ stmts_read dead_call_block ∧
    (Stmt.generate_code (.BlockStmt dead_call_block) {} {}).toOption.map (fun r => r.2.os) =
      some ["  mv t0, zero", "  mv a0, t0", "  j .L_return_main"] ∧
    (Stmt.generate_code (.BlockStmt live_call_block) {} {}).toOption.map (fun r => r.2.os) =
      some ["  addi t0, zero, 1", "  mv a0, t0", "  call f", "  mv t0, a0", "  sw t0, -12(s0)",
        "# v already in t0", "# mv t0, t0", "  mv a0, t0", "  j .L_return_main"] := by
  refine ⟨by decide, by decide, by decide⟩

/-! ## Redefinition -/

theorem id_error_is_lookup (id : String) (rr : Nat) (c : Context) (g : Globals) (f : Fatal)
    (h : IdExpr.generate_code id rr c g = .error f) : f.is_lookup_failure = true := by
  have hfind : ∀ (c : Context) (f : Fatal), c.find_variable_offset id = .error f →
      f.is_lookup_failure = true := by
    intro c f hf
    unfold Context.find_variable_offset at hf
    split at hf
    · simp at hf
    · split at hf
      · simp at hf
      · simp only [Except.error.injEq] at hf
        rw [← hf]
        rfl
  unfold IdExpr.generate_code at h
  split at h
  · split at h
    · simp at h
    · simp only at h
      split at h
      · split at h
        · simp only [Except.error.injEq] at h
          rw [← h]
          rfl
        · simp at h
      · split at h
        · rename_i e he
          simp only [Except.error.injEq] at h
          rw [← h]
          exact hfind _ _ he
        · simp at h
  · simp only at h
    split at h
    · split at h
      · simp only [Except.error.injEq] at h
        rw [← h]
        rfl
      · simp at h
    · split at h
      · rename_i e he
        simp only [Except.error.injEq] at h
        rw [← h]
        exact hfind _ _ he
      · simp at h

mutual
theorem generate_code_error_is_lookup : ∀ (e : Expr) (rr : Nat) (c : Context) (g : Globals)
    (f : Fatal), generate_code e rr c g = .error f → f.is_lookup_failure = true
  | .IntegerExpr v, rr, c, g, f, h => by
    simp [generate_code] at h
  | .IdExpr id, rr, c, g, f, h => by
    simp only [generate_code] at h
    exact id_error_is_lookup id rr c g f h
  | .BinaryOpExpr op lhs rhs, rr, c, g, f, h => by
    rw [generate_code] at h
    split at h
    · simp at h
    · split at h
      · rename_i e hl
        simp only [Except.error.injEq] at h
        rw [← h]
        exact generate_code_error_is_lookup lhs 0 c g e hl
      · split at h
        split at h
        · rename_i e hs
          exact absurd hs (simple_rhs_no_error _ _ _ _)
        · simp at h
        · dsimp only at h
          split at h
          · rename_i e hr
            simp only [Except.error.injEq] at h
            rw [← h]
            exact generate_code_error_is_lookup rhs 1 _ _ e hr
          · simp at h
  | .UnaryOpExpr op e, rr, c, g, f, h => by
    rw [generate_code] at h
    simp only at h
    split at h
    · simp at h
    · split at h
      · simp at h
      · split at h
        · simp at h
        · split at h
          · rename_i e1 he
            simp only [Except.error.injEq] at h
            rw [← h]
            exact generate_code_error_is_lookup e rr c g e1 he
          · simp at h
  | .AssignExpr id e, rr, c, g, f, h => by
    rw [generate_code] at h
    split at h
    · rename_i e1 he
      simp only [Except.error.injEq] at h
      rw [← h]
      exact generate_code_error_is_lookup e rr c g e1 he
    · split at h
      · rename_i e1 he
        simp only [Except.error.injEq] at h
        rw [← h]
        unfold Context.find_variable_offset at he
        split at he
        · simp at he
        · split at he
          · simp at he
          · simp only [Except.error.injEq] at he
            rw [← he]
            rfl
      · simp only at h
        split at h <;> simp at h
  | .FunctionCallExpr fn args, rr, c, g, f, h => by
    rw [generate_code] at h
    simp only at h
    split at h
    · rename_i e1 ha
      simp only [Except.error.injEq] at h
      rw [← h]
      exact generate_arguments_error_is_lookup args 0 args.length c _ e1 ha
    · simp at h

theorem generate_arguments_error_is_lookup : ∀ (args : List Expr) (i n : Nat) (c : Context)
    (g : Globals) (f : Fatal), generate_arguments args i n c g = .error f →
    f.is_lookup_failure = true
  | [], i, n, c, g, f, h => by
    simp [generate_arguments] at h
  | a :: rest, i, n, c, g, f, h => by
    rw [generate_arguments] at h
    split at h
    · rename_i e1 ha
      simp only [Except.error.injEq] at h
      rw [← h]
      exact generate_code_error_is_lookup a 0 c g e1 ha
    · exact generate_arguments_error_is_lookup rest (i + 1) n _ _ f h
end

/-- A declaration raises the redefinition error exactly when its name is bound in the current
scope map; what the enclosing scopes bind plays no part. -/
theorem decl_redefinition_iff (var_id : String) (expr : Option Expr) (c : Context)
    (g : Globals) :
    (c.is_variable_in_current_scope var_id = true →
      Stmt.generate_code (.DeclStmt var_id expr) c g = .error (.redefinition var_id)) ∧
    (c.is_variable_in_current_scope var_id = false →
      ∀ w, Stmt.generate_code (.DeclStmt var_id expr) c g ≠ .error (.redefinition w)) := by
  rw [Stmt.generate_code]
  unfold DeclStmt.generate_code
  constructor
  · intro h
    simp [h]
  · intro h w
    simp only [h, Bool.false_eq_true, ↓reduceIte]
    cases expr with
    | none => simp
    | some e =>
      simp only
      unfold DeclStmt.initialise
      split
      · simp
      · split
        · simp
        · split
          · simp
          · split
            · rename_i e1 he
              intro heq
              simp only [Except.error.injEq] at heq
              have := generate_code_error_is_lookup e 0 _ _ e1 he
              rw [heq] at this
              simp [Fatal.is_lookup_failure] at this
            · simp

/-- C27: the block `{ int x = 1; int x = 2; }` declares `x` twice in the same scope, and code
generation completes without any error (and without output): `x` is never used, so neither
declaration is entered into the scope.  With a use of `x` after them the second declaration
stops with the redefinition error, and with the second declaration in a nested block,
`{ int x = 1; { int x = 2; return x; } return x; }`, the block compiles. -/
theorem C27_unused_duplicate_not_detected :
    Stmt.generate_code (.BlockStmt unused_duplicate_block) {} {} = .ok ({}, {}) ∧
    Stmt.generate_code (.BlockStmt used_duplicate_block) {} {} = .error (.redefinition "x") ∧
    (Stmt.generate_code (.BlockStmt shadowed_block) {} {}).toBool = true :=
  ⟨rfl, rfl, by decide⟩

/-! ## The scan for used variables -/

theorem mem_add_used (c : Context) (var x : String) :
    x ∈ (c.add_used_variable var).used_variables ↔ x ∈ c.used_variables ∨ x = var := by
  simp [Context.add_used_variable, mem_set_insert]

mutual
theorem scan_unused_expr_spec : ∀ (e : Expr) (c : Context),
    (Expr.scan_unused e c).is_const = c.is_const ∧
    (∀ x ∈ c.used_variables, x ∈ (Expr.scan_unused e c).used_variables) ∧
    (∀ x ∈ ids_read e, x ∈ (Expr.scan_unused e c).used_variables)
  | .IdExpr id, c => by
    simp only [Expr.scan_unused, ids_read, List.mem_singleton]
    refine ⟨rfl, fun x hx => (mem_add_used c id x).2 (Or.inl hx), ?_⟩
    rintro x rfl
    exact (mem_add_used c x x).2 (Or.inr rfl)
  | .BinaryOpExpr _ lhs rhs, c => by
    obtain ⟨l1, l2, l3⟩ := scan_unused_expr_spec lhs c
    obtain ⟨r1, r2, r3⟩ := scan_unused_expr_spec rhs (Expr.scan_unused lhs c)
    simp only [Expr.scan_unused, ids_read, List.mem_append]
    refine ⟨r1.trans l1, fun x hx => r2 x (l2 x hx), ?_⟩
    rintro x (hx | hx)
    · exact r2 x (l3 x hx)
    · exact r3 x hx
  | .UnaryOpExpr _ e, c => by
    simpa only [Expr.scan_unused, ids_read] using scan_unused_expr_spec e c
  | .AssignExpr id e, c => by
    obtain ⟨r1, r2, r3⟩ := scan_unused_expr_spec e (c.add_used_variable id)
    simp only [Expr.scan_unused, ids_read]
    exact ⟨r1, fun x hx => r2 x ((mem_add_used c id x).2 (Or.inl hx)), r3⟩
  | .FunctionCallExpr _ args, c => by
    simpa only [Expr.scan_unused, ids_read] using scan_unused_args_spec args c
  | .IntegerExpr _, c => by
    simp [Expr.scan_unused, ids_read]

theorem scan_unused_args_spec : ∀ (l : List Expr) (c : Context),
    (Expr.scan_unused_each l c).is_const = c.is_const ∧
    (∀ x ∈ c.used_variables, x ∈ (Expr.scan_unused_each l c).used_variables) ∧
    (∀ x ∈ ids_read_list l, x ∈ (Expr.scan_unused_each l c).used_variables)
  | [], c => by
    simp [Expr.scan_unused_each, ids_read_list]
  | a :: rest, c => by
    obtain ⟨l1, l2, l3⟩ := scan_unused_expr_spec a c
    obtain ⟨r1, r2, r3⟩ := scan_unused_args_spec rest (Expr.scan_unused a c)
    simp only [Expr.scan_unused_each, ids_read_list, List.mem_append]
    refine ⟨r1.trans l1, fun x hx => r2 x (l2 x hx), ?_⟩
    rintro x (hx | hx)
    · exact r2 x (l3 x hx)
    · exact r3 x hx
end

mutual
theorem scan_unused_stmt_spec : ∀ (s : Stmt) (c c' : Context), Stmt.scan_unused s c = .ok c' →
    c'.is_const = c.is_const ∧
    (∀ x ∈ c.used_variables, x ∈ c'.used_variables) ∧
    (∀ x ∈ live_reads c.is_const s, x ∈ c'.used_variables)
  | .ExprStmt e, c, c', h => by
    simp only [Stmt.scan_unused, Except.ok.injEq] at h
    subst h
    simpa only [live_reads] using scan_unused_expr_spec e c
  | .ReturnStmt (some e), c, c', h => by
    simp only [Stmt.scan_unused, Except.ok.injEq] at h
    subst h
    simpa only [live_reads, of_optional] using scan_unused_expr_spec e c
  | .ReturnStmt none, c, c', h => by
    simp [Stmt.scan_unused] at h
  | .BlockStmt stmts, c, c', h => by
    rw [Stmt.scan_unused] at h
    simpa only [live_reads] using scan_unused_each_spec stmts c c' h
  | .IfStmt cond t (some e), c, c', h => by
    rw [Stmt.scan_unused] at h
    split at h
    · simp at h
    · rename_i c1 h1
      obtain ⟨k1, k2, k3⟩ := scan_unused_expr_spec cond c
      obtain ⟨t1, t2, t3⟩ := scan_unused_stmt_spec t _ c1 h1
      obtain ⟨e1, e2, e3⟩ := scan_unused_stmt_spec e c1 c' h
      rw [k1] at t1 t3
      rw [t1] at e1 e3
      simp only [live_reads, List.mem_append]
      refine ⟨e1, fun x hx => e2 x (t2 x (k2 x hx)), ?_⟩
      rintro x ((hx | hx) | hx)
      · exact e2 x (t2 x (k3 x hx))
      · exact e2 x (t3 x hx)
      · exact e3 x hx
  | .IfStmt cond t none, c, c', h => by
    rw [Stmt.scan_unused] at h
    obtain ⟨k1, k2, k3⟩ := scan_unused_expr_spec cond c
    obtain ⟨t1, t2, t3⟩ := scan_unused_stmt_spec t _ c' h
    rw [k1] at t1 t3
    simp only [live_reads, List.mem_append]
    refine ⟨t1, fun x hx => t2 x (k2 x hx), ?_⟩
    rintro x (hx | hx)
    · exact t2 x (k3 x hx)
    · exact t3 x hx
  | .WhileStmt cond b, c, c', h => by
    rw [Stmt.scan_unused] at h
    split at h
    · simp at h
    · rename_i c1 h1
      simp only [Except.ok.injEq] at h
      subst h
      obtain ⟨b1, b2, b3⟩ := scan_unused_stmt_spec b c c1 h1
      obtain ⟨k1, k2, k3⟩ := scan_unused_expr_spec cond c1
      simp only [live_reads, List.mem_append]
      refine ⟨k1.trans b1, fun x hx => k2 x (b2 x hx), ?_⟩
      rintro x (hx | hx)
      · exact k3 x hx
      · exact k2 x (b3 x hx)
  | .DeclStmt id (some e), c, c', h => by
    rw [Stmt.scan_unused] at h
    simp only [live_reads]
    split at h
    · rename_i hconst
      simp only [Except.ok.injEq] at h
      subst h
      simp [hconst]
    · rename_i hconst
      simp only [Except.ok.injEq] at h
      subst h
      simpa only [hconst, ↓reduceIte] using scan_unused_expr_spec e c
  | .DeclStmt id none, c, c', h => by
    simp only [Stmt.scan_unused, Except.ok.injEq] at h
    subst h
    simp [live_reads]
  | .BreakStmt, c, c', h => by
    simp only [Stmt.scan_unused, Except.ok.injEq] at h
    subst h
    simp [live_reads]
  | .ContinueStmt, c, c', h => by
    simp only [Stmt.scan_unused, Except.ok.injEq] at h
    subst h
    simp [live_reads]
  | .EmptyStmt, c, c', h => by
    simp only [Stmt.scan_unused, Except.ok.injEq] at h
    subst h
    simp [live_reads]

theorem scan_unused_each_spec : ∀ (l : List Stmt) (c c' : Context),
    Stmt.scan_unused_each l c = .ok c' →
    c'.is_const = c.is_const ∧
    (∀ x ∈ c.used_variables, x ∈ c'.used_variables) ∧
    (∀ x ∈ live_reads_each c.is_const l, x ∈ c'.used_variables)
  | [], c, c', h => by
    simp only [Stmt.scan_unused_each, Except.ok.injEq] at h
    subst h
    simp [live_reads_each]
  | s :: rest, c, c', h => by
    rw [Stmt.scan_unused_each] at h
    split at h
    · simp at h
    · rename_i c1 h1
      obtain ⟨s1, s2, s3⟩ := scan_unused_stmt_spec s c c1 h1
      obtain ⟨r1, r2, r3⟩ := scan_unused_each_spec rest c1 c' h
      rw [s1] at r1 r3
      simp only [live_reads_each, List.mem_append]
      refine ⟨r1, fun x hx => r2 x (s2 x hx), ?_⟩
      rintro x (hx | hx)
      · exact r2 x (s3 x hx)
      · exact r3 x hx
end

mutual
theorem scan_unused_completes : ∀ (s : Stmt) (c : Context), returns_carry_expr s = true →
    ∃ c', Stmt.scan_unused s c = .ok c'
  | .ExprStmt e, c, _ => ⟨_, rfl⟩
  | .ReturnStmt (some e), c, _ => ⟨_, rfl⟩
  | .ReturnStmt none, c, h => by simp [returns_carry_expr] at h
  | .BlockStmt stmts, c, h => by
    rw [Stmt.scan_unused]
    exact scan_unused_each_completes stmts c (by simpa [returns_carry_expr] using h)
  | .IfStmt cond t (some e), c, h => by
    simp only [returns_carry_expr, Bool.and_eq_true] at h
    obtain ⟨c1, h1⟩ := scan_unused_completes t (Expr.scan_unused cond c) h.1
    obtain ⟨c2, h2⟩ := scan_unused_completes e c1 h.2
    exact ⟨c2, by rw [Stmt.scan_unused, h1]; exact h2⟩
  | .IfStmt cond t none, c, h => by
    simp only [returns_carry_expr] at h
    rw [Stmt.scan_unused]
    exact scan_unused_completes t _ h
  | .WhileStmt cond b, c, h => by
    simp only [returns_carry_expr] at h
    obtain ⟨c1, h1⟩ := scan_unused_completes b c h
    exact ⟨_, by rw [Stmt.scan_unused, h1]⟩
  | .DeclStmt id (some e), c, _ => by
    rw [Stmt.scan_unused]
    split
    · exact ⟨_, rfl⟩
    · exact ⟨_, rfl⟩
  | .DeclStmt id none, c, _ => ⟨_, rfl⟩
  | .BreakStmt, c, _ => ⟨_, rfl⟩
  | .ContinueStmt, c, _ => ⟨_, rfl⟩
  | .EmptyStmt, c, _ => ⟨_, rfl⟩

theorem scan_unused_each_completes : ∀ (l : List Stmt) (c : Context),
    returns_carry_expr_each l = true → ∃ c', Stmt.scan_unused_each l c = .ok c'
  | [], c, _ => ⟨_, rfl⟩
  | s :: rest, c, h => by
    simp only [returns_carry_expr_each, Bool.and_eq_true] at h
    obtain ⟨c1, h1⟩ := scan_unused_completes s c h.1
    obtain ⟨c2, h2⟩ := scan_unused_each_completes rest c1 h.2
    exact ⟨c2, by rw [Stmt.scan_unused_each, h1]; exact h2⟩
end

mutual
theorem live_reads_all : ∀ (is_const : List (String × Bool)) (s : Stmt),
    (∀ v ∈ stmt_declares s, map_find is_const v ≠ some true) →
    live_reads is_const s = stmt_reads s
  | k, .ExprStmt e, _ => rfl
  | k, .ReturnStmt e, _ => rfl
  | k, .BlockStmt stmts, h => by
    simp only [live_reads, stmt_reads]
    exact live_reads_each_all k stmts (by simpa [stmt_declares] using h)
  | k, .IfStmt cond t (some e), h => by
    simp only [stmt_declares, List.mem_append] at h
    simp only [live_reads, stmt_reads, live_reads_all k t (fun v hv => h v (Or.inl hv)),
      live_reads_all k e (fun v hv => h v (Or.inr hv))]
  | k, .IfStmt cond t none, h => by
    simp only [stmt_declares] at h
    simp only [live_reads, stmt_reads, live_reads_all k t h]
  | k, .WhileStmt cond b, h => by
    simp only [stmt_declares] at h
    simp only [live_reads, stmt_reads, live_reads_all k b h]
  | k, .DeclStmt id (some e), h => by
    have := h id (by simp [stmt_declares])
    simp [live_reads, stmt_reads, of_optional, this]
  | k, .DeclStmt id none, _ => rfl
  | k, .BreakStmt, _ => rfl
  | k, .ContinueStmt, _ => rfl
  | k, .EmptyStmt, _ => rfl

theorem live_reads_each_all : ∀ (is_const : List (String × Bool)) (l : List Stmt),
    (∀ v ∈ stmts_declare l, map_find is_const v ≠ some true) →
    live_reads_each is_const l = stmts_read l
  | k, [], _ => rfl
  | k, s :: rest, h => by
    simp only [stmts_declare, List.mem_append] at h
    simp only [live_reads_each, stmts_read, live_reads_all k s (fun v hv => h v (Or.inl hv)),
      live_reads_each_all k rest (fun v hv => h v (Or.inr hv))]
end

/-- C24 (as stated, refuted): in `{ int a = 5; int b = a; return b; }` the identifier `a` is
read in the initializer of `b`.  After the scans of the block, run as `BlockStmt::generate_code`
runs them, `b` is flagged constant and `used_variables` holds `b` only. -/
theorem C24_counterexample :
    "a" ∈ stmts_read constant_chain_block ∧
    (BlockStmt.enter constant_chain_block {} {}).toOption.map
        (fun r => (r.1.is_const, r.1.used_variables)) =
      some ([("a", true), ("b", true)], ["b"]) ∧
    (Stmt.scan_unused (.BlockStmt constant_chain_block)
        { is_const := [("a", true), ("b", true)] }).toOption.map (fun c => c.used_variables) =
      some ["b"] := by
  refine ⟨by decide, by decide, by decide⟩

/-- C24 (amended): over a block in which every return carries an expression
`BlockStmt::scan_unused` completes, and afterwards `used_variables` holds every identifier that
occurs in a read position of the block (condition, assignment right-hand side, call argument,
return value, expression statement, declaration initializer) except in the initializer of a
declaration whose variable `is_const` flags as constant, which the scan skips.  So when no
variable declared in the block is flagged constant, every identifier read anywhere in the block
is in `used_variables`.  The scan removes nothing from the set and does not change `is_const`. -/
theorem C24_scan_unused_marks_reads (stmts : List Stmt) (c : Context)
    (hret : returns_carry_expr (.BlockStmt stmts) = true) :
    ∃ c', Stmt.scan_unused (.BlockStmt stmts) c = .ok c' ∧
      (∀ x ∈ live_reads c.is_const (.BlockStmt stmts), x ∈ c'.used_variables) ∧
      ((∀ v ∈ stmt_declares (.BlockStmt stmts), map_find c.is_const v ≠ some true) →
        ∀ x ∈ stmt_reads (.BlockStmt stmts), x ∈ c'.used_variables) ∧
      (∀ x ∈ c.used_variables, x ∈ c'.used_variables) ∧
      c'.is_const = c.is_const := by
  obtain ⟨c', h⟩ := scan_unused_completes (.BlockStmt stmts) c hret
  obtain ⟨h1, h2, h3⟩ := scan_unused_stmt_spec _ c c' h
  refine ⟨c', h, h3, ?_, h2, h1⟩
  intro hno x hx
  rw [← live_reads_all c.is_const _ hno] at hx
  exact h3 x hx

theorem C24_scan_unused_marks_reads_witness :
    ∃ c', Stmt.scan_unused (.BlockStmt reassigned_block)
        { is_const := [("a", false), ("b", true)] } = .ok c' ∧
      "b" ∈ c'.used_variables := by
  obtain ⟨c', h, hlive, -⟩ := C24_scan_unused_marks_reads reassigned_block
    { is_const := [("a", false), ("b", true)] } (by decide)
  exact ⟨c', h, hlive "b" (by decide)⟩

/-! ## Output only grows during the code generation of statements -/

mutual
theorem scan_const_stmt_grows : ∀ (s : Stmt) (c : Context) (g : Globals) (c' : Context)
    (g' : Globals), Stmt.scan_const_variables s c g = .ok (c', g') → grows_to g g'
  | .ExprStmt e, c, g, c', g', h => by
    simp only [Stmt.scan_const_variables, Except.ok.injEq, Prod.mk.injEq] at h
    rw [← h.2]
    exact grows_refl g
  | .ReturnStmt (some e), c, g, c', g', h => by
    simp only [Stmt.scan_const_variables, Except.ok.injEq, Prod.mk.injEq] at h
    rw [← h.2]
    exact grows_refl g
  | .ReturnStmt none, c, g, c', g', h => by
    simp [Stmt.scan_const_variables] at h
  | .BlockStmt stmts, c, g, c', g', h => by
    rw [Stmt.scan_const_variables] at h
    exact scan_const_each_grows stmts c g c' g' h
  | .IfStmt cond t (some e), c, g, c', g', h => by
    rw [Stmt.scan_const_variables] at h
    split at h
    · simp at h
    · rename_i c1 g1 h1
      exact grows_trans (scan_const_stmt_grows t _ g c1 g1 h1) (scan_const_stmt_grows e c1 g1 c' g' h)
  | .IfStmt cond t none, c, g, c', g', h => by
    rw [Stmt.scan_const_variables] at h
    exact scan_const_stmt_grows t _ g c' g' h
  | .WhileStmt cond b, c, g, c', g', h => by
    rw [Stmt.scan_const_variables] at h
    split at h
    · simp at h
    · rename_i c1 g1 h1
      simp only [Except.ok.injEq, Prod.mk.injEq] at h
      rw [← h.2]
      exact scan_const_stmt_grows b c g c1 g1 h1
  | .DeclStmt id e, c, g, c', g', h => by
    unfold Stmt.scan_const_variables at h
    split at h
    · simp only [Except.ok.injEq, Prod.mk.injEq] at h
      rw [← h.2]
      exact grows_emit _ (grows_refl g)
    · split at h <;>
      · simp only [Except.ok.injEq, Prod.mk.injEq] at h
        rw [← h.2]
        exact grows_refl g
  | .BreakStmt, c, g, c', g', h => by
    simp only [Stmt.scan_const_variables, Except.ok.injEq, Prod.mk.injEq] at h
    rw [← h.2]
    exact grows_refl g
  | .ContinueStmt, c, g, c', g', h => by
    simp only [Stmt.scan_const_variables, Except.ok.injEq, Prod.mk.injEq] at h
    rw [← h.2]
    exact grows_refl g
  | .EmptyStmt, c, g, c', g', h => by
    simp only [Stmt.scan_const_variables, Except.ok.injEq, Prod.mk.injEq] at h
    rw [← h.2]
    exact grows_refl g

theorem scan_const_each_grows : ∀ (l : List Stmt) (c : Context) (g : Globals) (c' : Context)
    (g' : Globals), Stmt.scan_const_variables_each l c g = .ok (c', g') → grows_to g g'
  | [], c, g, c', g', h => by
    simp only [Stmt.scan_const_variables_each, Except.ok.injEq, Prod.mk.injEq] at h
    rw [← h.2]
    exact grows_refl g
  | s :: rest, c, g, c', g', h => by
    rw [Stmt.scan_const_variables_each] at h
    split at h
    · simp at h
    · rename_i c1 g1 h1
      exact grows_trans (scan_const_stmt_grows s c g c1 g1 h1)
        (scan_const_each_grows rest c1 g1 c' g' h)
end

theorem store_constant_grows (unused : Bool) (offset const_val : Int) (id : String) (c : Context)
    (g : Globals) : grows_to g (DeclStmt.store_constant unused offset const_val id c g) := by
  unfold DeclStmt.store_constant
  split
  · exact grows_refl g
  · split
    · exact grows_emit _ (grows_refl g)
    · exact grows_used _ _ _ (grows_free _ (grows_emit _ (grows_emit _ (grows_refl g))))

theorem initialise_grows (unused : Bool) (offset : Int) (id : String) (e : Expr)
    (c c' : Context) (g g' : Globals)
    (h : DeclStmt.initialise unused offset id e c g = .ok (c', g')) : grows_to g g' := by
  unfold DeclStmt.initialise at h
  split at h
  · simp only [Except.ok.injEq, Prod.mk.injEq] at h
    rw [← h.2]
    exact store_constant_grows _ _ _ _ _ _
  · split at h
    · simp only [Except.ok.injEq, Prod.mk.injEq] at h
      rw [← h.2]
      exact store_constant_grows _ _ _ _ _ _
    · split at h
      · simp only [Except.ok.injEq, Prod.mk.injEq] at h
        rw [← h.2]
        exact grows_refl g
      · split at h
        · simp at h
        · rename_i c1 g1 h1
          simp only [Except.ok.injEq, Prod.mk.injEq] at h
          obtain ⟨-, rfl⟩ := h
          exact grows_used _ _ _ (grows_free _ (grows_emit _
            (generate_code_grows e 0 c g g c1 g1 (grows_refl g) h1)))

theorem decl_grows (id : String) (e : Option Expr) (c c' : Context) (g g' : Globals)
    (h : DeclStmt.generate_code id e c g = .ok (c', g')) : grows_to g g' := by
  unfold DeclStmt.generate_code at h
  split at h
  · simp at h
  · dsimp only at h
    split at h
    · simp only [Except.ok.injEq, Prod.mk.injEq] at h
      rw [← h.2]
      exact grows_refl g
    · exact initialise_grows _ _ _ _ _ _ _ _ h

theorem grows_clear_cache {g g1 : Globals} (h : grows_to g g1) :
    grows_to g (Context.clear_cache g1) :=
  grows_of_eq h rfl rfl

theorem grows_push_scope {g g1 : Globals} (c : Context) (h : grows_to g g1) :
    grows_to g (c.push_scope g1).2 :=
  grows_of_eq h rfl rfl

theorem grows_pop_scope {g g1 : Globals} (c : Context) (h : grows_to g g1) :
    grows_to g (c.pop_scope g1).2 := by
  refine grows_of_eq h ?_ ?_
  · unfold Context.pop_scope
    dsimp only
    split <;> rfl
  · unfold Context.pop_scope
    dsimp only
    split <;> rfl

theorem block_grows (stmts : List Stmt) (c c' : Context) (g g' : Globals)
    (heach : ∀ (c1 : Context) (g1 : Globals) (c2 : Context) (g2 : Globals),
      Stmt.generate_code_each stmts c1 g1 = .ok (c2, g2) → grows_to g1 g2)
    (h : Stmt.generate_code (.BlockStmt stmts) c g = .ok (c', g')) : grows_to g g' := by
  rw [Stmt.generate_code] at h
  dsimp only at h
  split at h
  · simp at h
  · rename_i c1 g1 h1
    split at h
    · simp at h
    · rename_i c2 h2
      split at h
      · simp at h
      · rename_i c3 g3 h3
        have hd : grows_to g g3 :=
          grows_trans (grows_push_scope c (grows_refl g))
            (grows_trans (scan_const_stmt_grows _ _ _ c1 g1 h1) (heach c2 g1 c3 g3 h3))
        simp only [Except.ok.injEq, Prod.mk.injEq] at h
        obtain ⟨-, rfl⟩ := h
        exact grows_pop_scope c3 hd

mutual
theorem generate_code_stmt_grows : ∀ (s : Stmt) (c : Context) (g : Globals) (c' : Context)
    (g' : Globals), Stmt.generate_code s c g = .ok (c', g') → grows_to g g'
  | .ExprStmt e, c, g, c', g', h => by
    rw [Stmt.generate_code] at h
    exact generate_code_grows e 0 c g g c' g' (grows_refl g) h
  | .ReturnStmt (some e), c, g, c', g', h => by
    rw [Stmt.generate_code] at h
    split at h
    · simp at h
    · rename_i c1 g1 h1
      simp only [Except.ok.injEq, Prod.mk.injEq] at h
      obtain ⟨-, rfl⟩ := h
      exact grows_emit _ (grows_emit _ (generate_code_grows e 0 c g g c1 g1 (grows_refl g) h1))
  | .ReturnStmt none, c, g, c', g', h => by
    simp only [Stmt.generate_code, Except.ok.injEq, Prod.mk.injEq] at h
    rw [← h.2]
    exact grows_emit _ (grows_emit _ (grows_refl g))
  | .BlockStmt stmts, c, g, c', g', h =>
    block_grows stmts c c' g g'
      (fun c1 g1 c2 g2 h1 => generate_code_each_grows stmts c1 g1 c2 g2 h1) h
  | .IfStmt cond t (some e), c, g, c', g', h => by
    rw [Stmt.generate_code] at h
    split at h
    · split at h
      · exact generate_code_stmt_grows t c g c' g' h
      · exact generate_code_stmt_grows e c g c' g' h
    · dsimp only at h
      split at h
      · simp at h
      · rename_i c1 g1 h1
        have d1 := generate_code_grows cond 0 c g _ c1 g1
          (grows_create _ (grows_create _ (grows_refl g))) h1
        split at h
        · simp at h
        · rename_i c2 g2 h2
          have d2 := grows_trans (grows_emit _ d1) (generate_code_stmt_grows t _ _ c2 g2 h2)
          split at h
          · simp at h
          · rename_i c3 g3 h3
            simp only [Except.ok.injEq, Prod.mk.injEq] at h
            obtain ⟨-, rfl⟩ := h
            exact grows_emit _ (grows_trans (grows_emit _ (grows_emit _ d2))
              (generate_code_stmt_grows e _ _ c3 g3 h3))
  | .IfStmt cond t none, c, g, c', g', h => by
    rw [Stmt.generate_code] at h
    split at h
    · split at h
      · exact generate_code_stmt_grows t c g c' g' h
      · simp only [Except.ok.injEq, Prod.mk.injEq] at h
        rw [← h.2]
        exact grows_refl g
    · dsimp only at h
      split at h
      · simp at h
      · rename_i c1 g1 h1
        have d1 := generate_code_grows cond 0 c g _ c1 g1
          (grows_create _ (grows_create _ (grows_refl g))) h1
        split at h
        · simp at h
        · rename_i c2 g2 h2
          simp only [Except.ok.injEq, Prod.mk.injEq] at h
          obtain ⟨-, rfl⟩ := h
          exact grows_emit _ (grows_trans (grows_emit _ d1)
            (generate_code_stmt_grows t _ _ c2 g2 h2))
  | .WhileStmt cond b, c, g, c', g', h => by
    rw [Stmt.generate_code] at h
    split at h
    · simp only [Except.ok.injEq, Prod.mk.injEq] at h
      rw [← h.2]
      exact grows_emit _ (grows_refl g)
    · dsimp only at h
      split at h
      · simp at h
      · rename_i c1 g1 h1
        have d1 := generate_code_grows cond 0 _ g _ c1 g1
          (grows_emit _ (grows_create _ (grows_create _ (grows_refl g)))) h1
        split at h
        · simp at h
        · rename_i c2 g2 h2
          have d2 := grows_trans (grows_emit _ d1) (generate_code_stmt_grows b _ _ c2 g2 h2)
          simp only [Except.ok.injEq, Prod.mk.injEq] at h
          obtain ⟨-, rfl⟩ := h
          exact grows_clear_cache (grows_emit _ (grows_emit _ d2))
  | .BreakStmt, c, g, c', g', h => by
    rw [Stmt.generate_code] at h
    split at h
    · simp at h
    · simp only [Except.ok.injEq, Prod.mk.injEq] at h
      rw [← h.2]
      exact grows_emit _ (grows_refl g)
  | .ContinueStmt, c, g, c', g', h => by
    rw [Stmt.generate_code] at h
    split at h
    · simp at h
    · simp only [Except.ok.injEq, Prod.mk.injEq] at h
      rw [← h.2]
      exact grows_emit _ (grows_refl g)
  | .DeclStmt id e, c, g, c', g', h => by
    rw [Stmt.generate_code] at h
    exact decl_grows id e c c' g g' h
  | .EmptyStmt, c, g, c', g', h => by
    simp only [Stmt.generate_code, Except.ok.injEq, Prod.mk.injEq] at h
    rw [← h.2]
    exact grows_refl g

theorem generate_code_each_grows : ∀ (l : List Stmt) (c : Context) (g : Globals) (c' : Context)
    (g' : Globals), Stmt.generate_code_each l c g = .ok (c', g') → grows_to g g'
  | [], c, g, c', g', h => by
    simp only [Stmt.generate_code_each, Except.ok.injEq, Prod.mk.injEq] at h
    rw [← h.2]
    exact grows_refl g
  | s :: rest, c, g, c', g', h => by
    rw [Stmt.generate_code_each] at h
    split at h
    · simp at h
    · rename_i c1 g1 h1
      exact grows_trans (generate_code_stmt_grows s c g c1 g1 h1)
        (generate_code_each_grows rest c1 g1 c' g' h)
end


/-! ## The frame of a function -/

theorem land_clear_low_bits (x : Nat) (hx : x < 18446744073709551616) :
    x &&& 18446744073709551600 = x / 16 * 16 := by
  have hm : (18446744073709551600 : Nat) = (2 ^ 60 - 1) <<< 4 := by decide
  have hr : x / 16 * 16 = (x >>> 4) <<< 4 := by
    rw [Nat.shiftLeft_eq, Nat.shiftRight_eq_div_pow]
  rw [hm, hr]
  apply Nat.eq_of_testBit_eq
  intro i
  rw [Nat.testBit_and, Nat.testBit_shiftLeft, Nat.testBit_shiftLeft, Nat.testBit_shiftRight,
    Nat.testBit_two_pow_sub_one]
  by_cases h4 : i ≥ 4
  · have e : 4 + (i - 4) = i := by omega
    rw [e]
    by_cases h64 : i < 64
    · have : i - 4 < 60 := by omega
      simp [h4, this]
    · have hlt : x < 2 ^ i :=
        lt_of_lt_of_le hx (by
          have : (18446744073709551616 : Nat) = 2 ^ 64 := by decide
          rw [this]
          exact Nat.pow_le_pow_right (by decide) (by omega))
      simp [Nat.testBit_lt_two_pow hlt]
  · simp [h4]

theorem frame_size_eq (n : Nat) (hn : n * 4 + 31 < 18446744073709551616) :
    FunctionDecl.frame_size n = (n * 4 + 31) / 16 * 16 := by
  unfold FunctionDecl.frame_size
  simp only
  rw [Nat.mod_eq_of_lt hn, land_clear_low_bits _ hn]
  split
  · rename_i h0
    subst h0
    rfl
  · rfl

/-! ## Functions -/

theorem nodup_set_insert (vars : List String) (id : String) (h : vars.Nodup) :
    (set_insert vars id).Nodup := by
  unfold set_insert
  split
  · exact h
  · rename_i hnot
    rw [List.nodup_append]
    refine ⟨h, List.nodup_singleton id, ?_⟩
    intro a ha hb
    simp only [List.mem_singleton] at hb
    subst hb
    exact hnot (by simpa using ha)

mutual
theorem collect_expr_spec : ∀ (e : Expr) (vars : List String),
    (vars.Nodup → (Expr.collect_variables e vars).Nodup) ∧
    (∀ x, x ∈ Expr.collect_variables e vars ↔ x ∈ vars ∨ x ∈ ids_read e ∨ x ∈ ids_assigned e)
  | .IdExpr id, vars => by
    simp only [Expr.collect_variables, ids_read, ids_assigned]
    exact ⟨nodup_set_insert vars id, fun x => by simp [mem_set_insert]⟩
  | .BinaryOpExpr _ lhs rhs, vars => by
    obtain ⟨l1, l2⟩ := collect_expr_spec lhs vars
    obtain ⟨r1, r2⟩ := collect_expr_spec rhs (Expr.collect_variables lhs vars)
    simp only [Expr.collect_variables, ids_read, ids_assigned, List.mem_append]
    refine ⟨fun h => r1 (l1 h), fun x => ?_⟩
    rw [r2, l2]
    tauto
  | .UnaryOpExpr _ e, vars => by
    simpa only [Expr.collect_variables, ids_read, ids_assigned] using collect_expr_spec e vars
  | .AssignExpr id e, vars => by
    obtain ⟨r1, r2⟩ := collect_expr_spec e (set_insert vars id)
    simp only [Expr.collect_variables, ids_read, ids_assigned, List.mem_cons]
    refine ⟨fun h => r1 (nodup_set_insert vars id h), fun x => ?_⟩
    rw [r2, mem_set_insert]
    tauto
  | .FunctionCallExpr _ args, vars => by
    simpa only [Expr.collect_variables, ids_read, ids_assigned] using collect_args_spec args vars
  | .IntegerExpr _, vars => by
    simp [Expr.collect_variables, ids_read, ids_assigned]

theorem collect_args_spec : ∀ (l : List Expr) (vars : List String),
    (vars.Nodup → (Expr.collect_variables_each l vars).Nodup) ∧
    (∀ x, x ∈ Expr.collect_variables_each l vars ↔
      x ∈ vars ∨ x ∈ ids_read_list l ∨ x ∈ ids_assigned_list l)
  | [], vars => by
    simp [Expr.collect_variables_each, ids_read_list, ids_assigned_list]
  | a :: rest, vars => by
    obtain ⟨l1, l2⟩ := collect_expr_spec a vars
    obtain ⟨r1, r2⟩ := collect_args_spec rest (Expr.collect_variables a vars)
    simp only [Expr.collect_variables_each, ids_read_list, ids_assigned_list, List.mem_append]
    refine ⟨fun h => r1 (l1 h), fun x => ?_⟩
    rw [r2, l2]
    tauto
end

mutual
theorem collect_stmt_spec : ∀ (s : Stmt) (vars : List String),
    (vars.Nodup → (Stmt.collect_variables s vars).Nodup) ∧
    (∀ x, x ∈ Stmt.collect_variables s vars ↔
      x ∈ vars ∨ x ∈ stmt_reads s ∨ x ∈ stmt_assigns s ∨ x ∈ stmt_declares s)
  | .ExprStmt e, vars => by
    obtain ⟨e1, e2⟩ := collect_expr_spec e vars
    simp only [Stmt.collect_variables, stmt_reads, stmt_assigns, stmt_declares]
    exact ⟨e1, fun x => by rw [e2]; simp⟩
  | .ReturnStmt (some e), vars => by
    obtain ⟨e1, e2⟩ := collect_expr_spec e vars
    simp only [Stmt.collect_variables, stmt_reads, stmt_assigns, stmt_declares, of_optional]
    exact ⟨e1, fun x => by rw [e2]; simp⟩
  | .ReturnStmt none, vars => by
    simp [Stmt.collect_variables, stmt_reads, stmt_assigns, stmt_declares, of_optional]
  | .BlockStmt stmts, vars => by
    simpa only [Stmt.collect_variables, stmt_reads, stmt_assigns, stmt_declares] using
      collect_each_spec stmts vars
  | .IfStmt cond t (some e), vars => by
    obtain ⟨k1, k2⟩ := collect_expr_spec cond vars
    obtain ⟨t1, t2⟩ := collect_stmt_spec t (Expr.collect_variables cond vars)
    obtain ⟨e1, e2⟩ := collect_stmt_spec e
      (Stmt.collect_variables t (Expr.collect_variables cond vars))
    simp only [Stmt.collect_variables, stmt_reads, stmt_assigns, stmt_declares, List.mem_append]
    refine ⟨fun h => e1 (t1 (k1 h)), fun x => ?_⟩
    rw [e2, t2, k2]
    tauto
  | .IfStmt cond t none, vars => by
    obtain ⟨k1, k2⟩ := collect_expr_spec cond vars
    obtain ⟨t1, t2⟩ := collect_stmt_spec t (Expr.collect_variables cond vars)
    simp only [Stmt.collect_variables, stmt_reads, stmt_assigns, stmt_declares, List.mem_append]
    refine ⟨fun h => t1 (k1 h), fun x => ?_⟩
    rw [t2, k2]
    tauto
  | .WhileStmt cond b, vars => by
    obtain ⟨k1, k2⟩ := collect_expr_spec cond vars
    obtain ⟨b1, b2⟩ := collect_stmt_spec b (Expr.collect_variables cond vars)
    simp only [Stmt.collect_variables, stmt_reads, stmt_assigns, stmt_declares, List.mem_append]
    refine ⟨fun h => b1 (k1 h), fun x => ?_⟩
    rw [b2, k2]
    tauto
  | .DeclStmt id (some e), vars => by
    obtain ⟨e1, e2⟩ := collect_expr_spec e (set_insert vars id)
    simp only [Stmt.collect_variables, stmt_reads, stmt_assigns, stmt_declares, of_optional,
      List.mem_singleton]
    refine ⟨fun h => e1 (nodup_set_insert vars id h), fun x => ?_⟩
    rw [e2, mem_set_insert]
    tauto
  | .DeclStmt id none, vars => by
    simp only [Stmt.collect_variables, stmt_reads, stmt_assigns, stmt_declares, of_optional,
      List.mem_singleton]
    exact ⟨nodup_set_insert vars id, fun x => by simp [mem_set_insert]⟩
  | .BreakStmt, vars => by
    simp [Stmt.collect_variables, stmt_reads, stmt_assigns, stmt_declares]
  | .ContinueStmt, vars => by
    simp [Stmt.collect_variables, stmt_reads, stmt_assigns, stmt_declares]
  | .EmptyStmt, vars => by
    simp [Stmt.collect_variables, stmt_reads, stmt_assigns, stmt_declares]

theorem collect_each_spec : ∀ (l : List Stmt) (vars : List String),
    (vars.Nodup → (Stmt.collect_variables_each l vars).Nodup) ∧
    (∀ x, x ∈ Stmt.collect_variables_each l vars ↔
      x ∈ vars ∨ x ∈ stmts_read l ∨ x ∈ stmts_assign l ∨ x ∈ stmts_declare l)
  | [], vars => by
    simp [Stmt.collect_variables_each, stmts_read, stmts_assign, stmts_declare]
  | s :: rest, vars => by
    obtain ⟨s1, s2⟩ := collect_stmt_spec s vars
    obtain ⟨r1, r2⟩ := collect_each_spec rest (Stmt.collect_variables s vars)
    simp only [Stmt.collect_variables_each, stmts_read, stmts_assign, stmts_declare,
      List.mem_append]
    refine ⟨fun h => r1 (s1 h), fun x => ?_⟩
    rw [r2, s2]
    tauto
end

theorem register_parameters_spec : ∀ (params : List Parameter) (vars : List String)
    (c : Context),
    (vars.Nodup → (FunctionDecl.register_parameters params vars c).1.Nodup) ∧
    (∀ x, x ∈ (FunctionDecl.register_parameters params vars c).1 ↔
      x ∈ vars ∨ x ∈ params.map (fun p => p.name))
  | [], vars, c => by
    simp [FunctionDecl.register_parameters]
  | p :: rest, vars, c => by
    rw [FunctionDecl.register_parameters]
    obtain ⟨r1, r2⟩ := register_parameters_spec rest (set_insert vars p.name)
      { c.add_variable_to_current_scope p.name c.stack_offset 0 with
        stack_offset := (c.add_variable_to_current_scope p.name c.stack_offset 0).stack_offset - 4 }
    refine ⟨fun h => r1 (nodup_set_insert vars p.name h), fun x => ?_⟩
    rw [r2, mem_set_insert]
    simp only [List.map_cons, List.mem_cons]
    tauto

/-- The names a function body mentions: the identifiers it reads, assigns or declares. -/
theorem collected_spec (func : FunctionDecl) (context : Context) :
    (FunctionDecl.collected func context).Nodup ∧
    (∀ x, x ∈ FunctionDecl.collected func context ↔
      x ∈ func.parameters.map (fun p => p.name) ∨
      ∃ body, func.body = some body ∧
        (x ∈ stmt_reads body ∨ x ∈ stmt_assigns body ∨ x ∈ stmt_declares body)) := by
  unfold FunctionDecl.collected
  cases hb : func.body with
  | none =>
    obtain ⟨r1, r2⟩ := register_parameters_spec func.parameters []
      { context with stack_offset := -12 }
    exact ⟨r1 List.nodup_nil, fun x => by rw [r2]; simp⟩
  | some body =>
    obtain ⟨b1, b2⟩ := collect_stmt_spec body []
    obtain ⟨r1, r2⟩ := register_parameters_spec func.parameters (Stmt.collect_variables body [])
      { context with stack_offset := -12 }
    refine ⟨r1 (b1 List.nodup_nil), fun x => ?_⟩
    rw [r2, b2]
    simp only [List.not_mem_nil, false_or, Option.some.injEq, exists_eq_left']
    tauto

theorem save_parameters_grows (frame_size n : Nat) : ∀ (params : List Parameter) (i : Nat)
    (off : Int) (fc : Context) (g0 g : Globals), grows_to g0 g →
    grows_to g0 (FunctionDecl.save_parameters frame_size n params i off fc g).2
  | [], i, off, fc, g0, g, h => h
  | p :: rest, i, off, fc, g0, g, h => by
    rw [FunctionDecl.save_parameters]
    apply save_parameters_grows frame_size n rest
    dsimp only
    split
    · split
      · exact grows_used _ _ _ (grows_emit _ (grows_emit _ h))
      · exact grows_emit _ h
    · exact grows_emit _ (grows_emit _ h)

theorem grows_os_prefix {g g' : Globals} (h : grows_to g g') : ∃ rest, g'.os = g.os ++ rest := h.1

/-- When the code generation of a function completes, its output continues the output before
it with the prologue computed from the number of collected names. -/
theorem function_output_starts_with_prologue (func : FunctionDecl) (context c' : Context)
    (g g' : Globals) (h : func.generate_code context g = .ok (c', g')) :
    ∃ rest, g'.os =
      (FunctionDecl.prologue func
        (FunctionDecl.frame_size (FunctionDecl.collected func context).length) g).os ++ rest := by
  unfold FunctionDecl.generate_code at h
  dsimp only at h
  split at h
  · simp at h
  · rename_i c1 g1 hgen
    simp only [Except.ok.injEq, Prod.mk.injEq] at h
    obtain ⟨-, rfl⟩ := h
    have hsave := save_parameters_grows
      (FunctionDecl.frame_size (FunctionDecl.collected func context).length)
      func.parameters.length func.parameters 0 (-12)
      { (FunctionDecl.register_parameters func.parameters
            (match func.body with
              | some body => Stmt.collect_variables body []
              | none => []) { context with stack_offset := -12 }).2 with
        current_function := func.name, optimize_variable_cache := true }
      _ _ (grows_refl (FunctionDecl.prologue func
        (FunctionDecl.frame_size (FunctionDecl.collected func context).length) g))
    have hbody : grows_to (FunctionDecl.prologue func
        (FunctionDecl.frame_size (FunctionDecl.collected func context).length) g) g1 := by
      cases hb : func.body with
      | none =>
        rw [hb] at hgen
        simp only [Except.ok.injEq] at hgen
        have h2 : g1 = _ := (congrArg Prod.snd hgen).symm
        rw [h2]
        simpa only [FunctionDecl.collected, hb] using hsave
      | some body =>
        rw [hb] at hgen
        simp only at hgen
        refine grows_trans ?_ (generate_code_stmt_grows body _ _ c1 g1 hgen)
        simpa only [FunctionDecl.collected, hb] using hsave
    have hepi : grows_to g1 (FunctionDecl.epilogue func
        (FunctionDecl.frame_size (FunctionDecl.collected func context).length) g1) :=
      grows_emit _ (grows_emit _ (grows_emit _ (grows_emit _ (grows_emit _ (grows_emit _
        (grows_emit _ (grows_refl g1)))))))
    exact grows_os_prefix (grows_trans hbody hepi)

/-- C25: the frame size `FunctionDecl::generate_code` computes for a function is
`frame_size(n)`, with `n` the number of distinct names among its parameters and the identifiers
its body reads, assigns or declares, and the prologue it emits uses that value.  For every `n`
whose `4 * n + 31` fits `size_t` the value is 16 when `n = 0`, it is a multiple of 16, it lies
between `4 * n + 16` and `4 * n + 31`, and it is the least multiple of 16 that is at least
`4 * n + 16`. -/
theorem C25_frame_size (func : FunctionDecl) (context : Context) (g : Globals)
    (hfit : (FunctionDecl.collected func context).length * 4 + 31 < 18446744073709551616) :
    (FunctionDecl.collected func context).Nodup ∧
    (∀ x, x ∈ FunctionDecl.collected func context ↔
      x ∈ func.parameters.map (fun p => p.name) ∨
      ∃ body, func.body = some body ∧
        (x ∈ stmt_reads body ∨ x ∈ stmt_assigns body ∨ x ∈ stmt_declares body)) ∧
    (∀ c' g', func.generate_code context g = .ok (c', g') →
      ∃ rest, g'.os =
        (FunctionDecl.prologue func
          (FunctionDecl.frame_size (FunctionDecl.collected func context).length) g).os ++ rest) ∧
    ((FunctionDecl.collected func context).length = 0 →
      FunctionDecl.frame_size (FunctionDecl.collected func context).length = 16) ∧
    16 ∣ FunctionDecl.frame_size (FunctionDecl.collected func context).length ∧
    4 * (FunctionDecl.collected func context).length + 16 ≤
      FunctionDecl.frame_size (FunctionDecl.collected func context).length ∧
    FunctionDecl.frame_size (FunctionDecl.collected func context).length <
      4 * (FunctionDecl.collected func context).length + 32 ∧
    (∀ m, 16 ∣ m → 4 * (FunctionDecl.collected func context).length + 16 ≤ m →
      FunctionDecl.frame_size (FunctionDecl.collected func context).length ≤ m) := by
  obtain ⟨hnodup, hmem⟩ := collected_spec func context
  refine ⟨hnodup, hmem, fun c' g' h => function_output_starts_with_prologue func context c' g g' h,
    ?_⟩
  generalize (FunctionDecl.collected func context).length = n at hfit
  rw [frame_size_eq n hfit]
  refine ⟨fun h0 => by subst h0; rfl, Dvd.intro_left _ rfl, by omega, by omega, ?_⟩
  rintro m ⟨k, rfl⟩ hle
  omega

theorem C25_frame_size_witness :
    FunctionDecl.collected three_names_function {} = ["c", "a", "b"] ∧
    FunctionDecl.frame_size 3 = 32 ∧
    16 ∣ FunctionDecl.frame_size (FunctionDecl.collected three_names_function {}).length ∧
    (FunctionDecl.prologue three_names_function 32 {}).os =
      [".globl first", "first:", "  # Function: int first(int a, int b)",
        "  # Prologue - frame size: 32 bytes", "  addi sp, sp, -32", "  sw ra, 28(sp)",
        "  sw s0, 24(sp)", "  addi s0, sp, 32", ""] :=
  ⟨by decide, by decide,
   (C25_frame_size three_names_function {} {} (by decide)).2.2.2.2.1, by decide⟩

/-! ## Arguments passed on the stack -/

theorem stack_parameter_offset_eq (frame_size n i : Nat) (h8 : 8 ≤ i) (hi : i < n)
    (hfit : frame_size + n * 4 < 18446744073709551616) :
    FunctionDecl.stack_parameter_offset frame_size n i =
      frame_size + ((n - 8) * 4 - ((i - 8) * 4 + 4)) := by
  unfold FunctionDecl.stack_parameter_offset
  have h1 : ((i - 8) * 4 + 4) % 18446744073709551616 = (i - 8) * 4 + 4 :=
    Nat.mod_eq_of_lt (by omega)
  rw [h1]
  have h2 : 18446744073709551616 - ((i - 8) * 4 + 4) + frame_size + (n - 8) * 4 =
      18446744073709551616 + (frame_size + ((n - 8) * 4 - ((i - 8) * 4 + 4))) := by omega
  rw [h2, Nat.add_mod_left]
  exact Nat.mod_eq_of_lt (by omega)

/-- C26: take a call with `n` arguments and a callee with `n` parameters, an index `i` with
`8 <= i < n`, and any frame size of the callee (with `frame_size + 4 * n` inside `size_t`).  At
index `i` the argument loop of the call emits `sw t0, K(sp)` with
`K = (n - 8) * 4 - ((i - 8) * 4 + 4)`, a slot inside the `(n - 8) * 4` bytes the call reserved,
and at index `i` the prologue of the callee emits `lw t0, K'(sp)` with `K' = K + frame_size`;
so for every value `sp` of the caller's stack pointer after the reservation, the address
`sp + K` written is the address `(sp - frame_size) + K'` read. -/
theorem C26_stack_arguments_meet (n i frame_size : Nat) (h8 : 8 ≤ i) (hi : i < n)
    (hfit : frame_size + n * 4 < 18446744073709551616) :
    (∀ (a : Expr) (rest : List Expr) (c c1 : Context) (g g1 : Globals),
      generate_code a 0 c g = .ok (c1, g1) →
      generate_arguments (a :: rest) i n c g =
        generate_arguments rest (i + 1) n c1
          (emit ("  sw t0, " ++ toString ((n - 8) * 4 - ((i - 8) * 4 + 4)) ++ "(sp)") g1)) ∧
    (∀ (param : Parameter) (rest : List Parameter) (off : Int) (fc : Context) (g : Globals),
      FunctionDecl.save_parameters frame_size n (param :: rest) i off fc g =
        FunctionDecl.save_parameters frame_size n rest (i + 1) (off - 4)
          { fc with «variables» := map_set fc.variables param.name off }
          (emit ("  sw t0, " ++ toString off ++ "(s0)")
            (emit ("  lw t0, " ++
              toString (frame_size + ((n - 8) * 4 - ((i - 8) * 4 + 4))) ++ "(sp)") g))) ∧
    (n - 8) * 4 - ((i - 8) * 4 + 4) + 4 ≤ (n - 8) * 4 ∧
    (∀ sp : Int,
      sp + (((n - 8) * 4 - ((i - 8) * 4 + 4) : Nat) : Int) =
        (sp - (frame_size : Int)) +
          ((FunctionDecl.stack_parameter_offset frame_size n i : Nat) : Int)) := by
  have hoff := stack_parameter_offset_eq frame_size n i h8 hi hfit
  refine ⟨?_, ?_, by omega, ?_⟩
  · intro a rest c c1 g g1 h
    rw [generate_arguments, h]
    simp only
    rw [if_neg (by omega)]
  · intro param rest off fc g
    rw [FunctionDecl.save_parameters]
    simp only
    rw [if_neg (by omega), hoff]
  · intro sp
    rw [hoff]
    push_cast
    omega

theorem C26_stack_arguments_meet_witness :
    (∀ sp : Int, sp + ((28 : Nat) : Int) =
      (sp - ((64 : Nat) : Int)) + ((FunctionDecl.stack_parameter_offset 64 16 8 : Nat) : Int)) ∧
    FunctionDecl.stack_parameter_offset 64 16 8 = 92 :=
  ⟨(C26_stack_arguments_meet 16 8 64 (by decide) (by decide) (by decide)).2.2.2, by decide⟩

/-! ## Arithmetic shift of an `int` -/

theorem int_shiftRight_eq (v : Int) (k : Nat) : v >>> (k : Int) = v / 2 ^ k := by
  rcases v with m | m
  · rw [Int.ofNat_eq_coe, Int.shiftRight_coe_nat, Nat.shiftRight_eq_div_pow]
    push_cast
    rfl
  · rw [Int.shiftRight_negSucc, Nat.shiftRight_eq_div_pow,
      Int.negSucc_ediv m (by positivity : (0 : Int) < 2 ^ k), Int.negSucc_eq]
    push_cast
    rfl
/-! ## Literal materialisation -/

theorem load_immediate_eq_select (reg : String) (value : Int) :
    load_immediate reg value = (IntegerExpr.select value).line reg := by
  unfold load_immediate IntegerExpr.select
  split_ifs <;> rfl

/-- C31: for every 32-bit signed value `v`, `IntegerExpr::generate_code` appends exactly one
line, the instruction selected for `v`, and that instruction loads exactly `v`: it is
`mv t, zero` when `v = 0`, `addi t, zero, v` when `v` is another value in `-2048..2047`,
`lui t, v >> 12` when `v` is outside that range with its low 12 bits zero (and then
`(v >> 12) << 12`, reduced to 32 bits, is `v`), and `li t, v` otherwise. -/
theorem C31_literal_materialisation (v : Int) (hv : Int32 v) :
    (∀ (result_reg : Nat) (context : Context) (g : Globals),
      (IntegerExpr.generate_code v result_reg context g).os =
        g.os ++ [(IntegerExpr.select v).line (treg result_reg)]) ∧
    (IntegerExpr.select v).loads = v ∧
    (v = 0 → IntegerExpr.select v = .mv_zero) ∧
    (v ≠ 0 → -2048 ≤ v → v ≤ 2047 → IntegerExpr.select v = .addi_zero v) ∧
    (¬ (-2048 ≤ v ∧ v ≤ 2047) → v % 4096 = 0 →
      IntegerExpr.select v = .lui (v >>> 12) ∧ wrap32 ((v >>> 12) * 4096) = v) ∧
    (¬ (-2048 ≤ v ∧ v ≤ 2047) → v % 4096 ≠ 0 → IntegerExpr.select v = .li v) := by
  obtain ⟨hlo, hhi⟩ := hv
  have hshift : v >>> 12 = v / 4096 := by
    have h := int_shiftRight_eq v 12
    simpa using h
  refine ⟨?_, ?_, ?_, ?_, ?_, ?_⟩
  · intro result_reg context g
    simp [IntegerExpr.generate_code, emit, Context.mark_register_used, Context.mark_register_free,
      load_immediate_eq_select]
  · unfold IntegerExpr.select
    split_ifs with h0 h1 h2
    · simp [Materialise.loads, h0]
    · simp only [Materialise.loads, sign_extend, wrap32]
      norm_num
      omega
    · simp only [Materialise.loads, wrap32, hshift]
      omega
    · simp only [Materialise.loads, wrap32]
      omega
  · intro h0
    simp [IntegerExpr.select, h0]
  · intro h0 h1 h2
    simp [IntegerExpr.select, h0, h1, h2]
  · intro hr hm
    have h0 : v ≠ 0 := by rintro rfl; exact hr (by decide)
    refine ⟨?_, ?_⟩
    · unfold IntegerExpr.select
      rw [if_neg h0, if_neg (by simpa using hr), if_pos hm]
    · simp only [wrap32, hshift]
      omega
  · intro hr hm
    have h0 : v ≠ 0 := by rintro rfl; exact hr (by decide)
    unfold IntegerExpr.select
    rw [if_neg h0, if_neg (by simpa using hr), if_neg hm]

/-- Witness for C31: `-4096` is materialised by `lui t0, -1`, which loads `-4096`. -/
theorem C31_literal_materialisation_witness :
    Int32 (-4096) ∧ (IntegerExpr.select (-4096)).loads = -4096 ∧
    (IntegerExpr.select (-4096)).line (treg 0) = "  lui t0, -1" :=
  ⟨by decide, (C31_literal_materialisation (-4096) (by decide)).2.1, by decide⟩
/-! ## Powers of two -/

theorem land_pred_eq_zero_iff (n : Nat) (hn : 0 < n) :
    n &&& (n - 1) = 0 ↔ ∃ k : Nat, n = 2 ^ k := by
  constructor
  · intro h
    induction n using Nat.strong_induction_on with
    | _ n ih =>
      by_cases h1 : n = 1
      · exact ⟨0, by simp [h1]⟩
      · have hdiv : n / 2 &&& (n - 1) / 2 = 0 := by
          rw [← Nat.and_div_two, h]
        by_cases hodd : n % 2 = 1
        · have e : (n - 1) / 2 = n / 2 := by omega
          rw [e, Nat.and_self] at hdiv
          omega
        · have e : (n - 1) / 2 = n / 2 - 1 := by omega
          rw [e] at hdiv
          obtain ⟨k, hk⟩ := ih (n / 2) (by omega) (by omega) hdiv
          exact ⟨k + 1, by rw [pow_succ]; omega⟩
  · rintro ⟨k, rfl⟩
    apply Nat.eq_of_testBit_eq
    intro i
    rw [Nat.testBit_and, Nat.testBit_two_pow, Nat.testBit_two_pow_sub_one, Nat.zero_testBit]
    by_cases hki : k = i <;> simp [hki]

theorem is_power_of_two_iff (v : Int) :
    StrengthReductionPass.is_power_of_two v = true ↔ ∃ n : Nat, v = 2 ^ n := by
  unfold StrengthReductionPass.is_power_of_two
  constructor
  · intro h
    simp only [Bool.and_eq_true, decide_eq_true_eq, beq_iff_eq] at h
    obtain ⟨hpos, hbits⟩ := h
    obtain ⟨m, rfl⟩ := Int.eq_ofNat_of_zero_le (le_of_lt hpos)
    have hm : 0 < m := by omega
    have e : ((m : Int) - 1).toNat = m - 1 := by omega
    rw [e, Int.toNat_ofNat] at hbits
    obtain ⟨k, hk⟩ := (land_pred_eq_zero_iff m hm).1 hbits
    exact ⟨k, by rw [hk]; push_cast; rfl⟩
  · rintro ⟨n, rfl⟩
    have hpos : (0 : Int) < 2 ^ n := by positivity
    have e1 : ((2 : Int) ^ n).toNat = 2 ^ n := by
      have : ((2 : Int) ^ n) = ((2 ^ n : Nat) : Int) := by push_cast; rfl
      rw [this, Int.toNat_ofNat]
    have e2 : ((2 : Int) ^ n - 1).toNat = 2 ^ n - 1 := by
      have : ((2 : Int) ^ n) = ((2 ^ n : Nat) : Int) := by push_cast; rfl
      have hp : 0 < 2 ^ n := Nat.pos_pow_of_pos n (by decide)
      rw [this]
      omega
    simp only [Bool.and_eq_true, decide_eq_true_eq, beq_iff_eq]
    refine ⟨hpos, ?_⟩
    rw [e1, e2]
    exact (land_pred_eq_zero_iff (2 ^ n) (Nat.pos_pow_of_pos n (by decide))).2 ⟨n, rfl⟩

theorem get_power_of_two_loop_pow (n fuel : Nat) (power : Int) (h : n ≤ fuel) :
    StrengthReductionPass.get_power_of_two_loop fuel (2 ^ n) power = power + n := by
  induction n generalizing fuel power with
  | zero =>
    cases fuel with
    | zero => simp [StrengthReductionPass.get_power_of_two_loop]
    | succ f => simp [StrengthReductionPass.get_power_of_two_loop]
  | succ n ih =>
    cases fuel with
    | zero => omega
    | succ f =>
      have hgt : (2 : Int) ^ (n + 1) > 1 := by
        have : (0 : Int) < 2 ^ n := by positivity
        rw [pow_succ]
        omega
      have hshift : ((2 : Int) ^ (n + 1)) >>> (1 : Int) = 2 ^ n := by
        have h1 := int_shiftRight_eq ((2 : Int) ^ (n + 1)) 1
        simp only [Nat.cast_one, pow_one] at h1
        rw [h1, pow_succ]
        omega
      rw [StrengthReductionPass.get_power_of_two_loop, if_pos hgt, hshift,
        ih f (power + 1) (by omega)]
      push_cast
      ring

/-- C33: for every 32-bit signed `v`, `is_power_of_two(v)` is true if and only if `v = 2^n`
for some `n` with `0 <= n <= 30`; for such `v` the loop of `get_power_of_two` ends after `n`
halvings (any larger bound on the number of iterations gives the same result) and the function
returns `n`, so `2` to the power returned is `v`; for every `v` that is not a power of two it
returns 0. -/
theorem C33_power_of_two (v : Int) (hv : Int32 v) :
    (StrengthReductionPass.is_power_of_two v = true ↔ ∃ n : Nat, n ≤ 30 ∧ v = 2 ^ n) ∧
    (∀ n : Nat, v = 2 ^ n →
      StrengthReductionPass.get_power_of_two v = n ∧
      (2 : Int) ^ (StrengthReductionPass.get_power_of_two v).toNat = v ∧
      ∀ fuel, n ≤ fuel → StrengthReductionPass.get_power_of_two_loop fuel v 0 = n) ∧
    (StrengthReductionPass.is_power_of_two v = false →
      StrengthReductionPass.get_power_of_two v = 0) := by
  refine ⟨?_, ?_, ?_⟩
  · rw [is_power_of_two_iff]
    constructor
    · rintro ⟨n, rfl⟩
      refine ⟨n, ?_, rfl⟩
      by_contra hn
      have h31 : 31 ≤ n := by omega
      have : (2 : Int) ^ 31 ≤ 2 ^ n := pow_le_pow_right₀ (by norm_num) h31
      have h2 := hv.2
      norm_num at this
      omega
    · rintro ⟨n, -, rfl⟩
      exact ⟨n, rfl⟩
  · rintro n rfl
    have hp : StrengthReductionPass.is_power_of_two ((2 : Int) ^ n) = true :=
      (is_power_of_two_iff _).2 ⟨n, rfl⟩
    have hfuel : n ≤ ((2 : Int) ^ n).toNat := by
      have : ((2 : Int) ^ n) = ((2 ^ n : Nat) : Int) := by push_cast; rfl
      rw [this, Int.toNat_ofNat]
      exact le_of_lt (Nat.lt_two_pow n)
    have hget : StrengthReductionPass.get_power_of_two ((2 : Int) ^ n) = n := by
      unfold StrengthReductionPass.get_power_of_two
      rw [hp]
      simp only [Bool.not_true, Bool.false_eq_true, if_false]
      rw [get_power_of_two_loop_pow n _ 0 hfuel]
      simp
    refine ⟨hget, ?_, ?_⟩
    · rw [hget, Int.toNat_ofNat]
    · intro fuel hf
      rw [get_power_of_two_loop_pow n fuel 0 hf]
      simp
  · intro h
    unfold StrengthReductionPass.get_power_of_two
    rw [h]
    simp

/-- Witness for C33: `1024` is `2^10`, and `get_power_of_two` returns 10 for it. -/
theorem C33_power_of_two_witness :
    Int32 1024 ∧ StrengthReductionPass.get_power_of_two 1024 = 10 :=
  ⟨by decide, ((C33_power_of_two 1024 (by decide)).2.1 10 (by norm_num)).1⟩
/-! ## The next temporary register -/

theorem getD_set_false (l : List Bool) (n i : Nat) :
    (l.set n false).getD i false = if n = i then false else l.getD i false := by
  simp only [List.getD_eq_getElem?_getD, List.getElem?_set]
  by_cases h : n = i
  · subst h
    by_cases hl : n < l.length <;> simp [hl]
  · simp [h]

theorem find_lowest_of_five (p : Nat → Bool) (i : Nat) (h2 : 2 ≤ i) (h6 : i ≤ 6)
    (hi : p i = true) (hlow : ∀ j, 2 ≤ j → j < i → p j = false) :
    List.find? p [2, 3, 4, 5, 6] = some i := by
  have hcases : i = 2 ∨ i = 3 ∨ i = 4 ∨ i = 5 ∨ i = 6 := by omega
  rcases hcases with rfl | rfl | rfl | rfl | rfl
  · simp [List.find?, hi]
  · simp [List.find?, hi, hlow 2 (by decide) (by decide)]
  · simp [List.find?, hi, hlow 2 (by decide) (by decide), hlow 3 (by decide) (by decide)]
  · simp [List.find?, hi, hlow 2 (by decide) (by decide), hlow 3 (by decide) (by decide),
      hlow 4 (by decide) (by decide)]
  · simp [List.find?, hi, hlow 2 (by decide) (by decide), hlow 3 (by decide) (by decide),
      hlow 4 (by decide) (by decide), hlow 5 (by decide) (by decide)]

theorem find_none_of_five (p : Nat → Bool) (h : ∀ j, 2 ≤ j → j ≤ 6 → p j = false) :
    List.find? p [2, 3, 4, 5, 6] = none := by
  simp [List.find?, h 2 (by decide) (by decide), h 3 (by decide) (by decide),
    h 4 (by decide) (by decide), h 5 (by decide) (by decide), h 6 (by decide) (by decide)]

/-- C39: for every state of the global register record, `get_next_temp_register_id` returns an
index from 2 to 6.  It returns the lowest index in 2..6 that is not in use if there is one, and
changes nothing; if all five are in use it returns the lowest index in 2..6 whose marker is
clear if there is one, and changes nothing; if all five are in use and marked it returns 2 and
clears the markers of the slots 2..6, leaving every other marker, the in-use flags and the
rest of the state as they were. -/
theorem C39_next_temp_register (g : Globals) :
    (2 ≤ (Context.get_next_temp_register_id g).1 ∧
      (Context.get_next_temp_register_id g).1 ≤ 6) ∧
    (∀ i, 2 ≤ i → i ≤ 6 → g.global_reg_state.in_use.getD i false = false →
      (∀ j, 2 ≤ j → j < i → g.global_reg_state.in_use.getD j false = true) →
      Context.get_next_temp_register_id g = (i, g)) ∧
    ((∀ j, 2 ≤ j → j ≤ 6 → g.global_reg_state.in_use.getD j false = true) →
      ∀ i, 2 ≤ i → i ≤ 6 → g.global_reg_state.star.getD i false = false →
      (∀ j, 2 ≤ j → j < i → g.global_reg_state.star.getD j false = true) →
      Context.get_next_temp_register_id g = (i, g)) ∧
    ((∀ j, 2 ≤ j → j ≤ 6 → g.global_reg_state.in_use.getD j false = true) →
      (∀ j, 2 ≤ j → j ≤ 6 → g.global_reg_state.star.getD j false = true) →
      ∃ cleared : List Bool,
        Context.get_next_temp_register_id g =
          (2, { g with global_reg_state := { g.global_reg_state with star := cleared } }) ∧
        ∀ i, cleared.getD i false =
          if 2 ≤ i ∧ i ≤ 6 then false else g.global_reg_state.star.getD i false) := by
  have hrange : List.range' 2 5 = [2, 3, 4, 5, 6] := by decide
  refine ⟨?_, ?_, ?_, ?_⟩
  · unfold Context.get_next_temp_register_id
    rw [hrange]
    cases h1 : List.find? (fun i => !(g.global_reg_state.in_use.getD i false)) [2, 3, 4, 5, 6] with
    | some i =>
      have hmem := List.mem_of_find?_eq_some h1
      simp only [List.mem_cons, List.mem_singleton, List.not_mem_nil, or_false] at hmem
      dsimp only
      omega
    | none =>
      cases h2 : List.find? (fun i => !(g.global_reg_state.star.getD i false)) [2, 3, 4, 5, 6] with
      | some i =>
        have hmem := List.mem_of_find?_eq_some h2
        simp only [List.mem_cons, List.mem_singleton, List.not_mem_nil, or_false] at hmem
        dsimp only
        omega
      | none => exact ⟨Nat.le_refl 2, by show 2 ≤ 6; omega⟩
  · intro i h2 h6 hi hlow
    unfold Context.get_next_temp_register_id
    rw [hrange, find_lowest_of_five _ i h2 h6 (by rw [hi]; rfl)
      (by intro j hj2 hji; rw [hlow j hj2 hji]; rfl)]
  · intro hall i h2 h6 hi hlow
    unfold Context.get_next_temp_register_id
    rw [hrange, find_none_of_five _ (by intro j hj2 hj6; rw [hall j hj2 hj6]; rfl),
      find_lowest_of_five _ i h2 h6 (by rw [hi]; rfl)
        (by intro j hj2 hji; rw [hlow j hj2 hji]; rfl)]
  · intro hall hstar
    refine ⟨(List.range' 2 5).foldl (fun s i => s.set i false) g.global_reg_state.star, ?_, ?_⟩
    · unfold Context.get_next_temp_register_id
      rw [hrange, find_none_of_five _ (by intro j hj2 hj6; rw [hall j hj2 hj6]; rfl),
        find_none_of_five _ (by intro j hj2 hj6; rw [hstar j hj2 hj6]; rfl)]
    · intro i
      rw [hrange]
      simp only [List.foldl, getD_set_false]
      by_cases hi : 2 ≤ i ∧ i ≤ 6
      · rw [if_pos hi]
        have hcases : i = 2 ∨ i = 3 ∨ i = 4 ∨ i = 5 ∨ i = 6 := by omega
        rcases hcases with rfl | rfl | rfl | rfl | rfl <;> simp
      · rw [if_neg hi]
        have n2 : 2 ≠ i := by omega
        have n3 : 3 ≠ i := by omega
        have n4 : 4 ≠ i := by omega
        have n5 : 5 ≠ i := by omega
        have n6 : 6 ≠ i := by omega
        simp [n2, n3, n4, n5, n6]

/-- Witness for C39: with the slots 2 and 3 in use the function returns 4, and with all of
2..6 in use and marked it returns 2. -/
theorem C39_next_temp_register_witness :
    (Context.get_next_temp_register_id
      { global_reg_state :=
          { in_use := [false, false, true, true, false, false, false, false] } }).1 = 4 ∧
    (Context.get_next_temp_register_id
      { global_reg_state :=
          { in_use := [false, false, true, true, true, true, true, false],
            star := [true, false, true, true, true, true, true, true] } }).1 = 2 :=
  ⟨by
    rw [(C39_next_temp_register _).2.1 4 (by decide) (by decide) (by decide)
      (by intro j h2 h4; interval_cases j <;> decide)],
   by decide⟩

/-! ## A return without expression under the scans -/

/-- C34: on the statement `return;` both scans call a method through the null `expr`:
`ReturnStmt::scan_const_variables` and `ReturnStmt::scan_unused` stop there, and so does each
scan of any block that holds the statement, and with it the code generation of that block,
which runs both scans first; `ReturnStmt::generate_code` and `collect_variables` test `expr`
and complete on the same statement. -/
theorem C34_scans_stop_at_bare_return :
    Stmt.scan_const_variables (.ReturnStmt none) {} {} = .error .null_dereference ∧
    Stmt.scan_unused (.ReturnStmt none) {} = .error .null_dereference ∧
    Stmt.scan_const_variables (.BlockStmt [.ExprStmt (.IntegerExpr 0), .ReturnStmt none]) {} {} =
      .error .null_dereference ∧
    Stmt.scan_unused (.BlockStmt [.ExprStmt (.IntegerExpr 0), .ReturnStmt none]) {} =
      .error .null_dereference ∧
    Stmt.generate_code (.BlockStmt [.ReturnStmt none]) {} {} = .error .null_dereference ∧
    (Stmt.generate_code (.ReturnStmt none) {} {}).toOption.map (fun r => r.2.os) =
      some ["  mv a0, zero", "  j .L_return_main"] ∧
    Stmt.collect_variables (.ReturnStmt none) [] = [] :=
  ⟨rfl, rfl, rfl, rfl, rfl, by decide, rfl⟩

/-! ## Statements kept by loop-invariant code motion -/

/-- C35: let `invariant` be the top-level statements of a loop body that `is_invariant_stmt`
accepts and `rest` the others, both in their original order.  Together they are a permutation
of the top-level statements of the body.  If `invariant` is empty, the body after
`optimize_loop` is the block of the original top-level statements; otherwise it is the block
that holds the statements of `invariant` followed by one nested block whose statements are
those of `rest`.  Every statement found there is the original statement itself, none is lost
and none occurs more often than before. -/
theorem C35_statements_kept (condition : Expr) (body : Stmt) :
    ∃ invariant rest : List Stmt,
      invariant = (top_level body).filter (fun s => LoopInvariantPass.is_invariant_stmt s body) ∧
      rest = (top_level body).filter (fun s => !LoopInvariantPass.is_invariant_stmt s body) ∧
      List.Perm (invariant ++ rest) (top_level body) ∧
      List.Sublist invariant (top_level body) ∧
      List.Sublist rest (top_level body) ∧
      (invariant = [] →
        rest = top_level body ∧
        LoopInvariantPass.optimize_loop condition body =
          .WhileStmt condition (.BlockStmt (top_level body))) ∧
      (invariant ≠ [] →
        LoopInvariantPass.optimize_loop condition body =
          .WhileStmt condition (.BlockStmt (invariant ++ [.BlockStmt rest]))) := by
  refine ⟨_, _, rfl, rfl, List.filter_append_perm _ _, List.filter_sublist _,
    List.filter_sublist _, ?_, ?_⟩
  · intro hnil
    have hall : ∀ s ∈ top_level body, LoopInvariantPass.is_invariant_stmt s body = false := by
      intro s hs
      by_contra hne
      have : s ∈ (top_level body).filter (fun s => LoopInvariantPass.is_invariant_stmt s body) :=
        List.mem_filter.2 ⟨hs, by simpa using hne⟩
      rw [hnil] at this
      exact absurd this (List.not_mem_nil s)
    have hrest : (top_level body).filter (fun s => !LoopInvariantPass.is_invariant_stmt s body) =
        top_level body := by
      apply List.filter_eq_self.2
      intro s hs
      simp [hall s hs]
    refine ⟨hrest, ?_⟩
    unfold LoopInvariantPass.optimize_loop
    rw [extract_invariants_eq]
    simp only [hnil, hrest, List.isEmpty_nil, Bool.not_true, Bool.false_eq_true, if_false]
  · intro hne
    unfold LoopInvariantPass.optimize_loop
    rw [extract_invariants_eq]
    have hemp : ((top_level body).filter
        (fun s => LoopInvariantPass.is_invariant_stmt s body)).isEmpty = false := by
      cases h : (top_level body).filter (fun s => LoopInvariantPass.is_invariant_stmt s body) with
      | nil => exact absurd h hne
      | cons a l => rfl
    simp only [hemp, Bool.not_false, if_true, LoopInvariantPass.create_optimized_loop_body]

/-- Witness for C35: in the loop over `{ int k = a + 1; s = s + k; i = i + 1; }` the
declaration of `k` comes first and the two assignments follow in one block. -/
theorem C35_statements_kept_witness :
    LoopInvariantPass.optimize_loop (.IdExpr "c") summing_body =
      .WhileStmt (.IdExpr "c") (.BlockStmt [
        .DeclStmt "k" (some (.BinaryOpExpr "+" (.IdExpr "a") (.IntegerExpr 1))),
        .BlockStmt [
          .ExprStmt (.AssignExpr "s" (.BinaryOpExpr "+" (.IdExpr "s") (.IdExpr "k"))),
          .ExprStmt (.AssignExpr "i" (.BinaryOpExpr "+" (.IdExpr "i") (.IntegerExpr 1)))]]) := by
  obtain ⟨invariant, rest, h1, h2, -, -, -, -, h⟩ :=
    C35_statements_kept (.IdExpr "c") summing_body
  have e1 : invariant = [.DeclStmt "k" (some (.BinaryOpExpr "+" (.IdExpr "a") (.IntegerExpr 1)))] := by
    rw [h1]; rfl
  have e2 : rest = [
      .ExprStmt (.AssignExpr "s" (.BinaryOpExpr "+" (.IdExpr "s") (.IdExpr "k"))),
      .ExprStmt (.AssignExpr "i" (.BinaryOpExpr "+" (.IdExpr "i") (.IntegerExpr 1)))] := by
    rw [h2]; rfl
  rw [h (by rw [e1]; exact List.cons_ne_nil _ _), e1, e2]
  rfl

/-! ## Slots outside the frame -/

/-- C36: the function `nested` declares `a`, `b`, `c` in its body, again in a nested block,
and `a` once more in a block inside that one.  `FunctionDecl::generate_code` counts three
distinct names and reserves a frame of 32 bytes, while the declarations are given the offsets
-12 to -32 and the innermost `a` the offset -36: the line `sw t0, -36(s0)` stores below the
frame that `addi sp, sp, -32` reserved. -/
theorem C36_shadowing_local_outside_frame :
    FunctionDecl.collected nested_function {} = ["a", "b", "c"] ∧
    FunctionDecl.frame_size (FunctionDecl.collected nested_function {}).length = 32 ∧
    ((BlockStmt.generate_prefix 3 nested_outer { current_function := "nested" } {}).bind
      (fun r => (BlockStmt.generate_prefix 3 nested_middle r.1 r.2).bind
        (fun r => BlockStmt.generate_prefix 1 nested_inner r.1 r.2))).toOption.map
        (fun r => (r.1.variables, r.1.variables_stack)) =
      some ([("a", -36)],
        [[], [("a", -12), ("b", -16), ("c", -20)], [("a", -24), ("b", -28), ("c", -32)]]) ∧
    ¬ ((36 : Int) ≤ ((FunctionDecl.frame_size
        (FunctionDecl.collected nested_function {}).length : Nat) : Int)) ∧
    (nested_function.generate_code {} {}).toOption.map (fun r => r.2.os) =
      some [".globl nested", "nested:", "  # Function: int nested()",
        "  # Prologue - frame size: 32 bytes", "  addi sp, sp, -32", "  sw ra, 28(sp)",
        "  sw s0, 24(sp)", "  addi s0, sp, 32", "", "  addi t0, zero, 1", "  sw t0, -12(s0)",
        "  addi t0, zero, 2", "  sw t0, -16(s0)", "  addi t0, zero, 3", "  sw t0, -20(s0)",
        "  addi t0, zero, 4", "  sw t0, -24(s0)", "  addi t0, zero, 5", "  sw t0, -28(s0)",
        "  addi t0, zero, 6", "  sw t0, -32(s0)", "  addi t0, zero, 7", "  sw t0, -36(s0)",
        "  addi t0, zero, 18", "  mv a0, t0", "  j .L_return_nested", "", ".L_return_nested:",
        "  # Epilogue", "  lw ra, 28(sp)", "  lw s0, 24(sp)", "  addi sp, sp, 32", "  jr ra"] := by
  refine ⟨by decide, by decide, by decide, by decide, by decide⟩

/-! ## Cache bindings made on one path -/

/-- C37: for `if (x) y = 1;` with `x` and `y` not constant, the cache reports no register for
`y` after the code of the condition, and reports `t0` for `y` after `IfStmt::generate_code`
returns: the binding was made by the assignment in the branch.  A following `return y;` then
takes `y` from `t0` without a load, although on the path around the branch `t0` holds the
value of `x`.  With the branch written as a block, `if (x) { y = 1; }`, the cache reports no
register for `y` afterwards and `return y;` loads `y` from its slot.  The function `flag`
shows the same with parameters: after the condition the cache has `y` in `t1`, after the `if`
it reports `t0`. -/
theorem C37_branch_binding_leaks :
    (generate_code (.IdExpr "x") 0 xy_context {}).toOption.map
        (fun r => Context.is_var_in_reg "y" r.2) = some none ∧
    (Stmt.generate_code if_single xy_context {}).toOption.map
        (fun r => Context.is_var_in_reg "y" r.2) = some (some 0) ∧
    (Stmt.generate_code_each [if_single, .ReturnStmt (some (.IdExpr "y"))]
        xy_context {}).toOption.map (fun r => r.2.os) =
      some ["  # x saved to t2", "  lw t2, -12(s0)", "  mv t0, t2", "  beqz t0, L0",
        "  addi t0, zero, 1", "  sw t0, -16(s0)", "L0:", "# y already in t0", "# mv t0, t0",
        "  mv a0, t0", "  j .L_return_main"] ∧
    (Stmt.generate_code if_block xy_context {}).toOption.map
        (fun r => Context.is_var_in_reg "y" r.2) = some none ∧
    (Stmt.generate_code_each [if_block, .ReturnStmt (some (.IdExpr "y"))]
        xy_context {}).toOption.map (fun r => r.2.os) =
      some ["  # x saved to t2", "  lw t2, -12(s0)", "  mv t0, t2", "  beqz t0, L0",
        "  addi t0, zero, 1", "  sw t0, -16(s0)", "L0:", "  # y saved to t3", "  lw t3, -16(s0)",
        "  mv t0, t3", "  mv a0, t0", "  j .L_return_main"] ∧
    (flag_function.generate_code {} {}).toOption.map (fun r => r.2.os) =
      some [".globl flag", "flag:", "  # Function: int flag(int x, int y)",
        "  # Prologue - frame size: 32 bytes", "  addi sp, sp, -32", "  sw ra, 28(sp)",
        "  sw s0, 24(sp)", "  addi s0, sp, 32", "", "  sw a0, -12(s0)", "  mv t0, a0",
        "  sw a1, -16(s0)", "  mv t1, a1", "# x already in t0", "# mv t0, t0", "  beqz t0, L0",
        "  addi t0, zero, 1", "  mv t1, t0", "  sw t0, -16(s0)", "L0:", "# y already in t0",
        "# mv t0, t0", "  mv a0, t0", "  j .L_return_flag", "", ".L_return_flag:", "  # Epilogue",
        "  lw ra, 28(sp)", "  lw s0, 24(sp)", "  addi sp, sp, 32", "  jr ra"] := by
  refine ⟨by decide, by decide, by decide, by decide, by decide, by decide⟩

/-! ## Cache bindings after the prologue -/

/-- C38: for the function `first` with nine parameters `a` to `i`, the second loop of
`FunctionDecl::generate_code` records `a` as held in `t0` after `mv t0, a0` and then loads the
ninth parameter through `t0` without touching the record.  After the prologue the cache still
reports `t0` for `a`, while the last line of the prologue that writes `t0` is `lw t0, 64(sp)`,
the load of `i`; the body `return a;` takes `a` from `t0` without a load.  With two parameters
the last write of `t0` is `mv t0, a0` and the record is right. -/
theorem C38_first_parameter_binding_stale :
    Context.is_var_in_reg "a"
      (FunctionDecl.save_parameters 64 9 first_of_nine.parameters 0 (-12) {} {}).2 = some 0 ∧
    last_write "t0"
      (FunctionDecl.save_parameters 64 9 first_of_nine.parameters 0 (-12) {} {}).2.os =
        some "  lw t0, 64(sp)" ∧
    FunctionDecl.frame_size (FunctionDecl.collected first_of_nine {}).length = 64 ∧
    (first_of_nine.generate_code {} {}).toOption.map (fun r => r.2.os) =
      some [".globl first", "first:",
        "  # Function: int first(int a, int b, int c, int d, int e, int f, int g, int h, int i)",
        "  # Prologue - frame size: 64 bytes", "  addi sp, sp, -64", "  sw ra, 60(sp)",
        "  sw s0, 56(sp)", "  addi s0, sp, 64", "", "  sw a0, -12(s0)", "  mv t0, a0",
        "  sw a1, -16(s0)", "  mv t1, a1", "  sw a2, -20(s0)", "  mv t2, a2", "  sw a3, -24(s0)",
        "  mv t3, a3", "  sw a4, -28(s0)", "  mv t4, a4", "  sw a5, -32(s0)", "  mv t5, a5",
        "  sw a6, -36(s0)", "  sw a7, -40(s0)", "  lw t0, 64(sp)", "  sw t0, -44(s0)",
        "# a already in t0", "# mv t0, t0", "  mv a0, t0", "  j .L_return_first", "",
        ".L_return_first:", "  # Epilogue", "  lw ra, 60(sp)", "  lw s0, 56(sp)",
        "  addi sp, sp, 64", "  jr ra"] ∧
    Context.is_var_in_reg "a"
      (FunctionDecl.save_parameters 32 2 first_of_two.parameters 0 (-12) {} {}).2 = some 0 ∧
    last_write "t0"
      (FunctionDecl.save_parameters 32 2 first_of_two.parameters 0 (-12) {} {}).2.os =
        some "  mv t0, a0" := by
  refine ⟨by decide, by decide, by decide, by decide, by decide, by decide⟩

/-! ## The checked runs and the values -/

theorem checked_div_ok (l r v : Int) (h : checked_div l r = .ok v) : v = wrap32 (Int.tdiv l r) := by
  unfold checked_div at h
  split at h
  · cases h
  · cases h; rfl

theorem checked_rem_ok (l r v : Int) (h : checked_rem l r = .ok v) : v = wrap32 (Int.tmod l r) := by
  unfold checked_rem at h
  split at h
  · cases h
  · cases h; rfl

theorem evaluate_binary_value (context : Context) (op : String) (lhs rhs : Expr)
    (hc : (is_constant context lhs && is_constant context rhs) = true) (l r v : Int)
    (hl : evaluate_constant context lhs = l) (hr : evaluate_constant context rhs = r)
    (h : BinaryOpExpr.evaluate_checked op l r = .ok v) :
    evaluate_constant context (.BinaryOpExpr op lhs rhs) = v := by
  rw [evaluate_constant]
  simp only [hc, Bool.not_true, Bool.false_eq_true, if_false, hl, hr]
  unfold BinaryOpExpr.evaluate_checked at h
  by_cases h1 : op = "+"
  · subst h1; simp at h ⊢; exact h
  by_cases h2 : op = "-"
  · subst h2; simp at h ⊢; exact h
  by_cases h3 : op = "*"
  · subst h3; simp at h ⊢; exact h
  by_cases h4 : op = "/"
  · subst h4
    by_cases hr0 : r = 0
    · simp [hr0] at h ⊢; exact h
    · simp [hr0] at h ⊢; exact (checked_div_ok _ _ _ h).symm
  by_cases h5 : op = "%"
  · subst h5
    by_cases hr0 : r = 0
    · simp [hr0] at h ⊢; exact h
    · simp [hr0] at h ⊢; exact (checked_rem_ok _ _ _ h).symm
  by_cases h6 : op = "=="
  · subst h6; simp at h ⊢; exact h
  by_cases h7 : op = "!="
  · subst h7; simp at h ⊢; exact h
  by_cases h8 : op = "<"
  · subst h8; simp at h ⊢; exact h
  by_cases h9 : op = ">"
  · subst h9; simp at h ⊢; exact h
  by_cases h10 : op = "<="
  · subst h10; simp at h ⊢; exact h
  by_cases h11 : op = ">="
  · subst h11; simp at h ⊢; exact h
  by_cases h12 : op = "&&"
  · subst h12; simp at h ⊢; exact h
  by_cases h13 : op = "||"
  · subst h13; simp at h ⊢; exact h
  simp [h1, h2, h3, h4, h5, h6, h7, h8, h9, h10, h11, h12, h13] at h ⊢
  exact h

/-- Whenever the run of `evaluate_constant` returns, it returns the value `evaluate_constant`
gives. -/
theorem evaluate_constant_checked_ok (context : Context) : ∀ (e : Expr) (v : Int),
    evaluate_constant_checked context e = .ok v → evaluate_constant context e = v
  | .IntegerExpr value, v, h => by
    simp only [evaluate_constant_checked, Except.ok.injEq] at h
    simpa [evaluate_constant] using h
  | .IdExpr id, v, h => by
    simp only [evaluate_constant_checked, Except.ok.injEq] at h
    simpa [evaluate_constant] using h
  | .AssignExpr _ _, v, h => by
    simp only [evaluate_constant_checked, Except.ok.injEq] at h
    simpa [evaluate_constant] using h
  | .FunctionCallExpr _ _, v, h => by
    simp only [evaluate_constant_checked, Except.ok.injEq] at h
    simpa [evaluate_constant] using h
  | .UnaryOpExpr op expr, v, h => by
    rw [evaluate_constant_checked] at h
    rw [evaluate_constant]
    by_cases hc : is_constant context expr = true
    · simp only [hc, Bool.not_true, Bool.false_eq_true, if_false] at h ⊢
      cases hval : evaluate_constant_checked context expr with
      | error err => rw [hval] at h; cases h
      | ok val =>
        rw [hval] at h
        rw [evaluate_constant_checked_ok context expr val hval]
        simp only [Except.ok.injEq] at h
        rw [← h]
        rfl
    · simp only [hc, Bool.not_false, if_true] at h ⊢
      cases h; simp [hc]
  | .BinaryOpExpr op lhs rhs, v, h => by
    rw [evaluate_constant_checked] at h
    by_cases hc : (is_constant context lhs && is_constant context rhs) = true
    · simp only [hc, Bool.not_true, Bool.false_eq_true, if_false] at h
      cases hl : evaluate_constant_checked context lhs with
      | error err => rw [hl] at h; cases h
      | ok l =>
        rw [hl] at h
        simp only at h
        cases hr : evaluate_constant_checked context rhs with
        | error err => rw [hr] at h; cases h
        | ok r =>
          rw [hr] at h
          simp only at h
          exact evaluate_binary_value context op lhs rhs hc l r v
            (evaluate_constant_checked_ok context lhs l hl)
            (evaluate_constant_checked_ok context rhs r hr) h
    · rw [evaluate_constant]
      simp only [hc, Bool.not_false, if_true] at h ⊢
      cases h
      simp [hc]

theorem fold_binary_value (context : Context) (op : String) (lhs rhs : Expr) (l r v : Int)
    (hl : evaluate_constant context lhs = l) (hr : evaluate_constant context rhs = r)
    (h : AlgebraicPass.fold_binary_checked op l r = .ok v) :
    AlgebraicPass.fold_constant (.BinaryOpExpr op lhs rhs) context = v := by
  rw [AlgebraicPass.fold_constant]
  simp only [hl, hr]
  unfold AlgebraicPass.fold_binary_checked at h
  by_cases h1 : op = "+"
  · subst h1; simp at h ⊢; exact h
  by_cases h2 : op = "-"
  · subst h2; simp at h ⊢; exact h
  by_cases h3 : op = "*"
  · subst h3; simp at h ⊢; exact h
  by_cases h4 : op = "/"
  · subst h4
    by_cases hr0 : r = 0
    · simp [hr0] at h ⊢; exact h
    · simp [hr0] at h ⊢; exact (checked_div_ok _ _ _ h).symm
  by_cases h5 : op = "%"
  · subst h5
    by_cases hr0 : r = 0
    · simp [hr0] at h ⊢; exact h
    · simp [hr0] at h ⊢; exact (checked_rem_ok _ _ _ h).symm
  by_cases h6 : op = "=="
  · subst h6; simp at h ⊢; exact h
  by_cases h7 : op = "!="
  · subst h7; simp at h ⊢; exact h
  by_cases h8 : op = "<"
  · subst h8; simp at h ⊢; exact h
  by_cases h9 : op = ">"
  · subst h9; simp at h ⊢; exact h
  by_cases h10 : op = "<="
  · subst h10; simp at h ⊢; exact h
  by_cases h11 : op = ">="
  · subst h11; simp at h ⊢; exact h
  by_cases h12 : op = "&&"
  · subst h12; simp at h ⊢; exact h
  by_cases h13 : op = "||"
  · subst h13; simp at h ⊢; exact h
  simp [h1, h2, h3, h4, h5, h6, h7, h8, h9, h10, h11, h12, h13] at h ⊢
  exact h

/-- Whenever the run of `fold_constant` returns, it returns the value `fold_constant` gives. -/
theorem fold_constant_checked_ok (context : Context) (e : Expr) (v : Int)
    (h : AlgebraicPass.fold_constant_checked e context = .ok v) :
    AlgebraicPass.fold_constant e context = v := by
  cases e with
  | BinaryOpExpr op lhs rhs =>
    simp only [AlgebraicPass.fold_constant_checked] at h
    cases hl : evaluate_constant_checked context lhs with
    | error err => rw [hl] at h; cases h
    | ok l =>
      rw [hl] at h
      simp only at h
      cases hr : evaluate_constant_checked context rhs with
      | error err => rw [hr] at h; cases h
      | ok r =>
        rw [hr] at h
        simp only at h
        exact fold_binary_value context op lhs rhs l r v
          (evaluate_constant_checked_ok context lhs l hl)
          (evaluate_constant_checked_ok context rhs r hr) h
  | UnaryOpExpr op e =>
    simp only [AlgebraicPass.fold_constant_checked] at h
    cases hval : evaluate_constant_checked context e with
    | error err => rw [hval] at h; cases h
    | ok val =>
      rw [hval] at h
      simp only [Except.ok.injEq] at h
      rw [AlgebraicPass.fold_constant]
      simp only [evaluate_constant_checked_ok context e val hval]
      rw [← h]
      rfl
  | IntegerExpr _ => simp only [AlgebraicPass.fold_constant_checked, Except.ok.injEq] at h; rw [← h]; rfl
  | IdExpr _ => simp only [AlgebraicPass.fold_constant_checked, Except.ok.injEq] at h; rw [← h]; rfl
  | AssignExpr _ _ => simp only [AlgebraicPass.fold_constant_checked, Except.ok.injEq] at h; rw [← h]; rfl
  | FunctionCallExpr _ _ =>
    simp only [AlgebraicPass.fold_constant_checked, Except.ok.injEq] at h; rw [← h]; rfl

/-- The body of `optimize_binary_op`, split into the identity test and the rebuilt node. -/
theorem optimize_binary_op_body_eq (op : String) (lhs rhs : Expr)
    (optimized_lhs optimized_rhs : Option Expr × Expr) :
    AlgebraicPass.optimize_binary_op_body op lhs rhs optimized_lhs optimized_rhs =
      match AlgebraicPass.identity op lhs rhs with
      | some replacement => (some replacement, .BinaryOpExpr op lhs rhs)
      | none =>
        (none, .BinaryOpExpr op (AlgebraicPass.updated optimized_lhs)
          (AlgebraicPass.updated optimized_rhs)) := by
  unfold AlgebraicPass.optimize_binary_op_body AlgebraicPass.identity AlgebraicPass.updated
  by_cases h1 : op = "+"
  · subst h1
    simp only [if_true]
    split_ifs <;> rfl
  by_cases h2 : op = "-"
  · subst h2
    simp only [show ¬ ("-" = "+") by decide, if_true, if_false]
    split_ifs
    · rfl
    · cases as_id lhs <;> cases as_id rhs
      all_goals first | rfl | (simp only; split_ifs <;> rfl)
  by_cases h3 : op = "*"
  · subst h3
    simp only [show ¬ ("*" = "+") by decide, show ¬ ("*" = "-") by decide, if_true, if_false]
    split_ifs <;> rfl
  by_cases h4 : op = "/"
  · subst h4
    simp only [show ¬ ("/" = "+") by decide, show ¬ ("/" = "-") by decide,
      show ¬ ("/" = "*") by decide, if_true, if_false]
    split_ifs <;> rfl
  by_cases h5 : op = "%"
  · subst h5
    simp only [show ¬ ("%" = "+") by decide, show ¬ ("%" = "-") by decide,
      show ¬ ("%" = "*") by decide, show ¬ ("%" = "/") by decide, if_true, if_false]
    split_ifs <;> rfl
  simp only [h1, h2, h3, h4, h5, if_false]

/-- Whenever the run of `optimize_expr` returns, it returns what `optimize_expr` gives. -/
theorem optimize_expr_checked_ok (context : Context) : ∀ (e : Expr) (r : Option Expr × Expr),
    AlgebraicPass.optimize_expr_checked context e = .ok r →
    AlgebraicPass.optimize_expr context e = r
  | .BinaryOpExpr op lhs rhs, r, h => by
    rw [AlgebraicPass.optimize_expr_checked] at h
    rw [AlgebraicPass.optimize_expr]
    by_cases hf : AlgebraicPass.is_constant_foldable (.BinaryOpExpr op lhs rhs) context = true
    · simp only [hf, if_true] at h ⊢
      cases hv : AlgebraicPass.fold_constant_checked (.BinaryOpExpr op lhs rhs) context with
      | error err => rw [hv] at h; cases h
      | ok v =>
        rw [hv] at h
        simp only [Except.ok.injEq] at h
        rw [fold_constant_checked_ok context _ v hv, ← h]
    · simp only [hf, Bool.false_eq_true, if_false] at h ⊢
      rw [optimize_binary_op_body_eq]
      cases hi : AlgebraicPass.identity op lhs rhs with
      | some x =>
        rw [hi] at h
        simp only [Except.ok.injEq] at h
        rw [← h]
      | none =>
        rw [hi] at h
        simp only at h
        cases hl : AlgebraicPass.optimize_expr_checked context lhs with
        | error err => rw [hl] at h; cases h
        | ok l =>
          rw [hl] at h
          simp only at h
          cases hr : AlgebraicPass.optimize_expr_checked context rhs with
          | error err => rw [hr] at h; cases h
          | ok r' =>
            rw [hr] at h
            simp only [Except.ok.injEq] at h
            rw [optimize_expr_checked_ok context lhs l hl,
              optimize_expr_checked_ok context rhs r' hr, ← h]
  | .UnaryOpExpr op e, r, h => by
    rw [AlgebraicPass.optimize_expr_checked] at h
    rw [AlgebraicPass.optimize_expr]
    by_cases hf : AlgebraicPass.is_constant_foldable (.UnaryOpExpr op e) context = true
    · simp only [hf, if_true] at h ⊢
      cases hv : AlgebraicPass.fold_constant_checked (.UnaryOpExpr op e) context with
      | error err => rw [hv] at h; cases h
      | ok v =>
        rw [hv] at h
        simp only [Except.ok.injEq] at h
        rw [fold_constant_checked_ok context _ v hv, ← h]
    · simp only [hf, Bool.false_eq_true, if_false] at h ⊢
      cases he : AlgebraicPass.optimize_expr_checked context e with
      | error err => rw [he] at h; cases h
      | ok r' =>
        rw [he] at h
        simp only [Except.ok.injEq] at h
        rw [optimize_expr_checked_ok context e r' he, ← h]
        rfl
  | .IntegerExpr _, r, h => by
    simp only [AlgebraicPass.optimize_expr_checked, Except.ok.injEq] at h
    rw [← h]; rfl
  | .IdExpr _, r, h => by
    simp only [AlgebraicPass.optimize_expr_checked, Except.ok.injEq] at h
    rw [← h]; rfl
  | .AssignExpr _ _, r, h => by
    simp only [AlgebraicPass.optimize_expr_checked, Except.ok.injEq] at h
    rw [← h]; rfl
  | .FunctionCallExpr _ _, r, h => by
    simp only [AlgebraicPass.optimize_expr_checked, Except.ok.injEq] at h
    rw [← h]; rfl

/-! ## Constant folding of literal operands, with the division trap -/

/-- On the values of the operands, the folder and the evaluator run alike. -/
theorem fold_binary_checked_eq (op : String) (l r : Int) :
    AlgebraicPass.fold_binary_checked op l r = BinaryOpExpr.evaluate_checked op l r := by
  unfold AlgebraicPass.fold_binary_checked BinaryOpExpr.evaluate_checked
  by_cases h1 : op = "+"
  · simp [h1]
  by_cases h2 : op = "-"
  · simp [h2]
  by_cases h3 : op = "*"
  · simp [h3]
  by_cases h4 : op = "/"
  · by_cases hr : r = 0 <;> simp [h4, hr]
  by_cases h5 : op = "%"
  · by_cases hr : r = 0 <;> simp [h5, hr]
  by_cases h6 : op = "=="
  · by_cases hlr : l = r <;> simp [h6, b2i, hlr]
  by_cases h7 : op = "!="
  · by_cases hlr : l = r <;> simp [h7, b2i, hlr]
  by_cases h8 : op = "<"
  · by_cases hlr : l < r <;> simp [h8, b2i, hlr]
  by_cases h9 : op = ">"
  · by_cases hlr : r < l <;> simp [h9, b2i, hlr]
  by_cases h10 : op = "<="
  · by_cases hlr : l ≤ r <;> simp [h10, b2i, hlr]
  by_cases h11 : op = ">="
  · by_cases hlr : r ≤ l <;> simp [h11, b2i, hlr]
  by_cases h12 : op = "&&"
  · by_cases hl : l = 0 <;> by_cases hr : r = 0 <;> simp [h12, b2i, hl, hr]
  by_cases h13 : op = "||"
  · by_cases hl : l = 0 <;> by_cases hr : r = 0 <;> simp [h13, b2i, hl, hr]
  simp [h1, h2, h3, h4, h5, h6, h7, h8, h9, h10, h11, h12, h13]

theorem fold_constant_checked_eq (context : Context) (op : String) (lhs rhs : Expr)
    (h : is_constant context lhs = true ∧ is_constant context rhs = true) :
    AlgebraicPass.fold_constant_checked (.BinaryOpExpr op lhs rhs) context =
      evaluate_constant_checked context (.BinaryOpExpr op lhs rhs) := by
  rw [AlgebraicPass.fold_constant_checked, evaluate_constant_checked]
  simp only [h.1, h.2, Bool.and_self, Bool.not_true, Bool.false_eq_true, if_false]
  cases evaluate_constant_checked context lhs with
  | error e => rfl
  | ok l =>
    cases evaluate_constant_checked context rhs with
    | error e => rfl
    | ok r => exact fold_binary_checked_eq op l r

/-- C40: `AlgebraicPass::fold_constant` and `BinaryOpExpr::evaluate_constant`, each embedded
from its own source text as a run that either returns a value or is ended by the division trap,
have the same outcome on `BinaryOp(op, Int a, Int b)` for every operator string (the thirteen
binary operators of the language among them) and all literals `a`, `b`.  For `/` and `%` with
`b = 0` both return 0; for `/` and `%` on the least `int` and `-1` both execute the undefined
division and neither returns; wherever they return, they return the same value.  The same
holds for any two operands that are constant under the Context. -/
theorem C40_folder_agrees_with_evaluator (context : Context) (op : String) (a b : Int) :
    AlgebraicPass.fold_constant_checked
        (.BinaryOpExpr op (.IntegerExpr a) (.IntegerExpr b)) context =
      evaluate_constant_checked context (.BinaryOpExpr op (.IntegerExpr a) (.IntegerExpr b)) ∧
    AlgebraicPass.fold_constant_checked
        (.BinaryOpExpr "/" (.IntegerExpr a) (.IntegerExpr 0)) context = .ok 0 ∧
    evaluate_constant_checked context (.BinaryOpExpr "/" (.IntegerExpr a) (.IntegerExpr 0))
      = .ok 0 ∧
    AlgebraicPass.fold_constant_checked
        (.BinaryOpExpr "%" (.IntegerExpr a) (.IntegerExpr 0)) context = .ok 0 ∧
    evaluate_constant_checked context (.BinaryOpExpr "%" (.IntegerExpr a) (.IntegerExpr 0))
      = .ok 0 ∧
    AlgebraicPass.fold_constant_checked
        (.BinaryOpExpr "/" (.IntegerExpr (-2147483648)) (.IntegerExpr (-1))) context
      = .error .division_overflow ∧
    evaluate_constant_checked context
        (.BinaryOpExpr "/" (.IntegerExpr (-2147483648)) (.IntegerExpr (-1)))
      = .error .division_overflow ∧
    AlgebraicPass.fold_constant_checked
        (.BinaryOpExpr "%" (.IntegerExpr (-2147483648)) (.IntegerExpr (-1))) context
      = .error .division_overflow ∧
    evaluate_constant_checked context
        (.BinaryOpExpr "%" (.IntegerExpr (-2147483648)) (.IntegerExpr (-1)))
      = .error .division_overflow ∧
    (∀ v, AlgebraicPass.fold_constant_checked
        (.BinaryOpExpr op (.IntegerExpr a) (.IntegerExpr b)) context = .ok v →
      AlgebraicPass.fold_constant (.BinaryOpExpr op (.IntegerExpr a) (.IntegerExpr b)) context = v ∧
      evaluate_constant context (.BinaryOpExpr op (.IntegerExpr a) (.IntegerExpr b)) = v) ∧
    (∀ lhs rhs : Expr, is_constant context lhs = true → is_constant context rhs = true →
      AlgebraicPass.fold_constant_checked (.BinaryOpExpr op lhs rhs) context =
        evaluate_constant_checked context (.BinaryOpExpr op lhs rhs)) := by
  have hlit := fold_constant_checked_eq context op (.IntegerExpr a) (.IntegerExpr b) ⟨rfl, rfl⟩
  refine ⟨hlit, ?_, ?_, ?_, ?_, ?_, ?_, ?_, ?_, ?_, ?_⟩
  · simp [AlgebraicPass.fold_constant_checked, evaluate_constant_checked,
      AlgebraicPass.fold_binary_checked]
  · simp [evaluate_constant_checked, is_constant, BinaryOpExpr.evaluate_checked]
  · simp [AlgebraicPass.fold_constant_checked, evaluate_constant_checked,
      AlgebraicPass.fold_binary_checked]
  · simp [evaluate_constant_checked, is_constant, BinaryOpExpr.evaluate_checked]
  · rfl
  · rfl
  · rfl
  · rfl
  · intro v hv
    exact ⟨fold_constant_checked_ok context _ v hv,
      evaluate_constant_checked_ok context _ v (hlit ▸ hv)⟩
  · intro lhs rhs h1 h2
    exact fold_constant_checked_eq context op lhs rhs ⟨h1, h2⟩

/-- Witness for C40: on `-7 % 2` both return `-1`, and on `x * 3` with the constant `x = 5` of
the sample scope both return 15. -/
theorem C40_folder_agrees_with_evaluator_witness :
    AlgebraicPass.fold_constant_checked
        (.BinaryOpExpr "%" (.IntegerExpr (-7)) (.IntegerExpr 2)) {} = .ok (-1) ∧
    evaluate_constant_checked {} (.BinaryOpExpr "%" (.IntegerExpr (-7)) (.IntegerExpr 2))
      = .ok (-1) ∧
    evaluate_constant_checked outer_context (.BinaryOpExpr "*" (.IdExpr "x") (.IntegerExpr 3))
      = .ok 15 ∧
    AlgebraicPass.fold_constant_checked
        (.BinaryOpExpr "*" (.IdExpr "x") (.IntegerExpr 3)) outer_context =
      evaluate_constant_checked outer_context (.BinaryOpExpr "*" (.IdExpr "x") (.IntegerExpr 3)) :=
  ⟨rfl, rfl, rfl,
    (C40_folder_agrees_with_evaluator outer_context "*" 0 0).2.2.2.2.2.2.2.2.2.2 (.IdExpr "x")
      (.IntegerExpr 3) (by decide) (by decide)⟩

/-- C1: on the node `-2147483648 % -1`, and on `-2147483648 / -1`, both operands are literals,
so `AlgebraicPass::optimize_expr` takes its folding branch, and `fold_constant` executes
`lhs_val % rhs_val` (or `/`), the one division whose behaviour is undefined and which traps: the
pass returns no literal, while the remainder under 32-bit signed semantics is 0 and the
quotient, reduced to 32 bits, the least `int`.  For every other pair of literals and every
binary operator (with `b != 0` for `/` and `%`) the pass returns the literal that holds the
direct evaluation of `a op b`. -/
theorem C1_fold_binary_literals :
    AlgebraicPass.is_constant_foldable
        (.BinaryOpExpr "%" (.IntegerExpr (-2147483648)) (.IntegerExpr (-1))) {} = true ∧
    AlgebraicPass.fold_constant_checked
        (.BinaryOpExpr "%" (.IntegerExpr (-2147483648)) (.IntegerExpr (-1))) {}
      = .error .division_overflow ∧
    AlgebraicPass.optimize_expr_checked {}
        (.BinaryOpExpr "%" (.IntegerExpr (-2147483648)) (.IntegerExpr (-1)))
      = .error .division_overflow ∧
    direct_eval "%" (-2147483648) (-1) = some 0 ∧
    AlgebraicPass.optimize_expr_checked {}
        (.BinaryOpExpr "/" (.IntegerExpr (-2147483648)) (.IntegerExpr (-1)))
      = .error .division_overflow ∧
    direct_eval "/" (-2147483648) (-1) = some (-2147483648) ∧
    (∀ (context : Context) (op : String) (a b : Int), op ∈ binary_ops →
      (op = "/" ∨ op = "%" → b ≠ 0 ∧ ¬ (a = -2147483648 ∧ b = -1)) →
      ∃ v, direct_eval op a b = some v ∧
        AlgebraicPass.optimize_expr_checked context
          (.BinaryOpExpr op (.IntegerExpr a) (.IntegerExpr b)) =
            .ok (some (.IntegerExpr v), .BinaryOpExpr op (.IntegerExpr a) (.IntegerExpr b)) ∧
        (AlgebraicPass.optimize_expr context
          (.BinaryOpExpr op (.IntegerExpr a) (.IntegerExpr b))).1 = some (.IntegerExpr v)) := by
  refine ⟨by decide, rfl, rfl, by decide, rfl, by decide, ?_⟩
  intro context op a b hop hdiv
  suffices hrun : ∃ v, direct_eval op a b = some v ∧
      AlgebraicPass.optimize_expr_checked context
        (.BinaryOpExpr op (.IntegerExpr a) (.IntegerExpr b)) =
          .ok (some (.IntegerExpr v), .BinaryOpExpr op (.IntegerExpr a) (.IntegerExpr b)) by
    obtain ⟨v, hv, hok⟩ := hrun
    exact ⟨v, hv, hok, by rw [optimize_expr_checked_ok context _ _ hok]⟩
  simp only [binary_ops, List.mem_cons, List.mem_singleton, List.not_mem_nil, or_false] at hop
  rcases hop with h | h | h | h | h | h | h | h | h | h | h | h | h <;> subst h
  all_goals
    simp [direct_eval, AlgebraicPass.optimize_expr_checked, AlgebraicPass.is_constant_foldable,
      AlgebraicPass.fold_constant_checked, AlgebraicPass.fold_binary_checked, is_constant,
      evaluate_constant_checked, checked_div, checked_rem, b2i] at hdiv ⊢
  all_goals
    first
    | (obtain ⟨hb, hfit⟩ := hdiv
       have hpair : ¬ (a = -2147483648 ∧ b = -1) := fun h => hfit h.1 h.2
       simp [hb, hpair, tdiv_eq_trunc_div, tmod_eq_c_rem])
    | (by_cases ha : a = 0 <;> by_cases hb : b = 0 <;> simp [ha, hb])

/-- Witness for C1: `-7 / 2` is folded to the literal `-3`. -/
theorem C1_fold_binary_literals_witness :
    "/" ∈ binary_ops ∧
    ∃ v, direct_eval "/" (-7) 2 = some v ∧
      AlgebraicPass.optimize_expr_checked {}
        (.BinaryOpExpr "/" (.IntegerExpr (-7)) (.IntegerExpr 2)) =
          .ok (some (.IntegerExpr v), .BinaryOpExpr "/" (.IntegerExpr (-7)) (.IntegerExpr 2)) ∧
      (AlgebraicPass.optimize_expr {}
        (.BinaryOpExpr "/" (.IntegerExpr (-7)) (.IntegerExpr 2))).1 = some (.IntegerExpr v) :=
  ⟨by decide,
    C1_fold_binary_literals.2.2.2.2.2.2 {} "/" (-7) 2 (by decide)
      (fun _ => ⟨by decide, by decide⟩)⟩

/-! ## One pass from the root -/

theorem identity_result (op : String) (lhs rhs x : Expr)
    (h : AlgebraicPass.identity op lhs rhs = some x) :
    x = lhs ∨ x = rhs ∨ x = .IntegerExpr 0 := by
  unfold AlgebraicPass.identity at h
  simp only [clone] at h
  split_ifs at h
  all_goals first
    | (cases h; exact Or.inl rfl)
    | (cases h; exact Or.inr (Or.inl rfl))
    | (cases h; exact Or.inr (Or.inr rfl))
    | (split at h
       · split_ifs at h
         cases h
         exact Or.inr (Or.inr rfl)
       · cases h)

theorem optimize_return (context : Context) (e : Expr) :
    AlgebraicPass.optimize_stmt context (.ReturnStmt (some e)) =
      .ReturnStmt (some (AlgebraicPass.updated (AlgebraicPass.optimize_expr context e))) := by
  simp [AlgebraicPass.optimize_stmt]

/-- C10 (amended): the pass simplifies the return expression at its root, in one pass, and
examines no node twice.  For every expression held by a return statement, after
`AlgebraicPass::optimize_stmt`: a binary or unary operation whose operands are constant under
the Context has become the single integer literal `fold_constant` returned; for `x` not
constant, `x+0`, `0+x`, `x-0`, `x*1` have become `x` and `x*0` the literal `0`; a binary node
that is not foldable and matches an identity of `optimize_binary_op` has become the operand the
identity names, as it was, or the literal `0`; and every other binary node is the same operator
on what the pass made of its two operands, whatever that is: when both have become literals
the node still is that operator on the two literals, and no identity is tried on it again. -/
theorem C10_root_simplification (context : Context) (e : Expr) :
    (AlgebraicPass.is_constant_foldable e context = true →
      ∀ v, AlgebraicPass.fold_constant_checked e context = .ok v →
        AlgebraicPass.optimize_stmt context (.ReturnStmt (some e))
          = .ReturnStmt (some (.IntegerExpr v))) ∧
    (is_constant context e = false →
      AlgebraicPass.optimize_stmt context (.ReturnStmt (some (.BinaryOpExpr "+" e (.IntegerExpr 0))))
        = .ReturnStmt (some e) ∧
      AlgebraicPass.optimize_stmt context (.ReturnStmt (some (.BinaryOpExpr "+" (.IntegerExpr 0) e)))
        = .ReturnStmt (some e) ∧
      AlgebraicPass.optimize_stmt context (.ReturnStmt (some (.BinaryOpExpr "-" e (.IntegerExpr 0))))
        = .ReturnStmt (some e) ∧
      AlgebraicPass.optimize_stmt context (.ReturnStmt (some (.BinaryOpExpr "*" e (.IntegerExpr 1))))
        = .ReturnStmt (some e) ∧
      AlgebraicPass.optimize_stmt context (.ReturnStmt (some (.BinaryOpExpr "*" e (.IntegerExpr 0))))
        = .ReturnStmt (some (.IntegerExpr 0))) ∧
    (∀ (op : String) (lhs rhs x : Expr),
      AlgebraicPass.is_constant_foldable (.BinaryOpExpr op lhs rhs) context = false →
      AlgebraicPass.identity op lhs rhs = some x →
      AlgebraicPass.optimize_stmt context (.ReturnStmt (some (.BinaryOpExpr op lhs rhs)))
        = .ReturnStmt (some x) ∧
      (x = lhs ∨ x = rhs ∨ x = .IntegerExpr 0)) ∧
    (∀ (op : String) (lhs rhs : Expr) (l r : Option Expr × Expr),
      AlgebraicPass.is_constant_foldable (.BinaryOpExpr op lhs rhs) context = false →
      AlgebraicPass.identity op lhs rhs = none →
      AlgebraicPass.optimize_expr_checked context lhs = .ok l →
      AlgebraicPass.optimize_expr_checked context rhs = .ok r →
      AlgebraicPass.optimize_stmt context (.ReturnStmt (some (.BinaryOpExpr op lhs rhs)))
        = .ReturnStmt (some
            (.BinaryOpExpr op (AlgebraicPass.updated l) (AlgebraicPass.updated r))) ∧
      (∀ a b : Int, AlgebraicPass.updated l = .IntegerExpr a →
        AlgebraicPass.updated r = .IntegerExpr b →
        AlgebraicPass.optimize_stmt context (.ReturnStmt (some (.BinaryOpExpr op lhs rhs)))
          = .ReturnStmt (some (.BinaryOpExpr op (.IntegerExpr a) (.IntegerExpr b))))) := by
  refine ⟨?_, ?_, ?_, ?_⟩
  · intro hf v hv
    rw [optimize_return]
    have hval := fold_constant_checked_ok context e v hv
    cases e <;>
      simp_all [AlgebraicPass.updated, AlgebraicPass.optimize_expr,
        AlgebraicPass.is_constant_foldable]
  · intro hx
    have hi := as_integer_of_not_constant context e hx
    refine ⟨?_, ?_, ?_, ?_, ?_⟩ <;>
      simp [AlgebraicPass.optimize_stmt, AlgebraicPass.updated, AlgebraicPass.optimize_expr,
        AlgebraicPass.is_constant_foldable, is_constant, hx,
        AlgebraicPass.optimize_binary_op_body, as_integer_literal, hi, clone]
  · intro op lhs rhs x hf hid
    refine ⟨?_, identity_result op lhs rhs x hid⟩
    rw [optimize_return, AlgebraicPass.optimize_expr]
    simp only [hf, Bool.false_eq_true, if_false]
    rw [optimize_binary_op_body_eq, hid]
    rfl
  · intro op lhs rhs l r hf hid hl hr
    have hmain : AlgebraicPass.optimize_stmt context
        (.ReturnStmt (some (.BinaryOpExpr op lhs rhs))) =
        .ReturnStmt (some
          (.BinaryOpExpr op (AlgebraicPass.updated l) (AlgebraicPass.updated r))) := by
      rw [optimize_return, AlgebraicPass.optimize_expr]
      simp only [hf, Bool.false_eq_true, if_false]
      rw [optimize_binary_op_body_eq, hid, optimize_expr_checked_ok context lhs l hl,
        optimize_expr_checked_ok context rhs r hr]
      rfl
    refine ⟨hmain, ?_⟩
    intro a b ha hb
    rw [hmain, ha, hb]

/-- Witness for C10 (amended): `return 2+3;` becomes `return 5;`, `return x+0;` becomes
`return x;`, and `return (x*0)*2;` becomes `return 0*2;`, the product of the two literals its
operands became. -/
theorem C10_root_simplification_witness :
    AlgebraicPass.optimize_stmt {} (.ReturnStmt (some
        (.BinaryOpExpr "+" (.IntegerExpr 2) (.IntegerExpr 3))))
      = .ReturnStmt (some (.IntegerExpr 5)) ∧
    AlgebraicPass.optimize_stmt {} (.ReturnStmt (some
        (.BinaryOpExpr "+" (.IdExpr "x") (.IntegerExpr 0))))
      = .ReturnStmt (some (.IdExpr "x")) ∧
    AlgebraicPass.optimize_stmt {} (.ReturnStmt (some
        (.BinaryOpExpr "*" (.BinaryOpExpr "*" (.IdExpr "x") (.IntegerExpr 0)) (.IntegerExpr 2))))
      = .ReturnStmt (some (.BinaryOpExpr "*" (.IntegerExpr 0) (.IntegerExpr 2))) :=
  ⟨(C10_root_simplification {} (.BinaryOpExpr "+" (.IntegerExpr 2) (.IntegerExpr 3))).1
      (by decide) 5 rfl,
    ((C10_root_simplification {} (.IdExpr "x")).2.1 (by decide)).1,
    ((C10_root_simplification {} (.IdExpr "x")).2.2.2 "*"
      (.BinaryOpExpr "*" (.IdExpr "x") (.IntegerExpr 0)) (.IntegerExpr 2)
      (some (.IntegerExpr 0), .BinaryOpExpr "*" (.IdExpr "x") (.IntegerExpr 0))
      (none, .IntegerExpr 2) (by decide) rfl rfl rfl).2 0 2 rfl rfl⟩

/-! ## The tail-recursion pass over a program -/

theorem run_function_fst (func : FunctionDecl) (cout : List String) :
    (TailRecursionPass.run_function func cout).1 = (TailRecursionPass.run_function func []).1 := by
  unfold TailRecursionPass.run_function
  split
  · cases TailRecursionPass.convert_to_loop func <;> rfl
  · rfl

theorem run_fst : ∀ (funcs : List FunctionDecl) (cout : List String),
    (TailRecursionPass.run funcs cout).1 =
      funcs.map (fun func => (TailRecursionPass.run_function func []).1)
  | [], _ => rfl
  | func :: rest, cout => by
    simp only [TailRecursionPass.run, List.map_cons]
    rw [run_fst rest, run_function_fst]

/-- C18: let `func` be the function at any position `i` of a program, accepted by
`is_tail_recursive`.  After `TailRecursionPass::run` the program has as many functions as
before.  If the parameters of `func` are exactly `p` and `q`, the function at position `i` is
`func` with its body replaced by the block `[decl p = p; decl q = q; { while (p > 0) { q = q +
p; p = p - 1; } return q; }]` and nothing else changed; if `func` has another number of
parameters, `convert_to_loop` returns nothing and the function at position `i` is `func` as it
was. -/
theorem C18_two_parameter_loop (funcs : List FunctionDecl) (cout : List String) (i : Nat)
    (func : FunctionDecl) (hi : funcs[i]? = some func)
    (haccept : TailRecursionPass.is_tail_recursive func = true) :
    (TailRecursionPass.run funcs cout).1.length = funcs.length ∧
    (∀ (p q : Parameter), func.parameters = [p, q] →
      (TailRecursionPass.run funcs cout).1[i]? =
        some { func with body := some (.BlockStmt [
            .DeclStmt p.name (some (.IdExpr p.name)),
            .DeclStmt q.name (some (.IdExpr q.name)),
            .BlockStmt [
              .WhileStmt (.BinaryOpExpr ">" (.IdExpr p.name) (.IntegerExpr 0))
                (.BlockStmt [
                  .ExprStmt (.AssignExpr q.name (.BinaryOpExpr "+" (.IdExpr q.name) (.IdExpr p.name))),
                  .ExprStmt (.AssignExpr p.name (.BinaryOpExpr "-" (.IdExpr p.name) (.IntegerExpr 1)))]),
              .ReturnStmt (some (.IdExpr q.name))]]) }) ∧
    (func.parameters.length ≠ 2 →
      TailRecursionPass.convert_to_loop func = none ∧
      (TailRecursionPass.run funcs cout).1[i]? = some func) := by
  have hbody : func.body.isSome = true := by
    unfold TailRecursionPass.is_tail_recursive at haccept
    cases hb : func.body with
    | none => rw [hb] at haccept; simp at haccept
    | some b => rfl
  have hat : (TailRecursionPass.run funcs cout).1[i]? =
      some (TailRecursionPass.run_function func []).1 := by
    rw [run_fst, List.getElem?_map, hi]
    rfl
  refine ⟨by rw [run_fst, List.length_map], ?_, ?_⟩
  · intro p q hpq
    rw [hat]
    simp [TailRecursionPass.run_function, TailRecursionPass.convert_to_loop, haccept, hbody, hpq,
      TailRecursionPass.loop_for]
  · intro hlen
    have hnone : TailRecursionPass.convert_to_loop func = none := by
      unfold TailRecursionPass.convert_to_loop
      split
      · rename_i p q hpq; rw [hpq] at hlen; simp at hlen
      · rfl
    refine ⟨hnone, ?_⟩
    rw [hat]
    simp [TailRecursionPass.run_function, haccept, hbody, hnone]

/-- Witness for C18: in the program `last, sum` the pass replaces the body of `sum`, the
function at position 1. -/
theorem C18_two_parameter_loop_witness :
    TailRecursionPass.is_tail_recursive sum_function = true ∧
    ((TailRecursionPass.run [plain_return_function, sum_function] []).1[1]?).map
        (fun func => func.body) =
      some (some (.BlockStmt [
        .DeclStmt "n" (some (.IdExpr "n")),
        .DeclStmt "acc" (some (.IdExpr "acc")),
        .BlockStmt [
          .WhileStmt (.BinaryOpExpr ">" (.IdExpr "n") (.IntegerExpr 0))
            (.BlockStmt [
              .ExprStmt (.AssignExpr "acc" (.BinaryOpExpr "+" (.IdExpr "acc") (.IdExpr "n"))),
              .ExprStmt (.AssignExpr "n" (.BinaryOpExpr "-" (.IdExpr "n") (.IntegerExpr 1)))]),
          .ReturnStmt (some (.IdExpr "acc"))]])) :=
  ⟨by decide, by
    rw [(C18_two_parameter_loop [plain_return_function, sum_function] [] 1 sum_function rfl
      (by decide)).2.1 { type := "int", name := "n" } { type := "int", name := "acc" } rfl]
    rfl⟩

/-! ## Invariant statements stay in the loop -/

/-- C16: for every while loop with at least one top-level statement of its body classified as
invariant, what `optimize_loop` leaves is the same while statement with a new body: a block that
starts with the invariant statements, in their original order, followed by one block holding
the remaining top-level statements.  Every invariant statement is therefore still a statement
of the loop body, at its top level, and the function, which is handed the loop alone, puts
nothing in front of it. -/
theorem C16_invariants_first_in_loop_body (condition : Expr) (body : Stmt)
    (hinv : ∃ s ∈ top_level body, LoopInvariantPass.is_invariant_stmt s body = true) :
    LoopInvariantPass.optimize_loop condition body =
      .WhileStmt condition (.BlockStmt
        ((top_level body).filter (fun s => LoopInvariantPass.is_invariant_stmt s body) ++
          [.BlockStmt ((top_level body).filter
            (fun s => !LoopInvariantPass.is_invariant_stmt s body))])) ∧
    (∀ s ∈ top_level body, LoopInvariantPass.is_invariant_stmt s body = true →
      ∃ new_body, LoopInvariantPass.optimize_loop condition body = .WhileStmt condition new_body ∧
        s ∈ top_level new_body) := by
  obtain ⟨s, hs, hs'⟩ := hinv
  have hne : ((top_level body).filter
      (fun s => LoopInvariantPass.is_invariant_stmt s body)).isEmpty = false := by
    cases hf : (top_level body).filter (fun s => LoopInvariantPass.is_invariant_stmt s body) with
    | nil =>
      have : s ∈ (top_level body).filter (fun s => LoopInvariantPass.is_invariant_stmt s body) :=
        List.mem_filter.2 ⟨hs, hs'⟩
      rw [hf] at this
      simp at this
    | cons a l => rfl
  have hmain : LoopInvariantPass.optimize_loop condition body =
      .WhileStmt condition (.BlockStmt
        ((top_level body).filter (fun s => LoopInvariantPass.is_invariant_stmt s body) ++
          [.BlockStmt ((top_level body).filter
            (fun s => !LoopInvariantPass.is_invariant_stmt s body))])) := by
    simp only [LoopInvariantPass.optimize_loop, extract_invariants_eq, hne,
      LoopInvariantPass.create_optimized_loop_body]
    simp
  refine ⟨hmain, ?_⟩
  intro s1 hs1 hinv1
  refine ⟨_, hmain, ?_⟩
  simp only [top_level, List.mem_append, List.mem_singleton]
  exact Or.inl (List.mem_filter.2 ⟨hs1, hinv1⟩)

/-- Witness for C16: in `while (i < n) { int k = a + 1; s = s + k; i = i + 1; }` the
declaration of `k` is invariant; after `optimize_loop` it is the first statement of the loop
body. -/
theorem C16_invariants_first_in_loop_body_witness :
    LoopInvariantPass.optimize_loop (.BinaryOpExpr "<" (.IdExpr "i") (.IdExpr "n")) summing_body =
      .WhileStmt (.BinaryOpExpr "<" (.IdExpr "i") (.IdExpr "n"))
        (.BlockStmt [
          .DeclStmt "k" (some (.BinaryOpExpr "+" (.IdExpr "a") (.IntegerExpr 1))),
          .BlockStmt [
            .ExprStmt (.AssignExpr "s" (.BinaryOpExpr "+" (.IdExpr "s") (.IdExpr "k"))),
            .ExprStmt (.AssignExpr "i" (.BinaryOpExpr "+" (.IdExpr "i") (.IntegerExpr 1)))]]) :=
  (C16_invariants_first_in_loop_body (.BinaryOpExpr "<" (.IdExpr "i") (.IdExpr "n")) summing_body
    ⟨.DeclStmt "k" (some (.BinaryOpExpr "+" (.IdExpr "a") (.IntegerExpr 1))),
      by simp [top_level, summing_body], by decide⟩).1

/-! ## The compiled loop of tail-recursion elimination -/

/-- C32: for `int sum(int n, int acc)` the pass builds the loop `while (n > 0) { acc = acc + n;
n = n - 1; } return acc;`, and `FunctionDecl::generate_code` writes for the function the lines
of `sum_converted_code`.  In them the test `n > 0` loads its right operand with `mv t1, zero`
while the register record still has `acc` in `t1`, so the next statement takes `acc` from `t1`
(`# acc already in t1`, `mv t0, t1`) and stores `0 + n` as the new `acc`.  Run on the target
machine with `n = 4`, `acc = 100`, the code returns 1, the last value added, where
`100 + 4 * 5 / 2` is 110; with `n = 1` it returns 1 for 101; with `n = 0`, where the loop
body is never entered, it returns `acc`. -/
theorem C32_compiled_loop_loses_accumulator :
    TailRecursionPass.convert_to_loop sum_function =
      some (TailRecursionPass.loop_for "n" "acc") ∧
    (TailRecursionPass.run [sum_function] []).1 = [sum_converted] ∧
    (sum_converted.generate_code {} {}).toOption.map (fun r => r.2.os) =
      some (sum_converted_code.map Instr.line) ∧
    Machine.run sum_converted_code 150 (Machine.call 4 100) = some 1 ∧
    wrap32 (100 + 4 * (4 + 1) / 2) = 110 ∧
    Machine.run sum_converted_code 150 (Machine.call 1 100) = some 1 ∧
    Machine.run sum_converted_code 150 (Machine.call 0 100) = some 100 := by
  refine ⟨rfl, rfl, by decide, by decide, by decide, by decide, by decide⟩

end ToyC
